import Mathlib

/-!
# BSP map loader (`code/rd-gl2/tr_bsp.cpp`) and surface shading
(`codemp/rd-rend2/tr_shade.cpp`): a verification development

The loader's integer-level behaviour is embedded as executable Lean
definitions, one per source function, keeping the source names.  Machine
`int`s are `Int`s; where the source relies on 32-bit wrap-around or on a
signed/unsigned conversion the conversion is written out (`wrap32`, `toU32`).
Fatal errors (`ri.Error( ERR_DROP, ... )`, which never returns) are the
`Except.error` outcome carrying the message of the source.

`float`s that are only stored, copied or compared are values of a type
argument, with the comparisons as arguments.  Where their arithmetic matters
a `float` is the rational number it stands for and an operation rounds its
exact result to the nearest `float` (`round32`); the scaling of a colour by a
power of two is exact.
-/

namespace TrBsp

deriving instance DecidableEq for Except

/-! ## Machine integers -/

/-- A `byte` (`unsigned char`) of the source. -/
abbrev byte := Fin 256

/-- Value of an integer after it is stored into a 32-bit signed `int`
(two's complement wrap-around). -/
def wrap32 (x : Int) : Int := (x + 2147483648) % 4294967296 - 2147483648

/-- Value of a 32-bit signed `int` after conversion to `unsigned int`
(`glIndex_t`): negative values are raised by `2^32`. -/
def toU32 (x : Int) : Nat := if x < 0 then (x + 4294967296).toNat else x.toNat

/-- Value stored by the assignment of an `int` to a `byte` lvalue. -/
def toByte (x : Int) : byte := ⟨(x % 256).toNat, by omega⟩

/-- The macro `Q_max` on `int`s. -/
def Q_max (a b : Int) : Int := if a > b then a else b

/-! ## Overbright colour shift (`R_ColorShiftLightingBytes`, lines 106-132) -/

/-- Four colour bytes, `byte in[4]` / `byte out[4]`. -/
structure color4ub_t where
  c0 : byte
  c1 : byte
  c2 : byte
  c3 : byte
deriving DecidableEq, Repr

/-- Line 110: `shift = Q_max( 0, r_mapOverBrightBits->integer - tr.overbrightBits )`. -/
def colorShiftAmount (r_mapOverBrightBits overbrightBits : Int) : Int :=
  Q_max 0 (r_mapOverBrightBits - overbrightBits)

/-- The expression `x << shift` on an `int` holding a byte value: multiplication by
`2^shift`, wrapped to 32 bits. -/
def shl32 (x : Int) (shift : Int) : Int := wrap32 (x * 2 ^ shift.toNat)

/-- Lines 113-115: the shifted channels `r`, `g`, `b` before normalisation. -/
def colorShiftShifted (shift : Int) (inp : color4ub_t) : Int × Int × Int :=
  (shl32 (inp.c0.val : Int) shift, shl32 (inp.c1.val : Int) shift, shl32 (inp.c2.val : Int) shift)

/-- The test of line 118, `( r | g | b ) > 255`. -/
def colorShiftClamps (rgb : Int × Int × Int) : Bool :=
  decide (Int.lor (Int.lor rgb.1 rgb.2.1) rgb.2.2 > 255)

/-- Lines 121-122: `max = r > g ? r : g; max = max > b ? max : b`. -/
def colorShiftMax (rgb : Int × Int × Int) : Int :=
  let max := if rgb.1 > rgb.2.1 then rgb.1 else rgb.2.1
  if max > rgb.2.2 then max else rgb.2.2

/-- Lines 118-126: normalise by the largest channel instead of saturating to white.
The products `r * 255` are 32-bit `int` products and `/` truncates toward zero. -/
def colorShiftNormalize (rgb : Int × Int × Int) : Int × Int × Int :=
  let r := rgb.1
  let g := rgb.2.1
  let b := rgb.2.2
  if colorShiftClamps rgb then
    let max := colorShiftMax rgb
    (Int.tdiv (wrap32 (r * 255)) max, Int.tdiv (wrap32 (g * 255)) max,
      Int.tdiv (wrap32 (b * 255)) max)
  else
    (r, g, b)

/-- The `int` values `r`, `g`, `b` that lines 128-130 store into `out[0..2]`. -/
def colorShiftComputed (r_mapOverBrightBits overbrightBits : Int) (inp : color4ub_t) :
    Int × Int × Int :=
  colorShiftNormalize (colorShiftShifted (colorShiftAmount r_mapOverBrightBits overbrightBits) inp)

/-- `R_ColorShiftLightingBytes( in, out )`: the bytes written to `out[0..3]`, given the
cvar `r_mapOverBrightBits->integer` and the global `tr.overbrightBits`. -/
def R_ColorShiftLightingBytes (r_mapOverBrightBits overbrightBits : Int) (inp : color4ub_t) :
    color4ub_t :=
  let rgb := colorShiftComputed r_mapOverBrightBits overbrightBits inp
  { c0 := toByte rgb.1, c1 := toByte rgb.2.1, c2 := toByte rgb.2.2, c3 := inp.c3 }

/-- The colour bytes `out[0..2]` read back as integers. -/
def color4ub_t.rgb (c : color4ub_t) : Int × Int × Int :=
  ((c.c0.val : Int), (c.c1.val : Int), (c.c2.val : Int))

/-! ## On-disk records and the in-memory world

Fields are the integer fields of the source structures after `LittleLong` (the identity on a
little-endian host).  Floating-point payload (positions, normals, colours) is not represented. -/

/-- `lump_t`: byte offset and byte length of one lump of the map file. -/
structure lump_t where
  fileofs : Int := 0
  filelen : Int := 0
deriving DecidableEq, Repr

/-- `dshader_t`: the flag fields of a shader lump record. -/
structure dshader_t where
  surfaceFlags : Int := 0
  contentFlags : Int := 0
deriving DecidableEq, Repr

/-- `dsurface_t`: the integer fields of a surface lump record that the parsers read. -/
structure dsurface_t where
  shaderNum : Int := 0
  fogNum : Int := 0
  surfaceType : Int := 0
  firstVert : Int := 0
  numVerts : Int := 0
  firstIndex : Int := 0
  numIndexes : Int := 0
  patchWidth : Int := 0
  patchHeight : Int := 0
deriving DecidableEq, Repr

/-- The enumerators of `surfaceType_t` that the loader uses; `SF_BAD` is the zero value of
freshly allocated (zero-filled) surface data. -/
inductive surfaceType_t where
  | SF_BAD
  | SF_SKIP
  | SF_FACE
  | SF_GRID
  | SF_TRIANGLES
  | SF_FLARE
  | SF_VBO_MESH
  | SF_SPRITES
deriving DecidableEq, Repr

/-- `srfBspSurface_t`: the integer part of a face, grid, triangle-soup or merged surface.
`indexes` is the allocated index array (`glIndex_t *indexes`). -/
structure srfBspSurface_t where
  surfaceType : surfaceType_t := surfaceType_t.SF_BAD
  numIndexes : Int := 0
  indexes : List Nat := []
  numVerts : Int := 0
  firstIndex : Int := 0
  firstVert : Int := 0
deriving DecidableEq, Repr

/-- The fields of `shader_t` the loader looks at.  `index` is the shader's slot in
`tr.shaders` and stands for the identity of the shader object (`shader1 != shader2` compares
pointers); `requiresCPUDeforms` is the value of `ShaderRequiresCPUDeforms( shader )`, a function
defined outside this file. -/
structure shader_t where
  index : Int := 0
  sortedIndex : Int := 0
  isSky : Bool := false
  isPortal : Bool := false
  requiresCPUDeforms : Bool := false
deriving DecidableEq, Repr

/-- `msurface_t`: a world surface. -/
structure msurface_t where
  shader : shader_t := {}
  fogIndex : Int := 0
  cubemapIndex : Int := 0
  data : srfBspSurface_t := {}
deriving DecidableEq, Repr

/-- The leaf fields of `mnode_t` that surface merging reads. -/
structure mnode_t where
  firstmarksurface : Int := 0
  nummarksurfaces : Int := 0
deriving DecidableEq, Repr

/-- `world_t`: the integer state of the loaded world.  `leafs` are the entries
`nodes[numDecisionNodes ..]` of the node array. -/
structure world_t where
  numShaders : Int := 0
  shaders : List dshader_t := []
  numplanes : Int := 0
  numnodes : Int := 0
  numDecisionNodes : Int := 0
  leafs : List mnode_t := []
  numsurfaces : Int := 0
  numWorldSurfaces : Int := 0
  surfaces : List msurface_t := []
  surfacesViewCount : List Int := []
  nummarksurfaces : Int := 0
  marksurfaces : List Int := []
  viewSurfaces : List Int := []
  numMergedSurfaces : Int := 0
  mergedSurfaces : List msurface_t := []
  numfogs : Int := 0
  numBModels : Int := 0
deriving DecidableEq, Repr

/-- Read of element `i` of an `int` array; an access outside the array (undefined in the
source) reads 0. -/
def readInt (a : List Int) (i : Int) : Int :=
  if 0 ≤ i then a.getD i.toNat 0 else 0

/-- Write of element `i` of an `int` array; a write outside the array (undefined in the source)
is dropped. -/
def writeInt (a : List Int) (i : Int) (v : Int) : List Int :=
  if 0 ≤ i then a.set i.toNat v else a

/-! ## Surface parsers (`ShaderForShaderNum`, `ParseFace`, `ParseMesh`, `ParseTriSurf`) -/

/-- `ShaderForShaderNum` (lines 656-688): the range check on the shader number and the lump
record `dsh` it selects.  The lookup `R_FindShader` that follows is an external call. -/
def ShaderForShaderNum (worldData : world_t) (shaderNum : Int) : Except String dshader_t :=
  if shaderNum < 0 ∨ shaderNum ≥ worldData.numShaders then
    .error "ShaderForShaderNum: bad num"
  else
    .ok (worldData.shaders.getD shaderNum.toNat {})

/-- The body of the `j` loop of lines 798-806 (and 1059-1067), unrolled for `j = 0, 1, 2`:
`tri[j] = LittleLong(indexes[i + j])`, then the unsigned test `tri[j] >= numVerts`.
`indexes` is the pointer after `indexes += LittleLong(ds->firstIndex)`, `tri` the offset of the
output cursor from `cv->indexes`.  Returns the index array and the three values of `tri[0..2]`. -/
def copyTriangleIndexes (numVerts : Int) (indexes : Int → Int) (i : Int) (tri : Nat)
    (buf : List Nat) : Except String (List Nat × Nat × Nat × Nat) :=
  let t0 := toU32 (indexes (i + 0))
  let buf := buf.set (tri + 0) t0
  if t0 ≥ toU32 numVerts then .error "Bad index in face surface" else
  let t1 := toU32 (indexes (i + 1))
  let buf := buf.set (tri + 1) t1
  if t1 ≥ toU32 numVerts then .error "Bad index in face surface" else
  let t2 := toU32 (indexes (i + 2))
  let buf := buf.set (tri + 2) t2
  if t2 ≥ toU32 numVerts then .error "Bad index in face surface" else
  .ok (buf, t0, t1, t2)

/-- The loop `for(i = 0, tri = cv->indexes; i < numIndexes; i += 3, tri += 3)` of lines
796-813 (and 1057-1074), with loop counter `i`, output cursor `tri`, index array `buf` and
`badTriangles`; a degenerate triangle does `tri -= 3`, so the cursor stays.  The first argument
bounds the number of iterations. -/
def copyTriangles (numVerts numIndexes : Int) (indexes : Int → Int) :
    Nat → Int → Nat → List Nat → Int → Except String (List Nat × Int)
  | 0, _, _, buf, badTriangles => .ok (buf, badTriangles)
  | fuel + 1, i, tri, buf, badTriangles =>
    if i < numIndexes then
      match copyTriangleIndexes numVerts indexes i tri buf with
      | .error e => .error e
      | .ok (buf, t0, t1, t2) =>
        if t0 = t1 ∨ t1 = t2 ∨ t0 = t2 then
          copyTriangles numVerts numIndexes indexes fuel (i + 3) tri buf (badTriangles + 1)
        else
          copyTriangles numVerts numIndexes indexes fuel (i + 3) (tri + 3) buf badTriangles
    else
      .ok (buf, badTriangles)

/-- Lines 726-736 and 793-819 (and 985-996, 1054-1080): allocate the zero-filled index array,
copy the triangles and, when triangles were dropped, `cv->numIndexes -= badTriangles * 3`.
At most `numIndexes` iterations are needed since `i` grows by 3. -/
def parseIndexes (surfaceType : surfaceType_t) (numVerts : Int) (ds : dsurface_t)
    (indexes : Int → Int) : Except String srfBspSurface_t :=
  let numIndexes := ds.numIndexes
  match copyTriangles numVerts numIndexes (fun k => indexes (ds.firstIndex + k))
      numIndexes.toNat 0 0 (List.replicate numIndexes.toNat 0) 0 with
  | .error e => .error e
  | .ok (buf, badTriangles) =>
    .ok { surfaceType := surfaceType
          numIndexes := if badTriangles ≠ 0 then numIndexes - badTriangles * 3 else numIndexes
          indexes := buf
          numVerts := numVerts }

/-- Lines 719-724 of `ParseFace`: `numVerts = LittleLong(ds->numVerts)`, clamped to
`MAX_FACE_POINTS`; this is the value stored in `cv->numVerts`. -/
def faceNumVerts (MAX_FACE_POINTS : Int) (ds : dsurface_t) : Int :=
  if ds.numVerts > MAX_FACE_POINTS then MAX_FACE_POINTS else ds.numVerts

/-- `ParseFace` (lines 695-845): shader lookup, the `MAX_FACE_POINTS` clamp of the vertex
count, and the triangle copy.  `indexes` is the draw-index lump viewed as an `int` array
(`indexes k` is element `k`).  The constant `MAX_FACE_POINTS` is declared outside this file. -/
def ParseFace (MAX_FACE_POINTS : Int) (worldData : world_t) (ds : dsurface_t)
    (indexes : Int → Int) : Except String srfBspSurface_t :=
  match ShaderForShaderNum worldData ds.shaderNum with
  | .error e => .error e
  | .ok _ => parseIndexes surfaceType_t.SF_FACE (faceNumVerts MAX_FACE_POINTS ds) ds indexes

/-- `ParseTriSurf` (lines 963-1095): shader lookup and the triangle copy. -/
def ParseTriSurf (worldData : world_t) (ds : dsurface_t) (indexes : Int → Int) :
    Except String srfBspSurface_t :=
  match ShaderForShaderNum worldData ds.shaderNum with
  | .error e => .error e
  | .ok _ => parseIndexes surfaceType_t.SF_TRIANGLES ds.numVerts ds indexes

/-- What `ParseMesh` stores in `surf->data`: the shared `skipData` (`SF_SKIP`), or the grid
that the external `R_SubdividePatchToGrid( width, height, points )` returns. -/
inductive meshData_t where
  | skipData
  | grid (width height : Int)
deriving DecidableEq, Repr

/-- `ParseMesh` (lines 853-956): shader lookup, the early return for a `SURF_NODRAW` shader,
then the size check.  `MAX_PATCH_SIZE` and the flag bit `SURF_NODRAW` are declared outside
this file. -/
def ParseMesh (MAX_PATCH_SIZE : Int) (SURF_NODRAW : Nat) (worldData : world_t)
    (ds : dsurface_t) : Except String meshData_t :=
  match ShaderForShaderNum worldData ds.shaderNum with
  | .error e => .error e
  | .ok dsh =>
    if Int.land dsh.surfaceFlags (SURF_NODRAW : Int) ≠ 0 then
      .ok meshData_t.skipData
    else
      let width := ds.patchWidth
      let height := ds.patchHeight
      if width < 0 ∨ width > MAX_PATCH_SIZE ∨ height < 0 ∨ height > MAX_PATCH_SIZE then
        .error "ParseMesh: bad size"
      else
        .ok (meshData_t.grid width height)

/-- The `m` index triples that start at offset `i` of an index array, read as unsigned
values. -/
def trianglesFrom (idx : Int → Int) : Int → Nat → List (Nat × Nat × Nat)
  | _, 0 => []
  | i, m + 1 =>
    (toU32 (idx i), toU32 (idx (i + 1)), toU32 (idx (i + 2))) :: trianglesFrom idx (i + 3) m

/-- The input triangles of a record whose index count is a multiple of 3: the index triples
at offsets `0, 3, 6, ...` of the record's index range, read as unsigned values. -/
def recordTriangles (ds : dsurface_t) (indexes : Int → Int) : List (Nat × Nat × Nat) :=
  trianglesFrom (fun k => indexes (ds.firstIndex + k)) 0 (ds.numIndexes.toNat / 3)

/-- A triangle with two equal indices. -/
def degenerate (t : Nat × Nat × Nat) : Bool :=
  decide (t.1 = t.2.1 ∨ t.2.1 = t.2.2 ∨ t.1 = t.2.2)

/-- The three indices of each triangle, in order. -/
def flattenTriangles (ts : List (Nat × Nat × Nat)) : List Nat :=
  ts.flatMap fun t => [t.1, t.2.1, t.2.2]

/-! ## Fixed-record lump loaders

Each loader is embedded up to the point where it has validated its lumps and stored the record
counts; the record sizes `sizeof(dsurface_t)` etc. come from a header outside this file and are
parameters.  The copy of the record payload that follows in the source is not represented.
Sums of two `int`s (`count + 1`, `numNodes + numLeafs`) are exact: signed overflow is undefined
in the source and cannot occur for counts of records of two or more bytes. -/

/-- Conversion of an `int` to `size_t` (64 bits), as in `l->filelen % sizeof(*in)`. -/
def toSizeT (x : Int) : Nat := if x < 0 then (x + 18446744073709551616).toNat else x.toNat

/-- The test `l->filelen % sizeof(*in)` of every loader, computed in `size_t`. -/
def lumpFunny (l : lump_t) (recordSize : Nat) : Bool :=
  toSizeT l.filelen % recordSize != 0

/-- The assignment `count = l->filelen / sizeof(*in)`: a `size_t` quotient stored in an `int`. -/
def lumpCount (l : lump_t) (recordSize : Nat) : Int :=
  wrap32 ((toSizeT l.filelen / recordSize : Nat) : Int)

/-- A lump length that is a byte length: not negative and representable in an `int`. -/
def lump_t.valid (l : lump_t) : Prop := 0 ≤ l.filelen ∧ l.filelen < 2147483648

instance (l : lump_t) : Decidable l.valid := inferInstanceAs (Decidable (_ ∧ _))

/-- How a loader leaves: the world as it stands and the fatal error raised, if any. -/
structure LoadOutcome where
  world : world_t
  error : Option String
deriving DecidableEq, Repr

/-- The call `ri.Error (ERR_DROP, "LoadMap: funny lump size in %s", worldData->name)`. -/
def funnyLumpSize (worldData : world_t) : LoadOutcome :=
  { world := worldData, error := some "LoadMap: funny lump size" }

/-- `R_LoadSurfaces`, lines 2149-2164: the three lump checks and `numsurfaces = count`. -/
def R_LoadSurfaces (sizeof_dsurface_t sizeof_drawVert_t : Nat) (worldData : world_t)
    (surfs verts indexLump : lump_t) : LoadOutcome :=
  if lumpFunny surfs sizeof_dsurface_t then funnyLumpSize worldData else
  let count := lumpCount surfs sizeof_dsurface_t
  if lumpFunny verts sizeof_drawVert_t then funnyLumpSize worldData else
  if lumpFunny indexLump 4 then funnyLumpSize worldData else
  { world := { worldData with numsurfaces := count }, error := none }

/-- `R_LoadSubmodels`, lines 2286-2291: the lump check and `numBModels = count`. -/
def R_LoadSubmodels (sizeof_dmodel_t : Nat) (worldData : world_t) (l : lump_t) : LoadOutcome :=
  if lumpFunny l sizeof_dmodel_t then funnyLumpSize worldData else
  let count := lumpCount l sizeof_dmodel_t
  { world := { worldData with numBModels := count }, error := none }

/-- `R_LoadNodesAndLeafs`, lines 2356-2368: the combined check of both lumps,
`numnodes = numNodes + numLeafs` and `numDecisionNodes = numNodes`. -/
def R_LoadNodesAndLeafs (sizeof_dnode_t sizeof_dleaf_t : Nat) (worldData : world_t)
    (nodeLump leafLump : lump_t) : LoadOutcome :=
  if lumpFunny nodeLump sizeof_dnode_t || lumpFunny leafLump sizeof_dleaf_t then
    funnyLumpSize worldData
  else
    let numNodes := lumpCount nodeLump sizeof_dnode_t
    let numLeafs := lumpCount leafLump sizeof_dleaf_t
    { world := { worldData with numnodes := numNodes + numLeafs
                                numDecisionNodes := numNodes }
      error := none }

/-- `R_LoadShaders`, lines 2430-2437: the lump check and `numShaders = count`. -/
def R_LoadShaders (sizeof_dshader_t : Nat) (worldData : world_t) (l : lump_t) : LoadOutcome :=
  if lumpFunny l sizeof_dshader_t then funnyLumpSize worldData else
  let count := lumpCount l sizeof_dshader_t
  { world := { worldData with numShaders := count }, error := none }

/-- `R_LoadMarksurfaces`, lines 2459-2466: the lump check (records are `int`s) and
`nummarksurfaces = count`. -/
def R_LoadMarksurfaces (worldData : world_t) (l : lump_t) : LoadOutcome :=
  if lumpFunny l 4 then funnyLumpSize worldData else
  let count := lumpCount l 4
  { world := { worldData with nummarksurfaces := count }, error := none }

/-- `R_LoadPlanes`, lines 2488-2495: the lump check and `numplanes = count`. -/
def R_LoadPlanes (sizeof_dplane_t : Nat) (worldData : world_t) (l : lump_t) : LoadOutcome :=
  if lumpFunny l sizeof_dplane_t then funnyLumpSize worldData else
  let count := lumpCount l sizeof_dplane_t
  { world := { worldData with numplanes := count }, error := none }

/-- `R_LoadFogs`, lines 2531-2557: the fog lump check, `numfogs = count + 1`, the early return
for an empty fog lump, then the checks of the brush and brush-side lumps. -/
def R_LoadFogs (sizeof_dfog_t sizeof_dbrush_t sizeof_dbrushside_t : Nat) (worldData : world_t)
    (l brushesLump sidesLump : lump_t) : LoadOutcome :=
  if lumpFunny l sizeof_dfog_t then funnyLumpSize worldData else
  let count := lumpCount l sizeof_dfog_t
  let worldData := { worldData with numfogs := count + 1 }
  if count = 0 then { world := worldData, error := none } else
  if lumpFunny brushesLump sizeof_dbrush_t then funnyLumpSize worldData else
  if lumpFunny sidesLump sizeof_dbrushside_t then funnyLumpSize worldData else
  { world := worldData, error := none }

/-! ## World vertex/index buffer batching (`R_CreateWorldVBOs`, lines 1889-2127)

The pointers `firstSurf`, `lastSurf`, `currSurf` into `surfacesSorted` are represented by the
part of the sorted list that lies at and after the pointer; the surfaces between `firstSurf`
and `lastSurf` form the batch.  The byte sizes are `int`s.  The statement
`addVboSize += bspSurf->numVerts * sizeof(srfVert_t)` forms product and sum in `size_t` and
stores the result back into the `int`, so that the new value is `wrap32` of the exact sum.  The
`int` sums `addVboSize + currVboSize` and `currVboSize += addVboSize` leave the range of an
`int` only where the source has no defined behaviour; they are taken to wrap likewise. -/

/-- `maxVboSize = 64 * 1024 * 1024`. -/
def maxVboSize : Int := 64 * 1024 * 1024

/-- `maxIboSize = 16 * 1024 * 1024`. -/
def maxIboSize : Int := 16 * 1024 * 1024

/-- The surfaces that lines 1945-1969 put into `surfacesSorted`: not portal, not sky, no CPU
deforms, of type face, grid or triangles, with `numIndexes` and `numVerts` both nonzero. -/
def vboEligible (surface : msurface_t) : Bool :=
  !surface.shader.isPortal && !surface.shader.isSky && !surface.shader.requiresCPUDeforms &&
  (surface.data.surfaceType == surfaceType_t.SF_FACE ||
    surface.data.surfaceType == surfaceType_t.SF_GRID ||
    surface.data.surfaceType == surfaceType_t.SF_TRIANGLES) &&
  !(surface.data.numIndexes == 0 || surface.data.numVerts == 0)

/-- Lines 1989-1995: starting at `currSurf = lastSurf` with `addVboSize = addIboSize = 0`, walk
over the surfaces whose `sortedIndex` equals `currShaderIndex`.  Arguments: the surfaces at and
after `currSurf`, the surfaces walked so far, `addVboSize`, `addIboSize`.  Result: the run, the
surfaces at and after the final `currSurf`, and the two sums as the `int`s hold them. -/
def scanRun (sizeof_srfVert_t sizeof_glIndex_t : Int) (currShaderIndex : Int) :
    List msurface_t → List msurface_t → Int → Int →
      List msurface_t × List msurface_t × Int × Int
  | [], run, addVboSize, addIboSize => (run, [], addVboSize, addIboSize)
  | currSurf :: rest, run, addVboSize, addIboSize =>
    if currSurf.shader.sortedIndex = currShaderIndex then
      scanRun sizeof_srfVert_t sizeof_glIndex_t currShaderIndex rest (run ++ [currSurf])
        (wrap32 (addVboSize + currSurf.data.numVerts * sizeof_srfVert_t))
        (wrap32 (addIboSize + currSurf.data.numIndexes * sizeof_glIndex_t))
    else
      (run, currSurf :: rest, addVboSize, addIboSize)

/-- The `while` loop of lines 1982-2005.  Arguments: an iteration bound, the batch collected so
far (`firstSurf .. lastSurf`), the surfaces at and after `lastSurf`, `currVboSize`,
`currIboSize`.  Result: the batch and the surfaces at and after the final `lastSurf`. -/
def growBatch (sizeof_srfVert_t sizeof_glIndex_t : Int) :
    Nat → List msurface_t → List msurface_t → Int → Int → List msurface_t × List msurface_t
  | 0, batch, lastSurf, _, _ => (batch, lastSurf)
  | _ + 1, batch, [], _, _ => (batch, [])
  | fuel + 1, batch, surf :: rest, currVboSize, currIboSize =>
    if currVboSize < maxVboSize ∧ currIboSize < maxIboSize then
      let r := scanRun sizeof_srfVert_t sizeof_glIndex_t surf.shader.sortedIndex (surf :: rest)
        [] 0 0
      let addVboSize := r.2.2.1
      let addIboSize := r.2.2.2
      if (currVboSize ≠ 0 ∧ wrap32 (addVboSize + currVboSize) > maxVboSize) ∨
          (currIboSize ≠ 0 ∧ wrap32 (addIboSize + currIboSize) > maxIboSize) then
        (batch, surf :: rest)
      else
        growBatch sizeof_srfVert_t sizeof_glIndex_t fuel (batch ++ r.1) r.2.1
          (wrap32 (currVboSize + addVboSize)) (wrap32 (currIboSize + addIboSize))
    else
      (batch, surf :: rest)

/-- The outer `for` loop of lines 1974-2121: one batch (one VBO/IBO pair) per iteration, from
`firstSurf` to the `lastSurf` the `while` loop stops at.  The first argument bounds the number
of iterations; every `while` iteration passes at least one surface, so the number of surfaces
is enough for both loops. -/
def formBatches (sizeof_srfVert_t sizeof_glIndex_t : Int) :
    Nat → List msurface_t → List (List msurface_t)
  | 0, _ => []
  | _ + 1, [] => []
  | fuel + 1, surf :: rest =>
    let r := growBatch sizeof_srfVert_t sizeof_glIndex_t (surf :: rest).length [] (surf :: rest)
      0 0
    r.1 :: formBatches sizeof_srfVert_t sizeof_glIndex_t fuel r.2

/-- `R_CreateWorldVBOs`: the batches it forms, each a list of surfaces sharing one VBO/IBO pair.
`qsort` stands for the library call `qsort(surfacesSorted, ..., BSPSurfaceCompare)`;
`sizeof_srfVert_t` and `sizeof_glIndex_t` are the element sizes, declared outside this file. -/
def R_CreateWorldVBOs (qsort : List msurface_t → List msurface_t)
    (sizeof_srfVert_t sizeof_glIndex_t : Int) (worldData : world_t) : List (List msurface_t) :=
  let surfacesSorted :=
    qsort ((worldData.surfaces.take worldData.numsurfaces.toNat).filter vboEligible)
  formBatches sizeof_srfVert_t sizeof_glIndex_t surfacesSorted.length surfacesSorted

/-- Sum of `numVerts * sizeof(srfVert_t)` over a list of surfaces. -/
def vboBytes (sizeof_srfVert_t : Int) (l : List msurface_t) : Int :=
  (l.map fun s => s.data.numVerts * sizeof_srfVert_t).sum

/-- Sum of `numIndexes * sizeof(glIndex_t)` over a list of surfaces. -/
def iboBytes (sizeof_glIndex_t : Int) (l : List msurface_t) : Int :=
  (l.map fun s => s.data.numIndexes * sizeof_glIndex_t).sum

/-- Two neighbouring batches do not split a run: the last surface of the first and the first
surface of the second have different `sortedIndex`. -/
def runBoundary (b1 b2 : List msurface_t) : Prop :=
  ∀ x ∈ b1.getLast?, ∀ y ∈ b2.head?, x.shader.sortedIndex ≠ y.shader.sortedIndex

/-- A batch within both byte budgets. -/
def withinBudget (sizeof_srfVert_t sizeof_glIndex_t : Int) (b : List msurface_t) : Prop :=
  vboBytes sizeof_srfVert_t b ≤ maxVboSize ∧ iboBytes sizeof_glIndex_t b ≤ maxIboSize

/-- A batch whose surfaces all have the same `sortedIndex`, a single run. -/
def singleRun (b : List msurface_t) : Prop :=
  ∀ x ∈ b, ∀ y ∈ b, x.shader.sortedIndex = y.shader.sortedIndex

/-! ## Leaf surface merging (`R_MergeLeafSurfaces`, lines 3307-3628)

`surfacesViewCount` is the work array the source uses to record mergers: after the mark phase
entry `j` holds the number of the surface that `j` merges into (its root), or -1. -/

/-- The world surface `worldData->surfaces + surfNum`; outside the array (undefined in the
source) a zero-filled surface, whose type `SF_BAD` never merges. -/
def surfaceAt (worldData : world_t) (surfNum : Int) : msurface_t :=
  if 0 ≤ surfNum then worldData.surfaces.getD surfNum.toNat {} else {}

/-- The type test of lines 3354-3356 and 3390: the surface data is a grid, triangles or a
face. -/
def mergeableType (surf : msurface_t) : Bool :=
  surf.data.surfaceType == surfaceType_t.SF_GRID ||
  surf.data.surfaceType == surfaceType_t.SF_TRIANGLES ||
  surf.data.surfaceType == surfaceType_t.SF_FACE

/-- Body of the `k` loop, lines 3375-3409: mark `surfNum2` as merging into `surfNum1` when it is
still unmarked, of a mergeable type, and has the same shader, fog and cubemap. -/
def markPartner (worldData : world_t) (leaf : mnode_t) (surfNum1 : Int)
    (surfacesViewCount : List Int) (k : Nat) : List Int :=
  let surfNum2 := readInt worldData.marksurfaces (leaf.firstmarksurface + k)
  if readInt surfacesViewCount surfNum2 ≠ -1 then surfacesViewCount else
  let surf1 := surfaceAt worldData surfNum1
  let surf2 := surfaceAt worldData surfNum2
  if !mergeableType surf2 then surfacesViewCount else
  if surf1.shader.index ≠ surf2.shader.index then surfacesViewCount else
  if surf1.fogIndex ≠ surf2.fogIndex then surfacesViewCount else
  if surf1.cubemapIndex ≠ surf2.cubemapIndex then surfacesViewCount else
  writeInt surfacesViewCount surfNum2 surfNum1

/-- Body of the `j` loop, lines 3339-3410: an unmarked mergeable surface becomes its own root,
then the later mark surfaces of the leaf are tried as partners (`k = j + 1 ..`). -/
def markSurface (worldData : world_t) (leaf : mnode_t) (surfacesViewCount : List Int)
    (j : Nat) : List Int :=
  let surfNum1 := readInt worldData.marksurfaces (leaf.firstmarksurface + j)
  if readInt surfacesViewCount surfNum1 ≠ -1 then surfacesViewCount else
  let surf1 := surfaceAt worldData surfNum1
  if !mergeableType surf1 then surfacesViewCount else
  if surf1.shader.isSky then surfacesViewCount else
  if surf1.shader.isPortal then surfacesViewCount else
  if surf1.shader.requiresCPUDeforms then surfacesViewCount else
  let surfacesViewCount := writeInt surfacesViewCount surfNum1 surfNum1
  (List.range' (j + 1) (leaf.nummarksurfaces.toNat - (j + 1))).foldl
    (markPartner worldData leaf surfNum1) surfacesViewCount

/-- Lines 3335-3411: the mark phase over all leafs
(`i < worldData->numnodes - worldData->numDecisionNodes`). -/
def markMatchingSurfaces (worldData : world_t) (surfacesViewCount : List Int) : List Int :=
  (worldData.leafs.take (worldData.numnodes - worldData.numDecisionNodes).toNat).foldl
    (fun surfacesViewCount leaf =>
      (List.range leaf.nummarksurfaces.toNat).foldl (markSurface worldData leaf)
        surfacesViewCount)
    surfacesViewCount

/-- Lines 3414-3435: a root that no other surface merges into is reset to -1.  The inner search
loop only sets the flag `merges`. -/
def dropLonelyRoots (numWorldSurfaces : Nat) (surfacesViewCount : List Int) : List Int :=
  (List.range numWorldSurfaces).foldl
    (fun (surfacesViewCount : List Int) (i : Nat) =>
      if readInt surfacesViewCount i ≠ i then surfacesViewCount else
      let merges := (List.range numWorldSurfaces).any fun (j : Nat) =>
        j ≠ i && readInt surfacesViewCount j == i
      if !merges then writeInt surfacesViewCount i (-1) else surfacesViewCount)
    surfacesViewCount

/-- Lines 3438-3450: `numMergedSurfaces`, the number of `i` with `surfacesViewCount[i] == i`. -/
def countMergedSurfaces (numWorldSurfaces : Nat) (surfacesViewCount : List Int) : Nat :=
  ((List.range numWorldSurfaces).filter fun (i : Nat) =>
    readInt surfacesViewCount i == i).length

/-- Lines 3604-3611: every view surface whose mark surface is `j` is set to
`-(mergedSurfIndex + 1)`. -/
def redirectMarks (worldData : world_t) (mergedSurfIndex : Int) (j : Nat)
    (viewSurfaces : List Int) : List Int :=
  (List.range worldData.nummarksurfaces.toNat).foldl
    (fun (viewSurfaces : List Int) (k : Nat) =>
      if readInt worldData.marksurfaces k = j then
        writeInt viewSurfaces k (-(mergedSurfIndex + 1))
      else viewSurfaces)
    viewSurfaces

/-- Lines 3598-3612: redirect the view surfaces of every surface `j` (from 0) that merges
into `i`. -/
def redirectViewSurfaces (worldData : world_t) (numWorldSurfaces : Nat)
    (surfacesViewCount : List Int) (i : Nat) (mergedSurfIndex : Int)
    (viewSurfaces : List Int) : List Int :=
  (List.range numWorldSurfaces).foldl
    (fun (viewSurfaces : List Int) (j : Nat) =>
      if readInt surfacesViewCount j ≠ i then viewSurfaces
      else redirectMarks worldData mergedSurfIndex j viewSurfaces)
    viewSurfaces

/-- The variables the merge loop of lines 3476-3616 carries from one `i` to the next. -/
structure mergeState_t where
  mergedSurfIndex : Int := 0
  mergedSurfaces : List msurface_t := []
  viewSurfaces : List Int := []
deriving DecidableEq, Repr

/-- The index data written by lines 3533-3553: the loop over `j` from `i` ends with `break`
after the first surface that merges into `i`, so only that surface's indexes (offset by its
`firstVert`, in `glIndex_t` arithmetic) are copied. -/
def mergedIboIndexes (worldData : world_t) (members : List Nat) : List Nat :=
  match members.head? with
  | none => []
  | some j =>
    let bspSurf := (surfaceAt worldData j).data
    (bspSurf.indexes.take bspSurf.numIndexes.toNat).map fun index =>
      (((index : Int) + bspSurf.firstVert) % 4294967296).toNat

/-- Body of the merge loop, lines 3476-3616, for one `i`. -/
def mergeSurface (worldData : world_t) (numWorldSurfaces : Nat) (surfacesViewCount : List Int)
    (st : mergeState_t) (i : Nat) : mergeState_t :=
  if readInt surfacesViewCount i ≠ i then st else
  let surf1 := surfaceAt worldData i
  -- count verts, indexes, and surfaces: `for (j = i; j < numWorldSurfaces; j++)`
  let members := (List.range' i (numWorldSurfaces - i)).filter fun (j : Nat) =>
    readInt surfacesViewCount j == i
  let numSurfsToMerge := members.length
  let numIndexes := (members.map fun (j : Nat) => (surfaceAt worldData j).data.numIndexes).sum
  let numVerts := (members.map fun (j : Nat) => (surfaceAt worldData j).data.numVerts).sum
  if numVerts = 0 ∨ numIndexes = 0 ∨ numSurfsToMerge < 2 then st else
  let vboSurf : srfBspSurface_t :=
    { surfaceType := surfaceType_t.SF_VBO_MESH
      numIndexes := numIndexes
      numVerts := numVerts
      firstIndex := 0
      indexes := mergedIboIndexes worldData members }
  let mergedSurf : msurface_t :=
    { shader := surf1.shader, fogIndex := surf1.fogIndex, cubemapIndex := surf1.cubemapIndex
      data := vboSurf }
  { mergedSurfIndex := st.mergedSurfIndex + 1
    mergedSurfaces := st.mergedSurfaces.set st.mergedSurfIndex.toNat mergedSurf
    viewSurfaces := redirectViewSurfaces worldData numWorldSurfaces surfacesViewCount i
      st.mergedSurfIndex st.viewSurfaces }

/-- `R_MergeLeafSurfaces`: reset of the work array, mark phase, removal of lonely roots, count
and allocation of the merged surfaces, copy of the mark surfaces into the view surfaces, the
merge loop, and the final reset of the work array. -/
def R_MergeLeafSurfaces (worldData : world_t) : world_t :=
  let numWorldSurfaces := worldData.numWorldSurfaces.toNat
  let surfacesViewCount := (List.range numWorldSurfaces).foldl
    (fun (surfacesViewCount : List Int) (i : Nat) => writeInt surfacesViewCount i (-1))
    worldData.surfacesViewCount
  let surfacesViewCount := markMatchingSurfaces worldData surfacesViewCount
  let surfacesViewCount := dropLonelyRoots numWorldSurfaces surfacesViewCount
  let numMergedSurfaces := countMergedSurfaces numWorldSurfaces surfacesViewCount
  let viewSurfaces := (List.range worldData.nummarksurfaces.toNat).map fun (i : Nat) =>
    readInt worldData.marksurfaces i
  let st := (List.range numWorldSurfaces).foldl
    (mergeSurface worldData numWorldSurfaces surfacesViewCount)
    { mergedSurfIndex := 0
      mergedSurfaces := List.replicate numMergedSurfaces {}
      viewSurfaces := viewSurfaces }
  { worldData with
    mergedSurfaces := st.mergedSurfaces
    numMergedSurfaces := numMergedSurfaces
    viewSurfaces := st.viewSurfaces
    surfacesViewCount := (List.range numWorldSurfaces).foldl
      (fun (surfacesViewCount : List Int) (i : Nat) => writeInt surfacesViewCount i (-1))
      surfacesViewCount }

/-- The constituents of merged surface `m` in a world: the world surfaces `j` that have a mark
surface entry whose view surface is the reference `-(m + 1)` to merged surface `m`. -/
def mergedConstituents (worldData : world_t) (m : Nat) : List Nat :=
  (List.range worldData.numWorldSurfaces.toNat).filter fun (j : Nat) =>
    (List.range worldData.nummarksurfaces.toNat).any fun (k : Nat) =>
      readInt worldData.marksurfaces k == j &&
        readInt worldData.viewSurfaces k == -((m : Int) + 1)

/-! ## Node and leaf loading (`R_LoadNodesAndLeafs`, lines 2349-2417): child references -/

/-- The fields of the on-disk `dnode_t` that the node loop reads as references: the plane
number and the two child references. -/
structure dnode_t where
  planeNum : Int := 0
  children0 : Int := 0
  children1 : Int := 0
deriving DecidableEq, Repr

/-- A loaded decision node: `plane` and `children[0..1]`, each pointer given as the index of
the entry of `worldData->planes` resp. `worldData->nodes` it points at. -/
structure decisionNode_t where
  plane : Int := 0
  children0 : Int := 0
  children1 : Int := 0
deriving DecidableEq, Repr

/-- Lines 2385-2389: `p >= 0` gives `worldData->nodes + p`, otherwise
`worldData->nodes + numNodes + (-1 - p)`. -/
def loadChild (numNodes p : Int) : Int :=
  if p ≥ 0 then p else numNodes + (-1 - p)

/-- Body of the node loop, lines 2372-2390, for one on-disk node. -/
def loadNode (numNodes : Int) (inp : dnode_t) : decisionNode_t :=
  { plane := inp.planeNum
    children0 := loadChild numNodes inp.children0
    children1 := loadChild numNodes inp.children1 }

/-- The decision nodes that `R_LoadNodesAndLeafs` writes to `worldData->nodes[0 .. numNodes)`,
lines 2356-2391; `nodes i` is the `i`-th record of the node lump.  A funny lump size leaves
nothing loaded. -/
def R_LoadNodesAndLeafs_nodes (sizeof_dnode_t sizeof_dleaf_t : Nat) (nodeLump leafLump : lump_t)
    (nodes : Nat → dnode_t) : List decisionNode_t :=
  if lumpFunny nodeLump sizeof_dnode_t || lumpFunny leafLump sizeof_dleaf_t then [] else
  let numNodes := lumpCount nodeLump sizeof_dnode_t
  (List.range numNodes.toNat).map fun (i : Nat) => loadNode numNodes (nodes i)

/-! ## Lightmap atlas layout (`R_LoadLightmaps`, lines 259-282)

The two `float` expressions of the source, `(int)ceilf(sqrtf(numLightmaps))` and
`(int)ceilf((float)numLightmaps / lightmapsPerX)`, are arguments of the model
(`ceilf_sqrtf`, `ceilf_quot`). -/

/-- The atlas variables of `tr` that lines 259-282 assign. -/
structure lightmapAtlas_t where
  lightmapsPerAtlasSide : Int × Int := (0, 0)
  lightmapAtlasSize : Int × Int := (0, 0)
  numLightmaps : Int := 0
deriving DecidableEq, Repr

/-- Lines 266-268: `while (lightmapsPerX < targetLightmapsPerX) lightmapsPerX *= 2`.  The first
argument bounds the number of doublings. -/
def atlasLightmapsPerX : Nat → Int → Int → Option Int
  | 0, _, _ => none
  | fuel + 1, targetLightmapsPerX, lightmapsPerX =>
    if lightmapsPerX < targetLightmapsPerX then
      atlasLightmapsPerX fuel targetLightmapsPerX (lightmapsPerX * 2)
    else some lightmapsPerX

/-- `R_LoadLightmaps`, lines 259-282, from the lightmap count of line 229: the halving for
deluxe maps and the atlas layout.  An `int` that starts at 1 can be doubled 30 times, so 32
rounds of the `while` loop are allowed for; `none` stands for a loop that needs more. -/
def R_LoadLightmaps_atlas (ceilf_sqrtf : Int → Int) (ceilf_quot : Int → Int → Int)
    (LIGHTMAP_WIDTH LIGHTMAP_HEIGHT : Int) (worldDeluxeMapping : Bool) (r_mergeLightmaps : Int)
    (tr : lightmapAtlas_t) (numLightmaps : Int) : Option lightmapAtlas_t :=
  let numLightmaps := if worldDeluxeMapping then numLightmaps >>> 1 else numLightmaps
  if r_mergeLightmaps ≠ 0 then
    let targetLightmapsPerX := ceilf_sqrtf numLightmaps
    match atlasLightmapsPerX 32 targetLightmapsPerX 1 with
    | none => none
    | some lightmapsPerX =>
      let side0 := lightmapsPerX
      let side1 := ceilf_quot numLightmaps lightmapsPerX
      some { lightmapsPerAtlasSide := (side0, side1)
             lightmapAtlasSize := (side0 * LIGHTMAP_WIDTH, side1 * LIGHTMAP_HEIGHT)
             numLightmaps := 1 }
  else
    some { tr with numLightmaps := numLightmaps }

/-! ## Fog volumes (`R_LoadFogs`, lines 2559-2634)

Plane distances are `float`s that the loop only copies and negates, both exactly; they are
represented by integers.  The brush, brush-side and plane arrays are read by pointer
arithmetic without a bound, so they are functions of the index. -/

/-- The integer fields of the on-disk `dfog_t`. -/
structure dfog_t where
  brushNum : Int := 0
  visibleSide : Int := 0
deriving DecidableEq, Repr

/-- The field of the on-disk `dbrush_t` the fog loader reads. -/
structure dbrush_t where
  firstSide : Int := 0
deriving DecidableEq, Repr

/-- The field of the on-disk `dbrushside_t` the fog loader reads. -/
structure dbrushside_t where
  planeNum : Int := 0
deriving DecidableEq, Repr

/-- The fields of `fog_t` set from the brush: `bounds[0]` (mins), `bounds[1]` (maxs),
`hasSurface` and `surface[3]`. -/
structure fog_t where
  originalBrushNumber : Int := 0
  mins : Int × Int × Int := (0, 0, 0)
  maxs : Int × Int × Int := (0, 0, 0)
  hasSurface : Bool := false
  surface3 : Int := 0
deriving DecidableEq, Repr

/-- Body of the fog loop, lines 2560-2633, for one fog record.  `planeDist n` is
`worldData->planes[ n ].dist`. -/
def loadFog (MIN_WORLD_COORD MAX_WORLD_COORD : Int) (brushesCount sidesCount : Int)
    (brushes : Int → dbrush_t) (sides : Int → dbrushside_t) (planeDist : Int → Int)
    (fog : dfog_t) : Except String fog_t :=
  let originalBrushNumber := fog.brushNum
  let bounded : Except String (Int × (Int × Int × Int) × (Int × Int × Int)) :=
    if originalBrushNumber = -1 then
      .ok (-1, (MIN_WORLD_COORD, MIN_WORLD_COORD, MIN_WORLD_COORD),
        (MAX_WORLD_COORD, MAX_WORLD_COORD, MAX_WORLD_COORD))
    else if toU32 originalBrushNumber ≥ toU32 brushesCount then
      .error "fog brushNumber out of range"
    else
      let brush := brushes originalBrushNumber
      let firstSide := brush.firstSide
      if toU32 firstSide > toU32 (sidesCount - 6) then
        .error "fog brush sideNumber out of range"
      else
        let dist := fun (k : Int) => planeDist (sides (firstSide + k)).planeNum
        .ok (firstSide, (-dist 0, -dist 2, -dist 4), (dist 1, dist 3, dist 5))
  match bounded with
  | .error e => .error e
  | .ok (firstSide, mins, maxs) =>
    let sideNum := fog.visibleSide
    let surface3 :=
      if sideNum ≠ -1 then -planeDist (sides (firstSide + sideNum)).planeNum else 0
    .ok { originalBrushNumber := originalBrushNumber, mins := mins, maxs := maxs
          hasSurface := true, surface3 := surface3 }

/-- The fog loop, lines 2559-2634, over the fog records in file order: it stops at the first
fatal error. -/
def loadFogRecords (MIN_WORLD_COORD MAX_WORLD_COORD : Int) (brushesCount sidesCount : Int)
    (brushes : Int → dbrush_t) (sides : Int → dbrushside_t) (planeDist : Int → Int) :
    List dfog_t → Except String (List fog_t)
  | [] => .ok []
  | fog :: rest =>
    match loadFog MIN_WORLD_COORD MAX_WORLD_COORD brushesCount sidesCount brushes sides
        planeDist fog with
    | .error e => .error e
    | .ok out =>
      match loadFogRecords MIN_WORLD_COORD MAX_WORLD_COORD brushesCount sidesCount brushes
          sides planeDist rest with
      | .error e => .error e
      | .ok outs => .ok (out :: outs)

/-- `R_LoadFogs` as a whole: the lump checks of `R_LoadFogs` above, then the fog loop over the
`count` records `fogs 0 ..` of the fog lump.  The result lists `worldData->fogs[1 ..]`. -/
def R_LoadFogs_fogs (sizeof_dfog_t sizeof_dbrush_t sizeof_dbrushside_t : Nat)
    (MIN_WORLD_COORD MAX_WORLD_COORD : Int) (worldData : world_t)
    (l brushesLump sidesLump : lump_t) (fogs : Nat → dfog_t) (brushes : Int → dbrush_t)
    (sides : Int → dbrushside_t) (planeDist : Int → Int) : Except String (List fog_t) :=
  match (R_LoadFogs sizeof_dfog_t sizeof_dbrush_t sizeof_dbrushside_t worldData l brushesLump
      sidesLump).error with
  | some e => .error e
  | none =>
    let count := lumpCount l sizeof_dfog_t
    if count = 0 then .ok [] else
    let brushesCount := lumpCount brushesLump sizeof_dbrush_t
    let sidesCount := lumpCount sidesLump sizeof_dbrushside_t
    loadFogRecords MIN_WORLD_COORD MAX_WORLD_COORD brushesCount sidesCount brushes sides
      planeDist ((List.range count.toNat).map fogs)

/-! ## World vertex/index buffer filling (`R_CreateWorldVBOs`, lines 2007-2068) -/

/-- The arrays and counters that the fill loop of lines 2026-2065 builds for one batch:
the `glIndex_t` array `indexes`, the counters `numIndexes` and `numVerts`, and the surfaces of
the batch with `firstIndex` and `firstVert` set. -/
structure batchBuffers_t where
  indexes : List Nat := []
  numIndexes : Int := 0
  numVerts : Int := 0
  surfaces : List msurface_t := []
deriving DecidableEq, Repr

/-- The values `numVerts + *surfIndex` that lines 2036-2041 write for one surface, in
`glIndex_t` (unsigned 32-bit) arithmetic. -/
def surfaceIboIndexes (numVerts : Int) (bspSurf : srfBspSurface_t) : List Nat :=
  (bspSurf.indexes.take bspSurf.numIndexes.toNat).map fun (index : Nat) =>
    (((index : Int) + numVerts) % 4294967296).toNat

/-- Body of the fill loop, lines 2028-2064, for one surface: `firstIndex = numIndexes`, the
index copy, `firstVert = numVerts`, then the copy of `numVerts` vertices. -/
def fillSurface (buf : batchBuffers_t) (surf : msurface_t) : batchBuffers_t :=
  let bspSurf := surf.data
  let written := surfaceIboIndexes buf.numVerts bspSurf
  let bspSurf := { bspSurf with firstIndex := buf.numIndexes, firstVert := buf.numVerts }
  { indexes := buf.indexes ++ written
    numIndexes := buf.numIndexes + written.length
    numVerts := buf.numVerts + bspSurf.numVerts.toNat
    surfaces := buf.surfaces ++ [{ surf with data := bspSurf }] }

/-- Lines 2024-2065 for one batch: counters reset to 0, then the fill loop from `firstSurf` to
`lastSurf`. -/
def fillBatch (batch : List msurface_t) : batchBuffers_t :=
  batch.foldl fillSurface {}

/-- `R_CreateWorldVBOs`: the buffers of every batch it forms. -/
def R_CreateWorldVBOs_buffers (qsort : List msurface_t → List msurface_t)
    (sizeof_srfVert_t sizeof_glIndex_t : Int) (worldData : world_t) : List batchBuffers_t :=
  (R_CreateWorldVBOs qsort sizeof_srfVert_t sizeof_glIndex_t worldData).map fillBatch

/-- What the fill loop maintains: the counters are those of the arrays, and every index of
every surface filled so far sits at `firstIndex + k` with the value `firstVert + index`
modulo `2^32`, the surface's vertices ending at or before `numVerts`. -/
def fillInvariant (buf : batchBuffers_t) : Prop :=
  0 ≤ buf.numVerts ∧ buf.numIndexes = buf.indexes.length ∧
  ∀ out ∈ buf.surfaces, 0 ≤ out.data.firstIndex ∧ 0 ≤ out.data.firstVert ∧
    out.data.firstVert + out.data.numVerts.toNat ≤ buf.numVerts ∧
    ∀ (k index : Nat), (k : Int) < out.data.numIndexes → out.data.indexes[k]? = some index →
      buf.indexes[(out.data.firstIndex + k).toNat]? =
        some ((((index : Int) + out.data.firstVert) % 4294967296).toNat)

/-! ## Patch stitching (`R_StitchPatches`, `R_TryStitchingPatch`, `R_StitchAllPatches`,
lines 1130-1793)

Coordinates, LOD radii and LOD errors are `float`s; they are values of a type `F`, and the
three `float` tests the stitcher makes are arguments of the model.  `R_GridInsertColumn` and
`R_GridInsertRow` are defined outside these sources and are arguments as well.  The surfaces
`worldData->surfaces[0 .. numsurfaces)` are a list of grids, a surface of another type being
an entry whose `surfaceType` is not `SF_GRID`. -/

/-- The `float` tests of the stitcher. -/
structure floatTests_t (F : Type) where
  /-- The test `fabs(a - b) > .1`. -/
  gtTenth : F → F → Bool
  /-- The test `fabs(a - b) < .01`. -/
  ltHundredth : F → F → Bool
  /-- The test `a != b`. -/
  ne : F → F → Bool

/-- The grid fields of `srfBspSurface_t`; `verts` holds the `xyz` of each vertex, row by
row. -/
structure srfGridMesh_t (F : Type) where
  surfaceType : surfaceType_t := surfaceType_t.SF_BAD
  lodStitched : Bool := false
  lodFixed : Int := 0
  lodOrigin : F × F × F
  lodRadius : F
  width : Int := 0
  height : Int := 0
  widthLodError : List F := []
  heightLodError : List F := []
  verts : List (F × F × F) := []
deriving DecidableEq, Repr

instance {F : Type} [Inhabited F] : Inhabited (srfGridMesh_t F) :=
  ⟨{ lodOrigin := default, lodRadius := default }⟩

/-- The data `worldData->surfaces[num].data`; outside the list a zero-filled surface. -/
def surfaceGrid {F : Type} [Inhabited F] (surfaces : List (srfGridMesh_t F)) (num : Nat) :
    srfGridMesh_t F :=
  surfaces.getD num default

/-- The read `grid->verts[i].xyz`; outside the array (undefined in the source) a default
value. -/
def gridVert {F : Type} [Inhabited F] (grid : srfGridMesh_t F) (i : Int) : F × F × F :=
  if 0 ≤ i then grid.verts.getD i.toNat default else default

/-- The read `lodError[i]` of a LOD error array; outside the array (undefined in the source) a
default value. -/
def lodErrorAt {F : Type} [Inhabited F] (lodError : List F) (i : Int) : F :=
  if 0 ≤ i then lodError.getD i.toNat default else default

/-- The three `continue` tests on a pair of points: some coordinate differs by more
than `.1`. -/
def apart {F : Type} (ft : floatTests_t F) (v1 v2 : F × F × F) : Bool :=
  ft.gtTenth v1.1 v2.1 || ft.gtTenth v1.2.1 v2.2.1 || ft.gtTenth v1.2.2 v2.2.2

/-- The test that two points coincide: all three coordinates differ by less than `.01`. -/
def coincide {F : Type} (ft : floatTests_t F) (v1 v2 : F × F × F) : Bool :=
  ft.ltHundredth v1.1 v2.1 && ft.ltHundredth v1.2.1 v2.2.1 && ft.ltHundredth v1.2.2 v2.2.2

/-- `R_MergedWidthPoints`, lines 1137-1149. -/
def R_MergedWidthPoints {F : Type} [Inhabited F] (ft : floatTests_t F) (grid : srfGridMesh_t F)
    (offset : Int) : Bool :=
  (List.range' 1 (grid.width - 1 - 1).toNat).any fun (i : Nat) =>
    (List.range' (i + 1) (grid.width - 1 - (i + 1)).toNat).any fun (j : Nat) =>
      !apart ft (gridVert grid (i + offset)) (gridVert grid (j + offset))

/-- `R_MergedHeightPoints`, lines 1158-1170. -/
def R_MergedHeightPoints {F : Type} [Inhabited F] (ft : floatTests_t F)
    (grid : srfGridMesh_t F) (offset : Int) : Bool :=
  (List.range' 1 (grid.height - 1 - 1).toNat).any fun (i : Nat) =>
    (List.range' (i + 1) (grid.height - 1 - (i + 1)).toNat).any fun (j : Nat) =>
      !apart ft (gridVert grid (grid.width * i + offset))
        (gridVert grid (grid.width * j + offset))

/-- One call of `R_GridInsertColumn` or `R_GridInsertRow` as `R_StitchPatches` makes it:
which of the two, the position `l + 1`, the `row` resp. `column` argument, the index into
`grid1->verts` of the point passed, and the LOD error passed, as the array it is read from
(`widthLodError` or `heightLodError` of `grid1`) and the index into that array. -/
structure stitch_t where
  column : Bool
  position : Int
  edge : Int
  point : Int
  lodErrorWidth : Bool
  lodError : Int
deriving DecidableEq, Repr

/-- The first `m` loop of each scan (lines 1336-1379, 1433-1476, 1531-1574, 1630-1673): the
search along the first and last row of `grid2` for a column to insert, between the points
`v1a` and `v1b` of `grid1`.  Result: `l + 1` and `row`. -/
def findColumnGap {F : Type} [Inhabited F] (ft : floatTests_t F) (MAX_GRID_SIZE : Int)
    (grid2 : srfGridMesh_t F) (v1a v1b : F × F × F) : Option (Int × Int) :=
  [0, 1].findSome? fun (m : Int) =>
    if grid2.width ≥ MAX_GRID_SIZE then none else
    let offset2 := if m ≠ 0 then (grid2.height - 1) * grid2.width else 0
    (List.range (grid2.width - 1).toNat).findSome? fun (l : Nat) =>
      if apart ft v1a (gridVert grid2 (l + offset2)) then none
      else if apart ft v1b (gridVert grid2 (l + 1 + offset2)) then none
      else if coincide ft (gridVert grid2 (l + offset2)) (gridVert grid2 (l + 1 + offset2)) then
        none
      else some ((l : Int) + 1, if m ≠ 0 then grid2.height - 1 else 0)

/-- The second `m` loop of each scan (lines 1380-1423, 1477-1520, 1575-1620, 1674-1717): the
search along the first and last column of `grid2` for a row to insert.  Result: `l + 1` and
`column`. -/
def findRowGap {F : Type} [Inhabited F] (ft : floatTests_t F) (MAX_GRID_SIZE : Int)
    (grid2 : srfGridMesh_t F) (v1a v1b : F × F × F) : Option (Int × Int) :=
  [0, 1].findSome? fun (m : Int) =>
    if grid2.height ≥ MAX_GRID_SIZE then none else
    let offset2 := if m ≠ 0 then grid2.width - 1 else 0
    (List.range (grid2.height - 1).toNat).findSome? fun (l : Nat) =>
      if apart ft v1a (gridVert grid2 (grid2.width * l + offset2)) then none
      else if apart ft v1b (gridVert grid2 (grid2.width * (l + 1) + offset2)) then none
      else if coincide ft (gridVert grid2 (grid2.width * l + offset2))
          (gridVert grid2 (grid2.width * (l + 1) + offset2)) then
        none
      else some ((l : Int) + 1, if m ≠ 0 then grid2.width - 1 else 0)

/-- Body of a `k` loop: the column search, then the row search, each ending the function with
an insertion of the point `grid1->verts[point]`. -/
def stitchAt {F : Type} [Inhabited F] (ft : floatTests_t F) (MAX_GRID_SIZE : Int)
    (grid2 : srfGridMesh_t F) (v1a v1b : F × F × F) (point : Int) (lodErrorWidth : Bool)
    (lodError : Int) : Option stitch_t :=
  match findColumnGap ft MAX_GRID_SIZE grid2 v1a v1b with
  | some (position, row) => some ⟨true, position, row, point, lodErrorWidth, lodError⟩
  | none =>
    match findRowGap ft MAX_GRID_SIZE grid2 v1a v1b with
    | some (position, column) => some ⟨false, position, column, point, lodErrorWidth, lodError⟩
    | none => none

/-- The values of `k` in `for (k = 0; k < bound; k += 2)`. -/
def forwardSteps (bound : Int) : List Int :=
  ((List.range bound.toNat).filter fun (k : Nat) => k % 2 = 0).map fun (k : Nat) => (k : Int)

/-- The values of `k` in `for (k = start; k > 1; k -= 2)`. -/
def reverseSteps (start : Int) : List Int :=
  ((List.range start.toNat).map fun (t : Nat) => start - 2 * (t : Int)).filter fun (k : Int) =>
    k > 1

/-- First scan, lines 1328-1425: forward over the first and last row of `grid1`. -/
def scanWidthForward {F : Type} [Inhabited F] (ft : floatTests_t F) (MAX_GRID_SIZE : Int)
    (grid1 grid2 : srfGridMesh_t F) : Option stitch_t :=
  [0, 1].findSome? fun (n : Int) =>
    let offset1 := if n ≠ 0 then (grid1.height - 1) * grid1.width else 0
    if R_MergedWidthPoints ft grid1 offset1 then none else
    (forwardSteps (grid1.width - 2)).findSome? fun (k : Int) =>
      stitchAt ft MAX_GRID_SIZE grid2 (gridVert grid1 (k + offset1))
        (gridVert grid1 (k + 2 + offset1)) (k + 1 + offset1) true (k + 1)

/-- Second scan, lines 1426-1522: forward over the first and last column of `grid1`. -/
def scanHeightForward {F : Type} [Inhabited F] (ft : floatTests_t F) (MAX_GRID_SIZE : Int)
    (grid1 grid2 : srfGridMesh_t F) : Option stitch_t :=
  [0, 1].findSome? fun (n : Int) =>
    let offset1 := if n ≠ 0 then grid1.width - 1 else 0
    if R_MergedHeightPoints ft grid1 offset1 then none else
    (forwardSteps (grid1.height - 2)).findSome? fun (k : Int) =>
      stitchAt ft MAX_GRID_SIZE grid2 (gridVert grid1 (grid1.width * k + offset1))
        (gridVert grid1 (grid1.width * (k + 2) + offset1)) (grid1.width * (k + 1) + offset1)
        false (k + 1)

/-- Third scan, lines 1523-1622: backward over the first and last row of `grid1`.  The point
passed is `verts[k - 1 + offset1]`, the LOD error passed is `widthLodError[k+1]`. -/
def scanWidthReverse {F : Type} [Inhabited F] (ft : floatTests_t F) (MAX_GRID_SIZE : Int)
    (grid1 grid2 : srfGridMesh_t F) : Option stitch_t :=
  [0, 1].findSome? fun (n : Int) =>
    let offset1 := if n ≠ 0 then (grid1.height - 1) * grid1.width else 0
    if R_MergedWidthPoints ft grid1 offset1 then none else
    (reverseSteps (grid1.width - 1)).findSome? fun (k : Int) =>
      stitchAt ft MAX_GRID_SIZE grid2 (gridVert grid1 (k + offset1))
        (gridVert grid1 (k - 2 + offset1)) (k - 1 + offset1) true (k + 1)

/-- Fourth scan, lines 1623-1719: backward over the first and last column of `grid1`.  The
point passed is `verts[width * (k - 1) + offset1]`, the LOD error passed is
`heightLodError[k+1]`. -/
def scanHeightReverse {F : Type} [Inhabited F] (ft : floatTests_t F) (MAX_GRID_SIZE : Int)
    (grid1 grid2 : srfGridMesh_t F) : Option stitch_t :=
  [0, 1].findSome? fun (n : Int) =>
    let offset1 := if n ≠ 0 then grid1.width - 1 else 0
    if R_MergedHeightPoints ft grid1 offset1 then none else
    (reverseSteps (grid1.height - 1)).findSome? fun (k : Int) =>
      stitchAt ft MAX_GRID_SIZE grid2 (gridVert grid1 (grid1.width * k + offset1))
        (gridVert grid1 (grid1.width * (k - 2) + offset1)) (grid1.width * (k - 1) + offset1)
        false (k + 1)

/-- The search of `R_StitchPatches`, lines 1328-1720: the insertion the first successful scan
makes, `none` when the function returns `qfalse`. -/
def findStitch {F : Type} [Inhabited F] (ft : floatTests_t F) (MAX_GRID_SIZE : Int)
    (grid1 grid2 : srfGridMesh_t F) : Option stitch_t :=
  match scanWidthForward ft MAX_GRID_SIZE grid1 grid2 with
  | some s => some s
  | none =>
    match scanHeightForward ft MAX_GRID_SIZE grid1 grid2 with
    | some s => some s
    | none =>
      match scanWidthReverse ft MAX_GRID_SIZE grid1 grid2 with
      | some s => some s
      | none => scanHeightReverse ft MAX_GRID_SIZE grid1 grid2

/-- `R_StitchPatches`, lines 1321-1721: the surfaces after the call and the value returned.
An insertion replaces `worldData->surfaces[grid2num].data` by the grid that
`R_GridInsertColumn` resp. `R_GridInsertRow` returns, with `lodStitched` cleared.  The insert
functions are taken to return a grid, so the test `if (!grid2) break` of line 1614 never
fires. -/
def R_StitchPatches {F : Type} [Inhabited F] (ft : floatTests_t F) (MAX_GRID_SIZE : Int)
    (R_GridInsertColumn R_GridInsertRow :
      srfGridMesh_t F → Int → Int → F × F × F → F → srfGridMesh_t F)
    (surfaces : List (srfGridMesh_t F)) (grid1num grid2num : Nat) :
    List (srfGridMesh_t F) × Bool :=
  let grid1 := surfaceGrid surfaces grid1num
  let grid2 := surfaceGrid surfaces grid2num
  match findStitch ft MAX_GRID_SIZE grid1 grid2 with
  | none => (surfaces, false)
  | some s =>
    let point := gridVert grid1 s.point
    let lodError :=
      lodErrorAt (if s.lodErrorWidth then grid1.widthLodError else grid1.heightLodError)
        s.lodError
    let grid2 :=
      if s.column then R_GridInsertColumn grid2 s.position s.edge point lodError
      else R_GridInsertRow grid2 s.position s.edge point lodError
    (surfaces.set grid2num { grid2 with lodStitched := false }, true)

/-- Lines 1755-1758: `while (R_StitchPatches(worldData, grid1num, j)) numstitches++`.  The
first argument bounds the number of rounds; the result is the surfaces and the number of
stitches made, `none` when the bound is used up. -/
def stitchWhile {F : Type} [Inhabited F] (ft : floatTests_t F) (MAX_GRID_SIZE : Int)
    (R_GridInsertColumn R_GridInsertRow :
      srfGridMesh_t F → Int → Int → F × F × F → F → srfGridMesh_t F) :
    Nat → List (srfGridMesh_t F) → Nat → Nat → Option (List (srfGridMesh_t F) × Int)
  | 0, _, _, _ => none
  | fuel + 1, surfaces, grid1num, j =>
    let r := R_StitchPatches ft MAX_GRID_SIZE R_GridInsertColumn R_GridInsertRow surfaces
      grid1num j
    if r.2 then
      match stitchWhile ft MAX_GRID_SIZE R_GridInsertColumn R_GridInsertRow fuel r.1
          grid1num j with
      | none => none
      | some (surfaces, numstitches) => some (surfaces, numstitches + 1)
    else some (r.1, 0)

/-- The `j` loop of `R_TryStitchingPatch`, lines 1743-1759, over the surface numbers given.
`grid1` is the grid fetched before the loop, line 1742. -/
def tryStitchingFrom {F : Type} [Inhabited F] (ft : floatTests_t F) (MAX_GRID_SIZE : Int)
    (R_GridInsertColumn R_GridInsertRow :
      srfGridMesh_t F → Int → Int → F × F × F → F → srfGridMesh_t F)
    (fuel : Nat) (grid1 : srfGridMesh_t F) (grid1num : Nat) :
    List Nat → List (srfGridMesh_t F) → Int → Option (List (srfGridMesh_t F) × Int)
  | [], surfaces, numstitches => some (surfaces, numstitches)
  | j :: rest, surfaces, numstitches =>
    let grid2 := surfaceGrid surfaces j
    if grid2.surfaceType ≠ surfaceType_t.SF_GRID then
      tryStitchingFrom ft MAX_GRID_SIZE R_GridInsertColumn R_GridInsertRow fuel grid1 grid1num
        rest surfaces numstitches
    else if ft.ne grid1.lodRadius grid2.lodRadius then
      tryStitchingFrom ft MAX_GRID_SIZE R_GridInsertColumn R_GridInsertRow fuel grid1 grid1num
        rest surfaces numstitches
    else if ft.ne grid1.lodOrigin.1 grid2.lodOrigin.1 then
      tryStitchingFrom ft MAX_GRID_SIZE R_GridInsertColumn R_GridInsertRow fuel grid1 grid1num
        rest surfaces numstitches
    else if ft.ne grid1.lodOrigin.2.1 grid2.lodOrigin.2.1 then
      tryStitchingFrom ft MAX_GRID_SIZE R_GridInsertColumn R_GridInsertRow fuel grid1 grid1num
        rest surfaces numstitches
    else if ft.ne grid1.lodOrigin.2.2 grid2.lodOrigin.2.2 then
      tryStitchingFrom ft MAX_GRID_SIZE R_GridInsertColumn R_GridInsertRow fuel grid1 grid1num
        rest surfaces numstitches
    else
      match stitchWhile ft MAX_GRID_SIZE R_GridInsertColumn R_GridInsertRow fuel surfaces
          grid1num j with
      | none => none
      | some (surfaces, n) =>
        tryStitchingFrom ft MAX_GRID_SIZE R_GridInsertColumn R_GridInsertRow fuel grid1
          grid1num rest surfaces (numstitches + n)

/-- `R_TryStitchingPatch`, lines 1736-1760: the surfaces after the call and the number of
stitches returned.  `fuel` bounds each `while` loop. -/
def R_TryStitchingPatch {F : Type} [Inhabited F] (ft : floatTests_t F) (MAX_GRID_SIZE : Int)
    (R_GridInsertColumn R_GridInsertRow :
      srfGridMesh_t F → Int → Int → F × F × F → F → srfGridMesh_t F)
    (fuel : Nat) (surfaces : List (srfGridMesh_t F)) (grid1num : Nat) :
    Option (List (srfGridMesh_t F) × Int) :=
  tryStitchingFrom ft MAX_GRID_SIZE R_GridInsertColumn R_GridInsertRow fuel
    (surfaceGrid surfaces grid1num) grid1num (List.range surfaces.length) surfaces 0

/-- The `i` loop of `R_StitchAllPatches`, lines 1775-1789, over the surface numbers given:
the surfaces, the flag `stitched` and `numstitches` after the loop. -/
def stitchPass {F : Type} [Inhabited F] (ft : floatTests_t F) (MAX_GRID_SIZE : Int)
    (R_GridInsertColumn R_GridInsertRow :
      srfGridMesh_t F → Int → Int → F × F × F → F → srfGridMesh_t F)
    (fuel : Nat) :
    List Nat → List (srfGridMesh_t F) → Bool → Int →
      Option (List (srfGridMesh_t F) × Bool × Int)
  | [], surfaces, stitched, numstitches => some (surfaces, stitched, numstitches)
  | i :: rest, surfaces, stitched, numstitches =>
    let grid1 := surfaceGrid surfaces i
    if grid1.surfaceType ≠ surfaceType_t.SF_GRID then
      stitchPass ft MAX_GRID_SIZE R_GridInsertColumn R_GridInsertRow fuel rest surfaces stitched
        numstitches
    else if grid1.lodStitched then
      stitchPass ft MAX_GRID_SIZE R_GridInsertColumn R_GridInsertRow fuel rest surfaces stitched
        numstitches
    else
      let surfaces := surfaces.set i { grid1 with lodStitched := true }
      match R_TryStitchingPatch ft MAX_GRID_SIZE R_GridInsertColumn R_GridInsertRow fuel
          surfaces i with
      | none => none
      | some (surfaces, n) =>
        stitchPass ft MAX_GRID_SIZE R_GridInsertColumn R_GridInsertRow fuel rest surfaces true
          (numstitches + n)

/-- The `do ... while (stitched)` loop of `R_StitchAllPatches`, lines 1772-1791.  The second
argument bounds the number of passes. -/
def stitchLoop {F : Type} [Inhabited F] (ft : floatTests_t F) (MAX_GRID_SIZE : Int)
    (R_GridInsertColumn R_GridInsertRow :
      srfGridMesh_t F → Int → Int → F × F × F → F → srfGridMesh_t F)
    (whileFuel : Nat) :
    Nat → List (srfGridMesh_t F) → Int → Option (List (srfGridMesh_t F) × Int)
  | 0, _, _ => none
  | fuel + 1, surfaces, numstitches =>
    match stitchPass ft MAX_GRID_SIZE R_GridInsertColumn R_GridInsertRow whileFuel
        (List.range surfaces.length) surfaces false numstitches with
    | none => none
    | some (surfaces, stitched, numstitches) =>
      if stitched then
        stitchLoop ft MAX_GRID_SIZE R_GridInsertColumn R_GridInsertRow whileFuel fuel surfaces
          numstitches
      else some (surfaces, numstitches)

/-- `R_StitchAllPatches`, lines 1767-1793: the surfaces when the function returns and the
number of stitches it prints.  `fuel` bounds the number of passes and the number of rounds of
every `while` loop; `none` stands for a run that needs more. -/
def R_StitchAllPatches {F : Type} [Inhabited F] (ft : floatTests_t F) (MAX_GRID_SIZE : Int)
    (R_GridInsertColumn R_GridInsertRow :
      srfGridMesh_t F → Int → Int → F × F × F → F → srfGridMesh_t F)
    (fuel : Nat) (surfaces : List (srfGridMesh_t F)) :
    Option (List (srfGridMesh_t F) × Int) :=
  stitchLoop ft MAX_GRID_SIZE R_GridInsertColumn R_GridInsertRow fuel fuel surfaces 0

/-- The columns and rows a grid can still take before it reaches `MAX_GRID_SIZE` in width and
in height. -/
def gridRoom {F : Type} (MAX_GRID_SIZE : Int) (grid : srfGridMesh_t F) : Nat :=
  (MAX_GRID_SIZE - grid.width).toNat + (MAX_GRID_SIZE - grid.height).toNat

/-- The insertions a surface list can still take: the sum of `gridRoom` over its entries. -/
def stitchRoom {F : Type} (MAX_GRID_SIZE : Int) (surfaces : List (srfGridMesh_t F)) : Nat :=
  (surfaces.map (gridRoom MAX_GRID_SIZE)).sum

/-- The assumption on `R_GridInsertColumn` and `R_GridInsertRow`: the grid returned has one
more column resp. one more row than the grid passed, the other dimension unchanged. -/
def insertsGrowByOne {F : Type}
    (R_GridInsertColumn R_GridInsertRow :
      srfGridMesh_t F → Int → Int → F × F × F → F → srfGridMesh_t F) : Prop :=
  ∀ (grid : srfGridMesh_t F) (position edge : Int) (point : F × F × F) (lodError : F),
    ((R_GridInsertColumn grid position edge point lodError).width = grid.width + 1 ∧
      (R_GridInsertColumn grid position edge point lodError).height = grid.height) ∧
    ((R_GridInsertRow grid position edge point lodError).height = grid.height + 1 ∧
      (R_GridInsertRow grid position edge point lodError).width = grid.width)

/-- The second surface list comes from the first by `n` insertions: same length, no dimension
smaller, no dimension raised above `MAX_GRID_SIZE`, and `n` less room. -/
def stitchedFrom {F : Type} [Inhabited F] (MAX_GRID_SIZE : Int)
    (before after : List (srfGridMesh_t F)) (n : Int) : Prop :=
  after.length = before.length ∧ 0 ≤ n ∧
  (stitchRoom MAX_GRID_SIZE after : Int) + n = stitchRoom MAX_GRID_SIZE before ∧
  ∀ i : Nat,
    (surfaceGrid before i).width ≤ (surfaceGrid after i).width ∧
    (surfaceGrid before i).height ≤ (surfaceGrid after i).height ∧
    (surfaceGrid after i).width ≤ max (surfaceGrid before i).width MAX_GRID_SIZE ∧
    (surfaceGrid after i).height ≤ max (surfaceGrid before i).height MAX_GRID_SIZE

/-- Every grid of the list has `lodStitched` set. -/
def allStitched {F : Type} [Inhabited F] (surfaces : List (srfGridMesh_t F)) : Prop :=
  ∀ i : Nat, (surfaceGrid surfaces i).surfaceType = surfaceType_t.SF_GRID →
    (surfaceGrid surfaces i).lodStitched = true

/-- The guard of an insertion: a column only below `MAX_GRID_SIZE` columns, a row only below
`MAX_GRID_SIZE` rows. -/
def stitchGuard {F : Type} (MAX_GRID_SIZE : Int) (grid2 : srfGridMesh_t F) (s : stitch_t) :
    Prop :=
  (s.column = true → grid2.width < MAX_GRID_SIZE) ∧
  (s.column = false → grid2.height < MAX_GRID_SIZE)

/-! ## Draw-item sort keys (`codemp/rd-rend2/tr_shade.cpp`) -/

/-- The macro `Q_min` on `int`s. -/
def Q_min (a b : Int) : Int := if a < b then a else b

/-- `RB_CreateSortKey`, lines 764-776.  The key is a `uint32_t`; `program` is the pointer
`item.program` as a `uintptr_t`; `x & 0xf` on an `int` is taken on its two's complement bit
pattern.  The `assert` is not part of a release build. -/
def RB_CreateSortKey (program : Nat) (stage layer : Int) : Nat :=
  let key : Nat := 0
  let layer := Q_min layer 15
  let key := (key ||| ((toU32 layer &&& 0xf) <<< 28)) % 4294967296
  let key := (key ||| ((toU32 stage &&& 0xf) <<< 24)) % 4294967296
  let key := (key ||| (program &&& 0x00ffffff)) % 4294967296
  key

/-- Bits 28..31 of a sort key. -/
def sortKeyLayer (key : Nat) : Nat := key / 2 ^ 28 % 16

/-- Bits 24..27 of a sort key. -/
def sortKeyStage (key : Nat) : Nat := key / 2 ^ 24 % 16

/-- Bits 0..23 of a sort key. -/
def sortKeyProgram (key : Nat) : Nat := key % 2 ^ 24

/-- What `RB_IterateStagesGeneric` needs of a shader stage to run its loop: `pStage->ss`,
whether one of the first two bundles is a lightmap, and the identity of the program `sp`
selected for the stage. -/
structure shaderStage_t where
  ss : Bool := false
  isLightmap : Bool := false
  program : Nat := 0
deriving DecidableEq, Repr

/-- Lines 1773-1779: the sort key of the draw item of stage `stage`; `sort` is
`input->shader->sort` as converted to the `int` parameter `layer`. -/
def stageSortKey (RF_DISTORTION RF_FORCEPOST RF_FORCE_ENT_ALPHA renderfx : Int)
    (program : Nat) (stage sort : Int) : Nat :=
  if Int.land renderfx RF_DISTORTION ≠ 0 ∨ Int.land renderfx RF_FORCEPOST ≠ 0 ∨
      Int.land renderfx RF_FORCE_ENT_ALPHA ≠ 0 then
    RB_CreateSortKey program 15 sort
  else
    RB_CreateSortKey program stage sort

/-- The stage loop of `RB_IterateStagesGeneric`, lines 1419-1792, from stage number `stage`
on: the list of the draw items added, each as its stage number and sort key.  The list
argument holds `input->xstages[stage ..]` up to `MAX_SHADER_STAGES`, `none` for a null
pointer. -/
def iterateStages (RF_DISTORTION RF_FORCEPOST RF_FORCE_ENT_ALPHA renderfx : Int)
    (r_lightmap depthFill : Bool) (sort : Int) :
    Int → List (Option shaderStage_t) → List (Int × Nat)
  | _, [] => []
  | _, none :: _ => []
  | stage, some pStage :: rest =>
    if pStage.ss then
      iterateStages RF_DISTORTION RF_FORCEPOST RF_FORCE_ENT_ALPHA renderfx r_lightmap
        depthFill sort (stage + 1) rest
    else
      let key := stageSortKey RF_DISTORTION RF_FORCEPOST RF_FORCE_ENT_ALPHA renderfx
        pStage.program stage sort
      if r_lightmap && pStage.isLightmap then [(stage, key)]
      else if depthFill then [(stage, key)]
      else (stage, key) ::
        iterateStages RF_DISTORTION RF_FORCEPOST RF_FORCE_ENT_ALPHA renderfx r_lightmap
          depthFill sort (stage + 1) rest

/-- `RB_IterateStagesGeneric`: the draw items added for the stages `input->xstages`. -/
def RB_IterateStagesGeneric (RF_DISTORTION RF_FORCEPOST RF_FORCE_ENT_ALPHA renderfx : Int)
    (r_lightmap depthFill : Bool) (sort : Int) (xstages : List (Option shaderStage_t)) :
    List (Int × Nat) :=
  iterateStages RF_DISTORTION RF_FORCEPOST RF_FORCE_ENT_ALPHA renderfx r_lightmap depthFill
    sort 0 xstages

/-! ## Surface sort order (`BSPSurfaceCompare`, lines 1842-1872) -/

/-- `BSPSurfaceCompare`, the comparison function passed to `qsort` at line 1971; `aa` and `bb`
are the surfaces the two arguments point at. -/
def BSPSurfaceCompare (aa bb : msurface_t) : Int :=
  -- shader first
  if aa.shader.sortedIndex < bb.shader.sortedIndex then -1
  else if aa.shader.sortedIndex > bb.shader.sortedIndex then 1
  -- by fogIndex
  else if aa.fogIndex < bb.fogIndex then -1
  else if aa.fogIndex > bb.fogIndex then 1
  -- by cubemapIndex
  else if aa.cubemapIndex < bb.cubemapIndex then -1
  else if aa.cubemapIndex > bb.cubemapIndex then 1
  else 0

/-- The triple a surface is sorted by: shader `sortedIndex`, `fogIndex`, `cubemapIndex`. -/
def surfaceSortTriple (s : msurface_t) : Int × Int × Int :=
  (s.shader.sortedIndex, s.fogIndex, s.cubemapIndex)

/-- Lexicographic order on triples of integers, written out: the first triple comes strictly
before the second. -/
def lexLess (a b : Int × Int × Int) : Prop :=
  a.1 < b.1 ∨ (a.1 = b.1 ∧ (a.2.1 < b.2.1 ∨ (a.2.1 = b.2.1 ∧ a.2.2 < b.2.2)))

/-! ## Overbright colour scale (`ComputeShaderColors`, lines 618-633)

Colour components are `float`s; they are rationals here and the product with the `float`
`scale` is the exact product. -/

/-- A `vec4_t` colour. -/
abbrev vec4_t := ℚ × ℚ × ℚ × ℚ

/-- The first three components of a colour multiplied by `scale`, the fourth unchanged. -/
def scaleRGB (scale : ℚ) (color : vec4_t) : vec4_t :=
  (color.1 * scale, color.2.1 * scale, color.2.2.1 * scale, color.2.2.2)

/-- The test of lines 619-623; the `GLS_` masks and values are declared outside this file. -/
def overbrightApplies (GLS_SRCBLEND_BITS GLS_DSTBLEND_BITS GLS_SRCBLEND_DST_COLOR
    GLS_SRCBLEND_ONE_MINUS_DST_COLOR GLS_DSTBLEND_SRC_COLOR
    GLS_DSTBLEND_ONE_MINUS_SRC_COLOR : Int) (overbrightBits blend : Int) : Bool :=
  decide (overbrightBits ≠ 0) &&
  !decide (Int.land blend GLS_SRCBLEND_BITS = GLS_SRCBLEND_DST_COLOR) &&
  !decide (Int.land blend GLS_SRCBLEND_BITS = GLS_SRCBLEND_ONE_MINUS_DST_COLOR) &&
  !decide (Int.land blend GLS_DSTBLEND_BITS = GLS_DSTBLEND_SRC_COLOR) &&
  !decide (Int.land blend GLS_DSTBLEND_BITS = GLS_DSTBLEND_ONE_MINUS_SRC_COLOR)

/-- `ComputeShaderColors`, lines 618-633: the last step, from the `baseColor` and `vertColor`
the colour and alpha generators have produced.  `scale` is the `int` `1 << tr.overbrightBits`
converted to `float`. -/
def ComputeShaderColors_overbright (GLS_SRCBLEND_BITS GLS_DSTBLEND_BITS GLS_SRCBLEND_DST_COLOR
    GLS_SRCBLEND_ONE_MINUS_DST_COLOR GLS_DSTBLEND_SRC_COLOR
    GLS_DSTBLEND_ONE_MINUS_SRC_COLOR : Int) (overbrightBits blend : Int)
    (baseColor vertColor : vec4_t) : vec4_t × vec4_t :=
  if overbrightApplies GLS_SRCBLEND_BITS GLS_DSTBLEND_BITS GLS_SRCBLEND_DST_COLOR
      GLS_SRCBLEND_ONE_MINUS_DST_COLOR GLS_DSTBLEND_SRC_COLOR GLS_DSTBLEND_ONE_MINUS_SRC_COLOR
      overbrightBits blend then
    let scale : ℚ := ((shl32 1 overbrightBits : Int) : ℚ)
    (scaleRGB scale baseColor, scaleRGB scale vertColor)
  else (baseColor, vertColor)

/-! ## `float` arithmetic

A finite `float` is the rational number it stands for.  The result of an operation of the
source is the exact result rounded to the nearest `float` (IEEE 754 binary32: 24 significant
bits, least exponent -126 with gradual underflow, ties to the even significand).  Results of
magnitude `2^128` and more, which are infinities in the source, are not represented. -/

/-- The integer nearest to `x`; of the two nearest integers the even one. -/
def roundNearestEven (x : ℚ) : Int :=
  if x - ⌊x⌋ < 1 / 2 then ⌊x⌋
  else if 1 / 2 < x - ⌊x⌋ then ⌊x⌋ + 1
  else if ⌊x⌋ % 2 = 0 then ⌊x⌋ else ⌊x⌋ + 1

/-- The binary exponent of the `float`s around `x`: `⌊log2 |x|⌋`, and -126 for the numbers
below `2^-126`. -/
def float32Exponent (x : ℚ) : Int := if x = 0 then -126 else max (Int.log 2 |x|) (-126)

/-- The distance of neighbouring `float`s around `x`. -/
def float32Ulp (x : ℚ) : ℚ := (2 : ℚ) ^ (float32Exponent x - 23)

/-- The `float` nearest to `x`. -/
def round32 (x : ℚ) : ℚ := roundNearestEven (x / float32Ulp x) * float32Ulp x

/-- The number `x` is a finite `float`: rounding leaves it as it is, and it is below `2^128`. -/
def isFloat32 (x : ℚ) : Prop := round32 x = x ∧ |x| < 340282366920938463463374607431768211456

instance (x : ℚ) : Decidable (isFloat32 x) := inferInstanceAs (Decidable (_ ∧ _))

/-- The number `x`, the exact result of an operation, is 0 or in the range of the normal
`float`s: from `2^-126` up to, but not including, `2^128`. -/
def float32Normal (x : ℚ) : Prop :=
  (x = 0 ∨ 1 / 85070591730234615865843651857942052864 ≤ |x|) ∧
    |x| < 340282366920938463463374607431768211456

instance (x : ℚ) : Decidable (float32Normal x) := inferInstanceAs (Decidable (_ ∧ _))

/-! ## Light grid lattice (`R_LoadLightGrid`, lines 2645-2661)

The bounds and cell sizes are `float`s and every operation on them rounds (`round32`), except
`ceil` and `floor`, whose result for a `float` is a `float`. -/

/-- Conversion of a `float` to `int`: the fraction is dropped. -/
def truncToInt (x : ℚ) : Int := if 0 ≤ x then ⌊x⌋ else ⌈x⌉

/-- What lines 2649-2661 compute for one axis: `lightGridInverseSize[i]`,
`lightGridOrigin[i]`, `maxs[i]` and `lightGridBounds[i]`. -/
structure lightGridAxis_t where
  lightGridInverseSize : ℚ
  lightGridOrigin : ℚ
  maxs : ℚ
  lightGridBounds : Int
deriving DecidableEq, Repr

/-- Line 2649 and the body of the loop of lines 2657-2661 for one axis, from
`lightGridSize[i]`, `wMins[i]` and `wMaxs[i]`. -/
def R_LoadLightGrid_axis (lightGridSize wMins wMaxs : ℚ) : lightGridAxis_t :=
  let lightGridOrigin :=
    round32 (lightGridSize * ((⌈round32 (wMins / lightGridSize)⌉ : Int) : ℚ))
  let maxs := round32 (lightGridSize * ((⌊round32 (wMaxs / lightGridSize)⌋ : Int) : ℚ))
  { lightGridInverseSize := round32 (1 / lightGridSize)
    lightGridOrigin := lightGridOrigin
    maxs := maxs
    lightGridBounds :=
      truncToInt (round32 (round32 (round32 (maxs - lightGridOrigin) / lightGridSize) + 1)) }

/-- `R_LoadLightGrid`, lines 2645-2661: the lattice of the three axes, from
`worldData->lightGridSize` and the bounds `wMins`, `wMaxs` of `worldData->bmodels[0]`. -/
def R_LoadLightGrid_lattice (lightGridSize wMins wMaxs : Fin 3 → ℚ) : Fin 3 → lightGridAxis_t :=
  fun i => R_LoadLightGrid_axis (lightGridSize i) (wMins i) (wMaxs i)

/-! ## Lightmap atlas coordinates (`FatPackU`, `FatPackV`, lines 551-587)

Texture coordinates are `float`s.  The conversion of an `int` to `float`, the division
`1.0f / side`, the two products and the sum each round (`round32`). -/

/-- `FatPackU`, lines 551-568. -/
def FatPackU (worldDeluxeMapping : Bool) (tr : lightmapAtlas_t) (input : ℚ)
    (lightmapnum : Int) : ℚ :=
  if lightmapnum < 0 then input else
  let lightmapnum := if worldDeluxeMapping then lightmapnum >>> 1 else lightmapnum
  if tr.lightmapAtlasSize.1 > 0 then
    let lightmapXOffset : Int := Int.tmod lightmapnum tr.lightmapsPerAtlasSide.1
    let invLightmapSide : ℚ := round32 (1 / round32 (tr.lightmapsPerAtlasSide.1 : ℚ))
    round32 (round32 (round32 (lightmapXOffset : ℚ) * invLightmapSide) +
      round32 (input * invLightmapSide))
  else input

/-- `FatPackV`, lines 570-587. -/
def FatPackV (worldDeluxeMapping : Bool) (tr : lightmapAtlas_t) (input : ℚ)
    (lightmapnum : Int) : ℚ :=
  if lightmapnum < 0 then input else
  let lightmapnum := if worldDeluxeMapping then lightmapnum >>> 1 else lightmapnum
  if tr.lightmapAtlasSize.2 > 0 then
    let lightmapYOffset : Int := Int.tdiv lightmapnum tr.lightmapsPerAtlasSide.1
    let invLightmapSide : ℚ := round32 (1 / round32 (tr.lightmapsPerAtlasSide.2 : ℚ))
    round32 (round32 (round32 (lightmapYOffset : ℚ) * invLightmapSide) +
      round32 (input * invLightmapSide))
  else input

/-! ## Dynamic-light passes (`RB_StageIteratorGeneric`, `ForwardDlight`,
`codemp/rd-rend2/tr_shade.cpp`) -/

/-- `ForwardDlight`, lines 884-1075: the light numbers `l` for which the loop of lines 939-1074
adds a draw item.  `tess.dlightBits & ( 1 << l )` is taken on the 32-bit patterns of the two
`int`s. -/
def ForwardDlight (dlightBits num_dlights : Int) : List Nat :=
  if num_dlights = 0 then [] else
  (List.range num_dlights.toNat).filter fun (l : Nat) =>
    toU32 dlightBits &&& toU32 (shl32 1 l) != 0

/-- `RB_StageIteratorGeneric`, lines 1842-1926: the light numbers of the dynamic-light draw
items it adds.  `shadowMap` is the test `backEnd.viewParms.flags & VPF_SHADOWMAP`; the shader
sort values are `float`s, compared exactly; `SS_OPAQUE` and the two surface flags are declared
outside this file. -/
def RB_StageIteratorGeneric_dlights (SURF_NODLIGHT SURF_SKY : Nat) (SS_OPAQUE : ℚ)
    (numVertexes numIndexes : Int) (depthFill shadowMap : Bool) (sort : ℚ)
    (surfaceFlags dlightBits num_dlights : Int) : List Nat :=
  if numVertexes = 0 ∨ numIndexes = 0 then [] else
  if depthFill then []
  else if shadowMap then []
  else
    if dlightBits ≠ 0 ∧ sort ≤ SS_OPAQUE ∧
        ¬ (toU32 surfaceFlags &&& (SURF_NODLIGHT ||| SURF_SKY) ≠ 0) then
      ForwardDlight dlightBits num_dlights
    else []

/-! ## Texture coordinate modifiers (`ComputeTexMods`, `codemp/rd-rend2/tr_shade.cpp`,
lines 230-324)

The matrix entries are `float`s; they are values of a type `F` with a sum, a product, 0 and 1.
The functions `RB_Calc...TexMatrix` and `RB_CalcTurbulentFactors` are defined outside these
sources: a modifier carries the matrix resp. the two factors they write for it.  The array
`bundle->texMods` is read by pointer arithmetic without a bound, so it is a function of the
index. -/

/-- The values of `texMod_t` that `ComputeTexMods` tells apart; `other` stands for every value
that is none of them. -/
inductive texMod_t where
  | TMOD_NONE
  | TMOD_TRANSFORM
  | TMOD_TURBULENT
  | TMOD_SCROLL
  | TMOD_SCALE
  | TMOD_STRETCH
  | TMOD_ROTATE
  | TMOD_ENTITY_TRANSLATE
  | other
deriving DecidableEq, Repr

/-- A texture matrix `float matrix[6]`: the 2x2 part in entries 0..3 (columns first), the
translation in entries 4 and 5. -/
structure texMatrix_t (F : Type) where
  m0 : F
  m1 : F
  m2 : F
  m3 : F
  m4 : F
  m5 : F
deriving DecidableEq, Repr

/-- A `texModInfo_t`: its type, the matrix that the `RB_Calc...TexMatrix` function of its
type writes for it, and the two factors that `RB_CalcTurbulentFactors` writes for it. -/
structure texModInfo_t (F : Type) where
  type : texMod_t
  matrix : texMatrix_t F
  turb : F × F
deriving DecidableEq, Repr

/-- The local arrays and the two outputs of `ComputeTexMods`, and the indexes `tm` at which
`bundle->texMods[tm]` has been read so far. -/
structure texModState_t (F : Type) where
  matrix : texMatrix_t F
  currentmatrix : texMatrix_t F
  outMatrix : F × F × F × F
  outOffTurb : F × F × F × F
  reads : List Int
deriving DecidableEq, Repr

/-- Whether the second `switch` (lines 293-322) composes for this type. -/
def texMod_t.composes : texMod_t → Bool
  | .TMOD_ENTITY_TRANSLATE => true
  | .TMOD_SCROLL => true
  | .TMOD_SCALE => true
  | .TMOD_STRETCH => true
  | .TMOD_TRANSFORM => true
  | .TMOD_ROTATE => true
  | _ => false

/-- The first `switch`, lines 248-291, at index `tm`: the new value of `tm` and the state.
`entityMatrix` is what `RB_CalcScrollTexMatrix` writes for
`backEnd.currentEntity->e.shaderTexCoord`. -/
def texModFirstSwitch {F : Type} (TR_MAX_TEXMODS : Int) (entityMatrix : texMatrix_t F)
    (texMods : Int → texModInfo_t F) (tm : Int) (st : texModState_t F) :
    Except String (Int × texModState_t F) :=
  let st := { st with reads := st.reads ++ [tm] }
  match (texMods tm).type with
  | .TMOD_NONE => .ok (TR_MAX_TEXMODS, st)
  | .TMOD_TURBULENT =>
    .ok (tm, { st with outOffTurb := (st.outOffTurb.1, st.outOffTurb.2.1, (texMods tm).turb.1,
                                      (texMods tm).turb.2) })
  | .TMOD_ENTITY_TRANSLATE => .ok (tm, { st with matrix := entityMatrix })
  | .TMOD_SCROLL => .ok (tm, { st with matrix := (texMods tm).matrix })
  | .TMOD_SCALE => .ok (tm, { st with matrix := (texMods tm).matrix })
  | .TMOD_STRETCH => .ok (tm, { st with matrix := (texMods tm).matrix })
  | .TMOD_TRANSFORM => .ok (tm, { st with matrix := (texMods tm).matrix })
  | .TMOD_ROTATE => .ok (tm, { st with matrix := (texMods tm).matrix })
  | .other => .error "ERROR: unknown texmod"

/-- The second `switch`, lines 293-322, at the index `tm` the first one has left. -/
def texModSecondSwitch {F : Type} [Add F] [Mul F] (texMods : Int → texModInfo_t F) (tm : Int)
    (st : texModState_t F) : texModState_t F :=
  let st := { st with reads := st.reads ++ [tm] }
  if (texMods tm).type.composes then
    let matrix := st.matrix
    let currentmatrix := st.currentmatrix
    let out0 := matrix.m0 * currentmatrix.m0 + matrix.m2 * currentmatrix.m1
    let out1 := matrix.m1 * currentmatrix.m0 + matrix.m3 * currentmatrix.m1
    let out2 := matrix.m0 * currentmatrix.m2 + matrix.m2 * currentmatrix.m3
    let out3 := matrix.m1 * currentmatrix.m2 + matrix.m3 * currentmatrix.m3
    let off0 := matrix.m0 * currentmatrix.m4 + matrix.m2 * currentmatrix.m5 + matrix.m4
    let off1 := matrix.m1 * currentmatrix.m4 + matrix.m3 * currentmatrix.m5 + matrix.m5
    { st with
      outMatrix := (out0, out1, out2, out3)
      outOffTurb := (off0, off1, st.outOffTurb.2.2.1, st.outOffTurb.2.2.2)
      currentmatrix := ⟨out0, out1, out2, out3, off0, off1⟩ }
  else st

/-- The loop of lines 247-323 from index `tm` on.  The first argument bounds the number of
rounds; `none` stands for a loop that needs more, `error` for the fatal error of line 289. -/
def texModLoop {F : Type} [Add F] [Mul F] (TR_MAX_TEXMODS : Int) (entityMatrix : texMatrix_t F)
    (numTexMods : Int) (texMods : Int → texModInfo_t F) :
    Nat → Int → texModState_t F → Option (Except String (texModState_t F))
  | 0, tm, st => if tm < numTexMods then none else some (.ok st)
  | fuel + 1, tm, st =>
    if tm < numTexMods then
      match texModFirstSwitch TR_MAX_TEXMODS entityMatrix texMods tm st with
      | .error e => some (.error e)
      | .ok (tm, st) =>
        texModLoop TR_MAX_TEXMODS entityMatrix numTexMods texMods fuel (tm + 1)
          (texModSecondSwitch texMods tm st)
    else some (.ok st)

/-- `ComputeTexMods`, lines 230-324, for the bundle with `numTexMods` and `texMods`.  A run
that ends visits no index twice, so `numTexMods` rounds are allowed for. -/
def ComputeTexMods {F : Type} [Add F] [Mul F] [Zero F] [One F] (TR_MAX_TEXMODS : Int)
    (entityMatrix : texMatrix_t F) (numTexMods : Int) (texMods : Int → texModInfo_t F) :
    Option (Except String (texModState_t F)) :=
  texModLoop TR_MAX_TEXMODS entityMatrix numTexMods texMods numTexMods.toNat 0
    { matrix := ⟨1, 0, 0, 1, 0, 0⟩
      currentmatrix := ⟨1, 0, 0, 1, 0, 0⟩
      outMatrix := (1, 0, 0, 1)
      outOffTurb := (0, 0, 0, 0)
      reads := [] }

/-! ## LOD error fixing (`R_FixSharedVertexLodError`, lines 1174-1313)

As for patch stitching, the `float` tests are arguments of the model and the surfaces are a
list of grids.  A pointer to a grid is the number of its surface. -/

/-- The two `m` loops of a `k` round (lines 1208-1236, 1246-1274): every inner point of the
first and last row and of the first and last column of `grid2` that lies at the point `v1` of
`grid1` takes the LOD error `lodError`.  The state is `grid2` and the flag `touch`. -/
def fixAtPoint {F : Type} [Inhabited F] (ft : floatTests_t F) (v1 : F × F × F) (lodError : F)
    (st : srfGridMesh_t F × Bool) : srfGridMesh_t F × Bool :=
  let st := ([0, 1] : List Int).foldl
    (fun (st : srfGridMesh_t F × Bool) (m : Int) =>
      let offset2 := if m ≠ 0 then (st.1.height - 1) * st.1.width else 0
      if R_MergedWidthPoints ft st.1 offset2 then st else
      (List.range' 1 (st.1.width - 1 - 1).toNat).foldl
        (fun (st : srfGridMesh_t F × Bool) (l : Nat) =>
          if apart ft v1 (gridVert st.1 (l + offset2)) then st
          else ({ st.1 with widthLodError := st.1.widthLodError.set l lodError }, true))
        st)
    st
  ([0, 1] : List Int).foldl
    (fun (st : srfGridMesh_t F × Bool) (m : Int) =>
      let offset2 := if m ≠ 0 then st.1.width - 1 else 0
      if R_MergedHeightPoints ft st.1 offset2 then st else
      (List.range' 1 (st.1.height - 1 - 1).toNat).foldl
        (fun (st : srfGridMesh_t F × Bool) (l : Nat) =>
          if apart ft v1 (gridVert st.1 (st.1.width * l + offset2)) then st
          else ({ st.1 with heightLodError := st.1.heightLodError.set l lodError }, true))
        st)
    st

/-- Lines 1202-1277: the LOD errors of the inner edge points of `grid1` are copied to the edge
points of `grid2` at the same place.  Result: `grid2` and the flag `touch`. -/
def fixSharedEdges {F : Type} [Inhabited F] (ft : floatTests_t F)
    (grid1 grid2 : srfGridMesh_t F) : srfGridMesh_t F × Bool :=
  let st := ([0, 1] : List Int).foldl
    (fun (st : srfGridMesh_t F × Bool) (n : Int) =>
      let offset1 := if n ≠ 0 then (grid1.height - 1) * grid1.width else 0
      if R_MergedWidthPoints ft grid1 offset1 then st else
      (List.range' 1 (grid1.width - 1 - 1).toNat).foldl
        (fun (st : srfGridMesh_t F × Bool) (k : Nat) =>
          fixAtPoint ft (gridVert grid1 (k + offset1)) (lodErrorAt grid1.widthLodError k) st)
        st)
    (grid2, false)
  ([0, 1] : List Int).foldl
    (fun (st : srfGridMesh_t F × Bool) (n : Int) =>
      let offset1 := if n ≠ 0 then grid1.width - 1 else 0
      if R_MergedHeightPoints ft grid1 offset1 then st else
      (List.range' 1 (grid1.height - 1 - 1).toNat).foldl
        (fun (st : srfGridMesh_t F × Bool) (k : Nat) =>
          fixAtPoint ft (gridVert grid1 (grid1.width * k + offset1))
            (lodErrorAt grid1.heightLodError k) st)
        st)
    st

/-- The `j` loop of `R_FixSharedVertexLodError_r`, lines 1187-1284, over the surface numbers
given; `recurse` is the recursive call of line 1280.  Result: the surfaces, and for every call
of `R_FixSharedVertexLodError_r` made, in order, the number of the grid it is made on and the
`lodFixed` that grid had before line 1279 set it to 2.  In the calls the source makes `grid1`
has `lodFixed = 2`, so that `grid2` is another grid. -/
def fixSharedFrom {F : Type} [Inhabited F] (ft : floatTests_t F)
    (recurse : List (srfGridMesh_t F) → Nat → Nat →
      Option (List (srfGridMesh_t F) × List (Nat × Int)))
    (start grid1num : Nat) :
    List Nat → List (srfGridMesh_t F) → List (Nat × Int) →
      Option (List (srfGridMesh_t F) × List (Nat × Int))
  | [], surfaces, calls => some (surfaces, calls)
  | j :: rest, surfaces, calls =>
    let grid1 := surfaceGrid surfaces grid1num
    let grid2 := surfaceGrid surfaces j
    if grid2.surfaceType ≠ surfaceType_t.SF_GRID then
      fixSharedFrom ft recurse start grid1num rest surfaces calls
    else if grid2.lodFixed = 2 then
      fixSharedFrom ft recurse start grid1num rest surfaces calls
    else if ft.ne grid1.lodRadius grid2.lodRadius then
      fixSharedFrom ft recurse start grid1num rest surfaces calls
    else if ft.ne grid1.lodOrigin.1 grid2.lodOrigin.1 then
      fixSharedFrom ft recurse start grid1num rest surfaces calls
    else if ft.ne grid1.lodOrigin.2.1 grid2.lodOrigin.2.1 then
      fixSharedFrom ft recurse start grid1num rest surfaces calls
    else if ft.ne grid1.lodOrigin.2.2 grid2.lodOrigin.2.2 then
      fixSharedFrom ft recurse start grid1num rest surfaces calls
    else
      let r := fixSharedEdges ft grid1 grid2
      let surfaces := surfaces.set j r.1
      if r.2 then
        let surfaces := surfaces.set j { r.1 with lodFixed := 2 }
        match recurse surfaces start j with
        | none => none
        | some (surfaces, deeper) =>
          fixSharedFrom ft recurse start grid1num rest surfaces
            (calls ++ (j, r.1.lodFixed) :: deeper)
      else fixSharedFrom ft recurse start grid1num rest surfaces calls

/-- `R_FixSharedVertexLodError_r`, lines 1183-1285, on the grid of surface `grid1num`.  The
first argument bounds the depth of the recursion; `none` stands for a run that goes deeper. -/
def R_FixSharedVertexLodError_r {F : Type} [Inhabited F] (ft : floatTests_t F) :
    Nat → List (srfGridMesh_t F) → Nat → Nat →
      Option (List (srfGridMesh_t F) × List (Nat × Int))
  | 0, _, _, _ => none
  | fuel + 1, surfaces, start, grid1num =>
    fixSharedFrom ft (R_FixSharedVertexLodError_r ft fuel) start grid1num
      (List.range' start (surfaces.length - start)) surfaces []

/-- The `i` loop of `R_FixSharedVertexLodError`, lines 1299-1312, over the surface numbers
given. -/
def fixSharedTop {F : Type} [Inhabited F] (ft : floatTests_t F) (fuel : Nat) :
    List Nat → List (srfGridMesh_t F) → List (Nat × Int) →
      Option (List (srfGridMesh_t F) × List (Nat × Int))
  | [], surfaces, calls => some (surfaces, calls)
  | i :: rest, surfaces, calls =>
    let grid1 := surfaceGrid surfaces i
    if grid1.surfaceType ≠ surfaceType_t.SF_GRID then
      fixSharedTop ft fuel rest surfaces calls
    else if grid1.lodFixed ≠ 0 then
      fixSharedTop ft fuel rest surfaces calls
    else
      let surfaces := surfaces.set i { grid1 with lodFixed := 2 }
      match R_FixSharedVertexLodError_r ft fuel surfaces (i + 1) i with
      | none => none
      | some (surfaces, deeper) =>
        fixSharedTop ft fuel rest surfaces (calls ++ (i, grid1.lodFixed) :: deeper)

/-- `R_FixSharedVertexLodError`, lines 1295-1313: the surfaces when the function returns and
the calls of `R_FixSharedVertexLodError_r` made.  `fuel` bounds the depth of the recursion. -/
def R_FixSharedVertexLodError {F : Type} [Inhabited F] (ft : floatTests_t F) (fuel : Nat)
    (surfaces : List (srfGridMesh_t F)) :
    Option (List (srfGridMesh_t F) × List (Nat × Int)) :=
  fixSharedTop ft fuel (List.range surfaces.length) surfaces []

/-- Whether a surface is a grid whose `lodFixed` is not 2: 1 if so, 0 if not. -/
def unfixedGrid {F : Type} (grid : srfGridMesh_t F) : Nat :=
  if grid.surfaceType = surfaceType_t.SF_GRID ∧ grid.lodFixed ≠ 2 then 1 else 0

/-- The number of grids of a surface list whose `lodFixed` is not 2. -/
def unfixedCount {F : Type} (surfaces : List (srfGridMesh_t F)) : Nat :=
  (surfaces.map unfixedGrid).sum

/-- The number of grid surfaces of a surface list. -/
def gridCount {F : Type} (surfaces : List (srfGridMesh_t F)) : Nat :=
  (surfaces.filter fun grid => grid.surfaceType == surfaceType_t.SF_GRID).length

/-- The second surface list comes from the first by a run that made the calls `calls`: same
length, one grid fewer with `lodFixed` other than 2 for each call, every call made on a grid
whose `lodFixed` was not 2 before the run and is 2 after it, no two calls made on the same
grid, and the grids that had `lodFixed = 2` are as they were. -/
def lodFixedFrom {F : Type} [Inhabited F] (before after : List (srfGridMesh_t F))
    (calls : List (Nat × Int)) : Prop :=
  after.length = before.length ∧
  unfixedCount after + calls.length = unfixedCount before ∧
  (∀ c ∈ calls, c.2 ≠ 2 ∧ (surfaceGrid before c.1).lodFixed ≠ 2 ∧
    (surfaceGrid after c.1).lodFixed = 2) ∧
  (calls.map Prod.fst).Nodup ∧
  ∀ i : Nat, (surfaceGrid before i).lodFixed = 2 → surfaceGrid after i = surfaceGrid before i

/-- The state of an edge scan has the `surfaceType` and the `lodFixed` of `grid2`. -/
def keepsMarks {F : Type} (grid2 : srfGridMesh_t F) (s : srfGridMesh_t F × Bool) : Prop :=
  s.1.surfaceType = grid2.surfaceType ∧ s.1.lodFixed = grid2.lodFixed

/-! ## Texture coordinate modifiers: the reference of the specification -/

/-- The affine map `M` composed after the affine map `C`, as texture matrices (reference side
of the comparison with `ComputeTexMods`). -/
def texMatrixAfter {F : Type} [Add F] [Mul F] (M C : texMatrix_t F) : texMatrix_t F :=
  ⟨M.m0 * C.m0 + M.m2 * C.m1, M.m1 * C.m0 + M.m3 * C.m1,
   M.m0 * C.m2 + M.m2 * C.m3, M.m1 * C.m2 + M.m3 * C.m3,
   M.m0 * C.m4 + M.m2 * C.m5 + M.m4, M.m1 * C.m4 + M.m3 * C.m5 + M.m5⟩

/-- The reference the specification gives for `ComputeTexMods`, from the accumulated affine
map and turbulence pair `acc` on: the modifiers are processed in order, a modifier of a matrix
type with matrix `M` replaces the accumulated map `C` by `M` after `C`, a turbulence modifier
replaces the turbulence pair only, and a `NONE` modifier stops processing. -/
def texModsReferenceFrom {F : Type} [Add F] [Mul F] (entityMatrix : texMatrix_t F) :
    List (texModInfo_t F) → texMatrix_t F × (F × F) → texMatrix_t F × (F × F)
  | [], acc => acc
  | mod :: rest, acc =>
    match mod.type with
    | .TMOD_NONE => acc
    | .TMOD_TURBULENT => texModsReferenceFrom entityMatrix rest (acc.1, mod.turb)
    | .TMOD_ENTITY_TRANSLATE =>
      texModsReferenceFrom entityMatrix rest (texMatrixAfter entityMatrix acc.1, acc.2)
    | .other => texModsReferenceFrom entityMatrix rest acc
    | _ => texModsReferenceFrom entityMatrix rest (texMatrixAfter mod.matrix acc.1, acc.2)

/-- The reference result for a modifier list: start from the identity matrix and zero offset
and turbulence; the outputs are the 2x2 part of the accumulated map, and its translation
followed by the turbulence pair. -/
def texModsReference {F : Type} [Add F] [Mul F] [Zero F] [One F] (entityMatrix : texMatrix_t F)
    (mods : List (texModInfo_t F)) : (F × F × F × F) × (F × F × F × F) :=
  let acc := texModsReferenceFrom entityMatrix mods (⟨1, 0, 0, 1, 0, 0⟩, (0, 0))
  ((acc.1.m0, acc.1.m1, acc.1.m2, acc.1.m3), (acc.1.m4, acc.1.m5, acc.2.1, acc.2.2))

/-- The state of `ComputeTexMods` holds the accumulated map and turbulence pair `acc`. -/
def texModStateHolds {F : Type} (st : texModState_t F) (acc : texMatrix_t F × (F × F)) : Prop :=
  st.currentmatrix = acc.1 ∧
  st.outMatrix = (acc.1.m0, acc.1.m1, acc.1.m2, acc.1.m3) ∧
  st.outOffTurb = (acc.1.m4, acc.1.m5, acc.2.1, acc.2.2)

/-! ## Concrete inputs used by the examples -/

/-- A world whose shader lump holds one shader with no surface flags. -/
def exampleWorld : world_t := { numShaders := 1, shaders := [{}] }

/-- A world whose only shader carries the flag bit `0x80` (used as `SURF_NODRAW`). -/
def exampleNodrawWorld : world_t := { numShaders := 1, shaders := [{ surfaceFlags := 128 }] }

/-- A surface of type face with the given shader `sortedIndex`, `numVerts` and `numIndexes`. -/
def exampleSurface (sortedIndex numVerts numIndexes : Int) : msurface_t :=
  { shader := { sortedIndex := sortedIndex }
    data := { surfaceType := surfaceType_t.SF_FACE, numVerts := numVerts,
              numIndexes := numIndexes } }

/-- A world of six surfaces in four shader runs; the second run does not fit into the first
batch and the third run alone exceeds the index budget. -/
def exampleBatchWorld : world_t :=
  { numsurfaces := 6
    surfaces := [exampleSurface 1 100 300, exampleSurface 1 200000 30,
      exampleSurface 2 300000 30, exampleSurface 2 10 3, exampleSurface 3 10 30000000,
      exampleSurface 4 1 3] }

/-- A world of two faces with the same shader, fog and cubemap in one leaf whose mark surfaces
list surface 1 before surface 0. -/
def exampleMergeWorld : world_t :=
  { numsurfaces := 2
    numWorldSurfaces := 2
    surfaces := [exampleSurface 1 4 6, exampleSurface 1 4 6]
    surfacesViewCount := [0, 0]
    numnodes := 1
    numDecisionNodes := 0
    leafs := [{ firstmarksurface := 0, nummarksurfaces := 2 }]
    nummarksurfaces := 2
    marksurfaces := [1, 0] }

/-- The same world with the mark surfaces in ascending order. -/
def exampleMergeWorldAscending : world_t :=
  { numsurfaces := 2
    numWorldSurfaces := 2
    surfaces := [exampleSurface 1 4 6, exampleSurface 1 4 6]
    surfacesViewCount := [0, 0]
    numnodes := 1
    numDecisionNodes := 0
    leafs := [{ firstmarksurface := 0, nummarksurfaces := 2 }]
    nummarksurfaces := 2
    marksurfaces := [0, 1] }

/-- A face with the given `sortedIndex`, vertex count and local triangle indexes. -/
def exampleIndexedSurface (sortedIndex numVerts : Int) (indexes : List Nat) : msurface_t :=
  { shader := { sortedIndex := sortedIndex }
    data := { surfaceType := surfaceType_t.SF_FACE, numVerts := numVerts,
              numIndexes := indexes.length, indexes := indexes } }

/-- A world of two faces of one shader: a triangle and a quad. -/
def exampleIndexedWorld : world_t :=
  { numsurfaces := 2
    surfaces := [exampleIndexedSurface 1 3 [0, 1, 2],
      exampleIndexedSurface 1 4 [0, 1, 2, 0, 2, 3]] }

/-- A world of two triangles with the same shader, fog and cubemap in one leaf, as
`R_CreateWorldVBOs` leaves them: the second one starts at vertex 3 and index 3 of the shared
buffers. -/
def exampleMergeIndexWorld : world_t :=
  { numsurfaces := 2
    numWorldSurfaces := 2
    surfaces := [
      { shader := { sortedIndex := 1 }
        data := { surfaceType := surfaceType_t.SF_FACE, numVerts := 3, numIndexes := 3
                  indexes := [0, 1, 2], firstIndex := 0, firstVert := 0 } },
      { shader := { sortedIndex := 1 }
        data := { surfaceType := surfaceType_t.SF_FACE, numVerts := 3, numIndexes := 3
                  indexes := [0, 1, 2], firstIndex := 3, firstVert := 3 } }]
    surfacesViewCount := [0, 0]
    numnodes := 1
    numDecisionNodes := 0
    leafs := [{ firstmarksurface := 0, nummarksurfaces := 2 }]
    nummarksurfaces := 2
    marksurfaces := [0, 1] }

/-- The `float` tests on integer-valued coordinates. -/
def exampleFloatTests : floatTests_t Int :=
  { gtTenth := fun a b => decide (|a - b| * 10 > 1)
    ltHundredth := fun a b => decide (|a - b| * 100 < 1)
    ne := fun a b => a != b }

/-- A 3 x 3 grid over the square from (0, 0, 0) to (2, 2, 0). -/
def exampleStitchGrid1 : srfGridMesh_t Int :=
  { surfaceType := surfaceType_t.SF_GRID
    lodOrigin := (0, 0, 0)
    lodRadius := 4
    width := 3
    height := 3
    widthLodError := [5, 6, 7]
    heightLodError := [8, 9, 10]
    verts := [(0, 0, 0), (1, 0, 0), (2, 0, 0), (0, 1, 0), (1, 1, 0), (2, 1, 0),
      (0, 2, 0), (1, 2, 0), (2, 2, 0)] }

/-- A 3 x 3 grid whose first row runs from (2, 0, 0) over (0, 0, 0) to (-2, 0, 0): it shares
the edge from (0, 0, 0) to (2, 0, 0) with the first row of `exampleStitchGrid1`, in the
opposite direction and without the middle point. -/
def exampleStitchGrid2 : srfGridMesh_t Int :=
  { surfaceType := surfaceType_t.SF_GRID
    lodOrigin := (0, 0, 0)
    lodRadius := 4
    width := 3
    height := 3
    widthLodError := [1, 2, 3]
    heightLodError := [1, 2, 3]
    verts := [(2, 0, 0), (0, 0, 0), (-2, 0, 0), (2, -1, 0), (0, -1, 0), (-2, -1, 0),
      (2, -2, 0), (0, -2, 0), (-2, -2, 0)] }

/-- An example column insertion: the new column `position` holds `point` in row `row` and a
copy of the left neighbour in the other rows; the LOD error goes into `widthLodError`. -/
def exampleInsertColumn (grid : srfGridMesh_t Int) (position row : Int)
    (point : Int × Int × Int) (lodError : Int) : srfGridMesh_t Int :=
  { grid with
    width := grid.width + 1
    widthLodError := grid.widthLodError.take position.toNat ++
      lodError :: grid.widthLodError.drop position.toNat
    verts := (List.range grid.height.toNat).flatMap fun (r : Nat) =>
      let rowVerts := (grid.verts.drop (r * grid.width.toNat)).take grid.width.toNat
      rowVerts.take position.toNat ++
        (if (r : Int) = row then point else rowVerts.getD (position.toNat - 1) default) ::
          rowVerts.drop position.toNat }

/-- An example row insertion: the new row `position` holds `point` in column `column` and a
copy of the vertex above in the other columns; the LOD error goes into `heightLodError`. -/
def exampleInsertRow (grid : srfGridMesh_t Int) (position column : Int)
    (point : Int × Int × Int) (lodError : Int) : srfGridMesh_t Int :=
  { grid with
    height := grid.height + 1
    heightLodError := grid.heightLodError.take position.toNat ++
      lodError :: grid.heightLodError.drop position.toNat
    verts := grid.verts.take (position.toNat * grid.width.toNat) ++
      ((List.range grid.width.toNat).map fun (c : Nat) =>
        if (c : Int) = column then point
        else grid.verts.getD ((position.toNat - 1) * grid.width.toNat + c) default) ++
      grid.verts.drop (position.toNat * grid.width.toNat) }

/-- An integer rendering of `(int)ceilf(sqrtf(n))` for the examples, exact while `n` is a
`float` integer: the least `t` in `0 .. n` with `n <= t * t`. -/
def ceilSqrt (n : Int) : Int :=
  (((List.range (n.toNat + 1)).find? fun (t : Nat) => n ≤ (t : Int) * t).getD 0 : Nat)

/-- An integer rendering of `(int)ceilf((float)a / b)` for the examples, for positive `b`. -/
def ceilQuot (a b : Int) : Int := (a + b - 1) / b

/-- The integer identity texture matrix. -/
def exampleIdentityMatrix : texMatrix_t Int := ⟨1, 0, 0, 1, 0, 0⟩

/-- Example memory at and after `bundle->texMods`: entry 0 scrolls by (2, 0), entry 1 has type
`TMOD_NONE`, and entry 4, past the modifiers of this bundle, scrolls by (3, 0) (a modifier of
another bundle); the other entries have type `TMOD_NONE`. -/
def exampleTexMods (tm : Int) : texModInfo_t Int :=
  if tm = 0 then ⟨texMod_t.TMOD_SCROLL, ⟨1, 0, 0, 1, 2, 0⟩, (0, 0)⟩
  else if tm = 4 then ⟨texMod_t.TMOD_SCROLL, ⟨1, 0, 0, 1, 3, 0⟩, (0, 0)⟩
  else ⟨texMod_t.TMOD_NONE, exampleIdentityMatrix, (0, 0)⟩

/-- A 3 x 3 grid below `exampleStitchGrid1`: its first row is the first row of that grid, its
last row runs from (0, -2, 0) to (2, -2, 0). -/
def exampleFixGrid2 : srfGridMesh_t Int :=
  { surfaceType := surfaceType_t.SF_GRID
    lodOrigin := (0, 0, 0)
    lodRadius := 4
    width := 3
    height := 3
    widthLodError := [1, 2, 3]
    heightLodError := [1, 2, 3]
    verts := [(0, 0, 0), (1, 0, 0), (2, 0, 0), (0, -1, 0), (1, -1, 0), (2, -1, 0),
      (0, -2, 0), (1, -2, 0), (2, -2, 0)] }

/-- A 3 x 3 grid below `exampleFixGrid2`: its first row is the last row of that grid; it has
no point in common with `exampleStitchGrid1`. -/
def exampleFixGrid3 : srfGridMesh_t Int :=
  { surfaceType := surfaceType_t.SF_GRID
    lodOrigin := (0, 0, 0)
    lodRadius := 4
    width := 3
    height := 3
    widthLodError := [11, 12, 13]
    heightLodError := [11, 12, 13]
    verts := [(0, -2, 0), (1, -2, 0), (2, -2, 0), (0, -3, 0), (1, -3, 0), (2, -3, 0),
      (0, -4, 0), (1, -4, 0), (2, -4, 0)] }

/-- Three grids in a chain: surface 0 touches surface 2, which touches surface 1. -/
def exampleFixSurfaces : List (srfGridMesh_t Int) :=
  [exampleStitchGrid1, exampleFixGrid3, exampleFixGrid2]

/-- A world of three eligible surfaces in two shader runs: the vertex counts of the first run
are 1 and -1, the second run has 1000000 vertices. -/
def exampleNegativeCountWorld : world_t :=
  { numsurfaces := 3
    surfaces := [exampleSurface 1 1 3, exampleSurface 1 (-1) 3, exampleSurface 2 1000000 3] }

/-- A world of two eligible surfaces in two shader runs, with 400000 and 14000000 vertices: at
156 bytes a vertex the second run has 2184000000 bytes, more than an `int` holds. -/
def exampleWrapWorld : world_t :=
  { numsurfaces := 2
    surfaces := [exampleSurface 1 400000 3, exampleSurface 2 14000000 3] }

end TrBsp

/-! # Theorems -/

namespace TrBsp

/-! ## Machine-integer lemmas -/

theorem wrap32_of_range {x : Int} (h0 : -2147483648 ≤ x) (h1 : x < 2147483648) :
    wrap32 x = x := by
  unfold wrap32; omega

theorem nat_le_lor_left (a b : Nat) : a ≤ a ||| b :=
  Nat.le_of_testBit (by intro i h; simp [h])

theorem nat_le_lor_right (a b : Nat) : b ≤ a ||| b :=
  Nat.le_of_testBit (by intro i h; simp [h])

theorem toByte_natCast (n : Nat) (h : n ≤ 255) : ((toByte (n : Int)).val : Int) = (n : Int) := by
  simp only [toByte]
  omega

theorem floor_scale_bounds (a M : Nat) (hM : 0 < M) :
    a * 255 / M * M ≤ 255 * a ∧ 255 * a < (a * 255 / M + 1) * M := by
  have h1 := Nat.div_add_mod (a * 255) M
  have h2 := Nat.mod_lt (a * 255) hM
  set q := a * 255 / M
  have h3 : q * M = M * q := Nat.mul_comm _ _
  have h4 : (q + 1) * M = M * q + M := by ring
  constructor
  · omega
  · omega

theorem floor_scale_cross (a b M : Nat) (hM : 0 < M) (ha : a ≤ M) :
    a * 255 / M * b < b * 255 / M * a + M := by
  obtain ⟨h1, h2⟩ := floor_scale_bounds a M hM
  obtain ⟨h3, h4⟩ := floor_scale_bounds b M hM
  set x := a * 255 / M
  set y := b * 255 / M
  have h5 : x * b * M ≤ 255 * a * b := by nlinarith
  have h7 : x * b * M ≤ (y * a + a) * M := by nlinarith
  have h8 : x * b ≤ y * a + a := Nat.le_of_mul_le_mul_right h7 hM
  rcases Nat.eq_zero_or_pos a with h0 | h0
  · subst h0; simp [x]; exact hM
  · have h9 : 255 * a * b < (y + 1) * M * a := by nlinarith
    have h10 : x * b * M < (y * a + a) * M := by nlinarith
    have h11 : x * b < y * a + a := Nat.lt_of_mul_lt_mul_right h10
    omega

theorem scaled_le_255 (a M : Nat) (h : a ≤ M) : a * 255 / M ≤ 255 := by
  apply Nat.div_le_of_le_mul
  nlinarith

/-! ## Overbright colour shift -/

theorem colorShiftAmount_nonneg (m o : Int) : 0 ≤ colorShiftAmount m o := by
  unfold colorShiftAmount Q_max; split_ifs <;> omega

/-- For a shift of at most 15 the shifted channel is the exact product, below `2^23`. -/
theorem shl32_small (x : byte) (s : Int) (hs0 : 0 ≤ s) (hs : s ≤ 15) :
    shl32 (x.val : Int) s = ((x.val * 2 ^ s.toNat : Nat) : Int) ∧
      x.val * 2 ^ s.toNat ≤ 8355840 := by
  have hx : x.val ≤ 255 := by omega
  have hsn : s.toNat ≤ 15 := by omega
  have hp : 2 ^ s.toNat ≤ 2 ^ 15 := Nat.pow_le_pow_right (by norm_num) hsn
  have hb : x.val * 2 ^ s.toNat ≤ 8355840 := by
    calc x.val * 2 ^ s.toNat ≤ 255 * 2 ^ 15 := Nat.mul_le_mul hx hp
    _ = 8355840 := by norm_num
  refine ⟨?_, hb⟩
  unfold shl32
  rw [wrap32_of_range]
  · push_cast; rfl
  · have : (0:Int) ≤ (x.val : Int) * 2 ^ s.toNat := by positivity
    omega
  · have : ((x.val * 2 ^ s.toNat : Nat) : Int) ≤ 8355840 := by exact_mod_cast hb
    push_cast at this
    omega

theorem colorShiftShifted_small (s : Int) (hs0 : 0 ≤ s) (hs : s ≤ 15) (inp : color4ub_t) :
    ∃ a b c : Nat, a ≤ 8355840 ∧ b ≤ 8355840 ∧ c ≤ 8355840 ∧
      colorShiftShifted s inp = ((a : Int), (b : Int), (c : Int)) := by
  obtain ⟨e0, b0⟩ := shl32_small inp.c0 s hs0 hs
  obtain ⟨e1, b1⟩ := shl32_small inp.c1 s hs0 hs
  obtain ⟨e2, b2⟩ := shl32_small inp.c2 s hs0 hs
  exact ⟨_, _, _, b0, b1, b2, by simp only [colorShiftShifted, e0, e1, e2]⟩

theorem colorShiftClamps_nat (a b c : Nat) :
    colorShiftClamps ((a : Int), (b : Int), (c : Int)) = decide (255 < (a ||| b ||| c)) := by
  have hlor : Int.lor (Int.lor (a : Int) (b : Int)) (c : Int) = ((a ||| b ||| c : Nat) : Int) := rfl
  simp only [colorShiftClamps, hlor]
  by_cases h : 255 < (a ||| b ||| c)
  · simp only [h, decide_True, decide_eq_true_eq]; omega
  · simp only [h, decide_False, decide_eq_false_iff_not]; omega

theorem colorShiftMax_nat (a b c : Nat) :
    colorShiftMax ((a : Int), (b : Int), (c : Int)) = ((max (max a b) c : Nat) : Int) := by
  simp only [colorShiftMax]
  split_ifs <;> push_cast <;> omega

/-- Normalisation on channels below `2^23`: untouched (and all at most 255) when the test of
line 118 fails, otherwise each channel becomes `channel * 255 / max` with exact arithmetic. -/
theorem colorShiftNormalize_nat (a b c : Nat) (ha : a ≤ 8355840) (hb : b ≤ 8355840)
    (hc : c ≤ 8355840) :
    (¬ 255 < (a ||| b ||| c) →
        colorShiftNormalize ((a : Int), (b : Int), (c : Int)) = ((a : Int), (b : Int), (c : Int))
          ∧ a ≤ 255 ∧ b ≤ 255 ∧ c ≤ 255) ∧
    (255 < (a ||| b ||| c) →
        0 < max (max a b) c ∧
        colorShiftNormalize ((a : Int), (b : Int), (c : Int)) =
          (((a * 255 / max (max a b) c : Nat) : Int), ((b * 255 / max (max a b) c : Nat) : Int),
            ((c * 255 / max (max a b) c : Nat) : Int))) := by
  have h1 : a ≤ a ||| b ||| c := le_trans (nat_le_lor_left a b) (nat_le_lor_left _ c)
  have h2 : b ≤ a ||| b ||| c := le_trans (nat_le_lor_right a b) (nat_le_lor_left _ c)
  have h3 : c ≤ a ||| b ||| c := nat_le_lor_right _ c
  constructor
  · intro h
    refine ⟨?_, by omega, by omega, by omega⟩
    simp [colorShiftNormalize, colorShiftClamps_nat, h]
  · intro h
    have hM : 0 < max (max a b) c := by
      by_contra hne
      have ha0 : a = 0 := by omega
      have hb0 : b = 0 := by omega
      have hc0 : c = 0 := by omega
      subst ha0 hb0 hc0
      simp at h
    refine ⟨hM, ?_⟩
    have hw : ∀ x : Nat, x ≤ 8355840 → wrap32 ((x : Int) * 255) = ((x * 255 : Nat) : Int) := by
      intro x hx
      rw [wrap32_of_range] <;> push_cast <;> omega
    simp only [colorShiftNormalize, colorShiftClamps_nat, h, decide_True, if_true,
      colorShiftMax_nat, hw a ha, hw b hb, hw c hc]
    simp only [Int.tdiv_eq_ediv (Int.ofNat_nonneg _) (Int.ofNat_nonneg _), Int.ofNat_ediv]

/-- With a shift of at most 15 the three computed channels are naturals of at most 255. -/
theorem colorShiftComputed_small (r_mapOverBrightBits overbrightBits : Int)
    (inp : color4ub_t) (hs : colorShiftAmount r_mapOverBrightBits overbrightBits ≤ 15) :
    ∃ x y z : Nat, x ≤ 255 ∧ y ≤ 255 ∧ z ≤ 255 ∧
      colorShiftComputed r_mapOverBrightBits overbrightBits inp =
        ((x : Int), (y : Int), (z : Int)) := by
  obtain ⟨a, b, c, ha, hb, hc, hsh⟩ := colorShiftShifted_small _
    (colorShiftAmount_nonneg r_mapOverBrightBits overbrightBits) hs inp
  obtain ⟨hno, hyes⟩ := colorShiftNormalize_nat a b c ha hb hc
  by_cases hcl : 255 < (a ||| b ||| c)
  · obtain ⟨hM, e⟩ := hyes hcl
    refine ⟨a * 255 / max (max a b) c, b * 255 / max (max a b) c, c * 255 / max (max a b) c,
      scaled_le_255 a _ ?_, scaled_le_255 b _ ?_, scaled_le_255 c _ ?_, ?_⟩
    · omega
    · omega
    · omega
    · simp only [colorShiftComputed, hsh, e]
  · obtain ⟨e, h0, h1, h2⟩ := hno hcl
    exact ⟨a, b, c, h0, h1, h2, by simp only [colorShiftComputed, hsh, e]⟩

/-- The bytes stored for channels of at most 255 are those channels. -/
theorem R_ColorShiftLightingBytes_rgb_of_small (r_mapOverBrightBits overbrightBits : Int)
    (inp : color4ub_t) (x y z : Nat) (hx : x ≤ 255) (hy : y ≤ 255) (hz : z ≤ 255)
    (e : colorShiftComputed r_mapOverBrightBits overbrightBits inp =
      ((x : Int), (y : Int), (z : Int))) :
    (R_ColorShiftLightingBytes r_mapOverBrightBits overbrightBits inp).rgb =
      ((x : Int), (y : Int), (z : Int)) := by
  simp only [R_ColorShiftLightingBytes, color4ub_t.rgb, e, toByte_natCast x hx,
    toByte_natCast y hy, toByte_natCast z hz]

/-- Claim C5: for every four-byte input colour and every shift
`max(0, mapOverBrightBits - overbrightBits)` of at most 15, each of the three values `r`, `g`,
`b` that `R_ColorShiftLightingBytes` computes lies in `0..255`, and the bytes written to
`out[0..2]` equal those values (nothing is truncated by the store). -/
theorem R_ColorShiftLightingBytes_no_truncation (r_mapOverBrightBits overbrightBits : Int)
    (inp : color4ub_t) (hs : colorShiftAmount r_mapOverBrightBits overbrightBits ≤ 15) :
    (0 ≤ (colorShiftComputed r_mapOverBrightBits overbrightBits inp).1 ∧
      (colorShiftComputed r_mapOverBrightBits overbrightBits inp).1 ≤ 255) ∧
    (0 ≤ (colorShiftComputed r_mapOverBrightBits overbrightBits inp).2.1 ∧
      (colorShiftComputed r_mapOverBrightBits overbrightBits inp).2.1 ≤ 255) ∧
    (0 ≤ (colorShiftComputed r_mapOverBrightBits overbrightBits inp).2.2 ∧
      (colorShiftComputed r_mapOverBrightBits overbrightBits inp).2.2 ≤ 255) ∧
    (R_ColorShiftLightingBytes r_mapOverBrightBits overbrightBits inp).rgb =
      colorShiftComputed r_mapOverBrightBits overbrightBits inp := by
  obtain ⟨x, y, z, hx, hy, hz, e⟩ :=
    colorShiftComputed_small r_mapOverBrightBits overbrightBits inp hs
  have hrgb := R_ColorShiftLightingBytes_rgb_of_small r_mapOverBrightBits overbrightBits inp
    x y z hx hy hz e
  rw [hrgb, e]
  refine ⟨⟨?_, ?_⟩, ⟨?_, ?_⟩, ⟨?_, ?_⟩, rfl⟩ <;> dsimp only <;> omega

theorem R_ColorShiftLightingBytes_no_truncation_witness :
    colorShiftAmount 2 0 ≤ 15 ∧
    (R_ColorShiftLightingBytes 2 0 ⟨200, 100, 50, 9⟩).rgb =
      colorShiftComputed 2 0 ⟨200, 100, 50, 9⟩ :=
  ⟨by decide, (R_ColorShiftLightingBytes_no_truncation 2 0 ⟨200, 100, 50, 9⟩ (by decide)).2.2.2⟩

/-- Claim C6, as stated, fails: with `r_mapOverBrightBits = 1`, `tr.overbrightBits = 0` and the
input colour `(128, 1, 0)` the shifted triple is `(256, 2, 0)`, clamping engages, and the output
is `(255, 1, 0)`; `255 * 2 = 510` differs from `1 * 256 = 256`. -/
theorem R_ColorShiftLightingBytes_ratio_counterexample :
    colorShiftShifted (colorShiftAmount 1 0) ⟨128, 1, 0, 0⟩ = (256, 2, 0) ∧
    colorShiftClamps (colorShiftShifted (colorShiftAmount 1 0) ⟨128, 1, 0, 0⟩) = true ∧
    (R_ColorShiftLightingBytes 1 0 ⟨128, 1, 0, 0⟩).rgb = (255, 1, 0) ∧
    ¬ ((R_ColorShiftLightingBytes 1 0 ⟨128, 1, 0, 0⟩).rgb.1 *
          (colorShiftShifted (colorShiftAmount 1 0) ⟨128, 1, 0, 0⟩).2.1 =
        (R_ColorShiftLightingBytes 1 0 ⟨128, 1, 0, 0⟩).rgb.2.1 *
          (colorShiftShifted (colorShiftAmount 1 0) ⟨128, 1, 0, 0⟩).1) := by
  decide

/-- Claim C6, amended: for every input colour and every shift of at most 15 for which clamping
engages, each output channel is the shifted channel scaled by `255 / max` and truncated toward
zero (`c' * max <= 255 * c < (c' + 1) * max`, `max` the largest shifted channel, which is
positive), so the output is a uniform scalar multiple of the shifted triple up to that
truncation: the cross products `r' * g` and `g' * r`, `g' * b` and `b' * g`, `r' * b` and
`b' * r` differ by less than `max`. -/
theorem R_ColorShiftLightingBytes_scaled_truncated (r_mapOverBrightBits overbrightBits : Int)
    (inp : color4ub_t) (hs : colorShiftAmount r_mapOverBrightBits overbrightBits ≤ 15)
    (hclamp : colorShiftClamps
      (colorShiftShifted (colorShiftAmount r_mapOverBrightBits overbrightBits) inp) = true) :
    ∀ r g b r' g' b' M : Int,
      colorShiftShifted (colorShiftAmount r_mapOverBrightBits overbrightBits) inp = (r, g, b) →
      (R_ColorShiftLightingBytes r_mapOverBrightBits overbrightBits inp).rgb = (r', g', b') →
      colorShiftMax (r, g, b) = M →
      0 < M ∧
      (r' * M ≤ 255 * r ∧ 255 * r < (r' + 1) * M) ∧
      (g' * M ≤ 255 * g ∧ 255 * g < (g' + 1) * M) ∧
      (b' * M ≤ 255 * b ∧ 255 * b < (b' + 1) * M) ∧
      |r' * g - g' * r| < M ∧ |g' * b - b' * g| < M ∧ |r' * b - b' * r| < M := by
  intro r g b r' g' b' M hsh hout hmax
  obtain ⟨cx, cy, cz, hcx, hcy, hcz, hce⟩ :=
    colorShiftComputed_small r_mapOverBrightBits overbrightBits inp hs
  have hrgb : (R_ColorShiftLightingBytes r_mapOverBrightBits overbrightBits inp).rgb =
      colorShiftComputed r_mapOverBrightBits overbrightBits inp := by
    rw [hce]
    exact R_ColorShiftLightingBytes_rgb_of_small r_mapOverBrightBits overbrightBits inp
      cx cy cz hcx hcy hcz hce
  obtain ⟨x, y, z, hx, hy, hz, e⟩ := colorShiftShifted_small _
    (colorShiftAmount_nonneg r_mapOverBrightBits overbrightBits) hs inp
  rw [e] at hclamp
  rw [e] at hsh
  rw [colorShiftClamps_nat] at hclamp
  have hcl : 255 < (x ||| y ||| z) := by simpa using hclamp
  obtain ⟨hM, hn⟩ := (colorShiftNormalize_nat x y z hx hy hz).2 hcl
  rw [hrgb] at hout
  simp only [colorShiftComputed, e, hn] at hout
  obtain ⟨rfl, rfl, rfl⟩ : (x : Int) = r ∧ (y : Int) = g ∧ (z : Int) = b := by
    simpa using hsh
  obtain ⟨rfl, rfl, rfl⟩ : ((x * 255 / max (max x y) z : Nat) : Int) = r' ∧
      ((y * 255 / max (max x y) z : Nat) : Int) = g' ∧
      ((z * 255 / max (max x y) z : Nat) : Int) = b' := by
    simpa using hout
  rw [colorShiftMax_nat] at hmax
  subst hmax
  have hxM : x ≤ max (max x y) z := by omega
  have hyM : y ≤ max (max x y) z := by omega
  have hzM : z ≤ max (max x y) z := by omega
  obtain ⟨a1, a2⟩ := floor_scale_bounds x _ hM
  obtain ⟨b1, b2⟩ := floor_scale_bounds y _ hM
  obtain ⟨c1, c2⟩ := floor_scale_bounds z _ hM
  have xy := floor_scale_cross x y _ hM hxM
  have yx := floor_scale_cross y x _ hM hyM
  have yz := floor_scale_cross y z _ hM hyM
  have zy := floor_scale_cross z y _ hM hzM
  have xz := floor_scale_cross x z _ hM hxM
  have zx := floor_scale_cross z x _ hM hzM
  refine ⟨by exact_mod_cast hM, ⟨by exact_mod_cast a1, by exact_mod_cast a2⟩,
    ⟨by exact_mod_cast b1, by exact_mod_cast b2⟩, ⟨by exact_mod_cast c1, by exact_mod_cast c2⟩,
    ?_, ?_, ?_⟩
  · rw [abs_lt]; constructor
    · have : ((y * 255 / max (max x y) z * x : Nat) : Int) <
          ((x * 255 / max (max x y) z * y + max (max x y) z : Nat) : Int) := by exact_mod_cast yx
      push_cast at this ⊢; linarith
    · have : ((x * 255 / max (max x y) z * y : Nat) : Int) <
          ((y * 255 / max (max x y) z * x + max (max x y) z : Nat) : Int) := by exact_mod_cast xy
      push_cast at this ⊢; linarith
  · rw [abs_lt]; constructor
    · have : ((z * 255 / max (max x y) z * y : Nat) : Int) <
          ((y * 255 / max (max x y) z * z + max (max x y) z : Nat) : Int) := by exact_mod_cast zy
      push_cast at this ⊢; linarith
    · have : ((y * 255 / max (max x y) z * z : Nat) : Int) <
          ((z * 255 / max (max x y) z * y + max (max x y) z : Nat) : Int) := by exact_mod_cast yz
      push_cast at this ⊢; linarith
  · rw [abs_lt]; constructor
    · have : ((z * 255 / max (max x y) z * x : Nat) : Int) <
          ((x * 255 / max (max x y) z * z + max (max x y) z : Nat) : Int) := by exact_mod_cast zx
      push_cast at this ⊢; linarith
    · have : ((x * 255 / max (max x y) z * z : Nat) : Int) <
          ((z * 255 / max (max x y) z * x + max (max x y) z : Nat) : Int) := by exact_mod_cast xz
      push_cast at this ⊢; linarith

theorem R_ColorShiftLightingBytes_scaled_truncated_witness :
    colorShiftAmount 1 0 ≤ 15 ∧
    colorShiftClamps (colorShiftShifted (colorShiftAmount 1 0) ⟨128, 1, 0, 0⟩) = true ∧
    |(255 : Int) * 2 - 1 * 256| < 256 :=
  ⟨by decide, by decide,
    (R_ColorShiftLightingBytes_scaled_truncated 1 0 ⟨128, 1, 0, 0⟩ (by decide) (by decide)
      256 2 0 255 1 0 256 (by decide) (by decide) (by decide)).2.2.2.2.1⟩

/-- Claim C7: when `mapOverBrightBits <= overbrightBits` the shift is 0 and
`R_ColorShiftLightingBytes` returns its input unchanged in all four channels. -/
theorem R_ColorShiftLightingBytes_identity (r_mapOverBrightBits overbrightBits : Int)
    (inp : color4ub_t) (h : r_mapOverBrightBits ≤ overbrightBits) :
    colorShiftAmount r_mapOverBrightBits overbrightBits = 0 ∧
    R_ColorShiftLightingBytes r_mapOverBrightBits overbrightBits inp = inp := by
  have hs : colorShiftAmount r_mapOverBrightBits overbrightBits = 0 := by
    unfold colorShiftAmount Q_max; split_ifs <;> omega
  refine ⟨hs, ?_⟩
  have h0 := inp.c0.isLt
  have h1 := inp.c1.isLt
  have h2 := inp.c2.isLt
  have hsh : colorShiftShifted 0 inp =
      ((inp.c0.val : Int), (inp.c1.val : Int), (inp.c2.val : Int)) := by
    simp only [colorShiftShifted, shl32]
    simp only [Int.toNat_zero, pow_zero, mul_one]
    rw [wrap32_of_range, wrap32_of_range, wrap32_of_range] <;> omega
  have hlt : ¬ 255 < (inp.c0.val ||| inp.c1.val ||| inp.c2.val) := by
    have := @Nat.or_lt_two_pow (inp.c0.val ||| inp.c1.val) inp.c2.val 8
      (Nat.or_lt_two_pow (by omega) (by omega)) (by omega)
    omega
  obtain ⟨e, -, -, -⟩ := (colorShiftNormalize_nat _ _ _ (by omega) (by omega) (by omega)).1 hlt
  have hb : ∀ x : byte, toByte (x.val : Int) = x := by
    intro x
    apply Fin.ext
    have := toByte_natCast x.val (by have := x.isLt; omega)
    exact_mod_cast this
  cases inp with
  | mk c0 c1 c2 c3 =>
    simp only [R_ColorShiftLightingBytes, colorShiftComputed, hs, hsh, e, hb]

theorem R_ColorShiftLightingBytes_identity_witness :
    (3 : Int) ≤ 5 ∧ R_ColorShiftLightingBytes 3 5 ⟨255, 128, 7, 42⟩ = ⟨255, 128, 7, 42⟩ :=
  ⟨by decide, (R_ColorShiftLightingBytes_identity 3 5 ⟨255, 128, 7, 42⟩ (by decide)).2⟩


/-! ## Surface parsers -/

theorem take_set_of_le (buf : List Nat) (k tri v : Nat) (h : tri ≤ k) :
    (buf.set k v).take tri = buf.take tri := by
  induction buf generalizing k tri with
  | nil => simp
  | cons x xs ih =>
    cases tri with
    | zero => simp
    | succ t =>
      cases k with
      | zero => omega
      | succ k => simp [ih k t (by omega)]

theorem take_set3 (buf : List Nat) (tri a b c : Nat) (h : tri + 3 ≤ buf.length) :
    (((buf.set (tri + 0) a).set (tri + 1) b).set (tri + 2) c).take (tri + 3)
      = buf.take tri ++ [a, b, c] := by
  induction tri generalizing buf with
  | zero =>
    match buf, h with
    | x :: y :: z :: rest, _ => simp
  | succ t ih =>
    match buf, h with
    | x :: rest, h =>
      have := ih rest (by simpa using h)
      simp only [Nat.add_zero] at this ⊢
      simp only [List.set_cons_succ, show t + 1 + 1 = (t + 1) + 1 from rfl,
        show t + 1 + 2 = (t + 2) + 1 from rfl, show t + 1 + 3 = (t + 3) + 1 from rfl,
        List.take_succ_cons, this, List.cons_append]

theorem take_set3_lt (buf : List Nat) (tri a b c : Nat) :
    (((buf.set (tri + 0) a).set (tri + 1) b).set (tri + 2) c).take tri = buf.take tri := by
  rw [take_set_of_le _ _ _ _ (by omega), take_set_of_le _ _ _ _ (by omega),
    take_set_of_le _ _ _ _ (by omega)]

theorem mem_set3 (buf : List Nat) (tri a b c v : Nat)
    (h : v ∈ ((buf.set (tri + 0) a).set (tri + 1) b).set (tri + 2) c) :
    v ∈ buf ∨ v = a ∨ v = b ∨ v = c := by
  rcases List.mem_or_eq_of_mem_set h with h | h
  · rcases List.mem_or_eq_of_mem_set h with h | h
    · rcases List.mem_or_eq_of_mem_set h with h | h
      · exact Or.inl h
      · exact Or.inr (Or.inl h)
    · exact Or.inr (Or.inr (Or.inl h))
  · exact Or.inr (Or.inr (Or.inr h))

theorem toU32_of_nonneg {x : Int} (h : 0 ≤ x) : (toU32 x : Int) = x := by
  unfold toU32
  have : ¬ x < 0 := by omega
  simp only [this, if_false]
  omega

theorem ShaderForShaderNum_ok (worldData : world_t) (shaderNum : Int)
    (h : 0 ≤ shaderNum ∧ shaderNum < worldData.numShaders) :
    ShaderForShaderNum worldData shaderNum = .ok (worldData.shaders.getD shaderNum.toNat {}) := by
  have : ¬ (shaderNum < 0 ∨ shaderNum ≥ worldData.numShaders) := by omega
  simp only [ShaderForShaderNum, this, if_false]

theorem copyTriangleIndexes_ok (numVerts : Int) (idx : Int → Int) (i : Int) (tri : Nat)
    (buf : List Nat)
    (h0 : toU32 (idx i) < toU32 numVerts) (h1 : toU32 (idx (i + 1)) < toU32 numVerts)
    (h2 : toU32 (idx (i + 2)) < toU32 numVerts) :
    copyTriangleIndexes numVerts idx i tri buf =
      .ok ((((buf.set (tri + 0) (toU32 (idx i))).set (tri + 1) (toU32 (idx (i + 1)))).set
        (tri + 2) (toU32 (idx (i + 2)))), toU32 (idx i), toU32 (idx (i + 1)), toU32 (idx (i + 2))) := by
  simp only [copyTriangleIndexes, add_zero, ge_iff_le, Nat.not_le.mpr h0, Nat.not_le.mpr h1,
    Nat.not_le.mpr h2, if_false]

theorem copyTriangleIndexes_error (numVerts : Int) (idx : Int → Int) (i : Int) (tri : Nat)
    (buf : List Nat)
    (h : ¬ (toU32 (idx i) < toU32 numVerts ∧ toU32 (idx (i + 1)) < toU32 numVerts ∧
      toU32 (idx (i + 2)) < toU32 numVerts)) :
    copyTriangleIndexes numVerts idx i tri buf = .error "Bad index in face surface" := by
  simp only [copyTriangleIndexes, add_zero, ge_iff_le]
  by_cases h0 : toU32 (idx i) < toU32 numVerts
  · by_cases h1 : toU32 (idx (i + 1)) < toU32 numVerts
    · by_cases h2 : toU32 (idx (i + 2)) < toU32 numVerts
      · exact absurd ⟨h0, h1, h2⟩ h
      · simp [Nat.not_le.mpr h0, Nat.not_le.mpr h1, Nat.le_of_not_lt h2]
    · simp [Nat.not_le.mpr h0, Nat.le_of_not_lt h1]
  · simp [Nat.le_of_not_lt h0]

theorem copyTriangles_ok (numVerts numIndexes : Int) (idx : Int → Int) :
    ∀ (m fuel : Nat) (i : Int) (tri : Nat) (buf : List Nat) (bad : Int),
      m ≤ fuel → numIndexes = i + 3 * m → tri + 3 * m ≤ buf.length →
      (∀ t ∈ trianglesFrom idx i m,
        t.1 < toU32 numVerts ∧ t.2.1 < toU32 numVerts ∧ t.2.2 < toU32 numVerts) →
      ∃ buf', copyTriangles numVerts numIndexes idx fuel i tri buf bad =
          .ok (buf', bad + (List.countP degenerate (trianglesFrom idx i m) : Nat)) ∧
        buf'.length = buf.length ∧
        buf'.take (tri + 3 * List.countP (fun t => !degenerate t) (trianglesFrom idx i m)) =
          buf.take tri ++
            flattenTriangles ((trianglesFrom idx i m).filter (fun t => !degenerate t)) ∧
        ∀ v ∈ buf', v ∈ buf ∨ v < toU32 numVerts := by
  intro m
  induction m with
  | zero =>
    intro fuel i tri buf bad _ hn _ _
    refine ⟨buf, ?_, rfl, ?_, fun v hv => Or.inl hv⟩
    · cases fuel with
      | zero => simp [copyTriangles, trianglesFrom]
      | succ f =>
        have : ¬ i < numIndexes := by omega
        simp [copyTriangles, trianglesFrom, this]
    · simp [trianglesFrom, flattenTriangles]
  | succ m ih =>
    intro fuel i tri buf bad hf hn hlen hall
    cases fuel with
    | zero => omega
    | succ f =>
      have hi : i < numIndexes := by omega
      obtain ⟨h0, h1, h2⟩ := hall (toU32 (idx i), toU32 (idx (i + 1)), toU32 (idx (i + 2)))
        (by simp [trianglesFrom])
      simp only at h0 h1 h2
      have htail : ∀ t ∈ trianglesFrom idx (i + 3) m,
          t.1 < toU32 numVerts ∧ t.2.1 < toU32 numVerts ∧ t.2.2 < toU32 numVerts := by
        intro t ht
        exact hall t (by simp [trianglesFrom, ht])
      set t0 := toU32 (idx i) with ht0
      set t1 := toU32 (idx (i + 1)) with ht1
      set t2 := toU32 (idx (i + 2)) with ht2
      set buf1 := ((buf.set (tri + 0) t0).set (tri + 1) t1).set (tri + 2) t2 with hbuf1
      have hlen1 : buf1.length = buf.length := by simp [hbuf1]
      have hstep : copyTriangleIndexes numVerts idx i tri buf = .ok (buf1, t0, t1, t2) :=
        copyTriangleIndexes_ok numVerts idx i tri buf h0 h1 h2
      by_cases hd : t0 = t1 ∨ t1 = t2 ∨ t0 = t2
      · obtain ⟨buf', e, hl, htk, hmem⟩ := ih f (i + 3) tri buf1 (bad + 1) (by omega)
          (by omega) (by omega) htail
        have hdeg : degenerate (t0, t1, t2) = true := by simp [degenerate, hd]
        refine ⟨buf', ?_, by omega, ?_, ?_⟩
        · rw [copyTriangles]
          simp only [hi, if_true, hstep, hd, e]
          simp only [trianglesFrom, List.countP_cons, ← ht0, ← ht1, ← ht2, hdeg, if_true]
          push_cast; ring_nf
        · simp only [trianglesFrom, ← ht0, ← ht1, ← ht2, List.countP_cons, List.filter_cons,
            hdeg, Bool.not_true, Bool.false_eq_true, if_false, Nat.add_zero]
          rw [htk, hbuf1, take_set3_lt]
        · intro v hv
          rcases hmem v hv with h | h
          · rcases mem_set3 _ _ _ _ _ _ h with h | h | h | h
            · exact Or.inl h
            · exact Or.inr (h ▸ h0)
            · exact Or.inr (h ▸ h1)
            · exact Or.inr (h ▸ h2)
          · exact Or.inr h
      · obtain ⟨buf', e, hl, htk, hmem⟩ := ih f (i + 3) (tri + 3) buf1 bad (by omega)
          (by omega) (by omega) htail
        have hdeg : degenerate (t0, t1, t2) = false := by simp [degenerate, hd]
        refine ⟨buf', ?_, by omega, ?_, ?_⟩
        · rw [copyTriangles]
          simp only [hi, if_true, hstep, hd, if_false, e]
          simp only [trianglesFrom, List.countP_cons, ← ht0, ← ht1, ← ht2, hdeg]
          simp
        · simp only [trianglesFrom, ← ht0, ← ht1, ← ht2, List.countP_cons, List.filter_cons,
            hdeg, Bool.not_false, if_true]
          rw [show tri + 3 * (List.countP (fun t => !degenerate t) (trianglesFrom idx (i + 3) m)
              + 1) = tri + 3 + 3 * List.countP (fun t => !degenerate t)
              (trianglesFrom idx (i + 3) m) by ring]
          rw [htk, hbuf1, take_set3 _ _ _ _ _ (by omega)]
          simp [flattenTriangles]
        · intro v hv
          rcases hmem v hv with h | h
          · rcases mem_set3 _ _ _ _ _ _ h with h | h | h | h
            · exact Or.inl h
            · exact Or.inr (h ▸ h0)
            · exact Or.inr (h ▸ h1)
            · exact Or.inr (h ▸ h2)
          · exact Or.inr h

theorem copyTriangles_error (numVerts numIndexes : Int) (idx : Int → Int) :
    ∀ (m fuel : Nat) (i : Int) (tri : Nat) (buf : List Nat) (bad : Int),
      m ≤ fuel → numIndexes = i + 3 * m →
      (∃ t ∈ trianglesFrom idx i m,
        ¬ (t.1 < toU32 numVerts ∧ t.2.1 < toU32 numVerts ∧ t.2.2 < toU32 numVerts)) →
      copyTriangles numVerts numIndexes idx fuel i tri buf bad =
        .error "Bad index in face surface" := by
  intro m
  induction m with
  | zero =>
    intro fuel i tri buf bad _ _ h
    obtain ⟨t, ht, -⟩ := h
    simp [trianglesFrom] at ht
  | succ m ih =>
    intro fuel i tri buf bad hf hn h
    cases fuel with
    | zero => omega
    | succ f =>
      have hi : i < numIndexes := by omega
      by_cases hhead : toU32 (idx i) < toU32 numVerts ∧ toU32 (idx (i + 1)) < toU32 numVerts ∧
          toU32 (idx (i + 2)) < toU32 numVerts
      · have htail : ∃ t ∈ trianglesFrom idx (i + 3) m,
            ¬ (t.1 < toU32 numVerts ∧ t.2.1 < toU32 numVerts ∧ t.2.2 < toU32 numVerts) := by
          obtain ⟨t, ht, hbad⟩ := h
          simp only [trianglesFrom, List.mem_cons] at ht
          rcases ht with rfl | ht
          · exact absurd hhead hbad
          · exact ⟨t, ht, hbad⟩
        rw [copyTriangles]
        simp only [hi, if_true, copyTriangleIndexes_ok numVerts idx i tri buf hhead.1 hhead.2.1
          hhead.2.2]
        split_ifs
        · exact ih f (i + 3) tri _ _ (by omega) (by omega) htail
        · exact ih f (i + 3) (tri + 3) _ _ (by omega) (by omega) htail
      · rw [copyTriangles]
        simp only [hi, if_true, copyTriangleIndexes_error numVerts idx i tri buf hhead]

/-- The iteration bound of the triangle loop is large enough: any two bounds of at least
`numIndexes - i` iterations give the same result. -/
theorem copyTriangles_fuel_enough (numVerts numIndexes : Int) (idx : Int → Int) :
    ∀ (n m : Nat) (i : Int) (tri : Nat) (buf : List Nat) (bad : Int),
      (numIndexes - i).toNat ≤ n → (numIndexes - i).toNat ≤ m →
      copyTriangles numVerts numIndexes idx n i tri buf bad =
        copyTriangles numVerts numIndexes idx m i tri buf bad := by
  intro n
  induction n with
  | zero =>
    intro m i tri buf bad hn _
    have hi : ¬ i < numIndexes := by omega
    cases m <;> simp [copyTriangles, hi]
  | succ n ih =>
    intro m i tri buf bad hn hm
    cases m with
    | zero =>
      have hi : ¬ i < numIndexes := by omega
      simp [copyTriangles, hi]
    | succ m =>
      rw [copyTriangles, copyTriangles]
      by_cases hi : i < numIndexes
      · simp only [hi, if_true]
        cases copyTriangleIndexes numVerts idx i tri buf with
        | error e => rfl
        | ok r =>
          obtain ⟨buf1, t0, t1, t2⟩ := r
          simp only
          split_ifs
          · exact ih m (i + 3) tri buf1 (bad + 1) (by omega) (by omega)
          · exact ih m (i + 3) (tri + 3) buf1 bad (by omega) (by omega)
      · simp only [hi, if_false]

theorem trianglesFrom_length (idx : Int → Int) (i : Int) (m : Nat) :
    (trianglesFrom idx i m).length = m := by
  induction m generalizing i with
  | zero => rfl
  | succ m ih => simp [trianglesFrom, ih]

/-- Every triangle of a range is below `nv` exactly when every index of the range is. -/
theorem trianglesFrom_all_iff (idx : Int → Int) (nv : Nat) (i : Int) (m : Nat) :
    (∀ t ∈ trianglesFrom idx i m, t.1 < nv ∧ t.2.1 < nv ∧ t.2.2 < nv) ↔
      ∀ k : Int, i ≤ k → k < i + 3 * m → toU32 (idx k) < nv := by
  induction m generalizing i with
  | zero =>
    simp only [trianglesFrom, List.not_mem_nil, false_imp_iff, implies_true, true_iff]
    intro k h1 h2; simp at h2; omega
  | succ m ih =>
    simp only [trianglesFrom, List.mem_cons, forall_eq_or_imp, ih]
    constructor
    · rintro ⟨⟨h0, h1, h2⟩, h⟩ k hk1 hk2
      by_cases hk : k < i + 3
      · have : k = i ∨ k = i + 1 ∨ k = i + 2 := by omega
        rcases this with rfl | rfl | rfl
        · exact h0
        · exact h1
        · exact h2
      · exact h k (by omega) (by push_cast at hk2; omega)
    · intro h
      refine ⟨⟨h i (by omega) (by push_cast; omega), h (i + 1) (by omega) (by push_cast; omega),
        h (i + 2) (by omega) (by push_cast; omega)⟩, ?_⟩
      intro k hk1 hk2
      exact h k (by omega) (by push_cast; omega)

theorem parseIndexes_ok (st : surfaceType_t) (numVerts : Int) (ds : dsurface_t)
    (indexes : Int → Int) (h3 : ds.numIndexes % 3 = 0)
    (hall : ∀ k : Int, 0 ≤ k → k < ds.numIndexes →
      toU32 (indexes (ds.firstIndex + k)) < toU32 numVerts) :
    ∃ cv, parseIndexes st numVerts ds indexes = .ok cv ∧ cv.surfaceType = st ∧
      cv.numVerts = numVerts ∧
      cv.numIndexes =
        ds.numIndexes - 3 * (List.countP degenerate (recordTriangles ds indexes) : Nat) ∧
      cv.indexes.take cv.numIndexes.toNat =
        flattenTriangles ((recordTriangles ds indexes).filter (fun t => !degenerate t)) ∧
      ∀ v ∈ cv.indexes, v < toU32 numVerts := by
  by_cases hneg : ds.numIndexes < 0
  · have h0 : ds.numIndexes.toNat = 0 := by omega
    refine ⟨srfBspSurface_t.mk st ds.numIndexes [] numVerts 0 0, ?_, rfl, rfl, ?_, ?_, ?_⟩
    · simp [parseIndexes, h0, copyTriangles]
    · simp [recordTriangles, h0, trianglesFrom]
    · simp [recordTriangles, h0, trianglesFrom, flattenTriangles]
    · simp
  · set m := ds.numIndexes.toNat / 3 with hm
    have hnm : ds.numIndexes = 0 + 3 * (m : Int) := by omega
    have htris : ∀ t ∈ trianglesFrom (fun k => indexes (ds.firstIndex + k)) 0 m,
        t.1 < toU32 numVerts ∧ t.2.1 < toU32 numVerts ∧ t.2.2 < toU32 numVerts := by
      rw [trianglesFrom_all_iff]
      intro k hk1 hk2
      exact hall k hk1 (by omega)
    obtain ⟨buf', e, hl, htk, hmem⟩ := copyTriangles_ok numVerts ds.numIndexes
      (fun k => indexes (ds.firstIndex + k)) m ds.numIndexes.toNat 0 0
      (List.replicate ds.numIndexes.toNat 0) 0 (by omega) hnm (by simp; omega) htris
    have hcount := List.length_eq_countP_add_countP degenerate
      (l := trianglesFrom (fun k => indexes (ds.firstIndex + k)) 0 m)
    rw [trianglesFrom_length] at hcount
    have hnot : List.countP (fun t => decide ¬degenerate t = true)
        (trianglesFrom (fun k => indexes (ds.firstIndex + k)) 0 m) =
        List.countP (fun t => !degenerate t)
        (trianglesFrom (fun k => indexes (ds.firstIndex + k)) 0 m) := by
      congr 1; funext t; cases degenerate t <;> rfl
    rw [hnot] at hcount
    set D := List.countP degenerate (trianglesFrom (fun k => indexes (ds.firstIndex + k)) 0 m)
      with hD
    set G := List.countP (fun t => !degenerate t)
      (trianglesFrom (fun k => indexes (ds.firstIndex + k)) 0 m) with hG
    have hni : (if ((0 : Int) + (D : Int)) ≠ 0 then ds.numIndexes - (0 + (D : Int)) * 3
        else ds.numIndexes) = ds.numIndexes - 3 * (D : Int) := by
      split_ifs with h <;> omega
    refine ⟨srfBspSurface_t.mk st (ds.numIndexes - 3 * (D : Int)) buf' numVerts 0 0,
      ?_, rfl, rfl, ?_, ?_, ?_⟩
    · simp only [parseIndexes, e, hni]
    · simp only [recordTriangles, ← hm, ← hD]
    · simp only [recordTriangles, ← hm]
      have : (ds.numIndexes - 3 * (D : Int)).toNat = 0 + 3 * G := by omega
      rw [this, htk]
      simp
    · intro v hv
      rcases hmem v hv with h | h
      · have hv0 : v = 0 := (List.mem_replicate.mp h).2
        have hmpos : 0 < m := by
          have : buf'.length ≠ 0 := by
            intro h0
            rw [List.length_eq_zero] at h0
            rw [h0] at hv
            simp at hv
          rw [hl, List.length_replicate] at this
          omega
        have := hall 0 (le_refl _) (by omega)
        omega
      · exact h

theorem parseIndexes_error (st : surfaceType_t) (numVerts : Int) (ds : dsurface_t)
    (indexes : Int → Int) (h3 : ds.numIndexes % 3 = 0)
    (hbad : ∃ k : Int, 0 ≤ k ∧ k < ds.numIndexes ∧
      toU32 numVerts ≤ toU32 (indexes (ds.firstIndex + k))) :
    parseIndexes st numVerts ds indexes = .error "Bad index in face surface" := by
  obtain ⟨k, hk0, hk1, hk⟩ := hbad
  set m := ds.numIndexes.toNat / 3 with hm
  have hnm : ds.numIndexes = 0 + 3 * (m : Int) := by omega
  have htris : ∃ t ∈ trianglesFrom (fun k => indexes (ds.firstIndex + k)) 0 m,
      ¬ (t.1 < toU32 numVerts ∧ t.2.1 < toU32 numVerts ∧ t.2.2 < toU32 numVerts) := by
    by_contra hcon
    push_neg at hcon
    have := (trianglesFrom_all_iff (fun k => indexes (ds.firstIndex + k)) (toU32 numVerts) 0
      m).mp hcon k hk0 (by omega)
    simp only at this
    omega
  have e := copyTriangles_error numVerts ds.numIndexes (fun k => indexes (ds.firstIndex + k)) m
    ds.numIndexes.toNat 0 0 (List.replicate ds.numIndexes.toNat 0) 0 (by omega) hnm htris
  simp only [parseIndexes, e]

theorem toU32_lt_of_cast_lt {x : Nat} {nv : Int} (h : (x : Int) < nv) : x < toU32 nv := by
  have h0 : 0 ≤ nv := by omega
  have := toU32_of_nonneg h0
  omega

/-- Claim C1, as stated, fails.  (a) With `MAX_FACE_POINTS = 64`, a planar face of 65 vertices
and the single triangle `(0, 1, 64)` has all indices below its vertex count, yet `ParseFace`
clamps the vertex count to 64 and raises the fatal "Bad index" error.  (b) A triangle soup
whose three indices are in range but whose shader number is out of range is aborted by
`ShaderForShaderNum`. -/
theorem ParseFace_filter_counterexample :
    (({ numVerts := 65, numIndexes := 3 } : dsurface_t).numIndexes % 3 = 0 ∧
      toU32 (readInt [0, 1, 64] 0) < 65 ∧ toU32 (readInt [0, 1, 64] 1) < 65 ∧
      toU32 (readInt [0, 1, 64] 2) < 65 ∧
      ParseFace 64 exampleWorld { numVerts := 65, numIndexes := 3 } (readInt [0, 1, 64]) =
        .error "Bad index in face surface") ∧
    (toU32 (readInt [0, 1, 2] 0) < 3 ∧ toU32 (readInt [0, 1, 2] 1) < 3 ∧
      toU32 (readInt [0, 1, 2] 2) < 3 ∧
      ParseTriSurf exampleWorld { shaderNum := 7, numVerts := 3, numIndexes := 3 }
        (readInt [0, 1, 2]) = .error "ShaderForShaderNum: bad num") := by
  decide

/-- Claim C1, amended: for every planar-face or triangle-soup record with an in-range shader
number whose index count is a multiple of 3 and whose indices, read as unsigned values, are all
below the surface's vertex count (`cv->numVerts`: for `ParseFace` the record's count clamped to
`MAX_FACE_POINTS`), `ParseFace` / `ParseTriSurf` return a surface whose first `cv->numIndexes`
index slots hold exactly the input triangles with pairwise distinct indices, in their original
order, and `cv->numIndexes = inputIndexCount - 3 * (number of input triangles having two equal
indices)`. -/
theorem ParseFace_ParseTriSurf_filter_degenerate (MAX_FACE_POINTS : Int) (worldData : world_t)
    (ds : dsurface_t) (indexes : Int → Int)
    (hshader : 0 ≤ ds.shaderNum ∧ ds.shaderNum < worldData.numShaders)
    (h3 : ds.numIndexes % 3 = 0) :
    ((∀ k : Int, 0 ≤ k → k < ds.numIndexes →
        (toU32 (indexes (ds.firstIndex + k)) : Int) < faceNumVerts MAX_FACE_POINTS ds) →
      ∃ cv, ParseFace MAX_FACE_POINTS worldData ds indexes = .ok cv ∧
        cv.numIndexes =
          ds.numIndexes - 3 * (List.countP degenerate (recordTriangles ds indexes) : Nat) ∧
        cv.indexes.take cv.numIndexes.toNat =
          flattenTriangles ((recordTriangles ds indexes).filter (fun t => !degenerate t))) ∧
    ((∀ k : Int, 0 ≤ k → k < ds.numIndexes →
        (toU32 (indexes (ds.firstIndex + k)) : Int) < ds.numVerts) →
      ∃ cv, ParseTriSurf worldData ds indexes = .ok cv ∧
        cv.numIndexes =
          ds.numIndexes - 3 * (List.countP degenerate (recordTriangles ds indexes) : Nat) ∧
        cv.indexes.take cv.numIndexes.toNat =
          flattenTriangles ((recordTriangles ds indexes).filter (fun t => !degenerate t))) := by
  constructor
  · intro hall
    obtain ⟨cv, e, -, -, hn, htk, -⟩ := parseIndexes_ok surfaceType_t.SF_FACE
      (faceNumVerts MAX_FACE_POINTS ds) ds indexes h3
      (fun k hk0 hk1 => toU32_lt_of_cast_lt (hall k hk0 hk1))
    exact ⟨cv, by simp only [ParseFace, ShaderForShaderNum_ok worldData ds.shaderNum hshader, e],
      hn, htk⟩
  · intro hall
    obtain ⟨cv, e, -, -, hn, htk, -⟩ := parseIndexes_ok surfaceType_t.SF_TRIANGLES
      ds.numVerts ds indexes h3 (fun k hk0 hk1 => toU32_lt_of_cast_lt (hall k hk0 hk1))
    exact ⟨cv, by simp only [ParseTriSurf, ShaderForShaderNum_ok worldData ds.shaderNum hshader,
      e], hn, htk⟩

theorem ParseFace_ParseTriSurf_filter_degenerate_witness :
    ∃ cv, ParseTriSurf exampleWorld { numVerts := 4, numIndexes := 9 }
        (readInt [0, 1, 2, 2, 2, 3, 3, 1, 0]) = .ok cv ∧
      cv.numIndexes = 9 - 3 * (List.countP degenerate (recordTriangles
        { numVerts := 4, numIndexes := 9 } (readInt [0, 1, 2, 2, 2, 3, 3, 1, 0])) : Nat) ∧
      cv.indexes.take cv.numIndexes.toNat =
        flattenTriangles ((recordTriangles { numVerts := 4, numIndexes := 9 }
          (readInt [0, 1, 2, 2, 2, 3, 3, 1, 0])).filter (fun t => !degenerate t)) :=
  (ParseFace_ParseTriSurf_filter_degenerate 64 exampleWorld { numVerts := 4, numIndexes := 9 }
    (readInt [0, 1, 2, 2, 2, 3, 3, 1, 0]) (by decide) (by decide)).2
    (by
      intro k hk0 hk1
      have hk2 : k < 9 := hk1
      interval_cases k <;> decide)

/-- Claim C2, as stated, fails.  (a) A triangle soup with one vertex and index count 1 whose only
index is 0: the loop reads a whole triple, so the value 7 that follows the record in the index
lump raises the fatal error although no index of the record is out of range.  (b) A triangle
soup with vertex count -1 and indices `(0, 1, 2)`: the unsigned comparison lets every index
pass, no error is raised and the stored indices are not below `numVerts`.  (c) A record with
in-range indices and an out-of-range shader number raises the fatal error of
`ShaderForShaderNum`. -/
theorem ParseTriSurf_bad_index_counterexample :
    (toU32 (readInt [0, 0, 7] 0) < 1 ∧
      ParseTriSurf exampleWorld { numVerts := 1, numIndexes := 1 } (readInt [0, 0, 7]) =
        .error "Bad index in face surface") ∧
    (((-1 : Int) ≤ (toU32 (readInt [0, 1, 2] 0) : Int)) ∧
      ParseTriSurf exampleWorld { numVerts := -1, numIndexes := 3 } (readInt [0, 1, 2]) =
        .ok { surfaceType := surfaceType_t.SF_TRIANGLES, numIndexes := 3, indexes := [0, 1, 2],
              numVerts := -1 }) ∧
    (toU32 (readInt [0, 1, 2] 0) < 3 ∧ toU32 (readInt [0, 1, 2] 1) < 3 ∧
      toU32 (readInt [0, 1, 2] 2) < 3 ∧
      ParseTriSurf exampleWorld { shaderNum := 7, numVerts := 3, numIndexes := 3 }
        (readInt [0, 1, 2]) = .error "ShaderForShaderNum: bad num") := by
  decide

/-- The error behaviour of the triangle copy for a record whose index count is a multiple of 3
and whose vertex count `numVerts` is not negative. -/
theorem parseIndexes_error_iff (st : surfaceType_t) (numVerts : Int) (ds : dsurface_t)
    (indexes : Int → Int) (h3 : ds.numIndexes % 3 = 0) (hnv : 0 ≤ numVerts) :
    (parseIndexes st numVerts ds indexes = .error "Bad index in face surface" ↔
      ∃ k : Int, 0 ≤ k ∧ k < ds.numIndexes ∧
        numVerts ≤ (toU32 (indexes (ds.firstIndex + k)) : Int)) ∧
    (∀ e, parseIndexes st numVerts ds indexes = .error e → e = "Bad index in face surface") ∧
    (∀ cv, parseIndexes st numVerts ds indexes = .ok cv →
      cv.numVerts = numVerts ∧ ∀ v ∈ cv.indexes, (v : Int) < cv.numVerts) := by
  have hu := toU32_of_nonneg hnv
  by_cases hbad : ∃ k : Int, 0 ≤ k ∧ k < ds.numIndexes ∧
      numVerts ≤ (toU32 (indexes (ds.firstIndex + k)) : Int)
  · have e := parseIndexes_error st numVerts ds indexes h3 (by
      obtain ⟨k, h0, h1, h2⟩ := hbad
      exact ⟨k, h0, h1, by omega⟩)
    refine ⟨⟨fun _ => hbad, fun _ => e⟩, ?_, ?_⟩
    · intro e' he'
      rw [e] at he'
      exact (Except.error.inj he').symm
    · intro cv hcv
      rw [e] at hcv
      cases hcv
  · push_neg at hbad
    obtain ⟨cv, e, -, hnvs, -, -, hmem⟩ := parseIndexes_ok st numVerts ds indexes h3
      (fun k hk0 hk1 => by have := hbad k hk0 hk1; omega)
    refine ⟨⟨fun h => ?_, fun h => ?_⟩, ?_, ?_⟩
    · rw [e] at h; cases h
    · obtain ⟨k, h0, h1, h2⟩ := h
      have := hbad k h0 h1
      omega
    · intro e' he'
      rw [e] at he'; cases he'
    · intro cv' hcv'
      rw [e] at hcv'
      obtain rfl : cv = cv' := Except.ok.inj hcv'
      refine ⟨hnvs, fun v hv => ?_⟩
      have := hmem v hv
      omega

/-- Claim C2, amended: for every planar-face or triangle-soup record with an in-range shader
number, an index count that is a multiple of 3 and a non-negative surface vertex count,
`ParseFace` / `ParseTriSurf` raise the fatal "Bad index in face surface" error if and only if
some index of the record, read as an unsigned 32-bit value, is at least the surface's vertex
count (after `ParseFace`'s `MAX_FACE_POINTS` clamp); they raise no other error, and when no
error is raised every index stored in the surface is strictly less than the surface's
`numVerts`. -/
theorem ParseFace_ParseTriSurf_bad_index_iff (MAX_FACE_POINTS : Int) (worldData : world_t)
    (ds : dsurface_t) (indexes : Int → Int)
    (hshader : 0 ≤ ds.shaderNum ∧ ds.shaderNum < worldData.numShaders)
    (h3 : ds.numIndexes % 3 = 0) :
    (0 ≤ faceNumVerts MAX_FACE_POINTS ds →
      (ParseFace MAX_FACE_POINTS worldData ds indexes = .error "Bad index in face surface" ↔
        ∃ k : Int, 0 ≤ k ∧ k < ds.numIndexes ∧
          faceNumVerts MAX_FACE_POINTS ds ≤ (toU32 (indexes (ds.firstIndex + k)) : Int)) ∧
      (∀ e, ParseFace MAX_FACE_POINTS worldData ds indexes = .error e →
        e = "Bad index in face surface") ∧
      (∀ cv, ParseFace MAX_FACE_POINTS worldData ds indexes = .ok cv →
        cv.numVerts = faceNumVerts MAX_FACE_POINTS ds ∧
        ∀ v ∈ cv.indexes, (v : Int) < cv.numVerts)) ∧
    (0 ≤ ds.numVerts →
      (ParseTriSurf worldData ds indexes = .error "Bad index in face surface" ↔
        ∃ k : Int, 0 ≤ k ∧ k < ds.numIndexes ∧
          ds.numVerts ≤ (toU32 (indexes (ds.firstIndex + k)) : Int)) ∧
      (∀ e, ParseTriSurf worldData ds indexes = .error e → e = "Bad index in face surface") ∧
      (∀ cv, ParseTriSurf worldData ds indexes = .ok cv →
        cv.numVerts = ds.numVerts ∧ ∀ v ∈ cv.indexes, (v : Int) < cv.numVerts)) := by
  have hF : ParseFace MAX_FACE_POINTS worldData ds indexes =
      parseIndexes surfaceType_t.SF_FACE (faceNumVerts MAX_FACE_POINTS ds) ds indexes := by
    simp only [ParseFace, ShaderForShaderNum_ok worldData ds.shaderNum hshader]
  have hT : ParseTriSurf worldData ds indexes =
      parseIndexes surfaceType_t.SF_TRIANGLES ds.numVerts ds indexes := by
    simp only [ParseTriSurf, ShaderForShaderNum_ok worldData ds.shaderNum hshader]
  rw [hF, hT]
  exact ⟨fun h => parseIndexes_error_iff _ _ ds indexes h3 h,
    fun h => parseIndexes_error_iff _ _ ds indexes h3 h⟩

theorem ParseFace_ParseTriSurf_bad_index_iff_witness :
    (ParseFace 64 exampleWorld { numVerts := 3, numIndexes := 3 } (readInt [0, 1, 3]) =
        .error "Bad index in face surface" ↔
      ∃ k : Int, 0 ≤ k ∧ k < 3 ∧
        faceNumVerts 64 { numVerts := 3, numIndexes := 3 } ≤
          (toU32 (readInt [0, 1, 3] (0 + k)) : Int)) :=
  ((ParseFace_ParseTriSurf_bad_index_iff 64 exampleWorld { numVerts := 3, numIndexes := 3 }
    (readInt [0, 1, 3]) (by decide) (by decide)).1 (by decide)).1

/-- Claim C3, as stated, fails: with `MAX_PATCH_SIZE = 32` a patch record of width 200 whose
shader has `SURF_NODRAW` set is not rejected; `ParseMesh` returns the `SF_SKIP` surface before
it looks at the size. -/
theorem ParseMesh_nodraw_counterexample :
    ({ patchWidth := 200, patchHeight := 3 } : dsurface_t).patchWidth > 32 ∧
    ParseMesh 32 128 exampleNodrawWorld { patchWidth := 200, patchHeight := 3 } =
      .ok meshData_t.skipData := by
  decide

/-- Claim C3, amended: for every patch surface record whose `patchWidth` or `patchHeight`
exceeds `MAX_PATCH_SIZE`, whatever its other fields, `ParseMesh` aborts the load with a fatal
error (that of `ShaderForShaderNum` when the shader number is out of range, "ParseMesh: bad
size" otherwise), unless the record references an in-range shader that has `SURF_NODRAW` set:
then `ParseMesh` returns the `SF_SKIP` surface without checking the size. -/
theorem ParseMesh_bad_size (MAX_PATCH_SIZE : Int) (SURF_NODRAW : Nat) (worldData : world_t)
    (ds : dsurface_t)
    (hbig : ds.patchWidth > MAX_PATCH_SIZE ∨ ds.patchHeight > MAX_PATCH_SIZE) :
    ((ds.shaderNum < 0 ∨ ds.shaderNum ≥ worldData.numShaders) →
      ParseMesh MAX_PATCH_SIZE SURF_NODRAW worldData ds =
        .error "ShaderForShaderNum: bad num") ∧
    ((0 ≤ ds.shaderNum ∧ ds.shaderNum < worldData.numShaders) →
      (Int.land (worldData.shaders.getD ds.shaderNum.toNat {}).surfaceFlags
          (SURF_NODRAW : Int) = 0 →
        ParseMesh MAX_PATCH_SIZE SURF_NODRAW worldData ds = .error "ParseMesh: bad size") ∧
      (Int.land (worldData.shaders.getD ds.shaderNum.toNat {}).surfaceFlags
          (SURF_NODRAW : Int) ≠ 0 →
        ParseMesh MAX_PATCH_SIZE SURF_NODRAW worldData ds = .ok meshData_t.skipData)) := by
  refine ⟨fun h => ?_, fun h => ⟨fun hz => ?_, fun hnz => ?_⟩⟩
  · simp only [ParseMesh, ShaderForShaderNum, h, if_true]
  · have hsz : ds.patchWidth < 0 ∨ ds.patchWidth > MAX_PATCH_SIZE ∨ ds.patchHeight < 0 ∨
        ds.patchHeight > MAX_PATCH_SIZE := by omega
    simp only [ParseMesh, ShaderForShaderNum_ok worldData ds.shaderNum h, hz, ne_eq,
      not_true_eq_false, if_false, hsz, if_true]
  · simp only [ParseMesh, ShaderForShaderNum_ok worldData ds.shaderNum h, ne_eq, hnz,
      not_false_eq_true, if_true]

theorem ParseMesh_bad_size_witness :
    ({ patchWidth := 200, patchHeight := 3 } : dsurface_t).patchWidth > 32 ∧
    ParseMesh 32 128 exampleWorld { patchWidth := 200, patchHeight := 3 } =
      .error "ParseMesh: bad size" :=
  ⟨by decide, ((ParseMesh_bad_size 32 128 exampleWorld { patchWidth := 200, patchHeight := 3 }
    (Or.inl (by decide))).2 (by decide)).1 (by decide)⟩

/-! ## Fixed-record lump loaders -/

theorem toSizeT_natCast (n : Nat) : toSizeT (n : Int) = n := by
  unfold toSizeT
  have : ¬ (n : Int) < 0 := by omega
  simp only [this, if_false, Int.toNat_ofNat]

/-- For a valid lump length the `size_t` test and quotient are the mathematical ones. -/
theorem lump_check (l : lump_t) (recordSize : Nat) (h : l.valid) :
    (lumpFunny l recordSize = true ↔ l.filelen % (recordSize : Int) ≠ 0) ∧
    (lumpFunny l recordSize = false ↔ l.filelen % (recordSize : Int) = 0) ∧
    lumpCount l recordSize = l.filelen / (recordSize : Int) ∧
    0 ≤ l.filelen / (recordSize : Int) ∧ l.filelen / (recordSize : Int) < 2147483648 := by
  obtain ⟨h0, h1⟩ := h
  obtain ⟨n, hn⟩ := Int.eq_ofNat_of_zero_le h0
  have hmod : (n : Int) % (recordSize : Int) = ((n % recordSize : Nat) : Int) := by norm_cast
  have hdiv : (n : Int) / (recordSize : Int) = ((n / recordSize : Nat) : Int) := by norm_cast
  have hle : n / recordSize ≤ n := Nat.div_le_self _ _
  have hn1 : (n : Int) < 2147483648 := by omega
  have hq0 : (0 : Int) ≤ ((n / recordSize : Nat) : Int) := Int.ofNat_nonneg _
  have hq1 : ((n / recordSize : Nat) : Int) ≤ (n : Int) := by exact_mod_cast hle
  unfold lumpFunny lumpCount
  rw [hn, toSizeT_natCast, hmod, hdiv]
  refine ⟨?_, ?_, ?_, ?_, ?_⟩
  · rw [bne_iff_ne, ne_eq, ne_eq]
    exact_mod_cast Iff.rfl
  · rw [← Bool.not_eq_true, bne_iff_ne, ne_eq, not_not]
    exact_mod_cast Iff.rfl
  · apply wrap32_of_range <;> linarith
  · exact hq0
  · linarith

theorem lumpFunny_of_not_multiple (l : lump_t) (recordSize : Nat) (h : l.valid)
    (hm : l.filelen % (recordSize : Int) ≠ 0) : lumpFunny l recordSize = true :=
  (lump_check l recordSize h).1.mpr hm

theorem lumpFunny_of_multiple (l : lump_t) (recordSize : Nat) (h : l.valid)
    (hm : l.filelen % (recordSize : Int) = 0) : lumpFunny l recordSize = false :=
  (lump_check l recordSize h).2.1.mpr hm

theorem lumpCount_eq (l : lump_t) (recordSize : Nat) (h : l.valid) :
    lumpCount l recordSize = l.filelen / (recordSize : Int) :=
  (lump_check l recordSize h).2.2.1

/-- C4 (counterexample): a lump length is an `int` of the file header and may be negative; the
test `l->filelen % sizeof(*in)` is made in `size_t`.  With records of 72 bytes the length -16,
which is not a multiple of 72, raises no error (`2^64 - 16` is a multiple of 72) and a count
that is not -16 / 72 is stored, and the length -72, a multiple of 72, raises the error. -/
theorem lump_loaders_negative_length_counterexample :
    ((-16 : Int) % ((72 : Nat) : Int) ≠ 0 ∧
      (R_LoadShaders 72 {} { filelen := -16 }).error = none ∧
      (R_LoadShaders 72 {} { filelen := -16 }).world.numShaders = -1908874354 ∧
      (-16 : Int) / ((72 : Nat) : Int) = -1) ∧
    ((-72 : Int) % ((72 : Nat) : Int) = 0 ∧
      (R_LoadShaders 72 {} { filelen := -72 }).error = some "LoadMap: funny lump size") := by
  decide

/-- C4 (amended): for each fixed-record lump loader and all lumps whose byte length is not
negative, a lump length that is not a multiple of the record size raises the fatal "funny lump
size" error, and when the lengths are multiples the record count stored in the world
(`numsurfaces`, `numShaders`, `numplanes`, `nummarksurfaces`, `numDecisionNodes`,
`numfogs - 1`, `numBModels`) equals length / recordSize. -/
theorem lump_loaders_record_count (size1 size2 size3 : Nat) (worldData : world_t)
    (l1 l2 l3 : lump_t) (h1 : l1.valid) (h2 : l2.valid) (h3 : l3.valid) :
    ((l1.filelen % (size1 : Int) ≠ 0 ∨ l2.filelen % (size2 : Int) ≠ 0 ∨
        l3.filelen % ((4 : Nat) : Int) ≠ 0 →
        (R_LoadSurfaces size1 size2 worldData l1 l2 l3).error =
          some "LoadMap: funny lump size") ∧
      (l1.filelen % (size1 : Int) = 0 ∧ l2.filelen % (size2 : Int) = 0 ∧
        l3.filelen % ((4 : Nat) : Int) = 0 →
        (R_LoadSurfaces size1 size2 worldData l1 l2 l3).error = none ∧
        (R_LoadSurfaces size1 size2 worldData l1 l2 l3).world.numsurfaces =
          l1.filelen / (size1 : Int))) ∧
    ((l1.filelen % (size1 : Int) ≠ 0 →
        (R_LoadShaders size1 worldData l1).error = some "LoadMap: funny lump size") ∧
      (l1.filelen % (size1 : Int) = 0 →
        (R_LoadShaders size1 worldData l1).error = none ∧
        (R_LoadShaders size1 worldData l1).world.numShaders = l1.filelen / (size1 : Int))) ∧
    ((l1.filelen % (size1 : Int) ≠ 0 →
        (R_LoadPlanes size1 worldData l1).error = some "LoadMap: funny lump size") ∧
      (l1.filelen % (size1 : Int) = 0 →
        (R_LoadPlanes size1 worldData l1).error = none ∧
        (R_LoadPlanes size1 worldData l1).world.numplanes = l1.filelen / (size1 : Int))) ∧
    ((l1.filelen % ((4 : Nat) : Int) ≠ 0 →
        (R_LoadMarksurfaces worldData l1).error = some "LoadMap: funny lump size") ∧
      (l1.filelen % ((4 : Nat) : Int) = 0 →
        (R_LoadMarksurfaces worldData l1).error = none ∧
        (R_LoadMarksurfaces worldData l1).world.nummarksurfaces =
          l1.filelen / ((4 : Nat) : Int))) ∧
    ((l1.filelen % (size1 : Int) ≠ 0 ∨ l2.filelen % (size2 : Int) ≠ 0 →
        (R_LoadNodesAndLeafs size1 size2 worldData l1 l2).error =
          some "LoadMap: funny lump size") ∧
      (l1.filelen % (size1 : Int) = 0 ∧ l2.filelen % (size2 : Int) = 0 →
        (R_LoadNodesAndLeafs size1 size2 worldData l1 l2).error = none ∧
        (R_LoadNodesAndLeafs size1 size2 worldData l1 l2).world.numDecisionNodes =
          l1.filelen / (size1 : Int) ∧
        (R_LoadNodesAndLeafs size1 size2 worldData l1 l2).world.numnodes =
          l1.filelen / (size1 : Int) + l2.filelen / (size2 : Int))) ∧
    ((l1.filelen % (size1 : Int) ≠ 0 →
        (R_LoadFogs size1 size2 size3 worldData l1 l2 l3).error =
          some "LoadMap: funny lump size") ∧
      (l1.filelen % (size1 : Int) = 0 →
        (R_LoadFogs size1 size2 size3 worldData l1 l2 l3).world.numfogs - 1 =
          l1.filelen / (size1 : Int))) ∧
    ((l1.filelen % (size1 : Int) ≠ 0 →
        (R_LoadSubmodels size1 worldData l1).error = some "LoadMap: funny lump size") ∧
      (l1.filelen % (size1 : Int) = 0 →
        (R_LoadSubmodels size1 worldData l1).error = none ∧
        (R_LoadSubmodels size1 worldData l1).world.numBModels =
          l1.filelen / (size1 : Int))) := by
  have c1 := lumpCount_eq l1 size1 h1
  have c2 := lumpCount_eq l2 size2 h2
  have c14 := lumpCount_eq l1 4 h1
  have single : ∀ (recordSize : Nat),
      (l1.filelen % (recordSize : Int) ≠ 0 → lumpFunny l1 recordSize = true) ∧
      (l1.filelen % (recordSize : Int) = 0 → lumpFunny l1 recordSize = false) :=
    fun recordSize => ⟨lumpFunny_of_not_multiple l1 recordSize h1,
      lumpFunny_of_multiple l1 recordSize h1⟩
  refine ⟨⟨?_, ?_⟩, ⟨?_, ?_⟩, ⟨?_, ?_⟩, ⟨?_, ?_⟩, ⟨?_, ?_⟩, ⟨?_, ?_⟩, ⟨?_, ?_⟩⟩
  · intro h
    unfold R_LoadSurfaces
    by_cases f1 : lumpFunny l1 size1 = true
    · simp only [f1, if_true, funnyLumpSize]
    · by_cases f2 : lumpFunny l2 size2 = true
      · simp [f1, f2, funnyLumpSize]
      · by_cases f3 : lumpFunny l3 4 = true
        · simp [f1, f2, f3, funnyLumpSize]
        · exfalso
          rcases h with h | h | h
          · exact f1 (lumpFunny_of_not_multiple l1 size1 h1 h)
          · exact f2 (lumpFunny_of_not_multiple l2 size2 h2 h)
          · exact f3 (lumpFunny_of_not_multiple l3 4 h3 h)
  · rintro ⟨m1, m2, m3⟩
    simp only [R_LoadSurfaces, lumpFunny_of_multiple l1 size1 h1 m1,
      lumpFunny_of_multiple l2 size2 h2 m2, lumpFunny_of_multiple l3 4 h3 m3, c1,
      Bool.false_eq_true, if_false, and_self]
  · intro h
    simp only [R_LoadShaders, (single size1).1 h, if_true, funnyLumpSize]
  · intro h
    simp only [R_LoadShaders, (single size1).2 h, c1, Bool.false_eq_true, if_false, and_self]
  · intro h
    simp only [R_LoadPlanes, (single size1).1 h, if_true, funnyLumpSize]
  · intro h
    simp only [R_LoadPlanes, (single size1).2 h, c1, Bool.false_eq_true, if_false, and_self]
  · intro h
    simp only [R_LoadMarksurfaces, (single 4).1 h, if_true, funnyLumpSize]
  · intro h
    simp only [R_LoadMarksurfaces, (single 4).2 h, c14, Bool.false_eq_true, if_false, and_self]
  · intro h
    have : (lumpFunny l1 size1 || lumpFunny l2 size2) = true := by
      rcases h with h | h
      · simp [lumpFunny_of_not_multiple l1 size1 h1 h]
      · simp [lumpFunny_of_not_multiple l2 size2 h2 h]
    simp only [R_LoadNodesAndLeafs, this, if_true, funnyLumpSize]
  · rintro ⟨m1, m2⟩
    simp only [R_LoadNodesAndLeafs, lumpFunny_of_multiple l1 size1 h1 m1,
      lumpFunny_of_multiple l2 size2 h2 m2, c1, c2, Bool.or_self, Bool.false_eq_true, if_false,
      and_self]
  · intro h
    simp only [R_LoadFogs, (single size1).1 h, if_true, funnyLumpSize]
  · intro h
    simp only [R_LoadFogs, (single size1).2 h, c1, Bool.false_eq_true, if_false]
    split_ifs <;> simp [funnyLumpSize]
  · intro h
    simp only [R_LoadSubmodels, (single size1).1 h, if_true, funnyLumpSize]
  · intro h
    simp only [R_LoadSubmodels, (single size1).2 h, c1, Bool.false_eq_true, if_false, and_self]

theorem lump_loaders_record_count_witness :
    (R_LoadShaders 72 {} { filelen := 100 }).error = some "LoadMap: funny lump size" ∧
    (R_LoadShaders 72 {} { filelen := 144 }).world.numShaders = 2 ∧
    (R_LoadFogs 72 12 8 {} { filelen := 144 } { filelen := 13 } { filelen := 8 }).world.numfogs
      - 1 = 2 :=
  ⟨(lump_loaders_record_count 72 12 8 {} { filelen := 100 } { filelen := 13 } { filelen := 8 }
      (by decide) (by decide) (by decide)).2.1.1 (by decide),
    ((lump_loaders_record_count 72 12 8 {} { filelen := 144 } { filelen := 13 } { filelen := 8 }
      (by decide) (by decide) (by decide)).2.1.2 (by decide)).2,
    (lump_loaders_record_count 72 12 8 {} { filelen := 144 } { filelen := 13 } { filelen := 8 }
      (by decide) (by decide) (by decide)).2.2.2.2.2.1.2 (by decide)⟩


/-! ## World vertex/index buffer batching -/

theorem vboBytes_append (sz : Int) (a b : List msurface_t) :
    vboBytes sz (a ++ b) = vboBytes sz a + vboBytes sz b := by
  simp [vboBytes, List.sum_append]

theorem iboBytes_append (sz : Int) (a b : List msurface_t) :
    iboBytes sz (a ++ b) = iboBytes sz a + iboBytes sz b := by
  simp [iboBytes, List.sum_append]

/-- The run scan returns the longest prefix of surfaces with the given `sortedIndex`. -/
theorem scanRun_fst (szV szI idx : Int) (l run : List msurface_t) (a b : Int) :
    (scanRun szV szI idx l run a b).1 =
      run ++ l.takeWhile (fun s => decide (s.shader.sortedIndex = idx)) := by
  induction l generalizing run a b with
  | nil => simp [scanRun]
  | cons s rest ih =>
    by_cases h : s.shader.sortedIndex = idx
    · simp only [scanRun, h, if_true, ih, List.takeWhile_cons, decide_True,
        List.append_assoc, List.singleton_append]
    · simp [scanRun, h, List.takeWhile_cons]

/-- The run scan stops at the first surface with another `sortedIndex`. -/
theorem scanRun_snd (szV szI idx : Int) (l run : List msurface_t) (a b : Int) :
    (scanRun szV szI idx l run a b).2.1 =
      l.dropWhile (fun s => decide (s.shader.sortedIndex = idx)) := by
  induction l generalizing run a b with
  | nil => simp [scanRun]
  | cons s rest ih =>
    by_cases h : s.shader.sortedIndex = idx
    · simp only [scanRun, h, if_true, ih, List.dropWhile_cons, decide_True]
    · simp [scanRun, h, List.dropWhile_cons]

theorem vboBytes_pos (sz : Int) (hsz : 0 < sz) (l : List msurface_t) (hl : l ≠ [])
    (hpos : ∀ s ∈ l, 0 < s.data.numVerts ∧ 0 < s.data.numIndexes) : 0 < vboBytes sz l := by
  induction l with
  | nil => exact absurd rfl hl
  | cons s rest ih =>
    have h1 : 0 < s.data.numVerts * sz := Int.mul_pos (hpos s (by simp)).1 hsz
    by_cases hr : rest = []
    · subst hr; simpa [vboBytes] using h1
    · have := ih hr (fun t ht => hpos t (by simp [ht]))
      simp only [vboBytes, List.map_cons, List.sum_cons] at this ⊢
      omega

theorem iboBytes_pos (sz : Int) (hsz : 0 < sz) (l : List msurface_t) (hl : l ≠ [])
    (hpos : ∀ s ∈ l, 0 < s.data.numVerts ∧ 0 < s.data.numIndexes) : 0 < iboBytes sz l := by
  induction l with
  | nil => exact absurd rfl hl
  | cons s rest ih =>
    have h1 : 0 < s.data.numIndexes * sz := Int.mul_pos (hpos s (by simp)).2 hsz
    by_cases hr : rest = []
    · subst hr; simpa [iboBytes] using h1
    · have := ih hr (fun t ht => hpos t (by simp [ht]))
      simp only [iboBytes, List.map_cons, List.sum_cons] at this ⊢
      omega

theorem vboBytes_nonneg (sz : Int) (hsz : 0 < sz) (l : List msurface_t)
    (hpos : ∀ s ∈ l, 0 < s.data.numVerts ∧ 0 < s.data.numIndexes) : 0 ≤ vboBytes sz l := by
  by_cases hl : l = []
  · subst hl; simp [vboBytes]
  · exact (vboBytes_pos sz hsz l hl hpos).le

theorem iboBytes_nonneg (sz : Int) (hsz : 0 < sz) (l : List msurface_t)
    (hpos : ∀ s ∈ l, 0 < s.data.numVerts ∧ 0 < s.data.numIndexes) : 0 ≤ iboBytes sz l := by
  by_cases hl : l = []
  · subst hl; simp [iboBytes]
  · exact (iboBytes_pos sz hsz l hl hpos).le

/-- As long as the byte sums of the surfaces scanned stay in the range of an `int`, the run
scan adds the exact byte sums of the run to its accumulators. -/
theorem scanRun_sums (szV szI idx : Int) (hV : 0 < szV) (hI : 0 < szI) :
    ∀ (l run : List msurface_t) (a b : Int),
      (∀ s ∈ l, 0 < s.data.numVerts ∧ 0 < s.data.numIndexes) →
      0 ≤ a → 0 ≤ b → a + vboBytes szV l < 2147483648 → b + iboBytes szI l < 2147483648 →
      (scanRun szV szI idx l run a b).2.2.1 =
          a + vboBytes szV (l.takeWhile (fun s => decide (s.shader.sortedIndex = idx))) ∧
        (scanRun szV szI idx l run a b).2.2.2 =
          b + iboBytes szI (l.takeWhile (fun s => decide (s.shader.sortedIndex = idx))) := by
  intro l
  induction l with
  | nil => intro run a b _ _ _ _ _; simp [scanRun, vboBytes, iboBytes]
  | cons s rest ih =>
    intro run a b hpos ha hb hav hbi
    have hs := hpos s (by simp)
    have hrest : ∀ t ∈ rest, 0 < t.data.numVerts ∧ 0 < t.data.numIndexes :=
      fun t ht => hpos t (by simp [ht])
    have n1 := vboBytes_nonneg szV hV rest hrest
    have n2 := iboBytes_nonneg szI hI rest hrest
    have p1 : 0 < s.data.numVerts * szV := Int.mul_pos hs.1 hV
    have p2 : 0 < s.data.numIndexes * szI := Int.mul_pos hs.2 hI
    simp only [vboBytes, iboBytes, List.map_cons, List.sum_cons] at hav hbi n1 n2
    by_cases h : s.shader.sortedIndex = idx
    · have w1 : wrap32 (a + s.data.numVerts * szV) = a + s.data.numVerts * szV :=
        wrap32_of_range (by omega) (by omega)
      have w2 : wrap32 (b + s.data.numIndexes * szI) = b + s.data.numIndexes * szI :=
        wrap32_of_range (by omega) (by omega)
      obtain ⟨i1, i2⟩ := ih (run ++ [s]) (a + s.data.numVerts * szV)
        (b + s.data.numIndexes * szI) hrest (by omega) (by omega)
        (by simp only [vboBytes]; omega) (by simp only [iboBytes]; omega)
      simp only [scanRun, h, if_true, w1, w2, i1, i2, List.takeWhile_cons, decide_True]
      simp only [vboBytes, iboBytes, List.map_cons, List.sum_cons]
      constructor <;> ring
    · simp [scanRun, h, List.takeWhile_cons, vboBytes, iboBytes]

/-- After a run has been appended to the batch, the batch ends with a surface of the run's
`sortedIndex` and the remainder starts with a surface of another `sortedIndex`. -/
theorem runBoundary_after_scan (idx : Int) (batch : List msurface_t) (surf : msurface_t)
    (rest : List msurface_t) (h : surf.shader.sortedIndex = idx) :
    runBoundary
      (batch ++ (surf :: rest).takeWhile (fun s => decide (s.shader.sortedIndex = idx)))
      ((surf :: rest).dropWhile (fun s => decide (s.shader.sortedIndex = idx))) := by
  intro x hx y hy
  have hne : (surf :: rest).takeWhile (fun s => decide (s.shader.sortedIndex = idx)) ≠ [] := by
    simp [List.takeWhile_cons, h]
  rw [List.getLast?_append_of_ne_nil _ hne] at hx
  have hxp := List.mem_takeWhile_imp (List.mem_of_mem_getLast? hx)
  have hyp := List.head?_dropWhile_not (fun s => decide (s.shader.sortedIndex = idx))
    (surf :: rest)
  rw [Option.mem_def] at hy
  rw [hy] at hyp
  simp only [decide_eq_true_eq] at hxp
  simp only [decide_eq_false_iff_not] at hyp
  rw [hxp]
  exact fun e => hyp e.symm

theorem singleRun_takeWhile (idx : Int) (l : List msurface_t) :
    singleRun (l.takeWhile (fun s => decide (s.shader.sortedIndex = idx))) := by
  intro x hx y hy
  have h1 := List.mem_takeWhile_imp hx
  have h2 := List.mem_takeWhile_imp hy
  simp only [decide_eq_true_eq] at h1 h2
  rw [h1, h2]

/-- Invariant of the `while` loop, for byte totals in the range of an `int`: the batch and the
remainder always make up the same list, the batch ends at a run boundary, and it is within
both budgets or a single run. -/
theorem growBatch_spec (szV szI : Int) (hV : 0 < szV) (hI : 0 < szI) :
    ∀ (fuel : Nat) (batch lastSurf : List msurface_t) (cv ci : Int),
      (∀ s ∈ batch ++ lastSurf, 0 < s.data.numVerts ∧ 0 < s.data.numIndexes) →
      vboBytes szV (batch ++ lastSurf) < 2147483648 →
      iboBytes szI (batch ++ lastSurf) < 2147483648 →
      cv = vboBytes szV batch → ci = iboBytes szI batch →
      runBoundary batch lastSurf →
      (withinBudget szV szI batch ∨ singleRun batch) →
      (growBatch szV szI fuel batch lastSurf cv ci).1 ++
          (growBatch szV szI fuel batch lastSurf cv ci).2 = batch ++ lastSurf ∧
        runBoundary (growBatch szV szI fuel batch lastSurf cv ci).1
          (growBatch szV szI fuel batch lastSurf cv ci).2 ∧
        (withinBudget szV szI (growBatch szV szI fuel batch lastSurf cv ci).1 ∨
          singleRun (growBatch szV szI fuel batch lastSurf cv ci).1) ∧
        ∃ ext, (growBatch szV szI fuel batch lastSurf cv ci).1 = batch ++ ext := by
  intro fuel
  induction fuel with
  | zero =>
    intro batch lastSurf cv ci _ _ _ _ _ hb hw
    exact ⟨rfl, hb, hw, [], by simp [growBatch]⟩
  | succ fuel ih =>
    intro batch lastSurf cv ci hpos hbv hbi hcv hci hb hw
    cases lastSurf with
    | nil => exact ⟨rfl, hb, hw, [], by simp [growBatch]⟩
    | cons surf rest =>
      have hposb : ∀ s ∈ batch, 0 < s.data.numVerts ∧ 0 < s.data.numIndexes :=
        fun s hs => hpos s (by simp [hs])
      have hposl : ∀ s ∈ surf :: rest, 0 < s.data.numVerts ∧ 0 < s.data.numIndexes :=
        fun s hs => hpos s (List.mem_append_right _ hs)
      have nb1 := vboBytes_nonneg szV hV batch hposb
      have nb2 := iboBytes_nonneg szI hI batch hposb
      rw [vboBytes_append] at hbv
      rw [iboBytes_append] at hbi
      obtain ⟨s1, s2⟩ := scanRun_sums szV szI surf.shader.sortedIndex hV hI (surf :: rest) []
        0 0 hposl (le_refl _) (le_refl _) (by omega) (by omega)
      rw [growBatch]
      by_cases hcond : cv < maxVboSize ∧ ci < maxIboSize
      · simp only [hcond, and_self, if_true, scanRun_fst, scanRun_snd, s1, s2, List.nil_append]
        set run := (surf :: rest).takeWhile
          (fun s => decide (s.shader.sortedIndex = surf.shader.sortedIndex)) with hrun
        set rest' := (surf :: rest).dropWhile
          (fun s => decide (s.shader.sortedIndex = surf.shader.sortedIndex)) with hrest'
        have hsplit : run ++ rest' = surf :: rest := List.takeWhile_append_dropWhile _ _
        have hposr : ∀ s ∈ run, 0 < s.data.numVerts ∧ 0 < s.data.numIndexes :=
          fun s hs => hposl s (by rw [← hsplit]; simp [hs])
        have hposr' : ∀ s ∈ rest', 0 < s.data.numVerts ∧ 0 < s.data.numIndexes :=
          fun s hs => hposl s (by rw [← hsplit]; simp [hs])
        have nr1 := vboBytes_nonneg szV hV run hposr
        have nr2 := iboBytes_nonneg szI hI run hposr
        have nr1' := vboBytes_nonneg szV hV rest' hposr'
        have nr2' := iboBytes_nonneg szI hI rest' hposr'
        have tv : vboBytes szV run + vboBytes szV rest' = vboBytes szV (surf :: rest) := by
          rw [← vboBytes_append, hsplit]
        have ti : iboBytes szI run + iboBytes szI rest' = iboBytes szI (surf :: rest) := by
          rw [← iboBytes_append, hsplit]
        have w1 : wrap32 (0 + vboBytes szV run + cv) = vboBytes szV run + cv :=
          (wrap32_of_range (by omega) (by omega)).trans (by ring)
        have w2 : wrap32 (0 + iboBytes szI run + ci) = iboBytes szI run + ci :=
          (wrap32_of_range (by omega) (by omega)).trans (by ring)
        have w3 : wrap32 (cv + (0 + vboBytes szV run)) = vboBytes szV (batch ++ run) := by
          rw [vboBytes_append, wrap32_of_range (by omega) (by omega)]; omega
        have w4 : wrap32 (ci + (0 + iboBytes szI run)) = iboBytes szI (batch ++ run) := by
          rw [iboBytes_append, wrap32_of_range (by omega) (by omega)]; omega
        rw [w1, w2, w3, w4]
        by_cases hchk : (cv ≠ 0 ∧ vboBytes szV run + cv > maxVboSize) ∨
            (ci ≠ 0 ∧ iboBytes szI run + ci > maxIboSize)
        · simp only [hchk, if_true]
          exact ⟨by simp, hb, hw, [], by simp⟩
        · simp only [hchk, if_false]
          have hpos' : ∀ s ∈ (batch ++ run) ++ rest',
              0 < s.data.numVerts ∧ 0 < s.data.numIndexes := by
            rw [List.append_assoc, hsplit]; exact hpos
          have hw' : withinBudget szV szI (batch ++ run) ∨ singleRun (batch ++ run) := by
            by_cases hbe : batch = []
            · right
              subst hbe
              rw [List.nil_append]
              exact singleRun_takeWhile surf.shader.sortedIndex (surf :: rest)
            · left
              have h1 := vboBytes_pos szV hV batch hbe hposb
              have h2 := iboBytes_pos szI hI batch hbe hposb
              push_neg at hchk
              have c1 := hchk.1 (by omega)
              have c2 := hchk.2 (by omega)
              refine ⟨?_, ?_⟩
              · rw [vboBytes_append]; omega
              · rw [iboBytes_append]; omega
          obtain ⟨e1, e2, e3, ext, e4⟩ := ih (batch ++ run) rest' (vboBytes szV (batch ++ run))
            (iboBytes szI (batch ++ run)) hpos'
            (by rw [vboBytes_append, vboBytes_append]; omega)
            (by rw [iboBytes_append, iboBytes_append]; omega) rfl rfl
            (runBoundary_after_scan _ batch surf rest rfl) hw'
          refine ⟨?_, e2, e3, run ++ ext, ?_⟩
          · rw [e1, List.append_assoc, hsplit]
          · rw [e4, List.append_assoc]
      · simp only [hcond, if_false]
        exact ⟨by simp, hb, hw, [], by simp⟩

theorem dropWhile_length_le (p : msurface_t → Bool) (l : List msurface_t) :
    (l.dropWhile p).length ≤ l.length := by
  induction l with
  | nil => simp
  | cons s rest ih =>
    rw [List.dropWhile_cons]
    split_ifs
    · simp only [List.length_cons]; omega
    · exact le_refl _

/-- The iteration bound of the `while` loop is large enough: any two bounds that are at least
the number of remaining surfaces give the same result, so the loop has run to its own exit. -/
theorem growBatch_fuel_enough (szV szI : Int) :
    ∀ (n m : Nat) (batch lastSurf : List msurface_t) (cv ci : Int),
      lastSurf.length ≤ n → lastSurf.length ≤ m →
      growBatch szV szI n batch lastSurf cv ci = growBatch szV szI m batch lastSurf cv ci := by
  intro n
  induction n with
  | zero =>
    intro m batch lastSurf cv ci hn _
    have : lastSurf = [] := List.length_eq_zero.mp (by omega)
    subst this
    cases m <;> simp [growBatch]
  | succ n ih =>
    intro m batch lastSurf cv ci hn hm
    cases lastSurf with
    | nil => cases m <;> simp [growBatch]
    | cons surf rest =>
      cases m with
      | zero => simp at hm
      | succ m =>
        rw [growBatch, growBatch]
        simp only [scanRun_snd]
        split_ifs
        · rfl
        · have hle := dropWhile_length_le
            (fun s => decide (s.shader.sortedIndex = surf.shader.sortedIndex)) rest
          have hd : (surf :: rest).dropWhile
              (fun s => decide (s.shader.sortedIndex = surf.shader.sortedIndex)) =
              rest.dropWhile (fun s => decide (s.shader.sortedIndex = surf.shader.sortedIndex)) := by
            simp [List.dropWhile_cons]
          simp only [List.length_cons] at hn hm
          apply ih
          · rw [hd]; omega
          · rw [hd]; omega
        · rfl

/-- The `while` loop only ever extends the batch, by what it takes from the front of the
remaining surfaces. -/
theorem growBatch_append (szV szI : Int) :
    ∀ (fuel : Nat) (batch lastSurf : List msurface_t) (cv ci : Int),
      (growBatch szV szI fuel batch lastSurf cv ci).1 ++
        (growBatch szV szI fuel batch lastSurf cv ci).2 = batch ++ lastSurf ∧
      ∃ ext, (growBatch szV szI fuel batch lastSurf cv ci).1 = batch ++ ext := by
  intro fuel
  induction fuel with
  | zero => intro batch lastSurf cv ci; exact ⟨rfl, [], by simp [growBatch]⟩
  | succ fuel ih =>
    intro batch lastSurf cv ci
    cases lastSurf with
    | nil => exact ⟨rfl, [], by simp [growBatch]⟩
    | cons surf rest =>
      rw [growBatch]
      simp only [scanRun_fst, scanRun_snd, List.nil_append]
      split_ifs
      · exact ⟨rfl, [], by simp⟩
      · obtain ⟨e1, ext, e2⟩ := ih (batch ++ (surf :: rest).takeWhile
            (fun s => decide (s.shader.sortedIndex = surf.shader.sortedIndex)))
          ((surf :: rest).dropWhile
            (fun s => decide (s.shader.sortedIndex = surf.shader.sortedIndex)))
          (wrap32 (cv + (scanRun szV szI surf.shader.sortedIndex (surf :: rest) [] 0 0).2.2.1))
          (wrap32 (ci + (scanRun szV szI surf.shader.sortedIndex (surf :: rest) [] 0 0).2.2.2))
        refine ⟨?_, _, by rw [e2, List.append_assoc]⟩
        rw [e1, List.append_assoc, List.takeWhile_append_dropWhile]
      · exact ⟨rfl, [], by simp⟩

/-- The first batch formed from a non-empty list is not empty and leaves strictly fewer
surfaces: the `while` loop always takes the first run. -/
theorem growBatch_first_ne_nil (szV szI : Int) (fuel : Nat) (surf : msurface_t)
    (rest : List msurface_t) :
    (growBatch szV szI (fuel + 1) [] (surf :: rest) 0 0).1 ≠ [] := by
  rw [growBatch]
  have hcond : (0 : Int) < maxVboSize ∧ (0 : Int) < maxIboSize := by decide
  simp only [hcond, and_self, if_true, scanRun_fst, scanRun_snd, List.nil_append, ne_eq,
    not_true_eq_false, false_and, or_self, if_false]
  obtain ⟨-, ext, e⟩ := growBatch_append szV szI fuel
    ((surf :: rest).takeWhile (fun s => decide (s.shader.sortedIndex = surf.shader.sortedIndex)))
    ((surf :: rest).dropWhile (fun s => decide (s.shader.sortedIndex = surf.shader.sortedIndex)))
    (wrap32 (0 + (scanRun szV szI surf.shader.sortedIndex (surf :: rest) [] 0 0).2.2.1))
    (wrap32 (0 + (scanRun szV szI surf.shader.sortedIndex (surf :: rest) [] 0 0).2.2.2))
  rw [e]
  simp [List.takeWhile_cons]

theorem growBatch_first_shorter (szV szI : Int) (fuel : Nat) (surf : msurface_t)
    (rest : List msurface_t) :
    (growBatch szV szI (fuel + 1) [] (surf :: rest) 0 0).2.length ≤ rest.length := by
  have hsum := (growBatch_append szV szI (fuel + 1) [] (surf :: rest) 0 0).1
  have hlen := congrArg List.length hsum
  simp only [List.length_append, List.nil_append, List.length_cons] at hlen
  have := List.length_pos.mpr (growBatch_first_ne_nil szV szI fuel surf rest)
  omega

/-- The iteration bound of the outer loop is large enough: any two bounds of at least the
number of surfaces give the same batches. -/
theorem formBatches_fuel_enough (szV szI : Int) :
    ∀ (n m : Nat) (l : List msurface_t), l.length ≤ n → l.length ≤ m →
      formBatches szV szI n l = formBatches szV szI m l := by
  intro n
  induction n with
  | zero =>
    intro m l hn _
    have : l = [] := List.length_eq_zero.mp (by omega)
    subst this
    cases m <;> simp [formBatches]
  | succ n ih =>
    intro m l hn hm
    cases l with
    | nil => cases m <;> simp [formBatches]
    | cons surf rest =>
      cases m with
      | zero => simp at hm
      | succ m =>
        rw [formBatches, formBatches]
        have hshort := growBatch_first_shorter szV szI rest.length surf rest
        simp only [List.length_cons] at hn hm ⊢
        congr 1
        exact ih m _ (by omega) (by omega)

theorem runBoundary_of_head_eq (b1 b2 b3 : List msurface_t) (h : runBoundary b1 b2)
    (hh : b3.head? = b2.head?) : runBoundary b1 b3 := by
  intro x hx y hy
  rw [hh] at hy
  exact h x hx y hy

/-- The batches of the outer loop, for byte totals in the range of an `int`: they concatenate
to the sorted list, none is empty, batch boundaries are run boundaries, and each batch is
within both budgets or a single run. -/
theorem formBatches_spec (szV szI : Int) (hV : 0 < szV) (hI : 0 < szI) :
    ∀ (fuel : Nat) (l : List msurface_t), l.length ≤ fuel →
      (∀ s ∈ l, 0 < s.data.numVerts ∧ 0 < s.data.numIndexes) →
      vboBytes szV l < 2147483648 → iboBytes szI l < 2147483648 →
      (formBatches szV szI fuel l).flatten = l ∧
      (∀ b ∈ formBatches szV szI fuel l, b ≠ []) ∧
      List.Chain' runBoundary (formBatches szV szI fuel l) ∧
      (∀ b ∈ formBatches szV szI fuel l, withinBudget szV szI b ∨ singleRun b) ∧
      (∀ b ∈ (formBatches szV szI fuel l).head?, b.head? = l.head?) := by
  intro fuel
  induction fuel with
  | zero =>
    intro l hl _ _ _
    have : l = [] := List.length_eq_zero.mp (by omega)
    subst this
    simp [formBatches]
  | succ fuel ih =>
    intro l hl hpos hbv hbi
    cases l with
    | nil => simp [formBatches]
    | cons surf rest =>
      rw [formBatches]
      have hlen : (surf :: rest).length = rest.length + 1 := rfl
      obtain ⟨e1, e2, e3, -⟩ := growBatch_spec szV szI hV hI (surf :: rest).length []
        (surf :: rest) 0 0 (by simpa using hpos) (by simpa using hbv) (by simpa using hbi)
        (by simp [vboBytes]) (by simp [iboBytes])
        (by intro x hx; simp at hx) (Or.inr (by intro x hx; simp at hx))
      have hne : (growBatch szV szI (surf :: rest).length [] (surf :: rest) 0 0).1 ≠ [] := by
        rw [hlen]; exact growBatch_first_ne_nil szV szI rest.length surf rest
      set r := growBatch szV szI (surf :: rest).length [] (surf :: rest) 0 0 with hr
      rw [List.nil_append] at e1
      have hlen2 : r.1.length + r.2.length = rest.length + 1 := by
        rw [← List.length_append, e1]; rfl
      have hr1 : 0 < r.1.length := List.length_pos.mpr hne
      have hpos1 : ∀ s ∈ r.1, 0 < s.data.numVerts ∧ 0 < s.data.numIndexes := by
        intro s hs
        exact hpos s (by rw [← e1]; simp [hs])
      have hpos2 : ∀ s ∈ r.2, 0 < s.data.numVerts ∧ 0 < s.data.numIndexes := by
        intro s hs
        exact hpos s (by rw [← e1]; simp [hs])
      have n1 := vboBytes_nonneg szV hV r.1 hpos1
      have n2 := iboBytes_nonneg szI hI r.1 hpos1
      have tv : vboBytes szV r.1 + vboBytes szV r.2 = vboBytes szV (surf :: rest) := by
        rw [← vboBytes_append, e1]
      have ti : iboBytes szI r.1 + iboBytes szI r.2 = iboBytes szI (surf :: rest) := by
        rw [← iboBytes_append, e1]
      obtain ⟨i1, i2, i3, i4, i5⟩ := ih r.2 (by simp only [List.length_cons] at hl; omega) hpos2
        (by omega) (by omega)
      refine ⟨?_, ?_, ?_, ?_, ?_⟩
      · simp only [List.flatten_cons, i1, e1]
      · intro b hb
        rcases List.mem_cons.mp hb with rfl | hb
        · exact hne
        · exact i2 b hb
      · rw [List.chain'_cons']
        exact ⟨fun y hy => runBoundary_of_head_eq _ _ _ e2 (i5 y hy), i3⟩
      · intro b hb
        rcases List.mem_cons.mp hb with rfl | hb
        · exact e3
        · exact i4 b hb
      · intro b hb
        simp only [List.head?_cons, Option.mem_def, Option.some.injEq] at hb
        subst hb
        rw [← e1, List.head?_append_of_ne_nil _ hne]

theorem vboEligible_nonzero (s : msurface_t) (h : vboEligible s = true) :
    s.data.numVerts ≠ 0 ∧ s.data.numIndexes ≠ 0 := by
  simp only [vboEligible, Bool.and_eq_true, Bool.not_eq_true', Bool.or_eq_false_iff,
    beq_eq_false_iff_ne, ne_eq] at h
  exact ⟨h.2.2, h.2.1⟩

theorem vboBytes_perm (sz : Int) (a b : List msurface_t) (h : List.Perm a b) :
    vboBytes sz a = vboBytes sz b :=
  (h.map _).sum_eq

theorem iboBytes_perm (sz : Int) (a b : List msurface_t) (h : List.Perm a b) :
    iboBytes sz a = iboBytes sz b :=
  (h.map _).sum_eq

/-- C8 (counterexample): with 156-byte vertices, (1) three eligible surfaces, the first two in
one shader run and with 1 and -1 vertices, the third in another run and with 1000000 vertices:
the first run adds 0 bytes to `currVboSize`, so the test `currVboSize != 0 && ...` lets the
second run into the same batch, one batch of two runs with 156000000 vertex bytes, over the
budget of 64 MiB; (2) two surfaces in two runs with 400000 and 14000000 vertices: the byte
sum 2184000000 of the second run does not fit into the `int addVboSize`, which becomes
negative, so the budget test passes and both runs form one batch of 2246400000 vertex
bytes. -/
theorem R_CreateWorldVBOs_batches_counterexample :
    (R_CreateWorldVBOs id 156 4 exampleNegativeCountWorld =
        [[exampleSurface 1 1 3, exampleSurface 1 (-1) 3, exampleSurface 2 1000000 3]] ∧
      vboBytes 156 [exampleSurface 1 1 3, exampleSurface 1 (-1) 3, exampleSurface 2 1000000 3] =
        156000000 ∧
      ¬ withinBudget 156 4
        [exampleSurface 1 1 3, exampleSurface 1 (-1) 3, exampleSurface 2 1000000 3] ∧
      ¬ singleRun
        [exampleSurface 1 1 3, exampleSurface 1 (-1) 3, exampleSurface 2 1000000 3]) ∧
    (R_CreateWorldVBOs id 156 4 exampleWrapWorld =
        [[exampleSurface 1 400000 3, exampleSurface 2 14000000 3]] ∧
      vboBytes 156 [exampleSurface 1 400000 3, exampleSurface 2 14000000 3] = 2246400000 ∧
      wrap32 (14000000 * 156) = -2110967296 ∧
      ¬ withinBudget 156 4 [exampleSurface 1 400000 3, exampleSurface 2 14000000 3] ∧
      ¬ singleRun [exampleSurface 1 400000 3, exampleSurface 2 14000000 3]) := by
  refine ⟨⟨by decide, by decide, ?_, ?_⟩, ⟨by decide, by decide, by decide, ?_, ?_⟩⟩
  · intro h
    exact absurd h.1 (by decide)
  · intro h
    exact absurd (h (exampleSurface 1 1 3) (by simp) (exampleSurface 2 1000000 3) (by simp))
      (by decide)
  · intro h
    exact absurd h.1 (by decide)
  · intro h
    exact absurd (h (exampleSurface 1 400000 3) (by simp) (exampleSurface 2 14000000 3)
      (by simp)) (by decide)

/-- C8 (amended): when no surface has a negative vertex or index count and the byte totals of
the sorted surfaces are in the range of an `int` (below `2^31`), every batch (world VBO/IBO
pair) that `R_CreateWorldVBOs` forms from the sorted surface list is a non-empty concatenation
of whole runs of equal shader `sortedIndex` (the batches concatenate to the sorted list, none is
empty, and at every batch boundary the `sortedIndex` changes, so no run is split), and either
both its totals are within budget (sum of `numVerts * sizeof(srfVert_t)` at most 64 MiB and sum
of `numIndexes * sizeof(glIndex_t)` at most 16 MiB) or it consists of exactly one run (all its
surfaces share one `sortedIndex`).  The element sizes are positive. -/
theorem R_CreateWorldVBOs_batches (qsort : List msurface_t → List msurface_t)
    (sizeof_srfVert_t sizeof_glIndex_t : Int) (worldData : world_t)
    (hqsort : ∀ l, List.Perm (qsort l) l)
    (hV : 0 < sizeof_srfVert_t) (hI : 0 < sizeof_glIndex_t)
    (hcount : ∀ s ∈ worldData.surfaces, 0 ≤ s.data.numVerts ∧ 0 ≤ s.data.numIndexes)
    (hvbo : vboBytes sizeof_srfVert_t
      ((worldData.surfaces.take worldData.numsurfaces.toNat).filter vboEligible) < 2147483648)
    (hibo : iboBytes sizeof_glIndex_t
      ((worldData.surfaces.take worldData.numsurfaces.toNat).filter vboEligible) < 2147483648) :
    (R_CreateWorldVBOs qsort sizeof_srfVert_t sizeof_glIndex_t worldData).flatten =
      qsort ((worldData.surfaces.take worldData.numsurfaces.toNat).filter vboEligible) ∧
    (∀ b ∈ R_CreateWorldVBOs qsort sizeof_srfVert_t sizeof_glIndex_t worldData, b ≠ []) ∧
    List.Chain' runBoundary
      (R_CreateWorldVBOs qsort sizeof_srfVert_t sizeof_glIndex_t worldData) ∧
    (∀ b ∈ R_CreateWorldVBOs qsort sizeof_srfVert_t sizeof_glIndex_t worldData,
      withinBudget sizeof_srfVert_t sizeof_glIndex_t b ∨ singleRun b) := by
  have hpos : ∀ s ∈ qsort ((worldData.surfaces.take worldData.numsurfaces.toNat).filter
      vboEligible), 0 < s.data.numVerts ∧ 0 < s.data.numIndexes := by
    intro s hs
    have hs' := (hqsort _).subset hs
    rw [List.mem_filter] at hs'
    obtain ⟨hmem, helig⟩ := hs'
    have h0 := hcount s (List.mem_of_mem_take hmem)
    have h1 := vboEligible_nonzero s helig
    omega
  obtain ⟨e1, e2, e3, e4, -⟩ := formBatches_spec sizeof_srfVert_t sizeof_glIndex_t hV hI _ _
    (le_refl _) hpos
    (by rw [vboBytes_perm _ _ _ (hqsort _)]; exact hvbo)
    (by rw [iboBytes_perm _ _ _ (hqsort _)]; exact hibo)
  exact ⟨e1, e2, e3, e4⟩

theorem R_CreateWorldVBOs_batches_witness :
    ((∀ s ∈ exampleBatchWorld.surfaces, 0 ≤ s.data.numVerts ∧ 0 ≤ s.data.numIndexes) ∧
      vboBytes 156 ((exampleBatchWorld.surfaces.take
        exampleBatchWorld.numsurfaces.toNat).filter vboEligible) < 2147483648 ∧
      iboBytes 4 ((exampleBatchWorld.surfaces.take
        exampleBatchWorld.numsurfaces.toNat).filter vboEligible) < 2147483648) ∧
    (∀ b ∈ R_CreateWorldVBOs id 156 4 exampleBatchWorld,
      withinBudget 156 4 b ∨ singleRun b) :=
  ⟨⟨by decide, by decide, by decide⟩,
    (R_CreateWorldVBOs_batches id 156 4 exampleBatchWorld (fun l => List.Perm.refl l)
      (by decide) (by decide) (by decide) (by decide) (by decide)).2.2.2⟩

/-! ## Leaf surface merging -/

theorem length_writeInt (a : List Int) (i v : Int) : (writeInt a i v).length = a.length := by
  unfold writeInt; split_ifs <;> simp

/-- Reading back after a write: the written value at the written slot (when it lies inside the
array), the old value elsewhere. -/
theorem readInt_writeInt (a : List Int) (i v k : Int) :
    readInt (writeInt a i v) k = readInt a k ∨ readInt (writeInt a i v) k = v := by
  unfold writeInt readInt
  by_cases hi : 0 ≤ i
  · by_cases hk : 0 ≤ k
    · simp only [hi, hk, if_true]
      by_cases hki : k.toNat = i.toNat
      · by_cases hlt : i.toNat < a.length
        · right
          rw [hki]
          simp [List.getD_eq_getElem?_getD, List.getElem?_set, hlt]
        · left
          rw [List.set_eq_of_length_le (by omega)]
      · left
        simp only [List.getD_eq_getElem?_getD]
        rw [List.getElem?_set_ne (fun h => hki h.symm)]
    · simp [hi, hk]
  · simp [hi]

theorem readInt_map_range (f : Nat → Int) (N : Nat) (k : Int) (h0 : 0 ≤ k) (h1 : k < N) :
    readInt ((List.range N).map f) k = f k.toNat := by
  unfold readInt
  have hk : k.toNat < N := by omega
  simp [h0, List.getD_eq_getElem?_getD, List.getElem?_map, List.getElem?_range hk]

/-- One pass of `redirectMarks` leaves each view surface as it was or sets it to the reference
`-(mergedSurfIndex + 1)`. -/
theorem redirectMarks_spec (worldData : world_t) (idx : Int) (j : Nat) (view : List Int) :
    (redirectMarks worldData idx j view).length = view.length ∧
    ∀ k : Int, readInt (redirectMarks worldData idx j view) k = readInt view k ∨
      readInt (redirectMarks worldData idx j view) k = -(idx + 1) := by
  unfold redirectMarks
  generalize List.range worldData.nummarksurfaces.toNat = L
  induction L generalizing view with
  | nil => exact ⟨rfl, fun k => Or.inl rfl⟩
  | cons k0 L ih =>
    simp only [List.foldl_cons]
    split_ifs with h
    · obtain ⟨e1, e2⟩ := ih (writeInt view k0 (-(idx + 1)))
      refine ⟨by rw [e1, length_writeInt], fun k => ?_⟩
      rcases e2 k with e | e
      · rcases readInt_writeInt view k0 (-(idx + 1)) k with e' | e'
        · exact Or.inl (e.trans e')
        · exact Or.inr (e.trans e')
      · exact Or.inr e
    · exact ih view

theorem redirectViewSurfaces_spec (worldData : world_t) (n : Nat) (svc : List Int) (i : Nat)
    (idx : Int) (view : List Int) :
    (redirectViewSurfaces worldData n svc i idx view).length = view.length ∧
    ∀ k : Int, readInt (redirectViewSurfaces worldData n svc i idx view) k = readInt view k ∨
      readInt (redirectViewSurfaces worldData n svc i idx view) k = -(idx + 1) := by
  unfold redirectViewSurfaces
  generalize List.range n = L
  induction L generalizing view with
  | nil => exact ⟨rfl, fun k => Or.inl rfl⟩
  | cons j L ih =>
    simp only [List.foldl_cons]
    split_ifs with h
    · exact ih view
    · obtain ⟨e1, e2⟩ := ih (redirectMarks worldData idx j view)
      obtain ⟨r1, r2⟩ := redirectMarks_spec worldData idx j view
      refine ⟨by rw [e1, r1], fun k => ?_⟩
      rcases e2 k with e | e
      · rcases r2 k with e' | e'
        · exact Or.inl (e.trans e')
        · exact Or.inr (e.trans e')
      · exact Or.inr e

theorem countMergedSurfaces_succ (m : Nat) (svc : List Int) :
    countMergedSurfaces (m + 1) svc =
      countMergedSurfaces m svc + (if readInt svc m = m then 1 else 0) := by
  unfold countMergedSurfaces
  rw [List.range_succ, List.filter_append, List.length_append]
  by_cases h : readInt svc (m : Int) = (m : Int)
  · simp [h]
  · simp [h]

/-- One iteration of the merge loop either changes nothing or, for a root `i`, creates merged
surface `mergedSurfIndex` and redirects view surfaces to it. -/
theorem mergeSurface_spec (worldData : world_t) (n : Nat) (svc : List Int) (st : mergeState_t)
    (i : Nat) :
    mergeSurface worldData n svc st i = st ∨
    (readInt svc i = i ∧
      (mergeSurface worldData n svc st i).mergedSurfIndex = st.mergedSurfIndex + 1 ∧
      (mergeSurface worldData n svc st i).viewSurfaces.length = st.viewSurfaces.length ∧
      ∀ k : Int, readInt (mergeSurface worldData n svc st i).viewSurfaces k =
          readInt st.viewSurfaces k ∨
        readInt (mergeSurface worldData n svc st i).viewSurfaces k =
          -(st.mergedSurfIndex + 1)) := by
  unfold mergeSurface
  by_cases h : readInt svc (i : Int) ≠ (i : Int)
  · left; rw [if_pos h]
  · rw [if_neg h]
    dsimp only
    split_ifs with h2
    · left; rfl
    · right
      obtain ⟨e1, e2⟩ := redirectViewSurfaces_spec worldData n svc i st.mergedSurfIndex
        st.viewSurfaces
      exact ⟨not_not.mp h, rfl, e1, e2⟩



/-- Invariant of the merge loop after the iterations `i < m`: the view surfaces keep their
length, `mergedSurfIndex` is at most the number of roots below `m`, and every view surface is
still the mark surface or a reference to a merged surface below `mergedSurfIndex`. -/
theorem mergeLoop_invariant (worldData : world_t) (n : Nat) (svc : List Int)
    (st0 : mergeState_t) (h0 : st0.mergedSurfIndex = 0)
    (hview : ∀ k : Int, 0 ≤ k → k < worldData.nummarksurfaces →
      readInt st0.viewSurfaces k = readInt worldData.marksurfaces k) :
    ∀ m : Nat,
      ((List.range m).foldl (mergeSurface worldData n svc) st0).viewSurfaces.length =
        st0.viewSurfaces.length ∧
      0 ≤ ((List.range m).foldl (mergeSurface worldData n svc) st0).mergedSurfIndex ∧
      ((List.range m).foldl (mergeSurface worldData n svc) st0).mergedSurfIndex ≤
        (countMergedSurfaces m svc : Int) ∧
      ∀ k : Int, 0 ≤ k → k < worldData.nummarksurfaces →
        readInt ((List.range m).foldl (mergeSurface worldData n svc) st0).viewSurfaces k =
            readInt worldData.marksurfaces k ∨
          (readInt ((List.range m).foldl (mergeSurface worldData n svc) st0).viewSurfaces k < 0 ∧
            0 ≤ -readInt ((List.range m).foldl (mergeSurface worldData n svc) st0).viewSurfaces k
              - 1 ∧
            -readInt ((List.range m).foldl (mergeSurface worldData n svc) st0).viewSurfaces k - 1 <
              ((List.range m).foldl (mergeSurface worldData n svc) st0).mergedSurfIndex) := by
  intro m
  induction m with
  | zero =>
    simp only [List.range_zero, List.foldl_nil, h0]
    refine ⟨trivial, le_refl _, by simp [countMergedSurfaces],
      fun k hk0 hk1 => Or.inl (hview k hk0 hk1)⟩
  | succ m ih =>
    rw [List.range_succ, List.foldl_append]
    simp only [List.foldl_cons, List.foldl_nil]
    set st := (List.range m).foldl (mergeSurface worldData n svc) st0 with hst
    obtain ⟨i1, i2, i3, i4⟩ := ih
    rw [countMergedSurfaces_succ]
    rcases mergeSurface_spec worldData n svc st m with e | ⟨hroot, e1, e2, e3⟩
    · rw [e]
      refine ⟨i1, i2, ?_, i4⟩
      push_cast
      split_ifs <;> omega
    · refine ⟨by rw [e2, i1], by omega, ?_, ?_⟩
      · rw [e1]
        simp only [hroot, if_true]
        push_cast
        omega
      · intro k hk0 hk1
        rw [e1]
        rcases e3 k with e | e
        · rw [e]
          rcases i4 k hk0 hk1 with h | ⟨h1, h2, h3⟩
          · exact Or.inl h
          · exact Or.inr ⟨h1, h2, by omega⟩
        · rw [e]
          exact Or.inr ⟨by omega, by omega, by omega⟩

/-- Claim C10: after `R_MergeLeafSurfaces` on a world whose mark surface entries are all in
`[0, numWorldSurfaces)`, there are `nummarksurfaces` view surfaces and every view surface entry
`v` is either equal to the corresponding (non-negative) mark surface entry or is negative with
`0 <= -v - 1 < numMergedSurfaces`: no negative entry decodes to an out-of-range merged-surface
index. -/
theorem R_MergeLeafSurfaces_viewSurfaces (worldData : world_t)
    (hmarks : ∀ k : Int, 0 ≤ k → k < worldData.nummarksurfaces →
      0 ≤ readInt worldData.marksurfaces k ∧
      readInt worldData.marksurfaces k < worldData.numWorldSurfaces) :
    (R_MergeLeafSurfaces worldData).viewSurfaces.length = worldData.nummarksurfaces.toNat ∧
    ∀ k : Int, 0 ≤ k → k < worldData.nummarksurfaces →
      (readInt (R_MergeLeafSurfaces worldData).viewSurfaces k =
          readInt worldData.marksurfaces k ∧
        0 ≤ readInt worldData.marksurfaces k) ∨
      (readInt (R_MergeLeafSurfaces worldData).viewSurfaces k < 0 ∧
        0 ≤ -readInt (R_MergeLeafSurfaces worldData).viewSurfaces k - 1 ∧
        -readInt (R_MergeLeafSurfaces worldData).viewSurfaces k - 1 <
          (R_MergeLeafSurfaces worldData).numMergedSurfaces) := by
  set n := worldData.numWorldSurfaces.toNat with hn
  set svc := dropLonelyRoots n (markMatchingSurfaces worldData
    ((List.range n).foldl (fun (surfacesViewCount : List Int) (i : Nat) =>
      writeInt surfacesViewCount i (-1)) worldData.surfacesViewCount)) with hsvc
  set st0 : mergeState_t :=
    { mergedSurfIndex := 0
      mergedSurfaces := List.replicate (countMergedSurfaces n svc) {}
      viewSurfaces := (List.range worldData.nummarksurfaces.toNat).map fun (i : Nat) =>
        readInt worldData.marksurfaces i } with hst0
  have hview : ∀ k : Int, 0 ≤ k → k < worldData.nummarksurfaces →
      readInt st0.viewSurfaces k = readInt worldData.marksurfaces k := by
    intro k hk0 hk1
    simp only [hst0]
    rw [readInt_map_range _ _ k hk0 (by omega)]
    congr 1
    omega
  obtain ⟨i1, i2, i3, i4⟩ := mergeLoop_invariant worldData n svc st0 rfl hview n
  have hV : (R_MergeLeafSurfaces worldData).viewSurfaces =
      ((List.range n).foldl (mergeSurface worldData n svc) st0).viewSurfaces := rfl
  have hN : (R_MergeLeafSurfaces worldData).numMergedSurfaces =
      (countMergedSurfaces n svc : Int) := rfl
  rw [hV, hN]
  refine ⟨by rw [i1]; simp [hst0], fun k hk0 hk1 => ?_⟩
  rcases i4 k hk0 hk1 with h | ⟨h1, h2, h3⟩
  · exact Or.inl ⟨h, (hmarks k hk0 hk1).1⟩
  · exact Or.inr ⟨h1, h2, by omega⟩

theorem R_MergeLeafSurfaces_viewSurfaces_witness :
    (readInt (R_MergeLeafSurfaces exampleMergeWorldAscending).viewSurfaces 0 =
        readInt exampleMergeWorldAscending.marksurfaces 0 ∧
      0 ≤ readInt exampleMergeWorldAscending.marksurfaces 0) ∨
    (readInt (R_MergeLeafSurfaces exampleMergeWorldAscending).viewSurfaces 0 < 0 ∧
      0 ≤ -readInt (R_MergeLeafSurfaces exampleMergeWorldAscending).viewSurfaces 0 - 1 ∧
      -readInt (R_MergeLeafSurfaces exampleMergeWorldAscending).viewSurfaces 0 - 1 <
        (R_MergeLeafSurfaces exampleMergeWorldAscending).numMergedSurfaces) :=
  (R_MergeLeafSurfaces_viewSurfaces exampleMergeWorldAscending
    (by
      intro k hk0 hk1
      have hk2 : k < 2 := hk1
      interval_cases k <;> decide)).2 0 (by decide) (by decide)

/-- Claim C9 fails on the code: for two mergeable faces with the same shader, fog and cubemap in
one leaf whose mark surfaces list surface 1 before surface 0, the mark phase makes surface 1 the
root of both, `numMergedSurfaces` becomes 1, but the merge loop counts constituents only from
`j = i = 1` on, finds one, and skips the root: entry 0 of `mergedSurfaces` stays zero-filled, no
view surface is redirected to it, and it has no constituent at all.  With the mark surfaces in
ascending order the same two faces are merged into entry 0 with constituents 0 and 1. -/
theorem R_MergeLeafSurfaces_empty_merged_entry :
    (R_MergeLeafSurfaces exampleMergeWorld).numMergedSurfaces = 1 ∧
    (R_MergeLeafSurfaces exampleMergeWorld).mergedSurfaces = [{}] ∧
    (R_MergeLeafSurfaces exampleMergeWorld).viewSurfaces = [1, 0] ∧
    mergedConstituents (R_MergeLeafSurfaces exampleMergeWorld) 0 = [] ∧
    (R_MergeLeafSurfaces exampleMergeWorldAscending).numMergedSurfaces = 1 ∧
    (R_MergeLeafSurfaces exampleMergeWorldAscending).viewSurfaces = [-1, -1] ∧
    mergedConstituents (R_MergeLeafSurfaces exampleMergeWorldAscending) 0 = [0, 1] := by
  decide

/-! ## Node and leaf loading -/

theorem loadChild_spec (numNodes p : Int) :
    (p ≥ 0 → loadChild numNodes p = p) ∧
    (p < 0 → loadChild numNodes p = numNodes + (-1 - p) ∧ numNodes ≤ loadChild numNodes p) := by
  unfold loadChild
  constructor
  · intro h; rw [if_pos h]
  · intro h; rw [if_neg (by omega)]; omega

/-- C18: for lumps of whole records `R_LoadNodesAndLeafs` sets `numnodes = numNodes + numLeafs`
and `numDecisionNodes = numNodes`, loads `numNodes` decision nodes, and turns each on-disk
child reference `p` of a decision node into entry `p` of the node array when `p >= 0` and into
entry `numNodes + (-1 - p)` when `p < 0`; that entry lies at or after the first leaf slot, and
inside the array exactly when `-p <= numLeafs`. -/
theorem R_LoadNodesAndLeafs_children (size1 size2 : Nat) (worldData : world_t)
    (nodeLump leafLump : lump_t) (nodes : Nat → dnode_t)
    (h1 : nodeLump.valid) (h2 : leafLump.valid)
    (hm1 : nodeLump.filelen % (size1 : Int) = 0) (hm2 : leafLump.filelen % (size2 : Int) = 0) :
    (R_LoadNodesAndLeafs size1 size2 worldData nodeLump leafLump).error = none ∧
    (R_LoadNodesAndLeafs size1 size2 worldData nodeLump leafLump).world.numnodes =
      nodeLump.filelen / (size1 : Int) + leafLump.filelen / (size2 : Int) ∧
    (R_LoadNodesAndLeafs size1 size2 worldData nodeLump leafLump).world.numDecisionNodes =
      nodeLump.filelen / (size1 : Int) ∧
    ((R_LoadNodesAndLeafs_nodes size1 size2 nodeLump leafLump nodes).length : Int) =
      nodeLump.filelen / (size1 : Int) ∧
    ∀ i : Nat, (i : Int) < nodeLump.filelen / (size1 : Int) →
      ∃ out, (R_LoadNodesAndLeafs_nodes size1 size2 nodeLump leafLump nodes)[i]? = some out ∧
        ∀ p child, (p = (nodes i).children0 ∧ child = out.children0) ∨
            (p = (nodes i).children1 ∧ child = out.children1) →
          (p ≥ 0 → child = p) ∧
          (p < 0 → child = nodeLump.filelen / (size1 : Int) + (-1 - p) ∧
            nodeLump.filelen / (size1 : Int) ≤ child ∧
            (child < (R_LoadNodesAndLeafs size1 size2 worldData nodeLump leafLump).world.numnodes
              ↔ -p ≤ leafLump.filelen / (size2 : Int))) := by
  have f1 := lumpFunny_of_multiple nodeLump size1 h1 hm1
  have f2 := lumpFunny_of_multiple leafLump size2 h2 hm2
  have c1 := lumpCount_eq nodeLump size1 h1
  have c2 := lumpCount_eq leafLump size2 h2
  have q1 := (lump_check nodeLump size1 h1).2.2.2.1
  have hw : R_LoadNodesAndLeafs size1 size2 worldData nodeLump leafLump =
      { world := { worldData with
          numnodes := nodeLump.filelen / (size1 : Int) + leafLump.filelen / (size2 : Int)
          numDecisionNodes := nodeLump.filelen / (size1 : Int) }
        error := none } := by
    unfold R_LoadNodesAndLeafs
    simp [f1, f2, c1, c2]
  have hn : R_LoadNodesAndLeafs_nodes size1 size2 nodeLump leafLump nodes =
      (List.range (nodeLump.filelen / (size1 : Int)).toNat).map fun (i : Nat) =>
        loadNode (nodeLump.filelen / (size1 : Int)) (nodes i) := by
    unfold R_LoadNodesAndLeafs_nodes
    simp [f1, f2, c1]
  rw [hw, hn]
  refine ⟨rfl, rfl, rfl, ?_, ?_⟩
  · rw [List.length_map, List.length_range]
    exact Int.toNat_of_nonneg q1
  · intro i hi
    have hi' : i < (nodeLump.filelen / (size1 : Int)).toNat := by omega
    refine ⟨loadNode (nodeLump.filelen / (size1 : Int)) (nodes i), ?_, ?_⟩
    · rw [List.getElem?_map, List.getElem?_range hi']
      rfl
    · intro p child hp
      have key : child = loadChild (nodeLump.filelen / (size1 : Int)) p := by
        rcases hp with ⟨hp, hc⟩ | ⟨hp, hc⟩ <;> rw [hc, hp] <;> rfl
      have sp := loadChild_spec (nodeLump.filelen / (size1 : Int)) p
      rw [key]
      refine ⟨sp.1, fun hneg => ?_⟩
      obtain ⟨e1, e2⟩ := sp.2 hneg
      refine ⟨e1, e2, ?_⟩
      rw [e1]
      show nodeLump.filelen / (size1 : Int) + (-1 - p) <
        nodeLump.filelen / (size1 : Int) + leafLump.filelen / (size2 : Int) ↔ _
      constructor <;> intro h <;> omega

theorem R_LoadNodesAndLeafs_children_witness :
    ((⟨0, 72⟩ : lump_t).valid ∧ (⟨0, 96⟩ : lump_t).valid ∧
      (72 : Int) % ((36 : Nat) : Int) = 0 ∧ (96 : Int) % ((48 : Nat) : Int) = 0) ∧
    R_LoadNodesAndLeafs_nodes 36 48 ⟨0, 72⟩ ⟨0, 96⟩
        (fun i => if i = 0 then ⟨0, 1, -1⟩ else ⟨1, -2, -3⟩) =
      [⟨0, 1, 2⟩, ⟨1, 3, 4⟩] ∧
    ((R_LoadNodesAndLeafs 36 48 {} ⟨0, 72⟩ ⟨0, 96⟩).world.numnodes = 4 ∧
      (R_LoadNodesAndLeafs 36 48 {} ⟨0, 72⟩ ⟨0, 96⟩).world.numDecisionNodes = 2) :=
  ⟨by decide, by decide,
    let h := R_LoadNodesAndLeafs_children 36 48 {} ⟨0, 72⟩ ⟨0, 96⟩
      (fun i => if i = 0 then ⟨0, 1, -1⟩ else ⟨1, -2, -3⟩) (by decide) (by decide) (by decide)
      (by decide)
    ⟨h.2.1, h.2.2.1⟩⟩

/-! ## Lightmap atlas layout -/

theorem atlasLightmapsPerX_spec (target : Int) :
    ∀ (fuel k : Nat), target ≤ 2 ^ (k + fuel) → (k = 0 ∨ (2 : Int) ^ (k - 1) < target) →
      ∃ j : Nat, atlasLightmapsPerX (fuel + 1) target (2 ^ k) = some (2 ^ j) ∧
        target ≤ 2 ^ j ∧ (j = 0 ∨ (2 : Int) ^ (j - 1) < target) := by
  intro fuel
  induction fuel with
  | zero =>
    intro k hk hmin
    refine ⟨k, ?_, by simpa using hk, hmin⟩
    unfold atlasLightmapsPerX
    rw [if_neg (by simpa using hk)]
  | succ fuel ih =>
    intro k hk hmin
    unfold atlasLightmapsPerX
    by_cases hlt : (2 : Int) ^ k < target
    · rw [if_pos hlt]
      have e : (2 : Int) ^ k * 2 = 2 ^ (k + 1) := by rw [pow_succ]
      rw [e]
      apply ih (k + 1)
      · have : k + 1 + fuel = k + (fuel + 1) := by omega
        rw [this]; exact hk
      · right; simpa using hlt
    · rw [if_neg hlt]
      exact ⟨k, rfl, by omega, hmin⟩

theorem ceilQuot_spec (a b : Int) (hb : 0 < b) :
    (ceilQuot a b - 1) * b < a ∧ a ≤ ceilQuot a b * b := by
  unfold ceilQuot
  have h1 := Int.emod_add_ediv (a + b - 1) b
  have h2 := Int.emod_nonneg (a + b - 1) (by omega : b ≠ 0)
  have h3 := Int.emod_lt_of_pos (a + b - 1) hb
  constructor <;> nlinarith

/-- C12: with lightmap merging enabled and `N >= 1` lightmaps (counted after the halving for
deluxe maps), `R_LoadLightmaps` sets `lightmapsPerAtlasSide[0]` to the smallest power of two
`W` that is at least `ceil(sqrt(N))` and `lightmapsPerAtlasSide[1]` to `H = ceil(N / W)`.  The
two `float` expressions are taken to be exact, as they are for `N < 2^24`: `ceilf_sqrtf N` is
the positive integer `t` with `(t - 1)^2 < N <= t^2` (which makes `N >= 1`) and
`ceilf_quot N W` is the integer `H` with `(H - 1) W < N <= H W`. -/
theorem R_LoadLightmaps_atlas_sides (ceilf_sqrtf : Int → Int) (ceilf_quot : Int → Int → Int)
    (LIGHTMAP_WIDTH LIGHTMAP_HEIGHT : Int) (worldDeluxeMapping : Bool) (r_mergeLightmaps : Int)
    (tr : lightmapAtlas_t) (numLightmaps N : Int)
    (hmerge : r_mergeLightmaps ≠ 0)
    (hN : N = if worldDeluxeMapping then numLightmaps >>> 1 else numLightmaps)
    (hfloat : N < 16777216)
    (hsqrt : 0 < ceilf_sqrtf N ∧ (ceilf_sqrtf N - 1) ^ 2 < N ∧ N ≤ ceilf_sqrtf N ^ 2)
    (hquot : ∀ W, 0 < W → (ceilf_quot N W - 1) * W < N ∧ N ≤ ceilf_quot N W * W) :
    ∃ (W H : Int) (k : Nat),
      R_LoadLightmaps_atlas ceilf_sqrtf ceilf_quot LIGHTMAP_WIDTH LIGHTMAP_HEIGHT
        worldDeluxeMapping r_mergeLightmaps tr numLightmaps =
        some { lightmapsPerAtlasSide := (W, H)
               lightmapAtlasSize := (W * LIGHTMAP_WIDTH, H * LIGHTMAP_HEIGHT)
               numLightmaps := 1 } ∧
      W = 2 ^ k ∧ ceilf_sqrtf N ≤ W ∧ (∀ j : Nat, ceilf_sqrtf N ≤ 2 ^ j → W ≤ 2 ^ j) ∧
      (H - 1) * W < N ∧ N ≤ H * W := by
  obtain ⟨ht0, ht1, _⟩ := hsqrt
  have ht : ceilf_sqrtf N ≤ 2 ^ (0 + 31) := by
    by_contra hc
    have : (4096 : Int) ≤ ceilf_sqrtf N - 1 := by
      have : (2 : Int) ^ (0 + 31) = 2147483648 := by norm_num
      omega
    nlinarith
  obtain ⟨j, hj, hge, hmin⟩ := atlasLightmapsPerX_spec (ceilf_sqrtf N) 31 0 ht (Or.inl rfl)
  have hW : (0 : Int) < 2 ^ j := by positivity
  refine ⟨2 ^ j, ceilf_quot N (2 ^ j), j, ?_, rfl, hge, ?_, hquot _ hW⟩
  · unfold R_LoadLightmaps_atlas
    simp only [← hN]
    rw [if_pos hmerge]
    rw [pow_zero] at hj
    rw [hj]
  · intro i hi
    rcases hmin with hmin | hmin
    · rw [hmin, pow_zero]
      have : (0 : Int) < 2 ^ i := by positivity
      omega
    · by_contra hc
      have hij : i < j := by
        by_contra hij
        exact hc (pow_le_pow_right₀ (by norm_num) (by omega))
      have : (2 : Int) ^ i ≤ 2 ^ (j - 1) := pow_le_pow_right₀ (by norm_num) (by omega)
      omega

theorem R_LoadLightmaps_atlas_sides_witness :
    (((1 : Int) ≠ 0) ∧ ((10 : Int) = if false then (10 : Int) >>> 1 else 10) ∧
      (10 : Int) < 16777216 ∧
      (0 < ceilSqrt 10 ∧ (ceilSqrt 10 - 1) ^ 2 < 10 ∧ 10 ≤ ceilSqrt 10 ^ 2)) ∧
    R_LoadLightmaps_atlas ceilSqrt ceilQuot 128 128 false 1 {} 10 =
      some { lightmapsPerAtlasSide := (4, 3), lightmapAtlasSize := (512, 384)
             numLightmaps := 1 } ∧
    ∃ (W H : Int) (k : Nat),
      R_LoadLightmaps_atlas ceilSqrt ceilQuot 128 128 false 1 {} 10 =
        some { lightmapsPerAtlasSide := (W, H)
               lightmapAtlasSize := (W * 128, H * 128)
               numLightmaps := 1 } ∧
      W = 2 ^ k ∧ ceilSqrt 10 ≤ W ∧ (∀ j : Nat, ceilSqrt 10 ≤ 2 ^ j → W ≤ 2 ^ j) ∧
      (H - 1) * W < 10 ∧ 10 ≤ H * W :=
  ⟨by decide, by decide,
    R_LoadLightmaps_atlas_sides ceilSqrt ceilQuot 128 128 false 1 {} 10 10 (by decide)
      (by decide) (by decide) (by decide) (fun W hW => ceilQuot_spec 10 W hW)⟩

/-! ## Fog volumes -/

theorem toU32_natCast (n : Nat) : toU32 (n : Int) = n := by
  unfold toU32
  rw [if_neg (by omega)]
  exact Int.toNat_ofNat n

/-- A fog record whose brush and six sides are in range loads with the bounds of the six
side planes. -/
theorem loadFog_in_range (MIN_WORLD_COORD MAX_WORLD_COORD : Int) (brushesCount sidesCount : Int)
    (brushes : Int → dbrush_t) (sides : Int → dbrushside_t) (planeDist : Int → Int)
    (fog : dfog_t) (hb0 : 0 ≤ fog.brushNum) (hb1 : fog.brushNum < brushesCount)
    (hs0 : 0 ≤ (brushes fog.brushNum).firstSide)
    (hs1 : (brushes fog.brushNum).firstSide + 5 < sidesCount) :
    ∃ out, loadFog MIN_WORLD_COORD MAX_WORLD_COORD brushesCount sidesCount brushes sides
        planeDist fog = .ok out ∧
      out.mins = (-planeDist (sides ((brushes fog.brushNum).firstSide + 0)).planeNum,
        -planeDist (sides ((brushes fog.brushNum).firstSide + 2)).planeNum,
        -planeDist (sides ((brushes fog.brushNum).firstSide + 4)).planeNum) ∧
      out.maxs = (planeDist (sides ((brushes fog.brushNum).firstSide + 1)).planeNum,
        planeDist (sides ((brushes fog.brushNum).firstSide + 3)).planeNum,
        planeDist (sides ((brushes fog.brushNum).firstSide + 5)).planeNum) := by
  obtain ⟨b, hb⟩ := Int.eq_ofNat_of_zero_le hb0
  obtain ⟨bc, hbc⟩ := Int.eq_ofNat_of_zero_le (by omega : 0 ≤ brushesCount)
  obtain ⟨fs, hfs⟩ := Int.eq_ofNat_of_zero_le hs0
  obtain ⟨sc, hsc⟩ := Int.eq_ofNat_of_zero_le (by omega : 0 ≤ sidesCount - 6)
  have c1 : ¬ fog.brushNum = -1 := by omega
  have c2 : ¬ toU32 fog.brushNum ≥ toU32 brushesCount := by
    rw [hb, hbc, toU32_natCast, toU32_natCast]; omega
  have c3 : ¬ toU32 (brushes fog.brushNum).firstSide > toU32 (sidesCount - 6) := by
    rw [hfs, hsc, toU32_natCast, toU32_natCast]; omega
  unfold loadFog
  simp only [c1, c2, c3, if_false]
  exact ⟨_, rfl, rfl, rfl⟩

theorem loadFogRecords_ok (MIN_WORLD_COORD MAX_WORLD_COORD : Int) (brushesCount sidesCount : Int)
    (brushes : Int → dbrush_t) (sides : Int → dbrushside_t) (planeDist : Int → Int) :
    ∀ records : List dfog_t,
      (∀ fog ∈ records, ∃ out, loadFog MIN_WORLD_COORD MAX_WORLD_COORD brushesCount sidesCount
        brushes sides planeDist fog = .ok out) →
      ∃ outs, loadFogRecords MIN_WORLD_COORD MAX_WORLD_COORD brushesCount sidesCount brushes
          sides planeDist records = .ok outs ∧ outs.length = records.length ∧
        ∀ (i : Nat) (fog : dfog_t), records[i]? = some fog →
          ∃ out, outs[i]? = some out ∧ loadFog MIN_WORLD_COORD MAX_WORLD_COORD brushesCount
            sidesCount brushes sides planeDist fog = .ok out := by
  intro records
  induction records with
  | nil =>
    intro _
    exact ⟨[], rfl, rfl, fun i fog h => by simp at h⟩
  | cons fog rest ih =>
    intro h
    obtain ⟨out, ho⟩ := h fog (List.mem_cons_self _ _)
    obtain ⟨outs, h1, h2, h3⟩ := ih (fun f hf => h f (List.mem_cons_of_mem _ hf))
    refine ⟨out :: outs, ?_, by simp [h2], ?_⟩
    · unfold loadFogRecords
      rw [ho]
      simp only [h1]
    · intro i f hi
      cases i with
      | zero =>
        simp only [List.getElem?_cons_zero, Option.some.injEq] at hi
        exact ⟨out, by simp, hi ▸ ho⟩
      | succ i =>
        simp only [List.getElem?_cons_succ] at hi
        obtain ⟨o, e1, e2⟩ := h3 i f hi
        exact ⟨o, by simpa using e1, e2⟩

theorem loadFog_global (MIN_WORLD_COORD MAX_WORLD_COORD : Int) (brushesCount sidesCount : Int)
    (brushes : Int → dbrush_t) (sides : Int → dbrushside_t) (planeDist : Int → Int)
    (fog : dfog_t) (h : fog.brushNum = -1) :
    ∃ out, loadFog MIN_WORLD_COORD MAX_WORLD_COORD brushesCount sidesCount brushes sides
        planeDist fog = .ok out := by
  unfold loadFog
  simp only [h, if_true]
  exact ⟨_, rfl⟩

/-- C13: when the three lumps hold whole records and every fog record either has brush number
-1 or references a brush in range whose six sides are in range, `R_LoadFogs` loads every fog,
and each fog with a brush gets the bounds mins = (-d0, -d2, -d4), maxs = (d1, d3, d5), where
`dk` is the `dist` of the plane of brush side `firstSide + k`. -/
theorem R_LoadFogs_bounds (size1 size2 size3 : Nat) (MIN_WORLD_COORD MAX_WORLD_COORD : Int)
    (worldData : world_t) (l brushesLump sidesLump : lump_t) (fogs : Nat → dfog_t)
    (brushes : Int → dbrush_t) (sides : Int → dbrushside_t) (planeDist : Int → Int)
    (hl : l.valid) (hbl : brushesLump.valid) (hsl : sidesLump.valid)
    (hm1 : l.filelen % (size1 : Int) = 0) (hm2 : brushesLump.filelen % (size2 : Int) = 0)
    (hm3 : sidesLump.filelen % (size3 : Int) = 0)
    (hin : ∀ i : Nat, (i : Int) < l.filelen / (size1 : Int) →
      (fogs i).brushNum = -1 ∨
      (0 ≤ (fogs i).brushNum ∧ (fogs i).brushNum < brushesLump.filelen / (size2 : Int) ∧
        0 ≤ (brushes (fogs i).brushNum).firstSide ∧
        (brushes (fogs i).brushNum).firstSide + 5 < sidesLump.filelen / (size3 : Int))) :
    ∃ outs, R_LoadFogs_fogs size1 size2 size3 MIN_WORLD_COORD MAX_WORLD_COORD worldData l
        brushesLump sidesLump fogs brushes sides planeDist = .ok outs ∧
      (outs.length : Int) = l.filelen / (size1 : Int) ∧
      ∀ i : Nat, (i : Int) < l.filelen / (size1 : Int) → (fogs i).brushNum ≠ -1 →
        ∃ out, outs[i]? = some out ∧
          out.mins =
            (-planeDist (sides ((brushes (fogs i).brushNum).firstSide + 0)).planeNum,
              -planeDist (sides ((brushes (fogs i).brushNum).firstSide + 2)).planeNum,
              -planeDist (sides ((brushes (fogs i).brushNum).firstSide + 4)).planeNum) ∧
          out.maxs =
            (planeDist (sides ((brushes (fogs i).brushNum).firstSide + 1)).planeNum,
              planeDist (sides ((brushes (fogs i).brushNum).firstSide + 3)).planeNum,
              planeDist (sides ((brushes (fogs i).brushNum).firstSide + 5)).planeNum) := by
  have f1 := lumpFunny_of_multiple l size1 hl hm1
  have f2 := lumpFunny_of_multiple brushesLump size2 hbl hm2
  have f3 := lumpFunny_of_multiple sidesLump size3 hsl hm3
  have c1 := lumpCount_eq l size1 hl
  have c2 := lumpCount_eq brushesLump size2 hbl
  have c3 := lumpCount_eq sidesLump size3 hsl
  have q1 := (lump_check l size1 hl).2.2.2.1
  have herr : (R_LoadFogs size1 size2 size3 worldData l brushesLump sidesLump).error = none := by
    unfold R_LoadFogs
    simp only [f1, f2, f3, Bool.false_eq_true, if_false]
    split_ifs <;> rfl
  unfold R_LoadFogs_fogs
  rw [herr]
  simp only [c1, c2, c3]
  by_cases h0 : l.filelen / (size1 : Int) = 0
  · rw [if_pos h0]
    refine ⟨[], rfl, by simp [h0], ?_⟩
    intro i hi
    omega
  · rw [if_neg h0]
    have hall : ∀ fog ∈ (List.range (l.filelen / (size1 : Int)).toNat).map fogs,
        ∃ out, loadFog MIN_WORLD_COORD MAX_WORLD_COORD (brushesLump.filelen / (size2 : Int))
          (sidesLump.filelen / (size3 : Int)) brushes sides planeDist fog = .ok out := by
      intro fog hf
      obtain ⟨i, hi, rfl⟩ := List.mem_map.mp hf
      have hi' : (i : Int) < l.filelen / (size1 : Int) := by
        have := List.mem_range.mp hi
        omega
      rcases hin i hi' with h | ⟨a, b, c, d⟩
      · exact loadFog_global _ _ _ _ _ _ _ _ h
      · obtain ⟨out, ho, _⟩ := loadFog_in_range MIN_WORLD_COORD MAX_WORLD_COORD _ _ brushes
          sides planeDist (fogs i) a b c d
        exact ⟨out, ho⟩
    obtain ⟨outs, h1, h2, h3⟩ := loadFogRecords_ok MIN_WORLD_COORD MAX_WORLD_COORD
      (brushesLump.filelen / (size2 : Int)) (sidesLump.filelen / (size3 : Int)) brushes sides
      planeDist _ hall
    refine ⟨outs, h1, ?_, ?_⟩
    · rw [h2, List.length_map, List.length_range]
      exact Int.toNat_of_nonneg q1
    · intro i hi hne
      have hi' : i < (l.filelen / (size1 : Int)).toNat := by omega
      have hrec : ((List.range (l.filelen / (size1 : Int)).toNat).map fogs)[i]? =
          some (fogs i) := by
        rw [List.getElem?_map, List.getElem?_range hi']
        rfl
      obtain ⟨out, e1, e2⟩ := h3 i (fogs i) hrec
      rcases hin i hi with h | ⟨a, b, c, d⟩
      · exact absurd h hne
      · obtain ⟨out', ho, hmins, hmaxs⟩ := loadFog_in_range MIN_WORLD_COORD MAX_WORLD_COORD _ _
          brushes sides planeDist (fogs i) a b c d
        rw [e2] at ho
        cases ho
        exact ⟨out, e1, hmins, hmaxs⟩

theorem R_LoadFogs_bounds_witness :
    ((⟨0, 72⟩ : lump_t).valid ∧ (⟨0, 12⟩ : lump_t).valid ∧ (⟨0, 48⟩ : lump_t).valid ∧
      (72 : Int) % ((72 : Nat) : Int) = 0 ∧ (12 : Int) % ((12 : Nat) : Int) = 0 ∧
      (48 : Int) % ((8 : Nat) : Int) = 0) ∧
    R_LoadFogs_fogs 72 12 8 (-65536) 65536 {} ⟨0, 72⟩ ⟨0, 12⟩ ⟨0, 48⟩
        (fun _ => ⟨0, -1⟩) (fun _ => ⟨0⟩) (fun n => ⟨n⟩) (fun n => 10 * (n + 1)) =
      .ok [{ originalBrushNumber := 0, mins := (-10, -30, -50), maxs := (20, 40, 60)
             hasSurface := true, surface3 := 0 }] ∧
    ∃ outs, R_LoadFogs_fogs 72 12 8 (-65536) 65536 {} ⟨0, 72⟩ ⟨0, 12⟩ ⟨0, 48⟩
        (fun _ => ⟨0, -1⟩) (fun _ => ⟨0⟩) (fun n => ⟨n⟩) (fun n => 10 * (n + 1)) = .ok outs ∧
      (outs.length : Int) = 72 / ((72 : Nat) : Int) :=
  ⟨by decide, by decide,
    let ⟨outs, h1, h2, _⟩ := R_LoadFogs_bounds 72 12 8 (-65536) 65536 {} ⟨0, 72⟩ ⟨0, 12⟩
      ⟨0, 48⟩ (fun _ => ⟨0, -1⟩) (fun _ => ⟨0⟩) (fun n => ⟨n⟩) (fun n => 10 * (n + 1))
      (by decide) (by decide) (by decide) (by decide) (by decide) (by decide)
      (fun i hi => Or.inr (by
        have h72 : (72 : Int) / ((72 : Nat) : Int) = 1 := by decide
        have h12 : (12 : Int) / ((12 : Nat) : Int) = 1 := by decide
        have h48 : (48 : Int) / ((8 : Nat) : Int) = 6 := by decide
        simp only [h12, h48]
        decide))
    ⟨outs, h1, h2⟩⟩

/-- C14: a brush-side lump of three records and a fog whose brush starts at side 0: the sides
0 .. 5 are not all inside `[0, 3)`, yet `R_LoadFogs` raises no error and takes the bounds from
the sides 0 .. 5, because `sidesCount - 6` is negative and is compared as an unsigned value. -/
theorem R_LoadFogs_short_side_lump_no_error :
    lumpCount ⟨0, 24⟩ 8 = 3 ∧ toU32 (3 - 6) = 4294967293 ∧
    R_LoadFogs_fogs 72 12 8 (-65536) 65536 {} ⟨0, 72⟩ ⟨0, 12⟩ ⟨0, 24⟩
        (fun _ => ⟨0, -1⟩) (fun _ => ⟨0⟩) (fun n => ⟨n⟩) (fun n => 10 * (n + 1)) =
      .ok [{ originalBrushNumber := 0, mins := (-10, -30, -50), maxs := (20, 40, 60)
             hasSurface := true, surface3 := 0 }] := by
  decide

/-! ## Draw-item sort keys -/

theorem sortKey_pack (a b c : Nat) (ha : a < 16) (hb : b < 16) (hc : c < 2 ^ 24) :
    (((0 ||| (a <<< 28)) % 4294967296 ||| (b <<< 24)) % 4294967296 ||| c) % 4294967296
      = a * 2 ^ 28 + b * 2 ^ 24 + c := by
  have h1 : 2 ^ 24 * b ||| c = 2 ^ 24 * b + c := (Nat.mul_add_lt_is_or hc b).symm
  have h2 : 2 ^ 24 * b + c < 2 ^ 28 := by omega
  have h3 : 2 ^ 28 * a ||| (2 ^ 24 * b + c) = 2 ^ 28 * a + (2 ^ 24 * b + c) :=
    (Nat.mul_add_lt_is_or h2 a).symm
  have ea : a <<< 28 = 2 ^ 28 * a := by rw [Nat.shiftLeft_eq, Nat.mul_comm]
  have eb : b <<< 24 = 2 ^ 24 * b := by rw [Nat.shiftLeft_eq, Nat.mul_comm]
  have m1 : 2 ^ 28 * a % 4294967296 = 2 ^ 28 * a := Nat.mod_eq_of_lt (by omega)
  have l2 : 2 ^ 28 * a ||| 2 ^ 24 * b < 2 ^ 32 :=
    Nat.or_lt_two_pow (by omega) (by omega)
  have m2 : (2 ^ 28 * a ||| 2 ^ 24 * b) % 4294967296 = 2 ^ 28 * a ||| 2 ^ 24 * b :=
    Nat.mod_eq_of_lt (by omega)
  rw [Nat.zero_or, ea, eb, m1, m2, Nat.or_assoc, h1, h3, Nat.mod_eq_of_lt (by omega)]
  omega

theorem land_15_eq_mod (n : Nat) : n &&& 0xf = n % 16 := by
  have e : (0xf : Nat) = 2 ^ 4 - 1 := by norm_num
  rw [e, Nat.and_pow_two_sub_one_eq_mod]

theorem land_24_eq_mod (p : Nat) : p &&& 0x00ffffff = p % 2 ^ 24 := by
  have e : (0x00ffffff : Nat) = 2 ^ 24 - 1 := by norm_num
  rw [e, Nat.and_pow_two_sub_one_eq_mod]

/-- The key as a sum of its three fields. -/
theorem RB_CreateSortKey_eq (program : Nat) (stage layer : Int) :
    RB_CreateSortKey program stage layer
      = toU32 (Q_min layer 15) % 16 * 2 ^ 28 + toU32 stage % 16 * 2 ^ 24
        + program % 2 ^ 24 := by
  unfold RB_CreateSortKey
  simp only [land_15_eq_mod, land_24_eq_mod]
  exact sortKey_pack _ _ _ (Nat.mod_lt _ (by norm_num)) (Nat.mod_lt _ (by norm_num))
    (Nat.mod_lt _ (by norm_num))

theorem toU32_mod_16 (x : Int) (h0 : 0 ≤ x) (h1 : x ≤ 15) : toU32 x % 16 = x.toNat := by
  unfold toU32
  rw [if_neg (by omega)]
  omega

/-- C16: for every layer >= 0, every stage in 0..15 and every program identity,
`RB_CreateSortKey` returns a 32-bit key whose bits 28..31 are `min(layer, 15)`, whose bits
24..27 are the stage and whose bits 0..23 are the program identity modulo `2^24`. -/
theorem RB_CreateSortKey_fields (program : Nat) (stage layer : Int)
    (hlayer : 0 ≤ layer) (hstage0 : 0 ≤ stage) (hstage1 : stage ≤ 15) :
    RB_CreateSortKey program stage layer < 2 ^ 32 ∧
    (sortKeyLayer (RB_CreateSortKey program stage layer) : Int) = min layer 15 ∧
    (sortKeyStage (RB_CreateSortKey program stage layer) : Int) = stage ∧
    sortKeyProgram (RB_CreateSortKey program stage layer) = program % 2 ^ 24 := by
  rw [RB_CreateSortKey_eq]
  have hq : Q_min layer 15 = min layer 15 := by
    unfold Q_min; split_ifs <;> omega
  have hl := toU32_mod_16 (Q_min layer 15) (by rw [hq]; omega) (by rw [hq]; omega)
  have hs := toU32_mod_16 stage hstage0 hstage1
  rw [hl, hs, hq]
  unfold sortKeyLayer sortKeyStage sortKeyProgram
  have a1 : (min layer 15).toNat < 16 := by omega
  have a2 : stage.toNat < 16 := by omega
  have a3 : program % 2 ^ 24 < 2 ^ 24 := Nat.mod_lt _ (by norm_num)
  have a4 : ((min layer 15).toNat : Int) = min layer 15 := Int.toNat_of_nonneg (by omega)
  have a5 : (stage.toNat : Int) = stage := Int.toNat_of_nonneg hstage0
  refine ⟨by omega, ?_, ?_, by omega⟩
  · rw [← a4]; congr 1; omega
  · rw [← a5]; congr 1; omega

theorem RB_CreateSortKey_fields_witness :
    ((0 : Int) ≤ 20 ∧ (0 : Int) ≤ 3 ∧ (3 : Int) ≤ 15) ∧
    RB_CreateSortKey 4311810305 3 20 = 4076929281 ∧
    (RB_CreateSortKey 4311810305 3 20 < 2 ^ 32 ∧
    (sortKeyLayer (RB_CreateSortKey 4311810305 3 20) : Int) = min 20 15 ∧
    (sortKeyStage (RB_CreateSortKey 4311810305 3 20) : Int) = 3 ∧
    sortKeyProgram (RB_CreateSortKey 4311810305 3 20) = 4311810305 % 2 ^ 24) :=
  ⟨by decide, by decide,
    RB_CreateSortKey_fields 4311810305 3 20 (by decide) (by decide) (by decide)⟩

theorem stageSortKey_forced (RF_DISTORTION RF_FORCEPOST RF_FORCE_ENT_ALPHA renderfx : Int)
    (program : Nat) (stage sort : Int)
    (h : Int.land renderfx RF_DISTORTION ≠ 0 ∨ Int.land renderfx RF_FORCEPOST ≠ 0 ∨
      Int.land renderfx RF_FORCE_ENT_ALPHA ≠ 0) :
    sortKeyStage (stageSortKey RF_DISTORTION RF_FORCEPOST RF_FORCE_ENT_ALPHA renderfx
      program stage sort) = 15 := by
  unfold stageSortKey
  rw [if_pos h, RB_CreateSortKey_eq]
  unfold sortKeyStage
  have e : toU32 15 % 16 = 15 := by decide
  rw [e]
  have a1 : toU32 (Q_min sort 15) % 16 < 16 := Nat.mod_lt _ (by norm_num)
  have a3 : program % 2 ^ 24 < 2 ^ 24 := Nat.mod_lt _ (by norm_num)
  omega

/-- C15: while the current entity has `RF_DISTORTION`, `RF_FORCEPOST` or `RF_FORCE_ENT_ALPHA`
set, every draw item that `RB_IterateStagesGeneric` adds has 15 in the stage field (bits
24..27) of its sort key, whatever its stage number. -/
theorem RB_IterateStagesGeneric_forced_stage
    (RF_DISTORTION RF_FORCEPOST RF_FORCE_ENT_ALPHA renderfx : Int)
    (r_lightmap depthFill : Bool) (sort : Int) (xstages : List (Option shaderStage_t))
    (h : Int.land renderfx RF_DISTORTION ≠ 0 ∨ Int.land renderfx RF_FORCEPOST ≠ 0 ∨
      Int.land renderfx RF_FORCE_ENT_ALPHA ≠ 0) :
    ∀ item ∈ RB_IterateStagesGeneric RF_DISTORTION RF_FORCEPOST RF_FORCE_ENT_ALPHA renderfx
      r_lightmap depthFill sort xstages, sortKeyStage item.2 = 15 := by
  unfold RB_IterateStagesGeneric
  generalize (0 : Int) = stage
  induction xstages generalizing stage with
  | nil => intro item hi; simp [iterateStages] at hi
  | cons x rest ih =>
    cases x with
    | none => intro item hi; simp [iterateStages] at hi
    | some pStage =>
      intro item hi
      unfold iterateStages at hi
      have hk := stageSortKey_forced RF_DISTORTION RF_FORCEPOST RF_FORCE_ENT_ALPHA renderfx
        pStage.program stage sort h
      split_ifs at hi with h1 h2 h3
      · exact ih _ item hi
      · simp only [List.mem_singleton] at hi
        rw [hi]; exact hk
      · simp only [List.mem_singleton] at hi
        rw [hi]; exact hk
      · rcases List.mem_cons.mp hi with hi | hi
        · rw [hi]; exact hk
        · exact ih _ item hi

theorem RB_IterateStagesGeneric_forced_stage_witness :
    (Int.land 12 4 ≠ 0 ∨ Int.land 12 64 ≠ 0 ∨ Int.land 12 128 ≠ 0) ∧
    (RB_IterateStagesGeneric 4 64 128 12 false false 3
      [some { program := 9 }, some { ss := true }, some { program := 7 }, none,
        some { program := 5 }]).map Prod.fst = [0, 2] ∧
    ∀ item ∈ RB_IterateStagesGeneric 4 64 128 12 false false 3
      [some { program := 9 }, some { ss := true }, some { program := 7 }, none,
        some { program := 5 }], sortKeyStage item.2 = 15 :=
  ⟨by decide, by decide,
    RB_IterateStagesGeneric_forced_stage 4 64 128 12 false false 3 _ (by decide)⟩

/-! ## World vertex/index buffer filling -/

theorem fillSurface_invariant (buf : batchBuffers_t) (surf : msurface_t)
    (h : fillInvariant buf) : fillInvariant (fillSurface buf surf) := by
  obtain ⟨h0, h1, h2⟩ := h
  unfold fillSurface
  refine ⟨?_, ?_, ?_⟩
  · dsimp only; omega
  · dsimp only
    rw [List.length_append, h1]
    push_cast
    rfl
  · intro out hout
    dsimp only at hout ⊢
    rcases List.mem_append.mp hout with hout | hout
    · obtain ⟨a, b, c, d⟩ := h2 out hout
      refine ⟨a, b, by omega, ?_⟩
      intro k index hk hi
      have := d k index hk hi
      have hlt : (out.data.firstIndex + k).toNat < buf.indexes.length := by
        by_contra hc
        rw [List.getElem?_eq_none (by omega)] at this
        exact absurd this (by simp)
      rw [List.getElem?_append_left hlt]
      exact this
    · rw [List.mem_singleton] at hout
      subst hout
      dsimp only
      refine ⟨by omega, h0, le_refl _, ?_⟩
      intro k index hk hi
      have e : (buf.numIndexes + (k : Int)).toNat = buf.indexes.length + k := by omega
      rw [e, List.getElem?_append_right (by omega)]
      have e2 : buf.indexes.length + k - buf.indexes.length = k := by omega
      rw [e2]
      unfold surfaceIboIndexes
      rw [List.getElem?_map, List.getElem?_take_of_lt (by omega), hi]
      rfl

theorem fillBatch_invariant (batch : List msurface_t) : fillInvariant (fillBatch batch) := by
  unfold fillBatch
  have base : fillInvariant {} := ⟨le_refl _, rfl, fun out hout => by simp at hout⟩
  generalize ({} : batchBuffers_t) = buf at base
  induction batch generalizing buf with
  | nil => exact base
  | cons surf rest ih => exact ih _ (fillSurface_invariant buf surf base)

/-- C17: in every batch buffer that `R_CreateWorldVBOs` fills (with fewer than `2^32`
vertices, so that index arithmetic does not wrap), for every surface of the batch whose local
indexes are all below its `numVerts`, the index written at `firstIndex + k` is the surface's
`firstVert` plus its `k`-th local index, and it is below the vertex count of the batch. -/
theorem R_CreateWorldVBOs_index_buffer (qsort : List msurface_t → List msurface_t)
    (sizeof_srfVert_t sizeof_glIndex_t : Int) (worldData : world_t) (buf : batchBuffers_t)
    (out : msurface_t) (k index : Nat)
    (hbuf : buf ∈ R_CreateWorldVBOs_buffers qsort sizeof_srfVert_t sizeof_glIndex_t worldData)
    (hwrap : buf.numVerts < 4294967296)
    (hout : out ∈ buf.surfaces)
    (hlocal : ∀ x ∈ out.data.indexes, (x : Int) < out.data.numVerts)
    (hk : (k : Int) < out.data.numIndexes) (hindex : out.data.indexes[k]? = some index) :
    ∃ v : Nat, buf.indexes[(out.data.firstIndex + k).toNat]? = some v ∧
      (v : Int) = out.data.firstVert + index ∧ (v : Int) < buf.numVerts := by
  unfold R_CreateWorldVBOs_buffers at hbuf
  obtain ⟨batch, _, rfl⟩ := List.mem_map.mp hbuf
  obtain ⟨_, _, h2⟩ := fillBatch_invariant batch
  obtain ⟨_, b, c, d⟩ := h2 out hout
  have hx := hlocal index (List.getElem?_mem hindex)
  refine ⟨_, d k index hk hindex, ?_, ?_⟩
  · rw [Int.toNat_of_nonneg (Int.emod_nonneg _ (by norm_num))]
    rw [Int.emod_eq_of_lt (by omega) (by omega)]
    omega
  · rw [Int.toNat_of_nonneg (Int.emod_nonneg _ (by norm_num))]
    rw [Int.emod_eq_of_lt (by omega) (by omega)]
    omega

theorem R_CreateWorldVBOs_index_buffer_witness :
    R_CreateWorldVBOs_buffers id 64 4 exampleIndexedWorld =
      [{ indexes := [0, 1, 2, 3, 4, 5, 3, 5, 6], numIndexes := 9, numVerts := 7
         surfaces := [
           { shader := { sortedIndex := 1 }
             data := { surfaceType := surfaceType_t.SF_FACE, numVerts := 3, numIndexes := 3
                       indexes := [0, 1, 2], firstIndex := 0, firstVert := 0 } },
           { shader := { sortedIndex := 1 }
             data := { surfaceType := surfaceType_t.SF_FACE, numVerts := 4, numIndexes := 6
                       indexes := [0, 1, 2, 0, 2, 3], firstIndex := 3, firstVert := 3 } }] }] ∧
    ∃ v : Nat, (fillBatch exampleIndexedWorld.surfaces).indexes[((3 : Int) + (5 : Nat)).toNat]? =
        some v ∧ (v : Int) = (3 : Int) + (3 : Nat) ∧
      (v : Int) < (fillBatch exampleIndexedWorld.surfaces).numVerts :=
  ⟨by decide,
    R_CreateWorldVBOs_index_buffer id 64 4 exampleIndexedWorld
      (fillBatch exampleIndexedWorld.surfaces)
      { shader := { sortedIndex := 1 }
        data := { surfaceType := surfaceType_t.SF_FACE, numVerts := 4, numIndexes := 6
                  indexes := [0, 1, 2, 0, 2, 3], firstIndex := 3, firstVert := 3 } }
      5 3 (by decide) (by decide) (by decide) (by decide) (by decide) (by decide)⟩

/-! ## Leaf surface merging: the merged index data -/

/-- C19: two triangles merge into one surface with constituents 0 and 1.  The claim asks for
the index data `[0, 1, 2, 3, 4, 5]` and `numIndexes` equal to the number of indexes uploaded;
the merged surface has `numIndexes = 6`, but only the three indexes of the first constituent
are written and uploaded, because the copy loop of lines 3533-3553 ends with `break`. -/
theorem R_MergeLeafSurfaces_ibo_first_constituent_only :
    (R_MergeLeafSurfaces exampleMergeIndexWorld).numMergedSurfaces = 1 ∧
    mergedConstituents (R_MergeLeafSurfaces exampleMergeIndexWorld) 0 = [0, 1] ∧
    (R_MergeLeafSurfaces exampleMergeIndexWorld).mergedSurfaces.map
        (fun s => (s.data.numIndexes, s.data.indexes)) = [(6, [0, 1, 2])] := by
  decide

/-! ## Patch stitching -/

theorem findColumnGap_some {F : Type} [Inhabited F] (ft : floatTests_t F) (MAX_GRID_SIZE : Int)
    (grid2 : srfGridMesh_t F) (v1a v1b : F × F × F) (r : Int × Int)
    (h : findColumnGap ft MAX_GRID_SIZE grid2 v1a v1b = some r) :
    grid2.width < MAX_GRID_SIZE := by
  unfold findColumnGap at h
  obtain ⟨m, _, hm⟩ := List.exists_of_findSome?_eq_some h
  by_contra hc
  rw [if_pos (by omega)] at hm
  exact absurd hm (by simp)

theorem findRowGap_some {F : Type} [Inhabited F] (ft : floatTests_t F) (MAX_GRID_SIZE : Int)
    (grid2 : srfGridMesh_t F) (v1a v1b : F × F × F) (r : Int × Int)
    (h : findRowGap ft MAX_GRID_SIZE grid2 v1a v1b = some r) :
    grid2.height < MAX_GRID_SIZE := by
  unfold findRowGap at h
  obtain ⟨m, _, hm⟩ := List.exists_of_findSome?_eq_some h
  by_contra hc
  rw [if_pos (by omega)] at hm
  exact absurd hm (by simp)

theorem stitchAt_some {F : Type} [Inhabited F] (ft : floatTests_t F) (MAX_GRID_SIZE : Int)
    (grid2 : srfGridMesh_t F) (v1a v1b : F × F × F) (point : Int) (w : Bool) (e : Int)
    (s : stitch_t) (h : stitchAt ft MAX_GRID_SIZE grid2 v1a v1b point w e = some s) :
    stitchGuard MAX_GRID_SIZE grid2 s := by
  unfold stitchAt at h
  cases hc : findColumnGap ft MAX_GRID_SIZE grid2 v1a v1b with
  | some r =>
    rw [hc] at h
    simp only [Option.some.injEq] at h
    subst h
    exact ⟨fun _ => findColumnGap_some ft MAX_GRID_SIZE grid2 v1a v1b r hc,
      fun hf => by simp at hf⟩
  | none =>
    rw [hc] at h
    cases hr : findRowGap ft MAX_GRID_SIZE grid2 v1a v1b with
    | some r =>
      rw [hr] at h
      simp only [Option.some.injEq] at h
      subst h
      exact ⟨fun hf => by simp at hf,
        fun _ => findRowGap_some ft MAX_GRID_SIZE grid2 v1a v1b r hr⟩
    | none =>
      rw [hr] at h
      exact absurd h (by simp)

theorem scan_some {F : Type} (MAX_GRID_SIZE : Int) (grid2 : srfGridMesh_t F)
    (skip : Int → Bool) (steps : Int → List Int) (body : Int → Int → Option stitch_t)
    (hbody : ∀ n k s, body n k = some s → stitchGuard MAX_GRID_SIZE grid2 s) (s : stitch_t)
    (h : ([0, 1].findSome? fun (n : Int) =>
      if skip n then none else (steps n).findSome? fun (k : Int) => body n k) = some s) :
    stitchGuard MAX_GRID_SIZE grid2 s := by
  obtain ⟨n, _, hn⟩ := List.exists_of_findSome?_eq_some h
  split_ifs at hn
  obtain ⟨k, _, hk⟩ := List.exists_of_findSome?_eq_some hn
  exact hbody n k s hk

theorem findStitch_some {F : Type} [Inhabited F] (ft : floatTests_t F) (MAX_GRID_SIZE : Int)
    (grid1 grid2 : srfGridMesh_t F) (s : stitch_t)
    (h : findStitch ft MAX_GRID_SIZE grid1 grid2 = some s) :
    stitchGuard MAX_GRID_SIZE grid2 s := by
  unfold findStitch at h
  cases h1 : scanWidthForward ft MAX_GRID_SIZE grid1 grid2 with
  | some s1 =>
    rw [h1] at h
    simp only [Option.some.injEq] at h
    subst h
    unfold scanWidthForward at h1
    exact scan_some MAX_GRID_SIZE grid2 _ (fun _ => _) _
      (fun n k s hs => stitchAt_some ft MAX_GRID_SIZE grid2 _ _ _ _ _ s hs) s1 h1
  | none =>
    rw [h1] at h
    cases h2 : scanHeightForward ft MAX_GRID_SIZE grid1 grid2 with
    | some s2 =>
      rw [h2] at h
      simp only [Option.some.injEq] at h
      subst h
      unfold scanHeightForward at h2
      exact scan_some MAX_GRID_SIZE grid2 _ (fun _ => _) _
        (fun n k s hs => stitchAt_some ft MAX_GRID_SIZE grid2 _ _ _ _ _ s hs) s2 h2
    | none =>
      rw [h2] at h
      cases h3 : scanWidthReverse ft MAX_GRID_SIZE grid1 grid2 with
      | some s3 =>
        rw [h3] at h
        simp only [Option.some.injEq] at h
        subst h
        unfold scanWidthReverse at h3
        exact scan_some MAX_GRID_SIZE grid2 _ (fun _ => _) _
          (fun n k s hs => stitchAt_some ft MAX_GRID_SIZE grid2 _ _ _ _ _ s hs) s3 h3
      | none =>
        rw [h3] at h
        dsimp only at h
        unfold scanHeightReverse at h
        exact scan_some MAX_GRID_SIZE grid2 _ (fun _ => _) _
          (fun n k s hs => stitchAt_some ft MAX_GRID_SIZE grid2 _ _ _ _ _ s hs) s h

theorem surfaceGrid_set {F : Type} [Inhabited F] (surfaces : List (srfGridMesh_t F)) (j : Nat)
    (g : srfGridMesh_t F) (hj : j < surfaces.length) (i : Nat) :
    surfaceGrid (surfaces.set j g) i = if i = j then g else surfaceGrid surfaces i := by
  unfold surfaceGrid
  rw [List.getD_eq_getElem?_getD, List.getD_eq_getElem?_getD, List.getElem?_set]
  by_cases h : j = i
  · subst h
    simp [hj]
  · rw [if_neg h, if_neg (fun e => h e.symm)]

theorem stitchRoom_set {F : Type} [Inhabited F] (MAX_GRID_SIZE : Int) :
    ∀ (surfaces : List (srfGridMesh_t F)) (j : Nat) (g : srfGridMesh_t F),
      j < surfaces.length →
      stitchRoom MAX_GRID_SIZE (surfaces.set j g) +
          gridRoom MAX_GRID_SIZE (surfaceGrid surfaces j) =
        stitchRoom MAX_GRID_SIZE surfaces + gridRoom MAX_GRID_SIZE g := by
  intro surfaces
  induction surfaces with
  | nil => intro j g hj; simp at hj
  | cons x rest ih =>
    intro j g hj
    cases j with
    | zero =>
      simp only [List.set_cons_zero, stitchRoom, List.map_cons, List.sum_cons, surfaceGrid,
        List.getD_cons_zero]
      omega
    | succ j =>
      have := ih j g (by simpa using hj)
      simp only [List.set_cons_succ, stitchRoom, List.map_cons, List.sum_cons, surfaceGrid,
        List.getD_cons_succ] at this ⊢
      omega

theorem stitchedFrom_refl {F : Type} [Inhabited F] (MAX_GRID_SIZE : Int)
    (surfaces : List (srfGridMesh_t F)) : stitchedFrom MAX_GRID_SIZE surfaces surfaces 0 :=
  ⟨rfl, le_refl _, by omega, fun _ => ⟨le_refl _, le_refl _, le_max_left _ _, le_max_left _ _⟩⟩

theorem stitchedFrom_trans {F : Type} [Inhabited F] (MAX_GRID_SIZE : Int)
    (a b c : List (srfGridMesh_t F)) (n m : Int) (h1 : stitchedFrom MAX_GRID_SIZE a b n)
    (h2 : stitchedFrom MAX_GRID_SIZE b c m) : stitchedFrom MAX_GRID_SIZE a c (n + m) := by
  obtain ⟨l1, n1, r1, d1⟩ := h1
  obtain ⟨l2, n2, r2, d2⟩ := h2
  refine ⟨l2.trans l1, by omega, by omega, fun i => ?_⟩
  obtain ⟨a1, a2, a3, a4⟩ := d1 i
  obtain ⟨b1, b2, b3, b4⟩ := d2 i
  refine ⟨a1.trans b1, a2.trans b2, ?_, ?_⟩
  · rcases le_max_iff.mp b3 with h | h
    · exact h.trans a3
    · exact h.trans (le_max_right _ _)
  · rcases le_max_iff.mp b4 with h | h
    · exact h.trans a4
    · exact h.trans (le_max_right _ _)

theorem stitchedFrom_set {F : Type} [Inhabited F] (MAX_GRID_SIZE : Int)
    (surfaces : List (srfGridMesh_t F)) (j : Nat) (g : srfGridMesh_t F) (n : Nat)
    (hj : j < surfaces.length)
    (hw : (surfaceGrid surfaces j).width ≤ g.width)
    (hh : (surfaceGrid surfaces j).height ≤ g.height)
    (hw' : g.width ≤ max (surfaceGrid surfaces j).width MAX_GRID_SIZE)
    (hh' : g.height ≤ max (surfaceGrid surfaces j).height MAX_GRID_SIZE)
    (hroom : gridRoom MAX_GRID_SIZE g + n = gridRoom MAX_GRID_SIZE (surfaceGrid surfaces j)) :
    stitchedFrom MAX_GRID_SIZE surfaces (surfaces.set j g) n := by
  have hr := stitchRoom_set MAX_GRID_SIZE surfaces j g hj
  refine ⟨List.length_set _ _ _, by omega, by omega, fun i => ?_⟩
  rw [surfaceGrid_set surfaces j g hj i]
  by_cases h : i = j
  · subst h
    rw [if_pos rfl]
    exact ⟨hw, hh, hw', hh'⟩
  · rw [if_neg h]
    exact ⟨le_refl _, le_refl _, le_max_left _ _, le_max_left _ _⟩

/-- One call of `R_StitchPatches`: either nothing changes and it returns `qfalse`, or one
insertion is made and it returns `qtrue`. -/
theorem R_StitchPatches_spec {F : Type} [Inhabited F] (ft : floatTests_t F)
    (MAX_GRID_SIZE : Int)
    (R_GridInsertColumn R_GridInsertRow :
      srfGridMesh_t F → Int → Int → F × F × F → F → srfGridMesh_t F)
    (hins : insertsGrowByOne R_GridInsertColumn R_GridInsertRow)
    (surfaces : List (srfGridMesh_t F)) (grid1num j : Nat) (hj : j < surfaces.length) :
    ((R_StitchPatches ft MAX_GRID_SIZE R_GridInsertColumn R_GridInsertRow surfaces grid1num
        j).2 = false ∧
      (R_StitchPatches ft MAX_GRID_SIZE R_GridInsertColumn R_GridInsertRow surfaces grid1num
        j).1 = surfaces) ∨
    ((R_StitchPatches ft MAX_GRID_SIZE R_GridInsertColumn R_GridInsertRow surfaces grid1num
        j).2 = true ∧
      stitchedFrom MAX_GRID_SIZE surfaces
        (R_StitchPatches ft MAX_GRID_SIZE R_GridInsertColumn R_GridInsertRow surfaces grid1num
          j).1 1) := by
  cases hf : findStitch ft MAX_GRID_SIZE (surfaceGrid surfaces grid1num)
      (surfaceGrid surfaces j) with
  | none =>
    have e : R_StitchPatches ft MAX_GRID_SIZE R_GridInsertColumn R_GridInsertRow surfaces
        grid1num j = (surfaces, false) := by
      unfold R_StitchPatches
      simp only [hf]
    rw [e]
    exact Or.inl ⟨rfl, rfl⟩
  | some s =>
    have e : R_StitchPatches ft MAX_GRID_SIZE R_GridInsertColumn R_GridInsertRow surfaces
        grid1num j =
        (surfaces.set j
          { (if s.column then
              R_GridInsertColumn (surfaceGrid surfaces j) s.position s.edge
                (gridVert (surfaceGrid surfaces grid1num) s.point)
                (lodErrorAt (if s.lodErrorWidth then (surfaceGrid surfaces grid1num).widthLodError
                  else (surfaceGrid surfaces grid1num).heightLodError) s.lodError)
            else
              R_GridInsertRow (surfaceGrid surfaces j) s.position s.edge
                (gridVert (surfaceGrid surfaces grid1num) s.point)
                (lodErrorAt (if s.lodErrorWidth then (surfaceGrid surfaces grid1num).widthLodError
                  else (surfaceGrid surfaces grid1num).heightLodError) s.lodError)) with
            lodStitched := false }, true) := by
      unfold R_StitchPatches
      simp only [hf]
    rw [e]
    right
    refine ⟨rfl, ?_⟩
    obtain ⟨gc, gr⟩ := findStitch_some ft MAX_GRID_SIZE _ _ s hf
    dsimp only
    have key : ∀ g : srfGridMesh_t F,
        ((g.width = (surfaceGrid surfaces j).width + 1 ∧
            g.height = (surfaceGrid surfaces j).height ∧
            (surfaceGrid surfaces j).width < MAX_GRID_SIZE) ∨
          (g.height = (surfaceGrid surfaces j).height + 1 ∧
            g.width = (surfaceGrid surfaces j).width ∧
            (surfaceGrid surfaces j).height < MAX_GRID_SIZE)) →
        stitchedFrom MAX_GRID_SIZE surfaces
          (surfaces.set j { g with lodStitched := false }) ((1 : Nat) : Int) := by
      intro g hg
      apply stitchedFrom_set MAX_GRID_SIZE surfaces j _ 1 hj
      · dsimp only; rcases hg with ⟨a, b, c⟩ | ⟨a, b, c⟩ <;> omega
      · dsimp only; rcases hg with ⟨a, b, c⟩ | ⟨a, b, c⟩ <;> omega
      · dsimp only; rcases hg with ⟨a, b, c⟩ | ⟨a, b, c⟩ <;> omega
      · dsimp only; rcases hg with ⟨a, b, c⟩ | ⟨a, b, c⟩ <;> omega
      · unfold gridRoom
        dsimp only
        rcases hg with ⟨a, b, c⟩ | ⟨a, b, c⟩ <;> omega
    cases hcol : s.column with
    | true =>
      simp only [if_true]
      obtain ⟨⟨a, b⟩, _⟩ := hins (surfaceGrid surfaces j) s.position s.edge
        (gridVert (surfaceGrid surfaces grid1num) s.point)
        (lodErrorAt (if s.lodErrorWidth = true then (surfaceGrid surfaces grid1num).widthLodError
          else (surfaceGrid surfaces grid1num).heightLodError) s.lodError)
      exact key _ (Or.inl ⟨a, b, gc hcol⟩)
    | false =>
      simp only [Bool.false_eq_true, if_false]
      obtain ⟨_, ⟨a, b⟩⟩ := hins (surfaceGrid surfaces j) s.position s.edge
        (gridVert (surfaceGrid surfaces grid1num) s.point)
        (lodErrorAt (if s.lodErrorWidth = true then (surfaceGrid surfaces grid1num).widthLodError
          else (surfaceGrid surfaces grid1num).heightLodError) s.lodError)
      exact key _ (Or.inr ⟨a, b, gr hcol⟩)

theorem stitchedFrom_room_le {F : Type} [Inhabited F] (MAX_GRID_SIZE : Int)
    (a b : List (srfGridMesh_t F)) (n : Int) (h : stitchedFrom MAX_GRID_SIZE a b n) :
    stitchRoom MAX_GRID_SIZE b ≤ stitchRoom MAX_GRID_SIZE a := by
  obtain ⟨_, n0, r, _⟩ := h
  omega

/-- The `while` loop of `R_TryStitchingPatch` ends within `stitchRoom + 1` rounds. -/
theorem stitchWhile_spec {F : Type} [Inhabited F] (ft : floatTests_t F) (MAX_GRID_SIZE : Int)
    (R_GridInsertColumn R_GridInsertRow :
      srfGridMesh_t F → Int → Int → F × F × F → F → srfGridMesh_t F)
    (hins : insertsGrowByOne R_GridInsertColumn R_GridInsertRow) (grid1num j : Nat) :
    ∀ (fuel : Nat) (surfaces : List (srfGridMesh_t F)),
      stitchRoom MAX_GRID_SIZE surfaces < fuel → j < surfaces.length →
      ∃ after n, stitchWhile ft MAX_GRID_SIZE R_GridInsertColumn R_GridInsertRow fuel surfaces
          grid1num j = some (after, n) ∧
        stitchedFrom MAX_GRID_SIZE surfaces after n ∧ (n = 0 → after = surfaces) := by
  intro fuel
  induction fuel with
  | zero => intro surfaces h; omega
  | succ fuel ih =>
    intro surfaces hfuel hj
    unfold stitchWhile
    dsimp only
    rcases R_StitchPatches_spec ft MAX_GRID_SIZE R_GridInsertColumn R_GridInsertRow hins
      surfaces grid1num j hj with ⟨h2, h1⟩ | ⟨h2, h1⟩
    · rw [h2, h1]
      exact ⟨surfaces, 0, by simp, stitchedFrom_refl _ _, fun _ => rfl⟩
    · rw [h2]
      have hroom : stitchRoom MAX_GRID_SIZE
          (R_StitchPatches ft MAX_GRID_SIZE R_GridInsertColumn R_GridInsertRow surfaces grid1num
            j).1 < fuel := by
        obtain ⟨_, _, r, _⟩ := h1
        omega
      have hlen : j < (R_StitchPatches ft MAX_GRID_SIZE R_GridInsertColumn R_GridInsertRow
          surfaces grid1num j).1.length := by
        rw [h1.1]; exact hj
      obtain ⟨after, n, e, hs, _⟩ := ih _ hroom hlen
      rw [e]
      refine ⟨after, n + 1, by simp, ?_, ?_⟩
      · have := stitchedFrom_trans MAX_GRID_SIZE _ _ _ _ _ h1 hs
        rw [add_comm] at this
        exact this
      · intro h0
        have := hs.2.1
        omega

/-- The `j` loop of `R_TryStitchingPatch` ends; when it makes no stitch it leaves the surfaces
as they were. -/
theorem tryStitchingFrom_spec {F : Type} [Inhabited F] (ft : floatTests_t F)
    (MAX_GRID_SIZE : Int)
    (R_GridInsertColumn R_GridInsertRow :
      srfGridMesh_t F → Int → Int → F × F × F → F → srfGridMesh_t F)
    (hins : insertsGrowByOne R_GridInsertColumn R_GridInsertRow) (fuel : Nat)
    (grid1 : srfGridMesh_t F) (grid1num : Nat) :
    ∀ (js : List Nat) (surfaces : List (srfGridMesh_t F)) (numstitches : Int),
      (∀ j ∈ js, j < surfaces.length) → stitchRoom MAX_GRID_SIZE surfaces < fuel →
      ∃ after n, tryStitchingFrom ft MAX_GRID_SIZE R_GridInsertColumn R_GridInsertRow fuel
          grid1 grid1num js surfaces numstitches = some (after, numstitches + n) ∧
        stitchedFrom MAX_GRID_SIZE surfaces after n ∧ (n = 0 → after = surfaces) := by
  intro js
  induction js with
  | nil =>
    intro surfaces numstitches _ _
    exact ⟨surfaces, 0, by simp [tryStitchingFrom], stitchedFrom_refl _ _, fun _ => rfl⟩
  | cons j rest ih =>
    intro surfaces numstitches hjs hfuel
    have hrest : ∀ x ∈ rest, x < surfaces.length := fun x hx =>
      hjs x (List.mem_cons_of_mem _ hx)
    have skip := ih surfaces numstitches hrest hfuel
    unfold tryStitchingFrom
    dsimp only
    split_ifs
    · exact skip
    · exact skip
    · exact skip
    · exact skip
    · exact skip
    · obtain ⟨mid, n1, e1, s1, z1⟩ := stitchWhile_spec ft MAX_GRID_SIZE R_GridInsertColumn
        R_GridInsertRow hins grid1num j fuel surfaces hfuel (hjs j (List.mem_cons_self _ _))
      rw [e1]
      dsimp only
      have hrest' : ∀ x ∈ rest, x < mid.length := fun x hx => by
        rw [s1.1]; exact hrest x hx
      have hfuel' : stitchRoom MAX_GRID_SIZE mid < fuel :=
        lt_of_le_of_lt (stitchedFrom_room_le _ _ _ _ s1) hfuel
      obtain ⟨after, n2, e2, s2, z2⟩ := ih mid (numstitches + n1) hrest' hfuel'
      rw [e2]
      refine ⟨after, n1 + n2, by rw [add_assoc], stitchedFrom_trans _ _ _ _ _ _ s1 s2, ?_⟩
      intro h0
      have a1 := s1.2.1
      have a2 := s2.2.1
      rw [z2 (by omega), z1 (by omega)]

theorem R_TryStitchingPatch_spec {F : Type} [Inhabited F] (ft : floatTests_t F)
    (MAX_GRID_SIZE : Int)
    (R_GridInsertColumn R_GridInsertRow :
      srfGridMesh_t F → Int → Int → F × F × F → F → srfGridMesh_t F)
    (hins : insertsGrowByOne R_GridInsertColumn R_GridInsertRow) (fuel : Nat)
    (surfaces : List (srfGridMesh_t F)) (grid1num : Nat)
    (hfuel : stitchRoom MAX_GRID_SIZE surfaces < fuel) :
    ∃ after n, R_TryStitchingPatch ft MAX_GRID_SIZE R_GridInsertColumn R_GridInsertRow fuel
        surfaces grid1num = some (after, n) ∧
      stitchedFrom MAX_GRID_SIZE surfaces after n ∧ (n = 0 → after = surfaces) := by
  obtain ⟨after, n, e, s, z⟩ := tryStitchingFrom_spec ft MAX_GRID_SIZE R_GridInsertColumn
    R_GridInsertRow hins fuel (surfaceGrid surfaces grid1num) grid1num
    (List.range surfaces.length) surfaces 0 (fun j hj => List.mem_range.mp hj) hfuel
  refine ⟨after, n, ?_, s, z⟩
  unfold R_TryStitchingPatch
  rw [e, zero_add]

/-- One pass of `R_StitchAllPatches` ends; when it makes no stitch, every surface it visited
that is a grid has `lodStitched` set afterwards and the surfaces it did not visit are as they
were. -/
theorem stitchPass_spec {F : Type} [Inhabited F] (ft : floatTests_t F) (MAX_GRID_SIZE : Int)
    (R_GridInsertColumn R_GridInsertRow :
      srfGridMesh_t F → Int → Int → F × F × F → F → srfGridMesh_t F)
    (hins : insertsGrowByOne R_GridInsertColumn R_GridInsertRow) (fuel : Nat) :
    ∀ (is : List Nat) (surfaces : List (srfGridMesh_t F)) (stitched : Bool)
      (numstitches : Int),
      (∀ i ∈ is, i < surfaces.length) → stitchRoom MAX_GRID_SIZE surfaces < fuel →
      ∃ after stitched' n, stitchPass ft MAX_GRID_SIZE R_GridInsertColumn R_GridInsertRow fuel
          is surfaces stitched numstitches = some (after, stitched', numstitches + n) ∧
        stitchedFrom MAX_GRID_SIZE surfaces after n ∧
        (n = 0 →
          (∀ i ∈ is, (surfaceGrid after i).surfaceType = surfaceType_t.SF_GRID →
            (surfaceGrid after i).lodStitched = true) ∧
          (∀ i, i ∉ is → surfaceGrid after i = surfaceGrid surfaces i)) := by
  intro is
  induction is with
  | nil =>
    intro surfaces stitched numstitches _ _
    exact ⟨surfaces, stitched, 0, by simp [stitchPass], stitchedFrom_refl _ _,
      fun _ => ⟨fun i hi => by simp at hi, fun _ _ => rfl⟩⟩
  | cons i rest ih =>
    intro surfaces stitched numstitches his hfuel
    have hi : i < surfaces.length := his i (List.mem_cons_self _ _)
    have hrest : ∀ x ∈ rest, x < surfaces.length := fun x hx =>
      his x (List.mem_cons_of_mem _ hx)
    have skip : ((surfaceGrid surfaces i).surfaceType = surfaceType_t.SF_GRID →
          (surfaceGrid surfaces i).lodStitched = true) →
        ∃ after stitched' n, stitchPass ft MAX_GRID_SIZE R_GridInsertColumn R_GridInsertRow
            fuel rest surfaces stitched numstitches = some (after, stitched', numstitches + n) ∧
          stitchedFrom MAX_GRID_SIZE surfaces after n ∧
          (n = 0 →
            (∀ x ∈ i :: rest, (surfaceGrid after x).surfaceType = surfaceType_t.SF_GRID →
              (surfaceGrid after x).lodStitched = true) ∧
            (∀ x, x ∉ i :: rest → surfaceGrid after x = surfaceGrid surfaces x)) := by
      intro hclean
      obtain ⟨after, st, n, e, s, z⟩ := ih surfaces stitched numstitches hrest hfuel
      refine ⟨after, st, n, e, s, fun h0 => ?_⟩
      obtain ⟨z1, z2⟩ := z h0
      refine ⟨fun x hx => ?_, fun x hx => z2 x (fun h => hx (List.mem_cons_of_mem _ h))⟩
      by_cases hxr : x ∈ rest
      · exact z1 x hxr
      · have hxi : x = i := by
          rcases List.mem_cons.mp hx with h | h
          · exact h
          · exact absurd h hxr
        rw [z2 x hxr, hxi]
        exact hclean
    unfold stitchPass
    dsimp only
    split_ifs with h1 h2
    · exact skip (fun h => absurd h h1)
    · exact skip (fun _ => h2)
    · have hset : stitchedFrom MAX_GRID_SIZE surfaces
          (surfaces.set i { surfaceGrid surfaces i with lodStitched := true }) ((0 : Nat) : Int) :=
        stitchedFrom_set MAX_GRID_SIZE surfaces i _ 0 hi (le_refl _) (le_refl _)
          (le_max_left _ _) (le_max_left _ _) rfl
      have hfuel1 := lt_of_le_of_lt (stitchedFrom_room_le _ _ _ _ hset) hfuel
      obtain ⟨mid, n1, e1, s1, z1⟩ := R_TryStitchingPatch_spec ft MAX_GRID_SIZE
        R_GridInsertColumn R_GridInsertRow hins fuel _ i hfuel1
      rw [e1]
      dsimp only
      have hlen : mid.length = surfaces.length := by
        rw [s1.1, List.length_set]
      have hrest' : ∀ x ∈ rest, x < mid.length := fun x hx => by
        rw [hlen]; exact hrest x hx
      have hfuel' : stitchRoom MAX_GRID_SIZE mid < fuel :=
        lt_of_le_of_lt (stitchedFrom_room_le _ _ _ _ s1) hfuel1
      obtain ⟨after, st, n2, e2, s2, z2⟩ := ih mid true (numstitches + n1) hrest' hfuel'
      rw [e2]
      refine ⟨after, st, n1 + n2, by rw [add_assoc], ?_, ?_⟩
      · have := stitchedFrom_trans _ _ _ _ _ _ hset (stitchedFrom_trans _ _ _ _ _ _ s1 s2)
        simpa using this
      · intro h0
        have a1 := s1.2.1
        have a2 := s2.2.1
        have hmid := z1 (by omega)
        obtain ⟨c1, c2⟩ := z2 (by omega)
        have hgrid : ∀ x, surfaceGrid mid x =
            if x = i then { surfaceGrid surfaces i with lodStitched := true }
            else surfaceGrid surfaces x := by
          intro x
          rw [hmid]
          exact surfaceGrid_set surfaces i _ hi x
        refine ⟨fun x hx => ?_, fun x hx => ?_⟩
        · by_cases hxr : x ∈ rest
          · exact c1 x hxr
          · have hxi : x = i := by
              rcases List.mem_cons.mp hx with h | h
              · exact h
              · exact absurd h hxr
            rw [c2 x hxr, hgrid x, if_pos hxi]
            intro _
            rfl
        · have hxr : x ∉ rest := fun h => hx (List.mem_cons_of_mem _ h)
          have hxi : x ≠ i := fun h => hx (h ▸ List.mem_cons_self _ _)
          rw [c2 x hxr, hgrid x, if_neg hxi]

/-- A pass over surfaces whose grids all have `lodStitched` set changes nothing. -/
theorem stitchPass_allStitched {F : Type} [Inhabited F] (ft : floatTests_t F)
    (MAX_GRID_SIZE : Int)
    (R_GridInsertColumn R_GridInsertRow :
      srfGridMesh_t F → Int → Int → F × F × F → F → srfGridMesh_t F)
    (fuel : Nat) (surfaces : List (srfGridMesh_t F)) (h : allStitched surfaces) :
    ∀ (is : List Nat) (stitched : Bool) (numstitches : Int),
      stitchPass ft MAX_GRID_SIZE R_GridInsertColumn R_GridInsertRow fuel is surfaces stitched
        numstitches = some (surfaces, stitched, numstitches) := by
  intro is
  induction is with
  | nil => intro stitched numstitches; rfl
  | cons i rest ih =>
    intro stitched numstitches
    unfold stitchPass
    dsimp only
    split_ifs with h1 h2
    · exact ih stitched numstitches
    · exact ih stitched numstitches
    · exact absurd (h i (by simpa using h1)) h2

theorem surfaceGrid_outside {F : Type} [Inhabited F] (surfaces : List (srfGridMesh_t F))
    (i : Nat) (h : surfaces.length ≤ i) :
    (surfaceGrid surfaces i).surfaceType = surfaceType_t.SF_BAD := by
  unfold surfaceGrid
  rw [List.getD_eq_default _ _ h]
  rfl

/-- The `do ... while` loop ends: a pass that stitches lowers the room for insertions, and a
pass that does not leaves every grid with `lodStitched` set, so that the next pass is the
last. -/
theorem stitchLoop_spec {F : Type} [Inhabited F] (ft : floatTests_t F) (MAX_GRID_SIZE : Int)
    (R_GridInsertColumn R_GridInsertRow :
      srfGridMesh_t F → Int → Int → F × F × F → F → srfGridMesh_t F)
    (hins : insertsGrowByOne R_GridInsertColumn R_GridInsertRow) (whileFuel : Nat) :
    ∀ (m fuel : Nat) (surfaces : List (srfGridMesh_t F)) (numstitches : Int),
      (2 * stitchRoom MAX_GRID_SIZE surfaces + 1 ≤ m ∨
        (allStitched surfaces ∧ 2 * stitchRoom MAX_GRID_SIZE surfaces ≤ m)) →
      m + 1 ≤ fuel → stitchRoom MAX_GRID_SIZE surfaces < whileFuel →
      ∃ after n, stitchLoop ft MAX_GRID_SIZE R_GridInsertColumn R_GridInsertRow whileFuel fuel
          surfaces numstitches = some (after, numstitches + n) ∧
        stitchedFrom MAX_GRID_SIZE surfaces after n := by
  intro m
  induction m with
  | zero =>
    intro fuel surfaces numstitches hm hfuel _
    obtain ⟨f, rfl⟩ : ∃ f, fuel = f + 1 := ⟨fuel - 1, by omega⟩
    rcases hm with hm | ⟨hclean, _⟩
    · omega
    · unfold stitchLoop
      rw [stitchPass_allStitched ft MAX_GRID_SIZE R_GridInsertColumn R_GridInsertRow whileFuel
        surfaces hclean]
      exact ⟨surfaces, 0, by simp, stitchedFrom_refl _ _⟩
  | succ m ih =>
    intro fuel surfaces numstitches hm hfuel hwhile
    obtain ⟨f, rfl⟩ : ∃ f, fuel = f + 1 := ⟨fuel - 1, by omega⟩
    by_cases hclean : allStitched surfaces
    · unfold stitchLoop
      rw [stitchPass_allStitched ft MAX_GRID_SIZE R_GridInsertColumn R_GridInsertRow whileFuel
        surfaces hclean]
      exact ⟨surfaces, 0, by simp, stitchedFrom_refl _ _⟩
    · have hm' : 2 * stitchRoom MAX_GRID_SIZE surfaces + 1 ≤ m + 1 := by
        rcases hm with hm | ⟨h, _⟩
        · exact hm
        · exact absurd h hclean
      obtain ⟨mid, st, n1, e1, s1, z1⟩ := stitchPass_spec ft MAX_GRID_SIZE R_GridInsertColumn
        R_GridInsertRow hins whileFuel (List.range surfaces.length) surfaces false numstitches
        (fun i hi => List.mem_range.mp hi) hwhile
      unfold stitchLoop
      rw [e1]
      dsimp only
      cases st with
      | false => exact ⟨mid, n1, by simp, s1⟩
      | true =>
        rw [if_pos rfl]
        have hroom := s1.2.2.1
        have hn1 := s1.2.1
        have hmid : 2 * stitchRoom MAX_GRID_SIZE mid + 1 ≤ m ∨
            (allStitched mid ∧ 2 * stitchRoom MAX_GRID_SIZE mid ≤ m) := by
          by_cases h0 : n1 = 0
          · right
            obtain ⟨c1, _⟩ := z1 h0
            refine ⟨fun i hg => ?_, by omega⟩
            by_cases hi : i < surfaces.length
            · exact c1 i (List.mem_range.mpr hi) hg
            · have := surfaceGrid_outside mid i (by rw [s1.1]; omega)
              rw [this] at hg
              exact absurd hg (by decide)
          · left
            omega
        obtain ⟨after, n2, e2, s2⟩ := ih f mid (numstitches + n1) hmid (by omega)
          (lt_of_le_of_lt (stitchedFrom_room_le _ _ _ _ s1) hwhile)
        rw [e2]
        exact ⟨after, n1 + n2, by rw [add_assoc], stitchedFrom_trans _ _ _ _ _ _ s1 s2⟩

/-- C11: assuming `R_GridInsertColumn` and `R_GridInsertRow` return the grid grown by exactly
one column resp. row, `R_StitchAllPatches` terminates on every surface list whose grids have
width and height at most `MAX_GRID_SIZE`: an insertion is only made into a grid below
`MAX_GRID_SIZE` in that dimension, and with `fuel` at least twice the room for insertions
plus 2 the run ends, with as many stitches as room was used up, no dimension smaller than
before and none above `MAX_GRID_SIZE`. -/
theorem R_StitchAllPatches_terminates {F : Type} [Inhabited F] (ft : floatTests_t F)
    (MAX_GRID_SIZE : Int)
    (R_GridInsertColumn R_GridInsertRow :
      srfGridMesh_t F → Int → Int → F × F × F → F → srfGridMesh_t F)
    (surfaces : List (srfGridMesh_t F)) (fuel : Nat)
    (hins : insertsGrowByOne R_GridInsertColumn R_GridInsertRow)
    (hdim : ∀ grid ∈ surfaces, grid.width ≤ MAX_GRID_SIZE ∧ grid.height ≤ MAX_GRID_SIZE)
    (hfuel : 2 * stitchRoom MAX_GRID_SIZE surfaces + 2 ≤ fuel) :
    (∀ (grid1 grid2 : srfGridMesh_t F) (s : stitch_t),
      findStitch ft MAX_GRID_SIZE grid1 grid2 = some s →
        (s.column = true → grid2.width < MAX_GRID_SIZE) ∧
        (s.column = false → grid2.height < MAX_GRID_SIZE)) ∧
    ∃ after numstitches,
      R_StitchAllPatches ft MAX_GRID_SIZE R_GridInsertColumn R_GridInsertRow fuel surfaces =
        some (after, numstitches) ∧
      after.length = surfaces.length ∧ 0 ≤ numstitches ∧
      (stitchRoom MAX_GRID_SIZE after : Int) + numstitches =
        stitchRoom MAX_GRID_SIZE surfaces ∧
      (∀ i : Nat,
        (surfaceGrid surfaces i).width ≤ (surfaceGrid after i).width ∧
        (surfaceGrid surfaces i).height ≤ (surfaceGrid after i).height) ∧
      ∀ grid ∈ after, grid.width ≤ MAX_GRID_SIZE ∧ grid.height ≤ MAX_GRID_SIZE := by
  refine ⟨fun grid1 grid2 s h => findStitch_some ft MAX_GRID_SIZE grid1 grid2 s h, ?_⟩
  obtain ⟨after, n, e, s⟩ := stitchLoop_spec ft MAX_GRID_SIZE R_GridInsertColumn
    R_GridInsertRow hins fuel (2 * stitchRoom MAX_GRID_SIZE surfaces + 1) fuel surfaces 0
    (Or.inl (le_refl _)) (by omega) (by omega)
  refine ⟨after, n, ?_, s.1, s.2.1, s.2.2.1, fun i => ⟨(s.2.2.2 i).1, (s.2.2.2 i).2.1⟩,
    fun grid hg => ?_⟩
  · unfold R_StitchAllPatches
    rw [e, zero_add]
  · obtain ⟨i, hi, rfl⟩ := List.getElem_of_mem hg
    have hi' : i < surfaces.length := by rw [← s.1]; exact hi
    have e1 : surfaceGrid after i = after[i] := by
      unfold surfaceGrid
      rw [List.getD_eq_getElem _ _ hi]
    have e2 : surfaceGrid surfaces i = surfaces[i] := by
      unfold surfaceGrid
      rw [List.getD_eq_getElem _ _ hi']
    obtain ⟨_, _, a3, a4⟩ := s.2.2.2 i
    obtain ⟨d1, d2⟩ := hdim surfaces[i] (List.getElem_mem hi')
    rw [e1, e2] at a3 a4
    exact ⟨a3.trans (max_le d1 (le_refl _)), a4.trans (max_le d2 (le_refl _))⟩

theorem R_StitchAllPatches_terminates_witness :
    (insertsGrowByOne exampleInsertColumn exampleInsertRow ∧
      2 * stitchRoom 4 [exampleStitchGrid1, exampleStitchGrid2] + 2 ≤ 10) ∧
    (R_StitchAllPatches exampleFloatTests 4 exampleInsertColumn exampleInsertRow 10
      [exampleStitchGrid1, exampleStitchGrid2]).map Prod.snd = some 1 ∧
    ∃ after numstitches,
      R_StitchAllPatches exampleFloatTests 4 exampleInsertColumn exampleInsertRow 10
        [exampleStitchGrid1, exampleStitchGrid2] = some (after, numstitches) ∧
      after.length = [exampleStitchGrid1, exampleStitchGrid2].length ∧ 0 ≤ numstitches ∧
      (stitchRoom 4 after : Int) + numstitches =
        stitchRoom 4 [exampleStitchGrid1, exampleStitchGrid2] :=
  ⟨⟨fun _ _ _ _ _ => ⟨⟨rfl, rfl⟩, ⟨rfl, rfl⟩⟩, by decide⟩, by decide,
    let ⟨_, after, n, h1, h2, h3, h4, _⟩ :=
      R_StitchAllPatches_terminates exampleFloatTests 4 exampleInsertColumn exampleInsertRow
        [exampleStitchGrid1, exampleStitchGrid2] 10
        (fun _ _ _ _ _ => ⟨⟨rfl, rfl⟩, ⟨rfl, rfl⟩⟩)
        (by decide) (by decide)
    ⟨after, n, h1, h2, h3, h4⟩⟩

/-- C20: grid1 is a 3 x 3 grid and the third scan (backward over its first row, `k = 2`)
finds the crack in grid2: the point passed to `R_GridInsertColumn` is `verts[1]`, the edge
vertex between the matched vertices 2 and 0, but the LOD error passed is `widthLodError[3]`,
index `k + 1`, which is neither the index 1 of that vertex nor inside `[0, width)`. -/
theorem R_StitchPatches_reverse_scan_lod_error :
    findStitch exampleFloatTests 65 exampleStitchGrid1 exampleStitchGrid2 =
      some { column := true, position := 1, edge := 0, point := 1, lodErrorWidth := true
             lodError := 3 } ∧
    scanWidthForward exampleFloatTests 65 exampleStitchGrid1 exampleStitchGrid2 = none ∧
    scanHeightForward exampleFloatTests 65 exampleStitchGrid1 exampleStitchGrid2 = none ∧
    exampleStitchGrid1.width = 3 ∧ exampleStitchGrid1.widthLodError.length = 3 := by
  decide

/-! ## Surface sort order -/

theorem BSPSurfaceCompare_spec (a b : msurface_t) :
    (BSPSurfaceCompare a b = -1 ∨ BSPSurfaceCompare a b = 0 ∨ BSPSurfaceCompare a b = 1) ∧
    (BSPSurfaceCompare a b = -1 ↔ lexLess (surfaceSortTriple a) (surfaceSortTriple b)) ∧
    (BSPSurfaceCompare a b = 1 ↔ lexLess (surfaceSortTriple b) (surfaceSortTriple a)) ∧
    (BSPSurfaceCompare a b = 0 ↔ surfaceSortTriple a = surfaceSortTriple b) := by
  unfold BSPSurfaceCompare lexLess surfaceSortTriple
  simp only [Prod.mk.injEq]
  refine ⟨?_, ?_, ?_, ?_⟩
  · split_ifs <;> simp
  · split_ifs <;> constructor <;> intro h <;> first | contradiction | omega
  · split_ifs <;> constructor <;> intro h <;> first | contradiction | omega
  · split_ifs <;> constructor <;> intro h <;> first | contradiction | omega

/-- C24: `BSPSurfaceCompare(a, b)` is -1, 0 or 1; it is -1 exactly when the triple (shader
`sortedIndex`, `fogIndex`, `cubemapIndex`) of `a` comes lexicographically before that of `b`,
1 exactly when it comes after, and 0 exactly when the triples are equal; swapping the
arguments negates the result, and both the induced order and the induced strict order are
transitive. -/
theorem BSPSurfaceCompare_lexicographic (a b c : msurface_t) :
    (BSPSurfaceCompare a b = -1 ∨ BSPSurfaceCompare a b = 0 ∨ BSPSurfaceCompare a b = 1) ∧
    (BSPSurfaceCompare a b = -1 ↔ lexLess (surfaceSortTriple a) (surfaceSortTriple b)) ∧
    (BSPSurfaceCompare a b = 1 ↔ lexLess (surfaceSortTriple b) (surfaceSortTriple a)) ∧
    (BSPSurfaceCompare a b = 0 ↔ surfaceSortTriple a = surfaceSortTriple b) ∧
    BSPSurfaceCompare a b = -BSPSurfaceCompare b a ∧
    (BSPSurfaceCompare a b ≤ 0 → BSPSurfaceCompare b c ≤ 0 → BSPSurfaceCompare a c ≤ 0) ∧
    (BSPSurfaceCompare a b < 0 → BSPSurfaceCompare b c < 0 → BSPSurfaceCompare a c < 0) := by
  obtain ⟨r1, m1, p1, z1⟩ := BSPSurfaceCompare_spec a b
  obtain ⟨r2, m2, p2, z2⟩ := BSPSurfaceCompare_spec b c
  obtain ⟨r3, m3, p3, z3⟩ := BSPSurfaceCompare_spec a c
  obtain ⟨r4, m4, p4, z4⟩ := BSPSurfaceCompare_spec b a
  refine ⟨r1, m1, p1, z1, ?_, ?_, ?_⟩
  · rcases r1 with h | h | h
    · have := p4.mpr (m1.mp h); omega
    · have := z4.mpr (z1.mp h).symm; omega
    · have := m4.mpr (p1.mp h); omega
  · intro hab hbc
    by_contra hac
    have h3 : BSPSurfaceCompare a c = 1 := by omega
    have l3 := p3.mp h3
    have nab : ¬ lexLess (surfaceSortTriple b) (surfaceSortTriple a) := fun h => by
      have := p1.mpr h; omega
    have nbc : ¬ lexLess (surfaceSortTriple c) (surfaceSortTriple b) := fun h => by
      have := p2.mpr h; omega
    unfold lexLess at l3 nab nbc
    omega
  · intro hab hbc
    have lab := m1.mp (by omega)
    have lbc := m2.mp (by omega)
    have : BSPSurfaceCompare a c = -1 := by
      apply m3.mpr
      unfold lexLess at lab lbc ⊢
      omega
    omega

theorem BSPSurfaceCompare_lexicographic_witness :
    BSPSurfaceCompare { shader := { sortedIndex := 2 }, fogIndex := 1, cubemapIndex := 5 }
      { shader := { sortedIndex := 2 }, fogIndex := 3, cubemapIndex := 0 } = -1 ∧
    BSPSurfaceCompare { shader := { sortedIndex := 2 }, fogIndex := 3, cubemapIndex := 0 }
      { shader := { sortedIndex := 2 }, fogIndex := 1, cubemapIndex := 5 } = 1 ∧
    lexLess (surfaceSortTriple { shader := { sortedIndex := 2 }, fogIndex := 1, cubemapIndex := 5 })
      (surfaceSortTriple { shader := { sortedIndex := 2 }, fogIndex := 3, cubemapIndex := 0 }) :=
  ⟨by decide, by decide,
    (BSPSurfaceCompare_lexicographic
      { shader := { sortedIndex := 2 }, fogIndex := 1, cubemapIndex := 5 }
      { shader := { sortedIndex := 2 }, fogIndex := 3, cubemapIndex := 0 }
      {}).2.1.mp (by decide)⟩

/-! ## Draw items in depth-only mode -/

theorem iterateStages_depthFill (RF_DISTORTION RF_FORCEPOST RF_FORCE_ENT_ALPHA renderfx : Int)
    (r_lightmap : Bool) (sort : Int) :
    ∀ (xstages : List (Option shaderStage_t)) (stage : Int) (n : Nat) (pStage : shaderStage_t),
      xstages[n]? = some (some pStage) → pStage.ss = false →
      (∀ i : Nat, i < n → ∃ p, xstages[i]? = some (some p) ∧ p.ss = true) →
      iterateStages RF_DISTORTION RF_FORCEPOST RF_FORCE_ENT_ALPHA renderfx r_lightmap true sort
          stage xstages =
        [(stage + n, stageSortKey RF_DISTORTION RF_FORCEPOST RF_FORCE_ENT_ALPHA renderfx
          pStage.program (stage + n) sort)] := by
  intro xstages
  induction xstages with
  | nil => intro stage n pStage h; simp at h
  | cons x rest ih =>
    intro stage n pStage h hss hbefore
    cases n with
    | zero =>
      simp only [List.getElem?_cons_zero, Option.some.injEq] at h
      subst h
      unfold iterateStages
      simp [hss]
    | succ n =>
      obtain ⟨p, hp, hpss⟩ := hbefore 0 (by omega)
      simp only [List.getElem?_cons_zero, Option.some.injEq] at hp
      subst hp
      simp only [List.getElem?_cons_succ] at h
      unfold iterateStages
      rw [if_pos hpss]
      have := ih (stage + 1) n pStage h hss (fun i hi => by
        obtain ⟨q, hq, hqss⟩ := hbefore (i + 1) (by omega)
        exact ⟨q, by simpa using hq, hqss⟩)
      rw [this]
      have e : stage + 1 + (n : Int) = stage + ((n + 1 : Nat) : Int) := by push_cast; ring
      rw [e]

theorem iterateStages_depthFill_mem (RF_DISTORTION RF_FORCEPOST RF_FORCE_ENT_ALPHA renderfx : Int)
    (r_lightmap : Bool) (sort : Int) :
    ∀ (xstages : List (Option shaderStage_t)) (stage : Int),
      (iterateStages RF_DISTORTION RF_FORCEPOST RF_FORCE_ENT_ALPHA renderfx r_lightmap true sort
        stage xstages).length ≤ 1 ∧
      ∀ item ∈ iterateStages RF_DISTORTION RF_FORCEPOST RF_FORCE_ENT_ALPHA renderfx r_lightmap
          true sort stage xstages,
        ∃ (n : Nat) (pStage : shaderStage_t), item.1 = stage + n ∧
          xstages[n]? = some (some pStage) ∧ pStage.ss = false ∧
          ∀ i : Nat, i < n → ∃ p, xstages[i]? = some (some p) ∧ p.ss = true := by
  intro xstages
  induction xstages with
  | nil => intro stage; simp [iterateStages]
  | cons x rest ih =>
    intro stage
    cases x with
    | none => simp [iterateStages]
    | some pStage =>
      unfold iterateStages
      by_cases hss : pStage.ss = true
      · rw [if_pos hss]
        obtain ⟨h1, h2⟩ := ih (stage + 1)
        refine ⟨h1, fun item hi => ?_⟩
        obtain ⟨n, q, e1, e2, e3, e4⟩ := h2 item hi
        refine ⟨n + 1, q, by rw [e1]; push_cast; ring, by simpa using e2, e3, fun i hi' => ?_⟩
        cases i with
        | zero => exact ⟨pStage, by simp, hss⟩
        | succ i =>
          obtain ⟨p, hp, hpss⟩ := e4 i (by omega)
          exact ⟨p, by simpa using hp, hpss⟩
      · rw [if_neg hss]
        have hone : ∀ item ∈ [(stage, stageSortKey RF_DISTORTION RF_FORCEPOST RF_FORCE_ENT_ALPHA
            renderfx pStage.program stage sort)],
            ∃ (n : Nat) (q : shaderStage_t), item.1 = stage + n ∧
              (some pStage :: rest)[n]? = some (some q) ∧ q.ss = false ∧
              ∀ i : Nat, i < n → ∃ p, (some pStage :: rest)[i]? = some (some p) ∧ p.ss = true := by
          intro item hi
          rw [List.mem_singleton] at hi
          subst hi
          exact ⟨0, pStage, by simp, by simp, by simpa using hss, fun i hi => by omega⟩
        dsimp only
        split_ifs with h1 h2
        · exact ⟨by simp, hone⟩
        · exact ⟨by simp, hone⟩
        · exact absurd rfl h2

/-- C27: in depth-only mode `RB_IterateStagesGeneric` adds at most one draw item, and an item
it adds belongs to the first stage that is not a sprite stage (`ss`) among the stages before
the first null stage; whenever such a stage exists, the item of that stage is the only one
added. -/
theorem RB_IterateStagesGeneric_depthFill
    (RF_DISTORTION RF_FORCEPOST RF_FORCE_ENT_ALPHA renderfx : Int)
    (r_lightmap depthFill : Bool) (sort : Int) (xstages : List (Option shaderStage_t))
    (h : depthFill = true) :
    (RB_IterateStagesGeneric RF_DISTORTION RF_FORCEPOST RF_FORCE_ENT_ALPHA renderfx r_lightmap
      depthFill sort xstages).length ≤ 1 ∧
    (∀ item ∈ RB_IterateStagesGeneric RF_DISTORTION RF_FORCEPOST RF_FORCE_ENT_ALPHA renderfx
        r_lightmap depthFill sort xstages,
      ∃ (n : Nat) (pStage : shaderStage_t), item.1 = n ∧
        xstages[n]? = some (some pStage) ∧ pStage.ss = false ∧
        ∀ i : Nat, i < n → ∃ p, xstages[i]? = some (some p) ∧ p.ss = true) ∧
    ∀ (n : Nat) (pStage : shaderStage_t), xstages[n]? = some (some pStage) →
      pStage.ss = false →
      (∀ i : Nat, i < n → ∃ p, xstages[i]? = some (some p) ∧ p.ss = true) →
      RB_IterateStagesGeneric RF_DISTORTION RF_FORCEPOST RF_FORCE_ENT_ALPHA renderfx r_lightmap
          depthFill sort xstages =
        [((n : Int), stageSortKey RF_DISTORTION RF_FORCEPOST RF_FORCE_ENT_ALPHA renderfx
          pStage.program n sort)] := by
  subst h
  unfold RB_IterateStagesGeneric
  obtain ⟨h1, h2⟩ := iterateStages_depthFill_mem RF_DISTORTION RF_FORCEPOST RF_FORCE_ENT_ALPHA
    renderfx r_lightmap sort xstages 0
  refine ⟨h1, fun item hi => ?_, fun n pStage hn hss hbefore => ?_⟩
  · obtain ⟨n, q, e1, e2, e3, e4⟩ := h2 item hi
    exact ⟨n, q, by rw [e1, zero_add], e2, e3, e4⟩
  · have := iterateStages_depthFill RF_DISTORTION RF_FORCEPOST RF_FORCE_ENT_ALPHA renderfx
      r_lightmap sort xstages 0 n pStage hn hss hbefore
    rw [this, zero_add]

theorem RB_IterateStagesGeneric_depthFill_witness :
    RB_IterateStagesGeneric 4 64 128 0 false true 3
      [some { ss := true }, some { program := 7 }, some { program := 9 }, none,
        some { program := 5 }] = [(1, RB_CreateSortKey 7 1 3)] ∧
    (RB_IterateStagesGeneric 4 64 128 0 false true 3
      [some { ss := true }, some { program := 7 }, some { program := 9 }, none,
        some { program := 5 }]).length ≤ 1 :=
  ⟨by decide,
    (RB_IterateStagesGeneric_depthFill 4 64 128 0 false true 3
      [some { ss := true }, some { program := 7 }, some { program := 9 }, none,
        some { program := 5 }] rfl).1⟩

/-! ## Fog volumes: `hasSurface` -/

theorem loadFog_hasSurface (MIN_WORLD_COORD MAX_WORLD_COORD : Int) (brushesCount sidesCount : Int)
    (brushes : Int → dbrush_t) (sides : Int → dbrushside_t) (planeDist : Int → Int)
    (fog : dfog_t) (out : fog_t)
    (h : loadFog MIN_WORLD_COORD MAX_WORLD_COORD brushesCount sidesCount brushes sides planeDist
      fog = .ok out) :
    out.hasSurface = true ∧ (fog.visibleSide = -1 → out.surface3 = 0) := by
  unfold loadFog at h
  dsimp only at h
  split at h
  · exact absurd h (by simp)
  · simp only [Except.ok.injEq] at h
    subst h
    refine ⟨rfl, fun hv => ?_⟩
    dsimp only
    rw [if_neg (by simp [hv])]

/-- Every fog record loads when the lumps hold whole records and each record has brush number
-1 or a brush and six sides in range; fog `i` is what `loadFog` makes of record `i`. -/
theorem R_LoadFogs_fogs_ok (size1 size2 size3 : Nat) (MIN_WORLD_COORD MAX_WORLD_COORD : Int)
    (worldData : world_t) (l brushesLump sidesLump : lump_t) (fogs : Nat → dfog_t)
    (brushes : Int → dbrush_t) (sides : Int → dbrushside_t) (planeDist : Int → Int)
    (hl : l.valid) (hbl : brushesLump.valid) (hsl : sidesLump.valid)
    (hm1 : l.filelen % (size1 : Int) = 0) (hm2 : brushesLump.filelen % (size2 : Int) = 0)
    (hm3 : sidesLump.filelen % (size3 : Int) = 0)
    (hin : ∀ i : Nat, (i : Int) < l.filelen / (size1 : Int) →
      (fogs i).brushNum = -1 ∨
      (0 ≤ (fogs i).brushNum ∧ (fogs i).brushNum < brushesLump.filelen / (size2 : Int) ∧
        0 ≤ (brushes (fogs i).brushNum).firstSide ∧
        (brushes (fogs i).brushNum).firstSide + 5 < sidesLump.filelen / (size3 : Int))) :
    ∃ outs, R_LoadFogs_fogs size1 size2 size3 MIN_WORLD_COORD MAX_WORLD_COORD worldData l
        brushesLump sidesLump fogs brushes sides planeDist = .ok outs ∧
      ∀ i : Nat, (i : Int) < l.filelen / (size1 : Int) →
        ∃ out, outs[i]? = some out ∧
          loadFog MIN_WORLD_COORD MAX_WORLD_COORD (brushesLump.filelen / (size2 : Int))
            (sidesLump.filelen / (size3 : Int)) brushes sides planeDist (fogs i) = .ok out := by
  have f1 := lumpFunny_of_multiple l size1 hl hm1
  have f2 := lumpFunny_of_multiple brushesLump size2 hbl hm2
  have f3 := lumpFunny_of_multiple sidesLump size3 hsl hm3
  have c1 := lumpCount_eq l size1 hl
  have c2 := lumpCount_eq brushesLump size2 hbl
  have c3 := lumpCount_eq sidesLump size3 hsl
  have herr : (R_LoadFogs size1 size2 size3 worldData l brushesLump sidesLump).error = none := by
    unfold R_LoadFogs
    simp only [f1, f2, f3, Bool.false_eq_true, if_false]
    split_ifs <;> rfl
  unfold R_LoadFogs_fogs
  rw [herr]
  simp only [c1, c2, c3]
  by_cases h0 : l.filelen / (size1 : Int) = 0
  · rw [if_pos h0]
    exact ⟨[], rfl, fun i hi => by omega⟩
  · rw [if_neg h0]
    have hall : ∀ fog ∈ (List.range (l.filelen / (size1 : Int)).toNat).map fogs,
        ∃ out, loadFog MIN_WORLD_COORD MAX_WORLD_COORD (brushesLump.filelen / (size2 : Int))
          (sidesLump.filelen / (size3 : Int)) brushes sides planeDist fog = .ok out := by
      intro fog hf
      obtain ⟨i, hi, rfl⟩ := List.mem_map.mp hf
      have hi' : (i : Int) < l.filelen / (size1 : Int) := by
        have := List.mem_range.mp hi
        omega
      rcases hin i hi' with h | ⟨a, b, c, d⟩
      · exact loadFog_global _ _ _ _ _ _ _ _ h
      · obtain ⟨out, ho, _⟩ := loadFog_in_range MIN_WORLD_COORD MAX_WORLD_COORD _ _ brushes
          sides planeDist (fogs i) a b c d
        exact ⟨out, ho⟩
    obtain ⟨outs, h1, _, h3⟩ := loadFogRecords_ok MIN_WORLD_COORD MAX_WORLD_COORD
      (brushesLump.filelen / (size2 : Int)) (sidesLump.filelen / (size3 : Int)) brushes sides
      planeDist _ hall
    refine ⟨outs, h1, fun i hi => ?_⟩
    have hi' : i < (l.filelen / (size1 : Int)).toNat := by omega
    have hrec : ((List.range (l.filelen / (size1 : Int)).toNat).map fogs)[i]? =
        some (fogs i) := by
      rw [List.getElem?_map, List.getElem?_range hi']
      rfl
    exact h3 i (fogs i) hrec

/-- C22 (counterexample): a single fog record with brush number -1 and `visibleSide` -1 loads
as a fog with `hasSurface` set. -/
theorem R_LoadFogs_hasSurface_counterexample :
    R_LoadFogs_fogs 72 12 8 (-65536) 65536 {} ⟨0, 72⟩ ⟨0, 12⟩ ⟨0, 48⟩
        (fun _ => ⟨-1, -1⟩) (fun _ => ⟨0⟩) (fun n => ⟨n⟩) (fun n => 10 * (n + 1)) =
      .ok [{ originalBrushNumber := -1, mins := (-65536, -65536, -65536)
             maxs := (65536, 65536, 65536), hasSurface := true, surface3 := 0 }] := by
  decide

/-- C22 (amended): when the lumps hold whole records and every fog record has brush number -1
or a brush and six sides in range, `R_LoadFogs` loads every fog with `hasSurface` set, also
the fogs whose `visibleSide` is -1; for those no gradient plane is read and `surface[3]` keeps
the value 0 of the allocation. -/
theorem R_LoadFogs_hasSurface (size1 size2 size3 : Nat) (MIN_WORLD_COORD MAX_WORLD_COORD : Int)
    (worldData : world_t) (l brushesLump sidesLump : lump_t) (fogs : Nat → dfog_t)
    (brushes : Int → dbrush_t) (sides : Int → dbrushside_t) (planeDist : Int → Int)
    (hl : l.valid) (hbl : brushesLump.valid) (hsl : sidesLump.valid)
    (hm1 : l.filelen % (size1 : Int) = 0) (hm2 : brushesLump.filelen % (size2 : Int) = 0)
    (hm3 : sidesLump.filelen % (size3 : Int) = 0)
    (hin : ∀ i : Nat, (i : Int) < l.filelen / (size1 : Int) →
      (fogs i).brushNum = -1 ∨
      (0 ≤ (fogs i).brushNum ∧ (fogs i).brushNum < brushesLump.filelen / (size2 : Int) ∧
        0 ≤ (brushes (fogs i).brushNum).firstSide ∧
        (brushes (fogs i).brushNum).firstSide + 5 < sidesLump.filelen / (size3 : Int))) :
    ∃ outs, R_LoadFogs_fogs size1 size2 size3 MIN_WORLD_COORD MAX_WORLD_COORD worldData l
        brushesLump sidesLump fogs brushes sides planeDist = .ok outs ∧
      ∀ i : Nat, (i : Int) < l.filelen / (size1 : Int) →
        ∃ out, outs[i]? = some out ∧ out.hasSurface = true ∧
          ((fogs i).visibleSide = -1 → out.surface3 = 0) := by
  obtain ⟨outs, h1, h2⟩ := R_LoadFogs_fogs_ok size1 size2 size3 MIN_WORLD_COORD MAX_WORLD_COORD
    worldData l brushesLump sidesLump fogs brushes sides planeDist hl hbl hsl hm1 hm2 hm3 hin
  refine ⟨outs, h1, fun i hi => ?_⟩
  obtain ⟨out, e1, e2⟩ := h2 i hi
  obtain ⟨a, b⟩ := loadFog_hasSurface _ _ _ _ _ _ _ _ out e2
  exact ⟨out, e1, a, b⟩

theorem R_LoadFogs_hasSurface_witness :
    ((⟨0, 72⟩ : lump_t).valid ∧ (⟨0, 12⟩ : lump_t).valid ∧ (⟨0, 48⟩ : lump_t).valid ∧
      (72 : Int) % ((72 : Nat) : Int) = 0 ∧ (12 : Int) % ((12 : Nat) : Int) = 0 ∧
      (48 : Int) % ((8 : Nat) : Int) = 0) ∧
    ∃ outs, R_LoadFogs_fogs 72 12 8 (-65536) 65536 {} ⟨0, 72⟩ ⟨0, 12⟩ ⟨0, 48⟩
        (fun _ => ⟨0, -1⟩) (fun _ => ⟨0⟩) (fun n => ⟨n⟩) (fun n => 10 * (n + 1)) = .ok outs ∧
      ∃ out, outs[0]? = some out ∧ out.hasSurface = true ∧ out.surface3 = 0 :=
  ⟨by decide,
    let ⟨outs, h1, h2⟩ := R_LoadFogs_hasSurface 72 12 8 (-65536) 65536 {} ⟨0, 72⟩ ⟨0, 12⟩
      ⟨0, 48⟩ (fun _ => ⟨0, -1⟩) (fun _ => ⟨0⟩) (fun n => ⟨n⟩) (fun n => 10 * (n + 1))
      (by decide) (by decide) (by decide) (by decide) (by decide) (by decide)
      (fun i hi => Or.inr (by
        have h12 : (12 : Int) / ((12 : Nat) : Int) = 1 := by decide
        have h48 : (48 : Int) / ((8 : Nat) : Int) = 6 := by decide
        simp only [h12, h48]
        decide))
    let ⟨out, e1, e2, e3⟩ := h2 0 (by decide)
    ⟨outs, h1, out, e1, e2, e3 rfl⟩⟩

/-! ## Overbright colour scale -/

theorem shl32_one (b : Int) (h0 : 0 ≤ b) (h1 : b ≤ 30) : shl32 1 b = 2 ^ b.toNat := by
  unfold shl32
  rw [one_mul]
  have hle : (2 : Int) ^ b.toNat ≤ 2 ^ 30 := pow_le_pow_right₀ (by norm_num) (by omega)
  have hpos : (0 : Int) < 2 ^ b.toNat := by positivity
  apply wrap32_of_range
  · omega
  · have : (2 : Int) ^ 30 = 1073741824 := by norm_num
    omega

/-- C26: for `overbrightBits` in `0 .. 30` (so that `1 << overbrightBits` is `2^overbrightBits`
as an `int`), `ComputeShaderColors` multiplies the red, green and blue components of
`baseColor` and `vertColor` by `2^overbrightBits` when `overbrightBits` is not zero and the
blend bits have neither the source factor `DST_COLOR` or `ONE_MINUS_DST_COLOR` nor the
destination factor `SRC_COLOR` or `ONE_MINUS_SRC_COLOR`, and leaves both colours as they are
otherwise; the alpha components are never changed. -/
theorem ComputeShaderColors_overbright_scale (GLS_SRCBLEND_BITS GLS_DSTBLEND_BITS
    GLS_SRCBLEND_DST_COLOR GLS_SRCBLEND_ONE_MINUS_DST_COLOR GLS_DSTBLEND_SRC_COLOR
    GLS_DSTBLEND_ONE_MINUS_SRC_COLOR : Int) (overbrightBits blend : Int)
    (baseColor vertColor : vec4_t) (h0 : 0 ≤ overbrightBits) (h1 : overbrightBits ≤ 30) :
    ((overbrightBits ≠ 0 ∧
        Int.land blend GLS_SRCBLEND_BITS ≠ GLS_SRCBLEND_DST_COLOR ∧
        Int.land blend GLS_SRCBLEND_BITS ≠ GLS_SRCBLEND_ONE_MINUS_DST_COLOR ∧
        Int.land blend GLS_DSTBLEND_BITS ≠ GLS_DSTBLEND_SRC_COLOR ∧
        Int.land blend GLS_DSTBLEND_BITS ≠ GLS_DSTBLEND_ONE_MINUS_SRC_COLOR) →
      ComputeShaderColors_overbright GLS_SRCBLEND_BITS GLS_DSTBLEND_BITS GLS_SRCBLEND_DST_COLOR
          GLS_SRCBLEND_ONE_MINUS_DST_COLOR GLS_DSTBLEND_SRC_COLOR
          GLS_DSTBLEND_ONE_MINUS_SRC_COLOR overbrightBits blend baseColor vertColor =
        ((baseColor.1 * 2 ^ overbrightBits.toNat, baseColor.2.1 * 2 ^ overbrightBits.toNat,
            baseColor.2.2.1 * 2 ^ overbrightBits.toNat, baseColor.2.2.2),
          (vertColor.1 * 2 ^ overbrightBits.toNat, vertColor.2.1 * 2 ^ overbrightBits.toNat,
            vertColor.2.2.1 * 2 ^ overbrightBits.toNat, vertColor.2.2.2))) ∧
    (¬ (overbrightBits ≠ 0 ∧
        Int.land blend GLS_SRCBLEND_BITS ≠ GLS_SRCBLEND_DST_COLOR ∧
        Int.land blend GLS_SRCBLEND_BITS ≠ GLS_SRCBLEND_ONE_MINUS_DST_COLOR ∧
        Int.land blend GLS_DSTBLEND_BITS ≠ GLS_DSTBLEND_SRC_COLOR ∧
        Int.land blend GLS_DSTBLEND_BITS ≠ GLS_DSTBLEND_ONE_MINUS_SRC_COLOR) →
      ComputeShaderColors_overbright GLS_SRCBLEND_BITS GLS_DSTBLEND_BITS GLS_SRCBLEND_DST_COLOR
          GLS_SRCBLEND_ONE_MINUS_DST_COLOR GLS_DSTBLEND_SRC_COLOR
          GLS_DSTBLEND_ONE_MINUS_SRC_COLOR overbrightBits blend baseColor vertColor =
        (baseColor, vertColor)) ∧
    (ComputeShaderColors_overbright GLS_SRCBLEND_BITS GLS_DSTBLEND_BITS GLS_SRCBLEND_DST_COLOR
        GLS_SRCBLEND_ONE_MINUS_DST_COLOR GLS_DSTBLEND_SRC_COLOR
        GLS_DSTBLEND_ONE_MINUS_SRC_COLOR overbrightBits blend baseColor
        vertColor).1.2.2.2 = baseColor.2.2.2 ∧
    (ComputeShaderColors_overbright GLS_SRCBLEND_BITS GLS_DSTBLEND_BITS GLS_SRCBLEND_DST_COLOR
        GLS_SRCBLEND_ONE_MINUS_DST_COLOR GLS_DSTBLEND_SRC_COLOR
        GLS_DSTBLEND_ONE_MINUS_SRC_COLOR overbrightBits blend baseColor
        vertColor).2.2.2.2 = vertColor.2.2.2 := by
  have hcond : overbrightApplies GLS_SRCBLEND_BITS GLS_DSTBLEND_BITS GLS_SRCBLEND_DST_COLOR
      GLS_SRCBLEND_ONE_MINUS_DST_COLOR GLS_DSTBLEND_SRC_COLOR GLS_DSTBLEND_ONE_MINUS_SRC_COLOR
      overbrightBits blend = true ↔
      (overbrightBits ≠ 0 ∧
        Int.land blend GLS_SRCBLEND_BITS ≠ GLS_SRCBLEND_DST_COLOR ∧
        Int.land blend GLS_SRCBLEND_BITS ≠ GLS_SRCBLEND_ONE_MINUS_DST_COLOR ∧
        Int.land blend GLS_DSTBLEND_BITS ≠ GLS_DSTBLEND_SRC_COLOR ∧
        Int.land blend GLS_DSTBLEND_BITS ≠ GLS_DSTBLEND_ONE_MINUS_SRC_COLOR) := by
    unfold overbrightApplies
    simp only [Bool.and_eq_true, Bool.not_eq_true', decide_eq_true_eq, decide_eq_false_iff_not,
      ne_eq, and_assoc]
  have hscale : ((shl32 1 overbrightBits : Int) : ℚ) = 2 ^ overbrightBits.toNat := by
    rw [shl32_one overbrightBits h0 h1]
    push_cast
    rfl
  unfold ComputeShaderColors_overbright
  refine ⟨fun h => ?_, fun h => ?_, ?_, ?_⟩
  · rw [if_pos (hcond.mpr h)]
    simp only [scaleRGB, hscale]
  · rw [if_neg (fun hc => h (hcond.mp hc))]
  · split_ifs <;> rfl
  · split_ifs <;> rfl

theorem ComputeShaderColors_overbright_scale_witness :
    ((0 : Int) ≤ 2 ∧ (2 : Int) ≤ 30) ∧
    ComputeShaderColors_overbright 15 240 3 4 32 48 2 0 (1, 1, 1, 1) (0, 0, 0, 0) =
      ((1 * 2 ^ (2 : Int).toNat, 1 * 2 ^ (2 : Int).toNat, 1 * 2 ^ (2 : Int).toNat, 1),
        (0 * 2 ^ (2 : Int).toNat, 0 * 2 ^ (2 : Int).toNat, 0 * 2 ^ (2 : Int).toNat, 0)) ∧
    ComputeShaderColors_overbright 15 240 3 4 32 48 2 35 (1, 1, 1, 1) (0, 0, 0, 0) =
      ((1, 1, 1, 1), (0, 0, 0, 0)) :=
  ⟨by decide,
    (ComputeShaderColors_overbright_scale 15 240 3 4 32 48 2 0 (1, 1, 1, 1) (0, 0, 0, 0)
      (by decide) (by decide)).1 (by decide),
    (ComputeShaderColors_overbright_scale 15 240 3 4 32 48 2 35 (1, 1, 1, 1) (0, 0, 0, 0)
      (by decide) (by decide)).2.1 (by decide)⟩

/-! ## `float` arithmetic -/

theorem roundNearestEven_intCast (m : Int) : roundNearestEven (m : ℚ) = m := by
  unfold roundNearestEven
  rw [Int.floor_intCast]
  simp

theorem roundNearestEven_error (x : ℚ) : |(roundNearestEven x : ℚ) - x| ≤ 1 / 2 := by
  have h1 := Int.floor_le x
  have h2 := Int.lt_floor_add_one x
  unfold roundNearestEven
  rw [abs_le]
  split_ifs <;> push_cast <;> constructor <;> linarith

theorem roundNearestEven_of_near (x : ℚ) (m : Int) (h : |x - m| < 1 / 2) :
    roundNearestEven x = m := by
  rw [abs_lt] at h
  obtain ⟨h1, h2⟩ := h
  by_cases hx : (m : ℚ) ≤ x
  · have hf : ⌊x⌋ = m := by
      rw [Int.floor_eq_iff]
      constructor <;> linarith
    unfold roundNearestEven
    rw [hf, if_pos (by linarith)]
  · have hf : ⌊x⌋ = m - 1 := by
      rw [Int.floor_eq_iff]
      push_cast
      constructor <;> linarith
    unfold roundNearestEven
    rw [hf, if_neg (by push_cast; linarith), if_pos (by push_cast; linarith)]
    ring

theorem float32Ulp_pos (x : ℚ) : 0 < float32Ulp x := by
  unfold float32Ulp
  positivity

theorem log2_lt_iff (r : ℚ) (hr : 0 < r) (x : Int) : r < (2 : ℚ) ^ x ↔ Int.log 2 r < x := by
  have h := Int.lt_zpow_iff_log_lt (R := ℚ) (b := 2) (by norm_num) (x := x) hr
  rwa [Nat.cast_ofNat] at h

theorem le_log2_iff (r : ℚ) (hr : 0 < r) (x : Int) : (2 : ℚ) ^ x ≤ r ↔ x ≤ Int.log 2 r := by
  have h := Int.zpow_le_iff_le_log (R := ℚ) (b := 2) (by norm_num) (x := x) hr
  rwa [Nat.cast_ofNat] at h

/-- The exponent of a number in the binade `[2^e, 2^(e+1))`. -/
theorem float32Exponent_eq (x : ℚ) (e : Int) (h0 : (2 : ℚ) ^ e ≤ |x|)
    (h1 : |x| < (2 : ℚ) ^ (e + 1)) : float32Exponent x = max e (-126) := by
  have hpos : 0 < |x| := lt_of_lt_of_le (by positivity) h0
  have hlog : Int.log 2 |x| = e := by
    apply le_antisymm
    · have := (log2_lt_iff _ hpos _).mp h1
      omega
    · exact (le_log2_iff _ hpos _).mp h0
  unfold float32Exponent
  rw [if_neg (abs_pos.mp hpos), hlog]

/-- The exponent of the numbers below `2^-126`. -/
theorem float32Exponent_small (x : ℚ) (h : |x| < (2 : ℚ) ^ (-126 : Int)) :
    float32Exponent x = -126 := by
  unfold float32Exponent
  split_ifs with hx
  · rfl
  · have hpos : 0 < |x| := abs_pos.mpr hx
    have := (log2_lt_iff _ hpos _).mp h
    omega

theorem float32Exponent_ge (x : ℚ) : -126 ≤ float32Exponent x := by
  unfold float32Exponent
  split_ifs
  · exact le_refl _
  · exact le_max_right _ _

/-- Every number lies below the end of its binade. -/
theorem abs_lt_two_pow_exponent (x : ℚ) : |x| < (2 : ℚ) ^ (float32Exponent x + 1) := by
  by_cases hx : x = 0
  · subst hx
    rw [abs_zero]
    positivity
  have hpos : 0 < |x| := abs_pos.mpr hx
  have h' : |x| < (2 : ℚ) ^ (Int.log 2 |x| + 1) := (log2_lt_iff _ hpos _).mpr (by omega)
  refine lt_of_lt_of_le h' ?_
  apply zpow_le_zpow_right₀ (by norm_num)
  unfold float32Exponent
  rw [if_neg hx]
  have := le_max_left (Int.log 2 |x|) (-126)
  omega

/-- A number that is not below `2^-126` is not below the start of its binade. -/
theorem two_pow_exponent_le_abs (x : ℚ) (h : (2 : ℚ) ^ (-126 : Int) ≤ |x|) :
    (2 : ℚ) ^ float32Exponent x ≤ |x| := by
  have hpos : 0 < |x| := lt_of_lt_of_le (by positivity) h
  have h1 := (le_log2_iff _ hpos _).mp h
  unfold float32Exponent
  rw [if_neg (abs_pos.mp hpos), max_eq_left h1]
  exact (le_log2_iff _ hpos _).mpr (le_refl _)

/-- Rounding to a `float`, evaluated: in the binade of exponent `e` the number `m`
significand units away from zero is the result when it is nearer than half a unit. -/
theorem round32_eq_of (x : ℚ) (e m : Int) (he : float32Exponent x = e)
    (hm : |x / (2 : ℚ) ^ (e - 23) - m| < 1 / 2) : round32 x = m * (2 : ℚ) ^ (e - 23) := by
  unfold round32 float32Ulp
  rw [he, roundNearestEven_of_near _ m hm]

/-- The numbers `m * 2^e` with a significand `m` of at most 24 bits and an exponent `e` of at
least -149 are `float`s. -/
theorem round32_dyadic (m e : Int) (hm : |m| < 16777216) (he : -149 ≤ e) :
    round32 ((m : ℚ) * (2 : ℚ) ^ e) = (m : ℚ) * (2 : ℚ) ^ e := by
  have hexp : float32Exponent ((m : ℚ) * (2 : ℚ) ^ e) - 23 ≤ e := by
    unfold float32Exponent
    split_ifs with h0
    · omega
    · have hpos : 0 < |(m : ℚ) * (2 : ℚ) ^ e| := abs_pos.mpr h0
      have hlt : |(m : ℚ) * (2 : ℚ) ^ e| < (2 : ℚ) ^ (24 + e) := by
        rw [abs_mul, abs_of_pos (by positivity : (0 : ℚ) < (2 : ℚ) ^ e), zpow_add₀ (by norm_num)]
        apply mul_lt_mul_of_pos_right _ (by positivity)
        have : |(m : ℚ)| < 16777216 := by exact_mod_cast hm
        norm_num
        exact this
      have := (log2_lt_iff _ hpos _).mp hlt
      have hmax : max (Int.log 2 |(m : ℚ) * (2 : ℚ) ^ e|) (-126) - 23 ≤ e := by
        rcases le_total (Int.log 2 |(m : ℚ) * (2 : ℚ) ^ e|) (-126) with hl | hl
        · rw [max_eq_right hl]; omega
        · rw [max_eq_left hl]; omega
      exact hmax
  obtain ⟨k, hk⟩ := Int.eq_ofNat_of_zero_le (sub_nonneg.mpr hexp)
  have hdiv : (m : ℚ) * (2 : ℚ) ^ e / float32Ulp ((m : ℚ) * (2 : ℚ) ^ e) =
      ((m * 2 ^ k : Int) : ℚ) := by
    unfold float32Ulp
    rw [mul_div_assoc, ← zpow_sub₀ (by norm_num), hk]
    push_cast
    rw [zpow_natCast]
  unfold round32
  rw [hdiv, roundNearestEven_intCast]
  unfold float32Ulp
  push_cast
  rw [mul_assoc, ← zpow_natCast, ← zpow_add₀ (by norm_num)]
  congr 2
  omega

/-- A `float` is its significand, an integer of at most 24 bits, times a power of two. -/
theorem round32_fixed_dyadic (x : ℚ) (h : round32 x = x) :
    ∃ m : Int, x = (m : ℚ) * (2 : ℚ) ^ (float32Exponent x - 23) ∧ |m| < 16777216 := by
  refine ⟨roundNearestEven (x / float32Ulp x), h.symm, ?_⟩
  have hx : x / float32Ulp x = (roundNearestEven (x / float32Ulp x) : ℚ) := by
    rw [div_eq_iff (float32Ulp_pos x).ne']
    exact h.symm
  have hlt := abs_lt_two_pow_exponent x
  have : |x / float32Ulp x| < 16777216 := by
    rw [abs_div, abs_of_pos (float32Ulp_pos x), div_lt_iff₀ (float32Ulp_pos x)]
    unfold float32Ulp
    have e : (16777216 : ℚ) * (2 : ℚ) ^ (float32Exponent x - 23) =
        (2 : ℚ) ^ (float32Exponent x + 1) := by
      have : (16777216 : ℚ) = (2 : ℚ) ^ (24 : Int) := by norm_num
      rw [this, ← zpow_add₀ (by norm_num)]
      congr 1
      omega
    rw [e]
    exact hlt
  rw [hx] at this
  exact_mod_cast this

theorem round32_zero : round32 0 = 0 := by
  have := round32_dyadic 0 0 (by decide) (by decide)
  simpa using this

/-- The integers of at most 24 bits are `float`s. -/
theorem round32_intCast (m : Int) (hm : |m| < 16777216) : round32 (m : ℚ) = m := by
  have := round32_dyadic m 0 hm (by decide)
  simpa using this

/-- Rounding to a `float` moves a number by at most half the distance of the `float`s around
it. -/
theorem round32_error_ulp (x : ℚ) : |round32 x - x| ≤ float32Ulp x / 2 := by
  have h := roundNearestEven_error (x / float32Ulp x)
  have hu := float32Ulp_pos x
  have e : round32 x - x =
      ((roundNearestEven (x / float32Ulp x) : ℚ) - x / float32Ulp x) * float32Ulp x := by
    unfold round32
    field_simp
  rw [e, abs_mul, abs_of_pos hu]
  calc |(roundNearestEven (x / float32Ulp x) : ℚ) - x / float32Ulp x| * float32Ulp x
      ≤ 1 / 2 * float32Ulp x := mul_le_mul_of_nonneg_right h hu.le
    _ = float32Ulp x / 2 := by ring

/-- The rounding error of a `float` operation: relative `2^-24`, or `2^-150` for the results
below `2^-126`. -/
theorem round32_error (x : ℚ) : |round32 x - x| ≤ |x| / 16777216 + 1 / 2 ^ 150 := by
  refine le_trans (round32_error_ulp x) ?_
  have hnn : 0 ≤ |x| / 16777216 := by positivity
  have hnn2 : (0 : ℚ) ≤ 1 / 2 ^ 150 := by positivity
  rcases lt_or_le |x| ((2 : ℚ) ^ (-126 : Int)) with hs | hs
  · unfold float32Ulp
    rw [float32Exponent_small x hs]
    have : (2 : ℚ) ^ ((-126 : Int) - 23) / 2 = 1 / 2 ^ 150 := by
      rw [show ((-126 : Int) - 23) = -(149 : Int) by norm_num, zpow_neg]
      norm_num
    rw [this]
    linarith
  · have h1 := two_pow_exponent_le_abs x hs
    unfold float32Ulp
    have : (2 : ℚ) ^ (float32Exponent x - 23) / 2 = (2 : ℚ) ^ float32Exponent x / 16777216 := by
      rw [zpow_sub₀ (by norm_num)]
      norm_num
      ring
    rw [this]
    have h2 : (2 : ℚ) ^ float32Exponent x / 16777216 ≤ |x| / 16777216 :=
      div_le_div_of_nonneg_right h1 (by norm_num)
    linarith

/-! ## Light grid lattice -/

/-- Division of a `float` by a power of two does not round when the quotient is 0 or not below
`2^-126`. -/
theorem round32_div_two_pow (x : ℚ) (k : Int) (hx : round32 x = x)
    (hn : x = 0 ∨ (2 : ℚ) ^ (-126 : Int) ≤ |x / (2 : ℚ) ^ k|) :
    round32 (x / (2 : ℚ) ^ k) = x / (2 : ℚ) ^ k := by
  by_cases h0 : x = 0
  · subst h0
    rw [zero_div, round32_zero]
  have hn' : (2 : ℚ) ^ (-126 : Int) ≤ |x / (2 : ℚ) ^ k| := hn.resolve_left h0
  have hpos : (0 : ℚ) < (2 : ℚ) ^ k := by positivity
  obtain ⟨m, hm, hb⟩ := round32_fixed_dyadic x hx
  have hlt := abs_lt_two_pow_exponent x
  have hexp : k - 126 < float32Exponent x + 1 := by
    have h1 : (2 : ℚ) ^ (k - 126) ≤ |x| := by
      rw [abs_div, abs_of_pos hpos, le_div_iff₀ hpos, ← zpow_add₀ (by norm_num)] at hn'
      rw [show k - 126 = -126 + k by ring]
      exact hn'
    have h2 := lt_of_le_of_lt h1 hlt
    exact (zpow_lt_zpow_iff_right₀ (by norm_num : (1 : ℚ) < 2)).mp h2
  have e : x / (2 : ℚ) ^ k = (m : ℚ) * (2 : ℚ) ^ (float32Exponent x - 23 - k) := by
    rw [zpow_sub₀ (by norm_num : (2 : ℚ) ≠ 0) _ k, ← mul_div_assoc, ← hm]
  rw [e]
  exact round32_dyadic m _ hb (by omega)

/-- An integer less than 1 away from a `float` has a significand of at most 24 bits and an
exponent that is not negative. -/
theorem intPart_dyadic (x : ℚ) (hx : round32 x = x) (c : Int) (hc : |(c : ℚ) - x| < 1) :
    ∃ (m : Int) (j : Nat), (c : ℚ) = (m : ℚ) * (2 : ℚ) ^ j ∧ |m| < 16777216 := by
  obtain ⟨m, hm, hb⟩ := round32_fixed_dyadic x hx
  by_cases hj : 0 ≤ float32Exponent x - 23
  · obtain ⟨j, hj'⟩ := Int.eq_ofNat_of_zero_le hj
    refine ⟨m, j, ?_, hb⟩
    have hxi : x = ((m * 2 ^ j : Int) : ℚ) := by
      rw [hm, hj']
      push_cast
      rw [zpow_natCast]
    rw [hxi] at hc
    have : |c - m * 2 ^ j| < 1 := by exact_mod_cast hc
    have hcm : c = m * 2 ^ j := by
      rw [abs_lt] at this
      omega
    rw [hcm]
    push_cast
    rfl
  · refine ⟨c, 0, by simp, ?_⟩
    have hlt := abs_lt_two_pow_exponent x
    have h23 : (2 : ℚ) ^ (float32Exponent x + 1) ≤ (2 : ℚ) ^ (23 : Int) :=
      zpow_le_zpow_right₀ (by norm_num) (by omega)
    have hx23 : |x| < 8388608 := by
      have : (2 : ℚ) ^ (23 : Int) = 8388608 := by norm_num
      linarith
    have hc' : |(c : ℚ)| < 8388609 := by
      have := abs_sub_abs_le_abs_sub (c : ℚ) x
      linarith
    have : |c| < 8388609 := by exact_mod_cast hc'
    omega

/-- Multiplication of a power of two with the integer part of a `float`, rounded up or down,
does not round. -/
theorem round32_two_pow_mul_int (x : ℚ) (k : Int) (hk : -149 ≤ k) (hx : round32 x = x)
    (c : Int) (hc : |(c : ℚ) - x| < 1) :
    round32 ((2 : ℚ) ^ k * (c : ℚ)) = (2 : ℚ) ^ k * (c : ℚ) := by
  obtain ⟨m, j, e, hb⟩ := intPart_dyadic x hx c hc
  have e' : (2 : ℚ) ^ k * (c : ℚ) = (m : ℚ) * (2 : ℚ) ^ ((j : Int) + k) := by
    rw [e, zpow_add₀ (by norm_num), zpow_natCast]
    ring
  rw [e']
  exact round32_dyadic m _ hb (by omega)

theorem abs_ceil_sub_lt_one (x : ℚ) : |((⌈x⌉ : Int) : ℚ) - x| < 1 := by
  have h1 := Int.le_ceil x
  have h2 := Int.ceil_lt_add_one x
  rw [abs_lt]
  constructor <;> linarith

theorem abs_floor_sub_lt_one (x : ℚ) : |((⌊x⌋ : Int) : ℚ) - x| < 1 := by
  have h1 := Int.floor_le x
  have h2 := Int.lt_floor_add_one x
  rw [abs_lt]
  constructor <;> linarith

theorem float32Normal_quotient (x s : ℚ) (hs : s ≠ 0) (h : float32Normal (x / s)) :
    x = 0 ∨ (2 : ℚ) ^ (-126 : Int) ≤ |x / s| := by
  rcases h.1 with h0 | h1
  · left
    rcases div_eq_zero_iff.mp h0 with h | h
    · exact h
    · exact absurd h hs
  · right
    have : (2 : ℚ) ^ (-126 : Int) = 1 / 85070591730234615865843651857942052864 := by norm_num
    rw [this]
    exact h1

theorem halved_nonneg (deluxe : Bool) (n : Int) (h : 0 ≤ n) :
    (0 : Int) ≤ (if deluxe then n >>> 1 else n) := by
  split_ifs
  · obtain ⟨m, rfl⟩ := Int.eq_ofNat_of_zero_le h
    have e : (m : Int) >>> (1 : Int) = ((m >>> 1 : Nat) : Int) := Int.shiftRight_coe_nat m 1
    rw [e]
    exact Int.ofNat_nonneg _
  · exact h

/-- The rounding error of a `float` operation whose result is not below `2^-126`: relative
`2^-24`. -/
theorem round32_error_normal (x : ℚ) (h : (2 : ℚ) ^ (-126 : Int) ≤ |x|) :
    |round32 x - x| ≤ |x| / 16777216 := by
  refine le_trans (round32_error_ulp x) ?_
  have h1 := two_pow_exponent_le_abs x h
  unfold float32Ulp
  have : (2 : ℚ) ^ (float32Exponent x - 23) / 2 = (2 : ℚ) ^ float32Exponent x / 16777216 := by
    rw [zpow_sub₀ (by norm_num)]
    norm_num
    ring
  rw [this]
  exact div_le_div_of_nonneg_right h1 (by norm_num)

/-- The error of `offset * (1.0f / side) + input * (1.0f / side)` in `float` arithmetic
against `(offset + input) / side`, for an offset below the side count: four roundings of
relative error `2^-24`, and `2^-150` each where a result is below `2^-126`. -/
theorem fatPack_error (W x : Int) (u : ℚ) (hW : 0 < W) (hW2 : W < 16777216) (hx0 : 0 ≤ x)
    (hxW : x < W) :
    |round32 (round32 (round32 (x : ℚ) * round32 (1 / round32 (W : ℚ))) +
        round32 (u * round32 (1 / round32 (W : ℚ)))) - ((x : ℚ) + u) / (W : ℚ)| ≤
      ((x : ℚ) + |u|) / (W : ℚ) * (7 / 33554432) + 4 * (1 / 2 ^ 150) := by
  have hWr : round32 (W : ℚ) = W := round32_intCast W (abs_lt.mpr ⟨by omega, by omega⟩)
  have hxr : round32 (x : ℚ) = x := round32_intCast x (abs_lt.mpr ⟨by omega, by omega⟩)
  rw [hWr, hxr]
  have hW1 : (1 : ℚ) ≤ (W : ℚ) := by exact_mod_cast hW
  have hWlt : (W : ℚ) < 16777216 := by exact_mod_cast hW2
  have hWpos : (0 : ℚ) < (W : ℚ) := by linarith
  have hxq0 : (0 : ℚ) ≤ (x : ℚ) := by exact_mod_cast hx0
  -- the reciprocal
  have hinvpos : (0 : ℚ) < 1 / (W : ℚ) := by positivity
  have hinvn : (2 : ℚ) ^ (-126 : Int) ≤ |1 / (W : ℚ)| := by
    rw [abs_of_pos hinvpos]
    have h1 : (2 : ℚ) ^ (-126 : Int) ≤ 1 / 16777216 := by norm_num
    exact le_trans h1 (one_div_le_one_div_of_le hWpos hWlt.le)
  have hinv := round32_error_normal (1 / (W : ℚ)) hinvn
  rw [abs_of_pos hinvpos] at hinv
  generalize round32 (1 / (W : ℚ)) = inv at hinv ⊢
  -- `inv = (1 + d) / W` with `|d| ≤ 2^-24`
  obtain ⟨d, hd⟩ : ∃ d : ℚ, d = inv * (W : ℚ) - 1 := ⟨_, rfl⟩
  have hinvd : inv = (1 + d) / (W : ℚ) := by
    rw [hd]; field_simp
  have hdb : |d| ≤ 1 / 16777216 := by
    have e : d = (inv - 1 / (W : ℚ)) * (W : ℚ) := by
      rw [hd]; field_simp
    rw [e, abs_mul, abs_of_pos hWpos]
    calc |inv - 1 / (W : ℚ)| * (W : ℚ) ≤ 1 / (W : ℚ) / 16777216 * (W : ℚ) :=
          mul_le_mul_of_nonneg_right hinv hWpos.le
      _ = 1 / 16777216 := by field_simp
  obtain ⟨hd1, hd2⟩ := abs_le.mp hdb
  -- the two exact products
  obtain ⟨X, hX⟩ : ∃ X : ℚ, X = (x : ℚ) / (W : ℚ) := ⟨_, rfl⟩
  obtain ⟨U, hU⟩ : ∃ U : ℚ, U = u / (W : ℚ) := ⟨_, rfl⟩
  obtain ⟨A, hA⟩ : ∃ A : ℚ, A = |u| / (W : ℚ) := ⟨_, rfl⟩
  have hX0 : 0 ≤ X := by rw [hX]; positivity
  have hA0 : 0 ≤ A := by rw [hA]; positivity
  have hUA : |U| = A := by rw [hU, hA, abs_div, abs_of_pos hWpos]
  obtain ⟨hUA1, hUA2⟩ := abs_le.mp hUA.le
  have hE : ((x : ℚ) + u) / (W : ℚ) = X + U := by rw [hX, hU, add_div]
  have hM : ((x : ℚ) + |u|) / (W : ℚ) = X + A := by rw [hX, hA, add_div]
  have ha : (x : ℚ) * inv = X + X * d := by
    rw [hinvd, hX]; field_simp; ring
  have hb : u * inv = U + U * d := by
    rw [hinvd, hU]; field_simp; ring
  have hXd1 : X * d ≤ X * (1 / 16777216) := mul_le_mul_of_nonneg_left hd2 hX0
  have hXd2 : X * (-(1 / 16777216)) ≤ X * d := mul_le_mul_of_nonneg_left hd1 hX0
  have hUd : |U * d| ≤ A * (1 / 16777216) := by
    rw [abs_mul, hUA]
    exact mul_le_mul_of_nonneg_left hdb hA0
  obtain ⟨hUd1, hUd2⟩ := abs_le.mp hUd
  rw [hE, hM, ha, hb]
  generalize X * d = Xd at hXd1 hXd2 ⊢
  generalize U * d = Ud at hUd1 hUd2 ⊢
  have ha0 : 0 ≤ X + Xd := by linarith
  have hB : |U + Ud| ≤ A + A * (1 / 16777216) := by
    rw [abs_le]
    constructor <;> linarith
  have e1 := round32_error (X + Xd)
  have e2 := round32_error (U + Ud)
  rw [abs_of_nonneg ha0] at e1
  generalize |U + Ud| = B at hB e2
  generalize round32 (X + Xd) = p1 at e1 ⊢
  generalize round32 (U + Ud) = p2 at e2 ⊢
  obtain ⟨e11, e12⟩ := abs_le.mp e1
  obtain ⟨e21, e22⟩ := abs_le.mp e2
  have hs : |p1 + p2| ≤ (X + Xd) + ((X + Xd) / 16777216 + 1 / 2 ^ 150) +
      ((A + A * (1 / 16777216)) + (B / 16777216 + 1 / 2 ^ 150)) := by
    rw [abs_le]
    constructor <;> linarith
  have e3 := round32_error (p1 + p2)
  generalize round32 (p1 + p2) = r at e3 ⊢
  obtain ⟨e31, e32⟩ := abs_le.mp e3
  have heta0 : (0 : ℚ) ≤ 1 / 2 ^ 150 := by positivity
  generalize (1 : ℚ) / 2 ^ 150 = η at *
  generalize |p1 + p2| = t at hs e31 e32
  rw [abs_le]
  constructor <;> linarith

/-- C23 (counterexample): in a 4 x 3 atlas the coordinate `v = 1` of lightmap 4 (row 1, whose
cell ends at 2/3) is not mapped to `(1 + 1) / 3`: `1.0f / 3` rounds up to 11184811 / 33554432,
and `FatPackV` returns twice that, 11184811 / 16777216, which lies above 2/3. -/
theorem FatPackV_rounding_counterexample :
    FatPackV false ⟨(4, 3), (512, 384), 1⟩ 1 4 = 11184811 / 16777216 ∧
    ((((4 : Int) / (4 : Int) : Int) : ℚ) + 1) / ((3 : Int) : ℚ) = 2 / 3 ∧
    (2 / 3 : ℚ) < 11184811 / 16777216 := by
  refine ⟨?_, by norm_num, by norm_num⟩
  have h3 : round32 (((3 : Int) : ℚ)) = 3 := by
    simpa using round32_intCast 3 (by decide)
  have h1 : round32 (((1 : Int) : ℚ)) = 1 := by
    simpa using round32_intCast 1 (by decide)
  have hinv : round32 ((1 : ℚ) / 3) = 11184811 / 33554432 := by
    have he : float32Exponent ((1 : ℚ) / 3) = -2 := by
      rw [float32Exponent_eq _ (-2) (by rw [abs_of_pos (by norm_num)]; norm_num)
        (by rw [abs_of_pos (by norm_num)]; norm_num)]
      rfl
    rw [round32_eq_of _ (-2) 11184811 he (by
      rw [abs_lt]
      constructor <;> norm_num)]
    norm_num
  have hp : round32 ((11184811 : ℚ) / 33554432) = 11184811 / 33554432 := by
    have := round32_dyadic 11184811 (-25) (by decide) (by decide)
    norm_num at this ⊢
    exact this
  have hs : round32 ((11184811 : ℚ) / 33554432 + 11184811 / 33554432) =
      11184811 / 16777216 := by
    have := round32_dyadic 11184811 (-24) (by decide) (by decide)
    norm_num at this ⊢
    exact this
  have hy : Int.tdiv 4 4 = 1 := by decide
  unfold FatPackV
  rw [if_neg (by decide)]
  simp only [Bool.false_eq_true, if_false]
  rw [if_pos (by decide), hy, h3, h1, hinv, one_mul, hp, hs]

/-- C23 (amended): `FatPackU` and `FatPackV` return the input unchanged for a negative lightmap
number and when the atlas size they test is not positive.  Otherwise, for side counts `W` and
`H` from 1 to `2^24 - 1` and `n'` the lightmap number (halved under deluxe mapping),
`FatPackU(u, n)` is `((n' mod W) + u) / W` and, for `n' < W * H`, `FatPackV(v, n)` is
`((n' div W) + v) / H` up to the rounding of the `float` operations: for a coordinate of
magnitude up to `2^100` the error is at most `2^-22` times `(offset + |u|) / side` plus
`2^-148`, and for a coordinate in `[0, 1]` it is at most `2^-22`, so that the result lies in the
atlas cell of the lightmap or at most `2^-22` outside it. -/
theorem FatPack_atlas_cell (worldDeluxeMapping : Bool) (tr : lightmapAtlas_t) (u v : ℚ)
    (n : Int) :
    (n < 0 → FatPackU worldDeluxeMapping tr u n = u ∧ FatPackV worldDeluxeMapping tr v n = v) ∧
    (tr.lightmapAtlasSize.1 ≤ 0 → FatPackU worldDeluxeMapping tr u n = u) ∧
    (tr.lightmapAtlasSize.2 ≤ 0 → FatPackV worldDeluxeMapping tr v n = v) ∧
    (0 ≤ n → 0 < tr.lightmapsPerAtlasSide.1 → tr.lightmapsPerAtlasSide.1 < 16777216 →
      0 < tr.lightmapsPerAtlasSide.2 → tr.lightmapsPerAtlasSide.2 < 16777216 →
      (0 < tr.lightmapAtlasSize.1 →
        (|u| ≤ 1267650600228229401496703205376 →
          |FatPackU worldDeluxeMapping tr u n -
              ((((if worldDeluxeMapping then n >>> 1 else n) % tr.lightmapsPerAtlasSide.1 :
                Int) : ℚ) + u) / (tr.lightmapsPerAtlasSide.1 : ℚ)| ≤
            ((((if worldDeluxeMapping then n >>> 1 else n) % tr.lightmapsPerAtlasSide.1 :
              Int) : ℚ) + |u|) / (tr.lightmapsPerAtlasSide.1 : ℚ) / 4194304 + 1 / 2 ^ 148) ∧
        (0 ≤ u → u ≤ 1 →
          |FatPackU worldDeluxeMapping tr u n -
              ((((if worldDeluxeMapping then n >>> 1 else n) % tr.lightmapsPerAtlasSide.1 :
                Int) : ℚ) + u) / (tr.lightmapsPerAtlasSide.1 : ℚ)| ≤ 1 / 4194304 ∧
          (((if worldDeluxeMapping then n >>> 1 else n) % tr.lightmapsPerAtlasSide.1 : Int) : ℚ)
              / (tr.lightmapsPerAtlasSide.1 : ℚ) - 1 / 4194304 ≤
            FatPackU worldDeluxeMapping tr u n ∧
          FatPackU worldDeluxeMapping tr u n ≤
            ((((if worldDeluxeMapping then n >>> 1 else n) % tr.lightmapsPerAtlasSide.1 :
              Int) : ℚ) + 1) / (tr.lightmapsPerAtlasSide.1 : ℚ) + 1 / 4194304)) ∧
      (0 < tr.lightmapAtlasSize.2 →
        (if worldDeluxeMapping then n >>> 1 else n) <
          tr.lightmapsPerAtlasSide.1 * tr.lightmapsPerAtlasSide.2 →
        (|v| ≤ 1267650600228229401496703205376 →
          |FatPackV worldDeluxeMapping tr v n -
              ((((if worldDeluxeMapping then n >>> 1 else n) / tr.lightmapsPerAtlasSide.1 :
                Int) : ℚ) + v) / (tr.lightmapsPerAtlasSide.2 : ℚ)| ≤
            ((((if worldDeluxeMapping then n >>> 1 else n) / tr.lightmapsPerAtlasSide.1 :
              Int) : ℚ) + |v|) / (tr.lightmapsPerAtlasSide.2 : ℚ) / 4194304 + 1 / 2 ^ 148) ∧
        (0 ≤ v → v ≤ 1 →
          |FatPackV worldDeluxeMapping tr v n -
              ((((if worldDeluxeMapping then n >>> 1 else n) / tr.lightmapsPerAtlasSide.1 :
                Int) : ℚ) + v) / (tr.lightmapsPerAtlasSide.2 : ℚ)| ≤ 1 / 4194304 ∧
          (((if worldDeluxeMapping then n >>> 1 else n) / tr.lightmapsPerAtlasSide.1 : Int) : ℚ)
              / (tr.lightmapsPerAtlasSide.2 : ℚ) - 1 / 4194304 ≤
            FatPackV worldDeluxeMapping tr v n ∧
          FatPackV worldDeluxeMapping tr v n ≤
            ((((if worldDeluxeMapping then n >>> 1 else n) / tr.lightmapsPerAtlasSide.1 :
              Int) : ℚ) + 1) / (tr.lightmapsPerAtlasSide.2 : ℚ) + 1 / 4194304))) := by
  have key : ∀ (W x : Int) (w r : ℚ), 0 < W → 0 ≤ x → x < W →
      |r - ((x : ℚ) + w) / (W : ℚ)| ≤
        ((x : ℚ) + |w|) / (W : ℚ) * (7 / 33554432) + 4 * (1 / 2 ^ 150) →
      |r - ((x : ℚ) + w) / (W : ℚ)| ≤ ((x : ℚ) + |w|) / (W : ℚ) / 4194304 + 1 / 2 ^ 148 ∧
      (0 ≤ w → w ≤ 1 →
        |r - ((x : ℚ) + w) / (W : ℚ)| ≤ 1 / 4194304 ∧
        (x : ℚ) / (W : ℚ) - 1 / 4194304 ≤ r ∧
        r ≤ ((x : ℚ) + 1) / (W : ℚ) + 1 / 4194304) := by
    intro W x w r hW hx0 hxW herr
    have hWq : (0 : ℚ) < (W : ℚ) := by exact_mod_cast hW
    have hxq0 : (0 : ℚ) ≤ (x : ℚ) := by exact_mod_cast hx0
    have hxq1 : (x : ℚ) + 1 ≤ (W : ℚ) := by exact_mod_cast hxW
    have hM0 : 0 ≤ ((x : ℚ) + |w|) / (W : ℚ) := by positivity
    have h150 : (4 : ℚ) * (1 / 2 ^ 150) = 1 / 2 ^ 148 := by norm_num
    have h148 : (1 : ℚ) / 2 ^ 148 ≤ 1 / 33554432 := by norm_num
    refine ⟨by linarith, fun hw0 hw1 => ?_⟩
    have hM1 : ((x : ℚ) + |w|) / (W : ℚ) ≤ 1 := by
      rw [abs_of_nonneg hw0, div_le_one hWq]
      linarith
    have hb : |r - ((x : ℚ) + w) / (W : ℚ)| ≤ 1 / 4194304 := by linarith
    have h1 : (x : ℚ) / (W : ℚ) ≤ ((x : ℚ) + w) / (W : ℚ) :=
      div_le_div_of_nonneg_right (by linarith) hWq.le
    have h2 : ((x : ℚ) + w) / (W : ℚ) ≤ ((x : ℚ) + 1) / (W : ℚ) :=
      div_le_div_of_nonneg_right (by linarith) hWq.le
    obtain ⟨b1, b2⟩ := abs_le.mp hb
    exact ⟨hb, by linarith, by linarith⟩
  refine ⟨fun hn => ?_, fun ha => ?_, fun ha => ?_,
    fun hn hW hW2 hH hH2 => ⟨fun ha => ?_, fun ha hcell => ?_⟩⟩
  · unfold FatPackU FatPackV
    rw [if_pos hn, if_pos hn]
    exact ⟨rfl, rfl⟩
  · unfold FatPackU
    dsimp only
    split_ifs <;> first | rfl | omega
  · unfold FatPackV
    dsimp only
    split_ifs <;> first | rfl | omega
  · have hn' := halved_nonneg worldDeluxeMapping n hn
    generalize hgen : (if worldDeluxeMapping then n >>> 1 else n) = n' at hn'
    have hmod0 : 0 ≤ n' % tr.lightmapsPerAtlasSide.1 := Int.emod_nonneg _ (by omega)
    have hmod1 : n' % tr.lightmapsPerAtlasSide.1 < tr.lightmapsPerAtlasSide.1 :=
      Int.emod_lt_of_pos _ hW
    have e : FatPackU worldDeluxeMapping tr u n =
        round32 (round32 (round32 ((n' % tr.lightmapsPerAtlasSide.1 : Int) : ℚ) *
            round32 (1 / round32 (tr.lightmapsPerAtlasSide.1 : ℚ))) +
          round32 (u * round32 (1 / round32 (tr.lightmapsPerAtlasSide.1 : ℚ)))) := by
      unfold FatPackU
      rw [if_neg (by omega)]
      dsimp only
      rw [hgen, if_pos ha, Int.tmod_eq_emod hn' hW.le]
    have herr := fatPack_error tr.lightmapsPerAtlasSide.1 (n' % tr.lightmapsPerAtlasSide.1) u
      hW hW2 hmod0 hmod1
    rw [← e] at herr
    obtain ⟨k1, k2⟩ := key _ _ _ _ hW hmod0 hmod1 herr
    exact ⟨fun _ => k1, k2⟩
  · have hn' := halved_nonneg worldDeluxeMapping n hn
    generalize hgen : (if worldDeluxeMapping then n >>> 1 else n) = n' at hn' hcell
    have hdiv0 : 0 ≤ n' / tr.lightmapsPerAtlasSide.1 := Int.ediv_nonneg hn' hW.le
    have hrow : n' / tr.lightmapsPerAtlasSide.1 < tr.lightmapsPerAtlasSide.2 :=
      Int.ediv_lt_of_lt_mul hW (by rw [mul_comm]; exact hcell)
    have e : FatPackV worldDeluxeMapping tr v n =
        round32 (round32 (round32 ((n' / tr.lightmapsPerAtlasSide.1 : Int) : ℚ) *
            round32 (1 / round32 (tr.lightmapsPerAtlasSide.2 : ℚ))) +
          round32 (v * round32 (1 / round32 (tr.lightmapsPerAtlasSide.2 : ℚ)))) := by
      unfold FatPackV
      rw [if_neg (by omega)]
      dsimp only
      rw [hgen, if_pos ha, Int.tdiv_eq_ediv hn' hW.le]
    have herr := fatPack_error tr.lightmapsPerAtlasSide.2 (n' / tr.lightmapsPerAtlasSide.1) v
      hH hH2 hdiv0 hrow
    rw [← e] at herr
    obtain ⟨k1, k2⟩ := key _ _ _ _ hH hdiv0 hrow herr
    exact ⟨fun _ => k1, k2⟩

theorem FatPack_atlas_cell_witness :
    ((0 : Int) ≤ 10 ∧ (0 : Int) < 4 ∧ (4 : Int) < 16777216 ∧ (0 : Int) < 3 ∧
      (3 : Int) < 16777216 ∧ (0 : Int) < 512 ∧ (0 : Int) < 384 ∧ (0 : ℚ) ≤ 1 / 2 ∧
      (1 / 2 : ℚ) ≤ 1 ∧ (if false then (10 : Int) >>> 1 else 10) < 4 * 3) ∧
    |FatPackU false ⟨(4, 3), (512, 384), 1⟩ (1 / 2) 10 -
      ((((if false then (10 : Int) >>> 1 else 10) % (4 : Int) : Int) : ℚ) + 1 / 2) /
        ((4 : Int) : ℚ)| ≤ 1 / 4194304 ∧
    |FatPackV false ⟨(4, 3), (512, 384), 1⟩ (1 / 2) 10 -
      ((((if false then (10 : Int) >>> 1 else 10) / (4 : Int) : Int) : ℚ) + 1 / 2) /
        ((3 : Int) : ℚ)| ≤ 1 / 4194304 ∧
    FatPackU false ⟨(4, 3), (512, 384), 1⟩ (1 / 2) (-1) = 1 / 2 :=
  ⟨⟨by decide, by decide, by decide, by decide, by decide, by decide, by decide, by norm_num,
      by norm_num, by decide⟩,
    ((((FatPack_atlas_cell false ⟨(4, 3), (512, 384), 1⟩ (1 / 2) (1 / 2) 10).2.2.2 (by decide)
      (by decide) (by decide) (by decide) (by decide)).1 (by decide)).2 (by norm_num)
      (by norm_num)).1,
    ((((FatPack_atlas_cell false ⟨(4, 3), (512, 384), 1⟩ (1 / 2) (1 / 2) 10).2.2.2 (by decide)
      (by decide) (by decide) (by decide) (by decide)).2 (by decide) (by decide)).2
      (by norm_num) (by norm_num)).1,
    ((FatPack_atlas_cell false ⟨(4, 3), (512, 384), 1⟩ (1 / 2) (1 / 2) (-1)).1 (by decide)).1⟩

/-! ## Dynamic-light passes -/

theorem toU32_shl32_one (l : Nat) (h : l < 32) : toU32 (shl32 1 l) = 2 ^ l := by
  interval_cases l <;> decide

theorem dlight_bit_test (n l : Nat) (h : l < 32) :
    (n &&& toU32 (shl32 1 l) != 0) = n.testBit l := by
  rw [toU32_shl32_one l h, Nat.and_two_pow]
  cases hb : n.testBit l
  · simp
  · simp

theorem ForwardDlight_eq (dlightBits num_dlights : Int) (h : num_dlights ≤ 32) :
    ForwardDlight dlightBits num_dlights =
      (List.range num_dlights.toNat).filter fun (l : Nat) => (toU32 dlightBits).testBit l := by
  unfold ForwardDlight
  split_ifs with h0
  · rw [h0]; rfl
  · apply List.filter_congr
    intro l hl
    exact dlight_bit_test _ l (by have := List.mem_range.mp hl; omega)

/-- C28 (counterexample): a surface without vertices whose `dlightBits` has bit 0 set, with one
dynamic light, in normal mode and with no flag set: one light index has its bit set, but
`RB_StageIteratorGeneric` returns at once and adds no dynamic-light draw item. -/
theorem RB_StageIteratorGeneric_dlights_counterexample :
    RB_StageIteratorGeneric_dlights 8192 4 2 0 6 false false 2 0 1 1 = [] ∧
    ((List.range (1 : Int).toNat).filter fun (l : Nat) => (toU32 1).testBit l) = [0] := by
  decide

/-- C28 (amended): in normal mode (neither depth fill nor shadow map), for a surface with at
least one vertex and one index and with at most 32 dynamic lights, `RB_StageIteratorGeneric`
adds no dynamic-light draw item when the shader's `surfaceFlags` contain `SURF_NODLIGHT` or
`SURF_SKY` or its sort is above opaque, and otherwise adds one for exactly the light indices
`l < num_dlights` whose bit `l` is set in `dlightBits`. -/
theorem RB_StageIteratorGeneric_dlights_count (SURF_NODLIGHT SURF_SKY : Nat) (SS_OPAQUE : ℚ)
    (numVertexes numIndexes : Int) (depthFill shadowMap : Bool) (sort : ℚ)
    (surfaceFlags dlightBits num_dlights : Int)
    (hverts : numVertexes ≠ 0) (hindexes : numIndexes ≠ 0) (hdepth : depthFill = false)
    (hshadow : shadowMap = false) (hlights : num_dlights ≤ 32) :
    ((toU32 surfaceFlags &&& SURF_NODLIGHT ≠ 0 ∨ toU32 surfaceFlags &&& SURF_SKY ≠ 0 ∨
        SS_OPAQUE < sort) →
      RB_StageIteratorGeneric_dlights SURF_NODLIGHT SURF_SKY SS_OPAQUE numVertexes numIndexes
        depthFill shadowMap sort surfaceFlags dlightBits num_dlights = []) ∧
    (¬ (toU32 surfaceFlags &&& SURF_NODLIGHT ≠ 0 ∨ toU32 surfaceFlags &&& SURF_SKY ≠ 0 ∨
        SS_OPAQUE < sort) →
      RB_StageIteratorGeneric_dlights SURF_NODLIGHT SURF_SKY SS_OPAQUE numVertexes numIndexes
          depthFill shadowMap sort surfaceFlags dlightBits num_dlights =
        (List.range num_dlights.toNat).filter fun (l : Nat) =>
          (toU32 dlightBits).testBit l) := by
  subst hdepth hshadow
  have hflags : toU32 surfaceFlags &&& (SURF_NODLIGHT ||| SURF_SKY) ≠ 0 ↔
      (toU32 surfaceFlags &&& SURF_NODLIGHT ≠ 0 ∨ toU32 surfaceFlags &&& SURF_SKY ≠ 0) := by
    rw [Nat.and_or_distrib_left]
    constructor
    · intro h
      by_contra hc
      push_neg at hc
      rw [hc.1, hc.2] at h
      exact h rfl
    · intro h hz
      have h1 := nat_le_lor_left (toU32 surfaceFlags &&& SURF_NODLIGHT)
        (toU32 surfaceFlags &&& SURF_SKY)
      have h2 := nat_le_lor_right (toU32 surfaceFlags &&& SURF_NODLIGHT)
        (toU32 surfaceFlags &&& SURF_SKY)
      rcases h with h | h <;> omega
  unfold RB_StageIteratorGeneric_dlights
  rw [if_neg (by simp [hverts, hindexes])]
  simp only [Bool.false_eq_true, if_false]
  constructor
  · intro h
    rw [if_neg]
    rintro ⟨_, hs, hf⟩
    rcases h with h | h | h
    · exact hf (hflags.mpr (Or.inl h))
    · exact hf (hflags.mpr (Or.inr h))
    · exact absurd hs (not_le.mpr h)
  · intro h
    push_neg at h
    obtain ⟨h1, h2, h3⟩ := h
    by_cases hb : dlightBits = 0
    · rw [if_neg (fun hc => hc.1 hb), hb]
      symm
      rw [List.filter_eq_nil_iff]
      intro l _
      have : toU32 0 = 0 := by decide
      rw [this]
      simp
    · rw [if_pos ⟨hb, h3, fun hc => by
        rcases hflags.mp hc with hc | hc
        · exact hc h1
        · exact hc h2⟩]
      exact ForwardDlight_eq dlightBits num_dlights hlights

theorem RB_StageIteratorGeneric_dlights_count_witness :
    ((3 : Int) ≠ 0 ∧ (6 : Int) ≠ 0 ∧ (4 : Int) ≤ 32) ∧
    RB_StageIteratorGeneric_dlights 8192 4 2 3 6 false false 2 0 (-2147483643) 4 = [0, 2] ∧
    RB_StageIteratorGeneric_dlights 8192 4 2 3 6 false false 2 0 (-2147483643) 4 =
      (List.range (4 : Int).toNat).filter fun (l : Nat) => (toU32 (-2147483643)).testBit l :=
  ⟨by decide, by decide,
    (RB_StageIteratorGeneric_dlights_count 8192 4 2 3 6 false false 2 0 (-2147483643) 4
      (by decide) (by decide) rfl rfl (by decide)).2 (by decide)⟩

/-! ## Texture coordinate modifiers -/

/-- C29: a bundle with one modifier, of type `TMOD_NONE`, and `TR_MAX_TEXMODS = 4`: the first
`switch` reads `texMods[0]` and sets `tm = TR_MAX_TEXMODS`, then the second `switch` reads
`texMods[4]`, an index that is neither below `numTexMods = 1` nor inside the array. -/
theorem ComputeTexMods_reads_past_numTexMods :
    (ComputeTexMods 4 exampleIdentityMatrix 1
        (fun _ => ⟨texMod_t.TMOD_NONE, exampleIdentityMatrix, (0, 0)⟩)).map
      (fun r => r.map fun st => st.reads) = some (.ok [0, 4]) ∧
    ¬ ((4 : Int) < 1) ∧ (1 : Int) ≤ 4 := by
  decide

/-- C25: the modifiers `[scroll by (2, 0), NONE]` with `TR_MAX_TEXMODS = 4`, where the memory
at `texMods[4]` holds a scroll modifier.  The modifier list `[scroll by (2, 0)]` alone gives
the offset (2, 0); with the `NONE` modifier appended the offset is (4, 0): after `NONE` the
second `switch` reads `texMods[4]`, finds a matrix type and composes the scroll matrix once
more. -/
theorem ComputeTexMods_none_composes_again :
    (ComputeTexMods 4 exampleIdentityMatrix 1 exampleTexMods).map
      (fun r => r.map fun st => (st.outMatrix, st.outOffTurb)) =
        some (.ok ((1, 0, 0, 1), (2, 0, 0, 0))) ∧
    (ComputeTexMods 4 exampleIdentityMatrix 2 exampleTexMods).map
      (fun r => r.map fun st => (st.outMatrix, st.outOffTurb)) =
        some (.ok ((1, 0, 0, 1), (4, 0, 0, 0))) ∧
    (exampleTexMods 0).type = texMod_t.TMOD_SCROLL ∧
    (exampleTexMods 1).type = texMod_t.TMOD_NONE :=
  ⟨by decide, by decide, by decide, by decide⟩

/-! ## LOD error fixing -/

theorem foldl_keeps {α β : Type} (P : α → Prop) (f : α → β → α)
    (h : ∀ s x, P s → P (f s x)) : ∀ (l : List β) (s : α), P s → P (l.foldl f s) := by
  intro l
  induction l with
  | nil => intro s hs; exact hs
  | cons x rest ih => intro s hs; exact ih _ (h s x hs)

theorem fixAtPoint_keeps {F : Type} [Inhabited F] (ft : floatTests_t F) (v1 : F × F × F)
    (lodError : F) (P : srfGridMesh_t F × Bool → Prop)
    (hP : ∀ s t : srfGridMesh_t F × Bool, t.1.surfaceType = s.1.surfaceType →
      t.1.lodFixed = s.1.lodFixed → P s → P t)
    (st : srfGridMesh_t F × Bool) (h : P st) : P (fixAtPoint ft v1 lodError st) := by
  unfold fixAtPoint
  refine foldl_keeps P _ ?_ _ _ (foldl_keeps P _ ?_ _ _ h)
  · intro s m hs
    dsimp only
    split_ifs
    all_goals
      first
        | exact hs
        | refine foldl_keeps P _ ?_ _ _ hs
          intro s l hs
          beta_reduce
          split_ifs
          · exact hs
          · exact hP s _ rfl rfl hs
  · intro s m hs
    dsimp only
    split_ifs
    all_goals
      first
        | exact hs
        | refine foldl_keeps P _ ?_ _ _ hs
          intro s l hs
          beta_reduce
          split_ifs
          · exact hs
          · exact hP s _ rfl rfl hs

theorem fixSharedEdges_keeps {F : Type} [Inhabited F] (ft : floatTests_t F)
    (grid1 grid2 : srfGridMesh_t F) : keepsMarks grid2 (fixSharedEdges ft grid1 grid2) := by
  have hP : ∀ s t : srfGridMesh_t F × Bool, t.1.surfaceType = s.1.surfaceType →
      t.1.lodFixed = s.1.lodFixed → keepsMarks grid2 s → keepsMarks grid2 t :=
    fun s t h1 h2 h => ⟨h1.trans h.1, h2.trans h.2⟩
  have h0 : keepsMarks grid2 (grid2, false) := ⟨rfl, rfl⟩
  unfold fixSharedEdges
  refine foldl_keeps (keepsMarks grid2) _ ?_ _ _ (foldl_keeps (keepsMarks grid2) _ ?_ _ _ h0)
  · intro s n hs
    dsimp only
    split_ifs
    all_goals
      first
        | exact hs
        | exact foldl_keeps (keepsMarks grid2) _
            (fun s k hs => fixAtPoint_keeps ft _ _ (keepsMarks grid2) hP s hs) _ _ hs
  · intro s n hs
    dsimp only
    split_ifs
    all_goals
      first
        | exact hs
        | exact foldl_keeps (keepsMarks grid2) _
            (fun s k hs => fixAtPoint_keeps ft _ _ (keepsMarks grid2) hP s hs) _ _ hs

theorem unfixedCount_set {F : Type} [Inhabited F] :
    ∀ (surfaces : List (srfGridMesh_t F)) (j : Nat) (g : srfGridMesh_t F),
      j < surfaces.length →
      unfixedCount (surfaces.set j g) + unfixedGrid (surfaceGrid surfaces j) =
        unfixedCount surfaces + unfixedGrid g := by
  intro surfaces
  induction surfaces with
  | nil => intro j g hj; simp at hj
  | cons x rest ih =>
    intro j g hj
    cases j with
    | zero =>
      simp only [List.set_cons_zero, unfixedCount, List.map_cons, List.sum_cons, surfaceGrid,
        List.getD_cons_zero]
      omega
    | succ j =>
      have := ih j g (by simpa using hj)
      simp only [List.set_cons_succ, unfixedCount, List.map_cons, List.sum_cons, surfaceGrid,
        List.getD_cons_succ] at this ⊢
      omega

theorem unfixedCount_le_gridCount {F : Type} (surfaces : List (srfGridMesh_t F)) :
    unfixedCount surfaces ≤ gridCount surfaces := by
  induction surfaces with
  | nil => simp [unfixedCount, gridCount]
  | cons x rest ih =>
    simp only [unfixedCount, gridCount, List.map_cons, List.sum_cons, List.filter_cons]
      at ih ⊢
    by_cases h : x.surfaceType = surfaceType_t.SF_GRID
    · have h1 : unfixedGrid x ≤ 1 := by unfold unfixedGrid; split_ifs <;> omega
      simp only [h, beq_self_eq_true, if_true, List.length_cons]
      omega
    · have h1 : unfixedGrid x = 0 := by
        unfold unfixedGrid
        rw [if_neg (fun e => h e.1)]
      have h2 : (x.surfaceType == surfaceType_t.SF_GRID) = false := by simpa using h
      simp only [h1, h2, Bool.false_eq_true, if_false]
      omega

theorem lodFixedFrom_refl {F : Type} [Inhabited F] (surfaces : List (srfGridMesh_t F)) :
    lodFixedFrom surfaces surfaces [] :=
  ⟨rfl, by simp, by simp, by simp, fun _ _ => rfl⟩

theorem lodFixedFrom_trans {F : Type} [Inhabited F] (a b c : List (srfGridMesh_t F))
    (n m : List (Nat × Int)) (h1 : lodFixedFrom a b n) (h2 : lodFixedFrom b c m) :
    lodFixedFrom a c (n ++ m) := by
  obtain ⟨l1, n1, c1, d1, k1⟩ := h1
  obtain ⟨l2, n2, c2, d2, k2⟩ := h2
  refine ⟨l2.trans l1, ?_, ?_, ?_, ?_⟩
  · rw [List.length_append]
    omega
  · intro x hx
    rcases List.mem_append.mp hx with hx | hx
    · refine ⟨(c1 x hx).1, (c1 x hx).2.1, ?_⟩
      rw [k2 x.1 (c1 x hx).2.2]
      exact (c1 x hx).2.2
    · refine ⟨(c2 x hx).1, ?_, (c2 x hx).2.2⟩
      intro e
      apply (c2 x hx).2.1
      rw [k1 x.1 e]
      exact e
  · rw [List.map_append, List.nodup_append]
    refine ⟨d1, d2, ?_⟩
    intro i hi1 hi2
    obtain ⟨x, hx, ex⟩ := List.mem_map.mp hi1
    obtain ⟨y, hy, ey⟩ := List.mem_map.mp hi2
    apply (c2 y hy).2.1
    rw [ey, ← ex]
    exact (c1 x hx).2.2
  · intro i hi
    rw [k2 i (by rw [k1 i hi]; exact hi), k1 i hi]

/-- One grid that is not yet fixed is marked: the step before a recursive call. -/
theorem lodFixedFrom_mark {F : Type} [Inhabited F] (surfaces : List (srfGridMesh_t F))
    (j : Nat) (hj : j < surfaces.length) (g : srfGridMesh_t F)
    (h1 : (surfaceGrid surfaces j).surfaceType = surfaceType_t.SF_GRID)
    (h2 : (surfaceGrid surfaces j).lodFixed ≠ 2) (before : Int) (hb : before ≠ 2) :
    lodFixedFrom surfaces (surfaces.set j { g with lodFixed := 2 }) [(j, before)] := by
  refine ⟨by simp, ?_, ?_, by simp, ?_⟩
  · have := unfixedCount_set surfaces j { g with lodFixed := 2 } hj
    have e1 : unfixedGrid (surfaceGrid surfaces j) = 1 := by
      unfold unfixedGrid
      rw [if_pos ⟨h1, h2⟩]
    have e2 : unfixedGrid ({ g with lodFixed := 2 } : srfGridMesh_t F) = 0 := by
      unfold unfixedGrid
      simp
    simp only [List.length_singleton]
    omega
  · intro c hc
    rw [List.mem_singleton] at hc
    subst hc
    refine ⟨hb, h2, ?_⟩
    rw [surfaceGrid_set _ _ _ hj, if_pos rfl]
  · intro i hi
    rw [surfaceGrid_set _ _ _ hj]
    by_cases e : i = j
    · subst e
      exact absurd hi h2
    · rw [if_neg e]

/-- A grid that is not yet fixed gets new LOD errors only. -/
theorem lodFixedFrom_edit {F : Type} [Inhabited F] (surfaces : List (srfGridMesh_t F))
    (j : Nat) (hj : j < surfaces.length) (g : srfGridMesh_t F)
    (ht : g.surfaceType = (surfaceGrid surfaces j).surfaceType)
    (hf : g.lodFixed = (surfaceGrid surfaces j).lodFixed)
    (h2 : (surfaceGrid surfaces j).lodFixed ≠ 2) :
    lodFixedFrom surfaces (surfaces.set j g) [] := by
  refine ⟨by simp, ?_, by simp, by simp, ?_⟩
  · have := unfixedCount_set surfaces j g hj
    have e : unfixedGrid g = unfixedGrid (surfaceGrid surfaces j) := by
      unfold unfixedGrid
      rw [ht, hf]
    simp only [List.length_nil]
    omega
  · intro i hi
    rw [surfaceGrid_set _ _ _ hj]
    by_cases e : i = j
    · subst e
      exact absurd hi h2
    · rw [if_neg e]

/-- The `j` loop returns when the recursive call does on every surface list with fewer than
`bound` grids left to fix. -/
theorem fixSharedFrom_spec {F : Type} [Inhabited F] (ft : floatTests_t F)
    (recurse : List (srfGridMesh_t F) → Nat → Nat →
      Option (List (srfGridMesh_t F) × List (Nat × Int)))
    (start grid1num bound : Nat)
    (hrec : ∀ (S : List (srfGridMesh_t F)) (s g : Nat), unfixedCount S < bound →
      ∃ r, recurse S s g = some r ∧ lodFixedFrom S r.1 r.2) :
    ∀ (js : List Nat) (S : List (srfGridMesh_t F)) (calls : List (Nat × Int)),
      (∀ j ∈ js, j < S.length) → unfixedCount S ≤ bound →
      ∃ r more, fixSharedFrom ft recurse start grid1num js S calls = some r ∧
        r.2 = calls ++ more ∧ lodFixedFrom S r.1 more := by
  intro js
  induction js with
  | nil =>
    intro S calls _ _
    exact ⟨(S, calls), [], rfl, by simp, lodFixedFrom_refl S⟩
  | cons j rest ih =>
    intro S calls hjs hb
    have hj : j < S.length := hjs j (List.mem_cons_self _ _)
    have hrest : ∀ x ∈ rest, x < S.length := fun x hx => hjs x (List.mem_cons_of_mem _ hx)
    unfold fixSharedFrom
    dsimp only
    split_ifs with h1 h2 h3 h4 h5 h6 h7
    · exact ih S calls hrest hb
    · exact ih S calls hrest hb
    · exact ih S calls hrest hb
    · exact ih S calls hrest hb
    · exact ih S calls hrest hb
    · exact ih S calls hrest hb
    · -- the grid was touched: it is marked and the recursion follows
      have h1' : (surfaceGrid S j).surfaceType = surfaceType_t.SF_GRID := not_not.mp h1
      obtain ⟨kt, kf⟩ := fixSharedEdges_keeps ft (surfaceGrid S grid1num) (surfaceGrid S j)
      have hb2 : (fixSharedEdges ft (surfaceGrid S grid1num) (surfaceGrid S j)).1.lodFixed ≠ 2 := by
        rw [kf]; exact h2
      have hmark := lodFixedFrom_mark S j hj
        (fixSharedEdges ft (surfaceGrid S grid1num) (surfaceGrid S j)).1 h1' h2 _ hb2
      rw [List.set_set]
      obtain ⟨l1, n1, c1, d1, k1⟩ := hmark
      simp only [List.length_singleton] at n1
      obtain ⟨r1, e1, f1⟩ := hrec _ start j (n1.le.trans hb)
      rw [e1]
      dsimp only
      have hlen : r1.1.length = S.length := by
        rw [f1.1, l1]
      obtain ⟨r2, more, e2, a2, f2⟩ := ih r1.1 (calls ++ (j, _) :: r1.2)
        (fun x hx => by rw [hlen]; exact hrest x hx) (by have := f1.2.1; omega)
      refine ⟨r2,
        (j, (fixSharedEdges ft (surfaceGrid S grid1num) (surfaceGrid S j)).1.lodFixed) ::
          (r1.2 ++ more), e2, ?_, ?_⟩
      · rw [a2]
        simp
      · have t1 := lodFixedFrom_trans _ _ _ _ _ ⟨l1, by simpa using n1, c1, d1, k1⟩ f1
        have t2 := lodFixedFrom_trans _ _ _ _ _ t1 f2
        simpa using t2
    · -- the grid was not touched
      have hedit := lodFixedFrom_edit S j hj
        (fixSharedEdges ft (surfaceGrid S grid1num) (surfaceGrid S j)).1
        (fixSharedEdges_keeps ft _ _).1 (fixSharedEdges_keeps ft _ _).2 h2
      obtain ⟨r2, more, e2, a2, f2⟩ := ih _ calls
        (fun x hx => by rw [hedit.1]; exact hrest x hx) (by have := hedit.2.1; omega)
      refine ⟨r2, more, e2, a2, ?_⟩
      have t := lodFixedFrom_trans _ _ _ _ _ hedit f2
      simpa using t

/-- The recursion returns when its depth bound exceeds the number of grids left to fix. -/
theorem R_FixSharedVertexLodError_r_spec {F : Type} [Inhabited F] (ft : floatTests_t F) :
    ∀ (fuel : Nat) (S : List (srfGridMesh_t F)) (start grid1num : Nat),
      unfixedCount S < fuel →
      ∃ r, R_FixSharedVertexLodError_r ft fuel S start grid1num = some r ∧
        lodFixedFrom S r.1 r.2 := by
  intro fuel
  induction fuel with
  | zero => intro S start grid1num h; omega
  | succ fuel ih =>
    intro S start grid1num h
    unfold R_FixSharedVertexLodError_r
    obtain ⟨r, more, e, a, f⟩ := fixSharedFrom_spec ft (R_FixSharedVertexLodError_r ft fuel)
      start grid1num fuel ih (List.range' start (S.length - start)) S []
      (fun j hj => by
        rw [List.mem_range'_1] at hj
        omega)
      (by omega)
    refine ⟨r, e, ?_⟩
    rw [a]
    simpa using f

theorem fixSharedTop_spec {F : Type} [Inhabited F] (ft : floatTests_t F) (fuel : Nat) :
    ∀ (is : List Nat) (S : List (srfGridMesh_t F)) (calls : List (Nat × Int)),
      (∀ i ∈ is, i < S.length) → unfixedCount S ≤ fuel →
      ∃ r more, fixSharedTop ft fuel is S calls = some r ∧
        r.2 = calls ++ more ∧ lodFixedFrom S r.1 more := by
  intro is
  induction is with
  | nil =>
    intro S calls _ _
    exact ⟨(S, calls), [], rfl, by simp, lodFixedFrom_refl S⟩
  | cons i rest ih =>
    intro S calls his hb
    have hi : i < S.length := his i (List.mem_cons_self _ _)
    have hrest : ∀ x ∈ rest, x < S.length := fun x hx => his x (List.mem_cons_of_mem _ hx)
    unfold fixSharedTop
    dsimp only
    split_ifs with h1 h2
    · exact ih S calls hrest hb
    · exact ih S calls hrest hb
    · have h1' : (surfaceGrid S i).surfaceType = surfaceType_t.SF_GRID := not_not.mp h1
      have h2' : (surfaceGrid S i).lodFixed = 0 := not_not.mp h2
      have hn2 : (surfaceGrid S i).lodFixed ≠ 2 := by rw [h2']; decide
      obtain ⟨l1, n1, c1, d1, k1⟩ := lodFixedFrom_mark S i hi (surfaceGrid S i) h1' hn2
        (surfaceGrid S i).lodFixed hn2
      simp only [List.length_singleton] at n1
      obtain ⟨r1, e1, f1⟩ := R_FixSharedVertexLodError_r_spec ft fuel _ (i + 1) i (n1.le.trans hb)
      rw [e1]
      dsimp only
      have hlen : r1.1.length = S.length := by
        rw [f1.1, l1]
      obtain ⟨r2, more, e2, a2, f2⟩ := ih r1.1 (calls ++ (i, _) :: r1.2)
        (fun x hx => by rw [hlen]; exact hrest x hx) (by have := f1.2.1; omega)
      refine ⟨r2, (i, (surfaceGrid S i).lodFixed) :: (r1.2 ++ more), e2, ?_, ?_⟩
      · rw [a2]
        simp
      · have t1 := lodFixedFrom_trans _ _ _ _ _ ⟨l1, by simpa using n1, c1, d1, k1⟩ f1
        have t2 := lodFixedFrom_trans _ _ _ _ _ t1 f2
        simpa using t2

set_option maxRecDepth 100000 in
/-- Three grids in a chain: the call on surface 0 calls on surface 2, which calls on surface 1,
each on a grid whose `lodFixed` was 0, and the LOD error 6 of the shared point goes down the
chain.  With depth 2 the run does not finish, with depth 3, the number of grids, it does. -/
theorem R_FixSharedVertexLodError_chain :
    (R_FixSharedVertexLodError exampleFloatTests 3 exampleFixSurfaces).map
        (fun r => (r.2, r.1.map fun grid => (grid.lodFixed, grid.widthLodError))) =
      some ([(0, 0), (2, 0), (1, 0)], [(2, [5, 6, 7]), (2, [11, 6, 13]), (2, [1, 6, 3])]) ∧
    (R_FixSharedVertexLodError exampleFloatTests 2 exampleFixSurfaces).isSome = false ∧
    gridCount exampleFixSurfaces = 3 := by
  refine ⟨by decide, by decide, by decide⟩

/-- C30: `R_FixSharedVertexLodError` terminates.  With a recursion depth of the number of grid
surfaces (or more) the function returns; every call of `R_FixSharedVertexLodError_r` is made on
a grid whose `lodFixed` was not 2 before line 1279 resp. 1309 set it to 2, no grid is the
argument of two calls, so that there are at most as many calls as grid surfaces, and a grid
that has `lodFixed = 2` at the start is left as it is. -/
theorem R_FixSharedVertexLodError_terminates {F : Type} [Inhabited F] (ft : floatTests_t F)
    (surfaces : List (srfGridMesh_t F)) (fuel : Nat) (h : gridCount surfaces ≤ fuel) :
    ∃ r, R_FixSharedVertexLodError ft fuel surfaces = some r ∧
      r.1.length = surfaces.length ∧
      r.2.length ≤ gridCount surfaces ∧
      (∀ c ∈ r.2, c.2 ≠ 2 ∧ (surfaceGrid surfaces c.1).lodFixed ≠ 2 ∧
        (surfaceGrid r.1 c.1).lodFixed = 2) ∧
      (r.2.map Prod.fst).Nodup ∧
      ∀ i : Nat, (surfaceGrid surfaces i).lodFixed = 2 →
        surfaceGrid r.1 i = surfaceGrid surfaces i := by
  have hle := unfixedCount_le_gridCount surfaces
  obtain ⟨r, more, e, a, l, n, c, d, k⟩ := fixSharedTop_spec ft fuel
    (List.range surfaces.length) surfaces [] (fun i hi => List.mem_range.mp hi)
    (hle.trans h)
  rw [List.nil_append] at a
  refine ⟨r, e, l, ?_, ?_, ?_, k⟩
  · rw [a]
    omega
  · rw [a]
    exact c
  · rw [a]
    exact d

theorem R_FixSharedVertexLodError_terminates_witness :
    gridCount exampleFixSurfaces ≤ 3 ∧
    ∃ r, R_FixSharedVertexLodError exampleFloatTests 3 exampleFixSurfaces = some r ∧
      r.1.length = exampleFixSurfaces.length ∧
      r.2.length ≤ gridCount exampleFixSurfaces ∧
      (∀ c ∈ r.2, c.2 ≠ 2 ∧ (surfaceGrid exampleFixSurfaces c.1).lodFixed ≠ 2 ∧
        (surfaceGrid r.1 c.1).lodFixed = 2) ∧
      (r.2.map Prod.fst).Nodup ∧
      ∀ i : Nat, (surfaceGrid exampleFixSurfaces i).lodFixed = 2 →
        surfaceGrid r.1 i = surfaceGrid exampleFixSurfaces i :=
  ⟨by decide,
    R_FixSharedVertexLodError_terminates exampleFloatTests exampleFixSurfaces 3 (by decide)⟩

/-! ## Texture coordinate modifiers: comparison with the reference -/

theorem texModLoop_done {F : Type} [Add F] [Mul F] (TR_MAX_TEXMODS : Int)
    (entityMatrix : texMatrix_t F) (numTexMods : Int) (texMods : Int → texModInfo_t F)
    (fuel : Nat) (tm : Int) (st : texModState_t F) (h : numTexMods ≤ tm) :
    texModLoop TR_MAX_TEXMODS entityMatrix numTexMods texMods fuel tm st = some (.ok st) := by
  cases fuel with
  | zero => unfold texModLoop; rw [if_neg (by omega)]
  | succ fuel => unfold texModLoop; rw [if_neg (by omega)]

/-- The loop of `ComputeTexMods` follows the reference as long as the entry that the second
`switch` reads after a `NONE` modifier, `texMods[TR_MAX_TEXMODS]`, is not of a matrix type. -/
theorem texModLoop_reference {F : Type} [Add F] [Mul F] (TR_MAX_TEXMODS : Int)
    (entityMatrix : texMatrix_t F) (n : Nat) (texMods : Int → texModInfo_t F)
    (hmax : (n : Int) ≤ TR_MAX_TEXMODS)
    (hpast : (texMods TR_MAX_TEXMODS).type.composes = false) :
    ∀ (fuel k : Nat) (st : texModState_t F) (acc : texMatrix_t F × (F × F)),
      k + fuel = n → texModStateHolds st acc →
      (∀ i : Nat, k ≤ i → i < n → (texMods i).type ≠ texMod_t.other) →
      ∃ st', texModLoop TR_MAX_TEXMODS entityMatrix n texMods fuel k st = some (.ok st') ∧
        texModStateHolds st' (texModsReferenceFrom entityMatrix
          ((List.range' k fuel).map fun (i : Nat) => texMods i) acc) := by
  intro fuel
  induction fuel with
  | zero =>
    intro k st acc hk hst _
    refine ⟨st, texModLoop_done _ _ _ _ _ _ _ (by omega), ?_⟩
    simpa [texModsReferenceFrom] using hst
  | succ fuel ih =>
    intro k st acc hk hst hother
    have hlt : (k : Int) < (n : Int) := by omega
    have hty := hother k (le_refl _) (by omega)
    have hnext : ∀ (st1 : texModState_t F) (acc1 : texMatrix_t F × (F × F)),
        texModStateHolds st1 acc1 →
        ∃ st', texModLoop TR_MAX_TEXMODS entityMatrix n texMods fuel ((k : Int) + 1) st1 =
            some (.ok st') ∧
          texModStateHolds st' (texModsReferenceFrom entityMatrix
            ((List.range' (k + 1) fuel).map fun (i : Nat) => texMods i) acc1) := by
      intro st1 acc1 h1
      have := ih (k + 1) st1 acc1 (by omega) h1
        (fun i hi1 hi2 => hother i (by omega) hi2)
      simpa using this
    obtain ⟨hc, hm, ho⟩ := hst
    unfold texModLoop
    rw [if_pos hlt]
    simp only [List.range'_succ, List.map_cons]
    unfold texModsReferenceFrom
    unfold texModFirstSwitch
    cases hcase : (texMods (k : Int)).type with
    | TMOD_NONE =>
      dsimp only
      unfold texModSecondSwitch
      simp only [hpast, Bool.false_eq_true, if_false]
      exact ⟨_, texModLoop_done _ _ _ _ _ _ _ (by omega), hc, hm, ho⟩
    | TMOD_TURBULENT =>
      dsimp only
      unfold texModSecondSwitch
      simp only [hcase, texMod_t.composes, Bool.false_eq_true, if_false]
      exact hnext _ _ ⟨hc, hm, by simp [ho]⟩
    | other => exact absurd hcase hty
    | TMOD_ENTITY_TRANSLATE =>
      dsimp only
      unfold texModSecondSwitch
      simp only [hcase, texMod_t.composes, if_true]
      exact hnext _ _ ⟨by simp [texMatrixAfter, hc], by simp [texMatrixAfter, hc],
        by simp [texMatrixAfter, hc, ho]⟩
    | TMOD_SCROLL =>
      dsimp only
      unfold texModSecondSwitch
      simp only [hcase, texMod_t.composes, if_true]
      exact hnext _ _ ⟨by simp [texMatrixAfter, hc], by simp [texMatrixAfter, hc],
        by simp [texMatrixAfter, hc, ho]⟩
    | TMOD_SCALE =>
      dsimp only
      unfold texModSecondSwitch
      simp only [hcase, texMod_t.composes, if_true]
      exact hnext _ _ ⟨by simp [texMatrixAfter, hc], by simp [texMatrixAfter, hc],
        by simp [texMatrixAfter, hc, ho]⟩
    | TMOD_STRETCH =>
      dsimp only
      unfold texModSecondSwitch
      simp only [hcase, texMod_t.composes, if_true]
      exact hnext _ _ ⟨by simp [texMatrixAfter, hc], by simp [texMatrixAfter, hc],
        by simp [texMatrixAfter, hc, ho]⟩
    | TMOD_TRANSFORM =>
      dsimp only
      unfold texModSecondSwitch
      simp only [hcase, texMod_t.composes, if_true]
      exact hnext _ _ ⟨by simp [texMatrixAfter, hc], by simp [texMatrixAfter, hc],
        by simp [texMatrixAfter, hc, ho]⟩
    | TMOD_ROTATE =>
      dsimp only
      unfold texModSecondSwitch
      simp only [hcase, texMod_t.composes, if_true]
      exact hnext _ _ ⟨by simp [texMatrixAfter, hc], by simp [texMatrixAfter, hc],
        by simp [texMatrixAfter, hc, ho]⟩

/-- `ComputeTexMods` equals the reference of the specification for every bundle with at most
`TR_MAX_TEXMODS` modifiers of known types, provided that the entry `texMods[TR_MAX_TEXMODS]`,
which the second `switch` reads after a `NONE` modifier, is not of a matrix type. -/
theorem ComputeTexMods_reference {F : Type} [Add F] [Mul F] [Zero F] [One F]
    (TR_MAX_TEXMODS : Int) (entityMatrix : texMatrix_t F) (numTexMods : Nat)
    (texMods : Int → texModInfo_t F) (hmax : (numTexMods : Int) ≤ TR_MAX_TEXMODS)
    (hpast : (texMods TR_MAX_TEXMODS).type.composes = false)
    (hknown : ∀ i : Nat, i < numTexMods → (texMods i).type ≠ texMod_t.other) :
    ∃ st, ComputeTexMods TR_MAX_TEXMODS entityMatrix numTexMods texMods = some (.ok st) ∧
      (st.outMatrix, st.outOffTurb) = texModsReference entityMatrix
        ((List.range numTexMods).map fun (i : Nat) => texMods i) := by
  obtain ⟨st, e, hc, hm, ho⟩ := texModLoop_reference TR_MAX_TEXMODS entityMatrix numTexMods
    texMods hmax hpast numTexMods 0
    { matrix := ⟨1, 0, 0, 1, 0, 0⟩
      currentmatrix := ⟨1, 0, 0, 1, 0, 0⟩
      outMatrix := (1, 0, 0, 1)
      outOffTurb := (0, 0, 0, 0)
      reads := [] }
    (⟨1, 0, 0, 1, 0, 0⟩, (0, 0)) (by omega) ⟨rfl, rfl, rfl⟩ (fun i _ hi => hknown i hi)
  refine ⟨st, ?_, ?_⟩
  · unfold ComputeTexMods
    simpa using e
  · unfold texModsReference
    rw [List.range_eq_range']
    rw [hm, ho]

/-- The modifiers `[scroll by (2, 0), NONE]` with an entry of type `TMOD_NONE` at
`texMods[4]`: the offset is (2, 0), as for the scroll alone. -/
theorem ComputeTexMods_reference_example :
    ((2 : Nat) : Int) ≤ 4 ∧
    ∃ st, ComputeTexMods 4 exampleIdentityMatrix ((2 : Nat) : Int)
        (fun tm => if tm = 0 then ⟨texMod_t.TMOD_SCROLL, ⟨1, 0, 0, 1, 2, 0⟩, (0, 0)⟩
          else ⟨texMod_t.TMOD_NONE, exampleIdentityMatrix, (0, 0)⟩) = some (.ok st) ∧
      (st.outMatrix, st.outOffTurb) = texModsReference exampleIdentityMatrix
        ((List.range 2).map fun (i : Nat) =>
          (fun (tm : Int) => if tm = 0 then ⟨texMod_t.TMOD_SCROLL, ⟨1, 0, 0, 1, 2, 0⟩, (0, 0)⟩
            else ⟨texMod_t.TMOD_NONE, exampleIdentityMatrix, (0, 0)⟩) i) ∧
      (st.outMatrix, st.outOffTurb) = ((1, 0, 0, 1), (2, 0, 0, 0)) := by
  refine ⟨by decide, ?_⟩
  obtain ⟨st, e, h⟩ := ComputeTexMods_reference 4 exampleIdentityMatrix 2
    (fun tm => if tm = 0 then ⟨texMod_t.TMOD_SCROLL, ⟨1, 0, 0, 1, 2, 0⟩, (0, 0)⟩
      else ⟨texMod_t.TMOD_NONE, exampleIdentityMatrix, (0, 0)⟩)
    (by decide) (by decide) (fun i hi => by
      have : i = 0 ∨ i = 1 := by omega
      rcases this with rfl | rfl <;> decide)
  refine ⟨st, e, h, ?_⟩
  rw [h]
  decide

end TrBsp
